import Mathlib

/-!
Input focus and grab dispatch of the compositor (`src/input.c`).

A shallow embedding of the pointer, keyboard and touch focus logic of
`src/input.c`.  Device state is an explicit record, every function of the C
file that is embedded here takes the seat and returns the new seat, and every
protocol message, hook invocation and grab callback is appended to the seat's
`log`, so that "what was sent" is a value that theorems can talk about.

Conventions
* pointers to surfaces and resources are `Option`s (`none` is `NULL`);
* `uint32_t` values are natural numbers, reduced modulo `2^32` where the C code
  can wrap (`wl_display_next_serial`, `button_count`, `num_tp`, the serial
  comparison of `pointer_set_cursor`);
* `wl_fixed_t` coordinates and `int` values are integers;
* collaborators outside `input.c` (hit test, coordinate transform, binding
  hooks, the xkb state machine, the flag constants of `compositor.h`) are the
  fields of `Env`;
* calls into `compositor.c` that act on a surface or an output
  (`weston_surface_set_position`, `weston_surface_unmap`, ...) are log entries,
  together with their effect on the surface state the functions of `input.c`
  read back (`configure`, mapped or not);
* a function in which the C code can dereference `NULL` or fail an `assert`
  returns an `Option`, `none` standing for the crash.
-/

namespace Weston

/-! ## Data model -/

/-- A client connection (`struct wl_client *`). -/
abbrev wl_client := Nat

/-- A per-client protocol object (`struct wl_resource`): its identity and the
client that owns it (`resource->client`). -/
structure wl_resource where
  id : Nat
  client : wl_client
deriving DecidableEq, Repr

/-- A surface (`struct wl_surface`, the head of `struct weston_surface`): its
identity and the client that owns it (`surface->resource.client`). -/
structure wl_surface where
  id : Nat
  client : wl_client
deriving DecidableEq, Repr

inductive wl_keyboard_key_state where
  | RELEASED
  | PRESSED
deriving DecidableEq, Repr

inductive wl_pointer_button_state where
  | RELEASED
  | PRESSED
deriving DecidableEq, Repr

inductive weston_key_state_update where
  | STATE_UPDATE_AUTOMATIC
  | STATE_UPDATE_NONE
deriving DecidableEq, Repr

/-- The modifier names passed to `xkb_map_mod_get_index` by
`weston_xkb_info_new_keymap`: the `XKB_MOD_NAME_*` constants and the literal
names `"Mod2"`, `"Mod3"`, `"Mod5"`. -/
inductive xkb_mod_name where
  | XKB_MOD_NAME_SHIFT
  | XKB_MOD_NAME_CAPS
  | XKB_MOD_NAME_CTRL
  | XKB_MOD_NAME_ALT
  | Mod2
  | Mod3
  | XKB_MOD_NAME_LOGO
  | Mod5
deriving DecidableEq, Repr

/-- The LED names passed to `xkb_map_led_get_index`. -/
inductive xkb_led_name where
  | XKB_LED_NAME_NUM
  | XKB_LED_NAME_CAPS
  | XKB_LED_NAME_SCROLL
deriving DecidableEq, Repr

/-- A compiled keymap (`struct xkb_keymap *`), identified by a number. -/
abbrev xkb_keymap := Nat

/-- The value of `xkb_info->keymap_area`: not assigned yet, `MAP_FAILED`, or a
mapping that holds the bytes copied into it. -/
inductive keymap_area where
  | unset
  | MAP_FAILED
  | mapped (bytes : List Nat)
deriving DecidableEq, Repr

inductive xkb_key_direction where
  | XKB_KEY_UP
  | XKB_KEY_DOWN
deriving DecidableEq, Repr

/-- The value of `keyboard->grab`: the keyboard's own `default_grab`, its
`input_method_grab`, or a grab installed by some other module. -/
inductive keyboard_grab where
  | default_grab
  | input_method_grab
  | custom (n : Nat)
deriving DecidableEq, Repr

/-- The value of `pointer->grab`. -/
inductive pointer_grab where
  | default_grab
  | custom (n : Nat)
deriving DecidableEq, Repr

/-- The value of `touch->grab`. -/
inductive touch_grab where
  | default_grab
  | custom (n : Nat)
deriving DecidableEq, Repr

/-- The `touch_type` argument of `notify_touch`: the three values the `switch`
knows, or any other integer. -/
inductive touch_type where
  | WL_TOUCH_DOWN
  | WL_TOUCH_MOTION
  | WL_TOUCH_UP
  | other (n : Int)
deriving DecidableEq, Repr

/-- The value of `surface->configure`, when it is not `NULL`: one of the two
callbacks of `input.c`, or a callback of another module. -/
inductive surface_configure where
  | pointer_cursor_surface_configure
  | drag_surface_configure
  | other (n : Nat)
deriving DecidableEq, Repr

/-- Everything the functions of `input.c` hand to the outside: protocol
messages to clients, signals, hook invocations and callbacks of grabs that are
not the built-in default ones. -/
inductive Msg where
  | wl_pointer_send_leave (r : wl_resource) (serial : Nat) (surface : Option wl_surface)
  | wl_pointer_send_enter (r : wl_resource) (serial : Nat) (surface : wl_surface) (sx sy : Int)
  | wl_pointer_send_motion (r : wl_resource) (time : Nat) (x y : Int)
  | wl_pointer_send_button (r : wl_resource) (serial time button : Nat)
      (state : wl_pointer_button_state)
  | wl_keyboard_send_modifiers (r : wl_resource)
      (serial mods_depressed mods_latched mods_locked group : Nat)
  | wl_keyboard_send_leave (r : wl_resource) (serial : Nat) (surface : Option wl_surface)
  | wl_keyboard_send_enter (r : wl_resource) (serial : Nat) (surface : wl_surface)
      (keys : List Nat)
  | wl_keyboard_send_key (r : wl_resource) (serial time key : Nat)
      (state : wl_keyboard_key_state)
  | pointer_focus_signal
  | keyboard_focus_signal
  | ping_handler (surface : wl_surface) (serial : Nat)
  | run_key_binding (time key : Nat) (state : wl_keyboard_key_state)
  | run_button_binding (time button : Nat) (state : wl_pointer_button_state)
  | keyboard_grab_key (g : keyboard_grab) (time key : Nat) (state : wl_keyboard_key_state)
  | keyboard_grab_modifiers (g : keyboard_grab)
      (serial mods_depressed mods_latched mods_locked group : Nat)
  | pointer_grab_focus (g : pointer_grab) (surface : Option wl_surface) (x y : Int)
  | pointer_grab_motion (g : pointer_grab) (time : Nat) (x y : Int)
  | pointer_grab_button (g : pointer_grab) (time button : Nat)
      (state : wl_pointer_button_state)
  | led_update (leds : Nat)
  | weston_log (line : Nat)
  | wl_seat_send_capabilities (r : wl_resource) (caps : Nat)
  | wl_touch_send_down (r : wl_resource) (serial time : Nat) (surface : wl_surface)
      (touch_id : Int) (sx sy : Int)
  | wl_touch_send_up (r : wl_resource) (serial time : Nat) (touch_id : Int)
  | wl_touch_send_motion (r : wl_resource) (time : Nat) (touch_id : Int) (sx sy : Int)
  | touch_grab_down (g : touch_grab) (time : Nat) (touch_id : Int) (sx sy : Int)
  | touch_grab_up (g : touch_grab) (time : Nat) (touch_id : Int)
  | touch_grab_motion (g : touch_grab) (time : Nat) (touch_id : Int) (sx sy : Int)
  | xkb_state_update_key (key : Nat) (direction : xkb_key_direction)
  | wl_resource_post_error (surface : wl_surface)
  | weston_surface_set_position (surface : wl_surface) (x y : Int)
  | weston_surface_set_position_relative (surface : wl_surface) (dx dy : Int)
  | weston_surface_schedule_repaint (surface : wl_surface)
  | weston_surface_configure (surface : wl_surface) (x y width height : Int)
  | weston_surface_unmap (surface : wl_surface)
  | weston_surface_update_transform (surface : wl_surface)
  | weston_output_update_zoom (output : Nat)
deriving DecidableEq, Repr

/-- A box of a `pixman_region32`: the points with `x1 ≤ x < x2`, `y1 ≤ y < y2`. -/
structure pixman_box32 where
  x1 : Int
  y1 : Int
  x2 : Int
  y2 : Int
deriving DecidableEq, Repr

/-- The fields of `struct weston_output` that `input.c` reads: the position and
size, the height of the current mode (`output->current->height`), the region
(a list of boxes) and whether the zoom is active. -/
structure weston_output where
  id : Nat
  x : Int
  y : Int
  width : Int
  height : Int
  current_height : Int
  region : List pixman_box32
  zoom_active : Bool := false
deriving DecidableEq, Repr

/-- The record `keyboard->modifiers`. -/
structure keyboard_modifiers where
  mods_depressed : Nat := 0
  mods_latched : Nat := 0
  mods_locked : Nat := 0
  group : Nat := 0
deriving DecidableEq, Repr

/-- The external keymap state `seat->xkb_state.state`, represented by what
`xkb_state_serialize_mods`, `xkb_state_serialize_group` and
`xkb_state_led_index_is_active` report about it. -/
structure xkb_state where
  mods_depressed : Nat := 0
  mods_latched : Nat := 0
  mods_locked : Nat := 0
  group : Nat := 0
  active_leds : List Nat := []
deriving DecidableEq, Repr

/-- The record `struct weston_xkb_info`: the modifier and LED indices, the
compiled keymap (`none` is `NULL`), and the shared-memory copy of its string
form (size, file descriptor, mapping). -/
structure weston_xkb_info where
  shift_mod : Nat := 0
  ctrl_mod : Nat := 2
  alt_mod : Nat := 3
  super_mod : Nat := 6
  num_led : Nat := 0
  caps_led : Nat := 1
  scroll_led : Nat := 2
  caps_mod : Nat := 0
  mod2_mod : Nat := 0
  mod3_mod : Nat := 0
  mod5_mod : Nat := 0
  keymap : Option xkb_keymap := none
  keymap_size : Nat := 0
  keymap_fd : Int := 0
  keymap_area : keymap_area := keymap_area.unset
deriving DecidableEq, Repr

/-- The fields of `struct weston_pointer` used by `input.c`.
`focus_listener` is the resource on whose `destroy_signal` the pointer's
`focus_listener` is linked (`none` when it is unlinked); `default_grab_focus`,
`default_grab_x`, `default_grab_y` are the fields `focus`, `x`, `y` of
`pointer->default_grab`, and `custom_grab_focus`, `custom_grab_x`,
`custom_grab_y` those of the grab record of a grab installed by another
module. -/
structure weston_pointer where
  resource_list : List wl_resource := []
  focus : Option wl_surface := none
  focus_resource : Option wl_resource := none
  focus_listener : Option wl_resource := none
  focus_serial : Nat := 0
  grab : pointer_grab := pointer_grab.default_grab
  default_grab_focus : Option wl_surface := none
  grab_x : Int := 0
  grab_y : Int := 0
  grab_button : Nat := 0
  grab_serial : Nat := 0
  grab_time : Nat := 0
  x : Int := 0
  y : Int := 0
  current : Option wl_surface := none
  current_x : Int := 0
  current_y : Int := 0
  button_count : Nat := 0
  default_grab_x : Int := 0
  default_grab_y : Int := 0
  custom_grab_focus : Option wl_surface := none
  custom_grab_x : Int := 0
  custom_grab_y : Int := 0
deriving DecidableEq, Repr

/-- The fields of `struct weston_keyboard` used by `input.c`.  `keys` is the
`wl_array` of pressed key codes, in array order; `seat` says whether
`keyboard->seat` is set. -/
structure weston_keyboard where
  resource_list : List wl_resource := []
  focus : Option wl_surface := none
  focus_resource : Option wl_resource := none
  focus_listener : Option wl_resource := none
  focus_serial : Nat := 0
  grab : keyboard_grab := keyboard_grab.default_grab
  keys : List Nat := []
  modifiers : keyboard_modifiers := {}
  grab_key : Nat := 0
  grab_time : Nat := 0
  seat : Bool := false
deriving DecidableEq, Repr

/-- The fields of `struct weston_touch` used by `input.c`. -/
structure weston_touch where
  resource_list : List wl_resource := []
  focus : Option wl_surface := none
  focus_resource : Option wl_resource := none
  focus_listener : Option wl_resource := none
  grab : touch_grab := touch_grab.default_grab
  grab_x : Int := 0
  grab_y : Int := 0
deriving DecidableEq, Repr

/-- The seat (`struct weston_seat`) together with the parts of the compositor
it reaches: the display's serial counter, the idle-inhibit counter, whether a
ping handler is installed, and the log of everything sent so far.
`seat_pointer`, `seat_keyboard`, `seat_touch` say whether `seat->seat.pointer`
(and so on) is set; the device records themselves are embedded in the seat as
in the C struct.  `has_keyboard` is the flag `seat->has_keyboard`,
`base_resource_list` the list `seat->seat.base_resource_list` of the bindings
of the seat global, `compositor_xkb_info` the record
`seat->compositor->xkb_info`, and `xkb_state_valid` says whether
`seat->xkb_state.state` is set.  `drag_surface` is the seat's own `drag_surface` field and
`seat_drag_surface` the field `seat.drag_surface` of the embedded `wl_seat`.
`outputs` is the compositor's output list; `configure` lists the surfaces whose
`configure` callback is set, with the callback; `mapped` lists the mapped
surfaces and `has_buffer` the surfaces with a buffer attached. -/
structure weston_seat where
  pointer : weston_pointer := {}
  keyboard : weston_keyboard := {}
  touch : weston_touch := {}
  seat_pointer : Bool := true
  seat_keyboard : Bool := true
  seat_touch : Bool := true
  has_keyboard : Bool := true
  base_resource_list : List wl_resource := []
  compositor_xkb_info : weston_xkb_info := {}
  xkb_state_valid : Bool := true
  modifier_state : Nat := 0
  num_tp : Nat := 0
  saved_kbd_focus : Option wl_surface := none
  xkb_state : xkb_state := {}
  xkb_leds : Nat := 0
  xkb_info : weston_xkb_info := {}
  has_led_update : Bool := false
  display_serial : Nat := 0
  idle_inhibit : Int := 0
  has_ping_handler : Bool := false
  log : List Msg := []
  outputs : List weston_output := []
  sprite : Option wl_surface := none
  hotspot_x : Int := 0
  hotspot_y : Int := 0
  drag_surface : Option wl_surface := none
  seat_drag_surface : Option wl_surface := none
  configure : List (wl_surface × surface_configure) := []
  mapped : List wl_surface := []
  has_buffer : List wl_surface := []
deriving DecidableEq, Repr

/-- The collaborators of `input.c` that live in other files.
* `pick_surface x y` is `weston_compositor_pick_surface`: the surface hit at
  the global point and the point in that surface's coordinates;
* `surface_from_global_fixed s x y` is `weston_surface_from_global_fixed`;
* `run_key_binding` and `run_button_binding` are the binding hooks
  (`weston_compositor_run_key_binding`, `..._button_binding`): they see the
  seat's modifier state and the event, and may install another grab, which is
  the grab they return;
* `xkb_state_update_key` is the keymap state machine;
* `surface_buffer_width` and `surface_buffer_height` are
  `weston_surface_buffer_width` and `weston_surface_buffer_height`;
* the remaining fields are the flag constants of `compositor.h`. -/
structure Env where
  pick_surface : Int → Int → Option wl_surface × Int × Int
  surface_from_global_fixed : wl_surface → Int → Int → Int × Int
  run_key_binding : Nat → Nat → Nat → wl_keyboard_key_state → keyboard_grab → keyboard_grab
  run_button_binding : Nat → Nat → Nat → wl_pointer_button_state → pointer_grab → pointer_grab
  xkb_state_update_key : xkb_state → Nat → xkb_key_direction → xkb_state
  MODIFIER_CTRL : Nat
  MODIFIER_ALT : Nat
  MODIFIER_SUPER : Nat
  MODIFIER_SHIFT : Nat
  LED_NUM_LOCK : Nat
  LED_CAPS_LOCK : Nat
  LED_SCROLL_LOCK : Nat
  surface_buffer_width : wl_surface → Int := fun _ => 0
  surface_buffer_height : wl_surface → Int := fun _ => 0
  /-- The value of the C expression `1 << index` on `int` for `index >= 32`,
  where the C standard leaves the shift undefined; the default is what the x86
  shift instruction gives, which takes the count modulo 32. -/
  int_shift_out_of_range : Nat → Nat := fun index => 1 <<< (index % 32)
  /-- The calls `xkb_map_mod_get_index (keymap, name)`. -/
  xkb_map_mod_get_index : xkb_keymap → xkb_mod_name → Nat := fun _ _ => 0
  /-- The calls `xkb_map_led_get_index (keymap, name)`. -/
  xkb_map_led_get_index : xkb_keymap → xkb_led_name → Nat := fun _ _ => 0
  /-- The call `xkb_map_get_as_string (keymap)`: the bytes of the string, or
  `none` for `NULL`. -/
  xkb_map_get_as_string : xkb_keymap → Option (List Nat) := fun _ => some []
  /-- The call `os_create_anonymous_file (size)`: the file descriptor, negative
  on failure. -/
  os_create_anonymous_file : Nat → Int := fun _ => 3
  /-- Whether `mmap` of `size` bytes of the file `fd` succeeds. -/
  mmap : Nat → Int → Bool := fun _ _ => true
  /-- The call `xkb_map_new_from_names` on the compositor's context and rule
  names: the compiled global keymap, or `none` for `NULL`. -/
  xkb_map_new_from_names : Option xkb_keymap := some 0
  /-- The call `xkb_state_new (keymap)`: the new state, or `none` for `NULL`. -/
  xkb_state_new : xkb_keymap → Option xkb_state := fun _ => some {}

/-! ## Helpers standing for libwayland calls -/

/-- Append one message to the log. -/
def send (seat : weston_seat) (m : Msg) : weston_seat :=
  { seat with log := seat.log ++ [m] }

/-- The function `wl_display_next_serial`: bump the 32-bit serial counter and
return the new value. -/
def wl_display_next_serial (seat : weston_seat) : weston_seat × Nat :=
  let serial := (seat.display_serial + 1) % 2 ^ 32
  ({ seat with display_serial := serial }, serial)

/-- The function `wl_display_get_serial`. -/
def wl_display_get_serial (seat : weston_seat) : Nat :=
  seat.display_serial

/-- The function `weston_compositor_idle_inhibit` (the wake-up of the
compositor is outside the model). -/
def weston_compositor_idle_inhibit (seat : weston_seat) : weston_seat :=
  { seat with idle_inhibit := seat.idle_inhibit + 1 }

/-- The function `weston_compositor_idle_release`. -/
def weston_compositor_idle_release (seat : weston_seat) : weston_seat :=
  { seat with idle_inhibit := seat.idle_inhibit - 1 }

/-! ## Focus resolution -/

/-- The loop of `find_resource_for_surface`: walk the list from its head and
return the first resource owned by `client`. -/
def find_resource_for_client : List wl_resource → wl_client → Option wl_resource
  | [], _ => none
  | r :: rest, client =>
    if r.client = client then some r else find_resource_for_client rest client

/-- The function `find_resource_for_surface`. -/
def find_resource_for_surface (list : List wl_resource) (surface : Option wl_surface) :
    Option wl_resource :=
  match surface with
  | none => none
  | some s => find_resource_for_client list s.client

/-! ## Destruction handlers -/

/-- The handler `lose_pointer_focus`. -/
def lose_pointer_focus (seat : weston_seat) : weston_seat :=
  { seat with pointer := { seat.pointer with focus_resource := none } }

/-- The handler `lose_keyboard_focus`. -/
def lose_keyboard_focus (seat : weston_seat) : weston_seat :=
  { seat with keyboard := { seat.keyboard with focus_resource := none } }

/-- The handler `lose_touch_focus`. -/
def lose_touch_focus (seat : weston_seat) : weston_seat :=
  { seat with touch := { seat.touch with focus_resource := none } }

/-! ## Focus setters -/

/-- The function `weston_pointer_set_focus`. -/
def weston_pointer_set_focus (seat : weston_seat) (surface : Option wl_surface)
    (sx sy : Int) : weston_seat :=
  let old_focus := seat.pointer.focus
  let old_resource := seat.pointer.focus_resource
  -- leave to the old binding when the surface changes
  let seat :=
    match old_resource with
    | some resource =>
      if old_focus ≠ surface then
        let (seat, serial) := wl_display_next_serial seat
        let seat := send seat (Msg.wl_pointer_send_leave resource serial old_focus)
        { seat with pointer := { seat.pointer with focus_listener := none } }
      else seat
    | none => seat
  -- enter to the new binding when surface or binding changed
  let resource := find_resource_for_surface seat.pointer.resource_list surface
  let seat :=
    match resource, surface with
    | some r, some s =>
      if old_focus ≠ surface ∨ old_resource ≠ resource then
        let (seat, serial) := wl_display_next_serial seat
        let seat :=
          if seat.seat_keyboard then
            match find_resource_for_surface seat.keyboard.resource_list surface with
            | some kr =>
              send seat (Msg.wl_keyboard_send_modifiers kr serial
                seat.keyboard.modifiers.mods_depressed
                seat.keyboard.modifiers.mods_latched
                seat.keyboard.modifiers.mods_locked
                seat.keyboard.modifiers.group)
            | none => seat
          else seat
        let seat := send seat (Msg.wl_pointer_send_enter r serial s sx sy)
        { seat with pointer :=
            { seat.pointer with focus_listener := some r, focus_serial := serial } }
      else seat
    | _, _ => seat
  let seat := { seat with pointer :=
    { seat.pointer with
        focus_resource := resource, focus := surface, default_grab_focus := surface } }
  send seat Msg.pointer_focus_signal

/-- The function `weston_keyboard_set_focus`. -/
def weston_keyboard_set_focus (seat : weston_seat) (surface : Option wl_surface) :
    weston_seat :=
  let old_focus := seat.keyboard.focus
  let old_resource := seat.keyboard.focus_resource
  let seat :=
    match old_resource with
    | some resource =>
      if old_focus ≠ surface then
        let (seat, serial) := wl_display_next_serial seat
        let seat := send seat (Msg.wl_keyboard_send_leave resource serial old_focus)
        { seat with keyboard := { seat.keyboard with focus_listener := none } }
      else seat
    | none => seat
  let resource := find_resource_for_surface seat.keyboard.resource_list surface
  let seat :=
    match resource, surface with
    | some r, some s =>
      if old_focus ≠ surface ∨ old_resource ≠ resource then
        let (seat, serial) := wl_display_next_serial seat
        let seat := send seat (Msg.wl_keyboard_send_modifiers r serial
          seat.keyboard.modifiers.mods_depressed
          seat.keyboard.modifiers.mods_latched
          seat.keyboard.modifiers.mods_locked
          seat.keyboard.modifiers.group)
        let seat := send seat (Msg.wl_keyboard_send_enter r serial s seat.keyboard.keys)
        { seat with keyboard :=
            { seat.keyboard with focus_listener := some r, focus_serial := serial } }
      else seat
    | _, _ => seat
  let seat := { seat with keyboard :=
    { seat.keyboard with focus_resource := resource, focus := surface } }
  send seat Msg.keyboard_focus_signal

/-- The function `touch_set_focus`. -/
def touch_set_focus (seat : weston_seat) (surface : Option wl_surface) : weston_seat :=
  if seat.touch.focus = surface then seat
  else
    let seat :=
      match seat.touch.focus_resource with
      | some _ => { seat with touch := { seat.touch with focus_listener := none } }
      | none => seat
    let seat := { seat with touch :=
      { seat.touch with focus := none, focus_resource := none } }
    match surface with
    | none => seat
    | some s =>
      match find_resource_for_surface seat.touch.resource_list surface with
      | none => send seat (Msg.weston_log 1030)
      | some resource =>
        { seat with touch :=
            { seat.touch with
                focus := some s, focus_resource := some resource,
                focus_listener := some resource } }

/-! ## Default grabs -/

/-- The callback `default_grab_focus` of the default pointer grab. -/
def default_grab_focus (seat : weston_seat) (surface : Option wl_surface) (x y : Int) :
    weston_seat :=
  if seat.pointer.button_count > 0 then seat
  else weston_pointer_set_focus seat surface x y

/-- The callback `default_grab_motion` of the default pointer grab. -/
def default_grab_motion (seat : weston_seat) (time : Nat) (x y : Int) : weston_seat :=
  match seat.pointer.focus_resource with
  | some resource => send seat (Msg.wl_pointer_send_motion resource time x y)
  | none => seat

/-- The callback `default_grab_button` of the default pointer grab. -/
def default_grab_button (seat : weston_seat) (time button : Nat)
    (state : wl_pointer_button_state) : weston_seat :=
  let seat :=
    match seat.pointer.focus_resource with
    | some resource =>
      let (seat, serial) := wl_display_next_serial seat
      send seat (Msg.wl_pointer_send_button resource serial time button state)
    | none => seat
  if seat.pointer.button_count = 0 ∧ state = wl_pointer_button_state.RELEASED then
    weston_pointer_set_focus seat seat.pointer.current
      seat.pointer.current_x seat.pointer.current_y
  else seat

/-- The callback `default_grab_key` of the default keyboard grab. -/
def default_grab_key (seat : weston_seat) (time key : Nat)
    (state : wl_keyboard_key_state) : weston_seat :=
  match seat.keyboard.focus_resource with
  | some resource =>
    let (seat, serial) := wl_display_next_serial seat
    send seat (Msg.wl_keyboard_send_key resource serial time key state)
  | none => seat

/-- The callback `default_grab_modifiers` of the default keyboard grab. -/
def default_grab_modifiers (seat : weston_seat)
    (serial mods_depressed mods_latched mods_locked group : Nat) : weston_seat :=
  match seat.keyboard.focus_resource with
  | none => seat
  | some resource =>
    let seat := send seat (Msg.wl_keyboard_send_modifiers resource serial
      mods_depressed mods_latched mods_locked group)
    if seat.seat_pointer ∧ seat.pointer.focus ≠ none ∧
        seat.pointer.focus ≠ seat.keyboard.focus then
      match find_resource_for_surface seat.keyboard.resource_list seat.pointer.focus with
      | some pr =>
        send seat (Msg.wl_keyboard_send_modifiers pr serial
          seat.keyboard.modifiers.mods_depressed
          seat.keyboard.modifiers.mods_latched
          seat.keyboard.modifiers.mods_locked
          seat.keyboard.modifiers.group)
      | none => seat
    else seat

/-- The call `grab->interface->key (grab, ...)`: the default grab runs
`default_grab_key`; the callback of any other grab lives outside `input.c` and
is recorded in the log. -/
def keyboard_grab_interface_key (seat : weston_seat) (grab : keyboard_grab)
    (time key : Nat) (state : wl_keyboard_key_state) : weston_seat :=
  match grab with
  | keyboard_grab.default_grab => default_grab_key seat time key state
  | g => send seat (Msg.keyboard_grab_key g time key state)

/-- The call `grab->interface->modifiers (grab, ...)`. -/
def keyboard_grab_interface_modifiers (seat : weston_seat) (grab : keyboard_grab)
    (serial mods_depressed mods_latched mods_locked group : Nat) : weston_seat :=
  match grab with
  | keyboard_grab.default_grab =>
    default_grab_modifiers seat serial mods_depressed mods_latched mods_locked group
  | g =>
    send seat (Msg.keyboard_grab_modifiers g serial
      mods_depressed mods_latched mods_locked group)

/-- The call `pointer->grab->interface->button (pointer->grab, ...)`. -/
def pointer_grab_interface_button (seat : weston_seat) (grab : pointer_grab)
    (time button : Nat) (state : wl_pointer_button_state) : weston_seat :=
  match grab with
  | pointer_grab.default_grab => default_grab_button seat time button state
  | g => send seat (Msg.pointer_grab_button g time button state)

/-! ## Modifier state -/

/-- The C expression `1 << index` on a 32-bit `int`, as a 32-bit pattern: bit
`index` for `index < 32`, the platform's value for a larger shift count. -/
def int_shift_left_one (env : Env) (index : Nat) : Nat :=
  if index < 32 then 1 <<< index else env.int_shift_out_of_range index % 2 ^ 32

/-- The test `mask & (1 << index)` of `notify_modifiers`, on 32-bit values. -/
def mod_bit_set (env : Env) (mask index : Nat) : Bool :=
  (mask % 2 ^ 32) &&& int_shift_left_one env index != 0

/-- The value `notify_modifiers` gives `seat->modifier_state`: starting from 0,
one flag for each of ctrl, alt, super, shift whose bit is set in
`mods_lookup`. -/
def notify_modifiers_modifier_state (env : Env) (info : weston_xkb_info)
    (mods_lookup : Nat) : Nat :=
  (if mod_bit_set env mods_lookup info.ctrl_mod then env.MODIFIER_CTRL else 0) |||
  (if mod_bit_set env mods_lookup info.alt_mod then env.MODIFIER_ALT else 0) |||
  (if mod_bit_set env mods_lookup info.super_mod then env.MODIFIER_SUPER else 0) |||
  (if mod_bit_set env mods_lookup info.shift_mod then env.MODIFIER_SHIFT else 0)

/-- The LED mask `notify_modifiers` computes: starting from 0, one flag for
each of the num, caps and scroll LEDs that is active in the keymap state. -/
def notify_modifiers_leds (env : Env) (info : weston_xkb_info) (state : xkb_state) : Nat :=
  (if info.num_led ∈ state.active_leds then env.LED_NUM_LOCK else 0) |||
  (if info.caps_led ∈ state.active_leds then env.LED_CAPS_LOCK else 0) |||
  (if info.scroll_led ∈ state.active_leds then env.LED_SCROLL_LOCK else 0)

/-- The function `notify_modifiers`. -/
def notify_modifiers (env : Env) (seat : weston_seat) (serial : Nat) : weston_seat :=
  let grab := seat.keyboard.grab
  let mods_depressed := seat.xkb_state.mods_depressed
  let mods_latched := seat.xkb_state.mods_latched
  let mods_locked := seat.xkb_state.mods_locked
  let group := seat.xkb_state.group
  let changed : Bool :=
    decide (mods_depressed ≠ seat.keyboard.modifiers.mods_depressed ∨
      mods_latched ≠ seat.keyboard.modifiers.mods_latched ∨
      mods_locked ≠ seat.keyboard.modifiers.mods_locked ∨
      group ≠ seat.keyboard.modifiers.group)
  let seat := { seat with keyboard := { seat.keyboard with modifiers :=
    { mods_depressed := mods_depressed, mods_latched := mods_latched,
      mods_locked := mods_locked, group := group } } }
  let mods_lookup := mods_depressed ||| mods_latched
  let seat := { seat with
    modifier_state := notify_modifiers_modifier_state env seat.xkb_info mods_lookup }
  let leds := notify_modifiers_leds env seat.xkb_info seat.xkb_state
  let seat :=
    if leds ≠ seat.xkb_leds ∧ seat.has_led_update then send seat (Msg.led_update leds)
    else seat
  let seat := { seat with xkb_leds := leds }
  if changed then
    keyboard_grab_interface_modifiers seat grab serial
      seat.keyboard.modifiers.mods_depressed
      seat.keyboard.modifiers.mods_latched
      seat.keyboard.modifiers.mods_locked
      seat.keyboard.modifiers.group
  else seat

/-- The function `update_modifier_state`.  The call of `xkb_state_update_key`
is recorded in the log with its arguments; the key code is `key + 8` computed
in `uint32_t`. -/
def update_modifier_state (env : Env) (seat : weston_seat) (serial key : Nat)
    (state : wl_keyboard_key_state) : weston_seat :=
  let direction :=
    if state = wl_keyboard_key_state.PRESSED then xkb_key_direction.XKB_KEY_DOWN
    else xkb_key_direction.XKB_KEY_UP
  let seat := send seat (Msg.xkb_state_update_key ((key + 8) % 2 ^ 32) direction)
  let seat := { seat with
    xkb_state := env.xkb_state_update_key seat.xkb_state ((key + 8) % 2 ^ 32) direction }
  notify_modifiers env seat serial

/-! ## Key events -/

/-- The `for` loop of `notify_key` over the pressed-key array.  `data` is the
array, `k` the loop index and `end_` the index one past the last live entry;
`fuel` bounds the number of iterations still to run.  The result is `none` when
the loop leaves `notify_key` through `return` (a press of a key that is already
in the array), and otherwise the array and the final `end_`. -/
def notify_key_scan (key : Nat) (state : wl_keyboard_key_state) :
    Nat → List Nat → Nat → Nat → Option (List Nat × Nat)
  | 0, data, _, end_ => some (data, end_)
  | fuel + 1, data, k, end_ =>
    if k < end_ then
      if data.getD k 0 = key then
        if state = wl_keyboard_key_state.PRESSED then none
        else notify_key_scan key state fuel (data.set k (data.getD (end_ - 1) 0)) (k + 1)
          (end_ - 1)
      else notify_key_scan key state fuel data (k + 1) end_
    else some (data, end_)

/-- The function `notify_key`.  The loop gets one unit of fuel per array
entry, which is as many iterations as it can make. -/
def notify_key (env : Env) (seat : weston_seat) (time key : Nat)
    (state : wl_keyboard_key_state) (update_state : weston_key_state_update) :
    weston_seat :=
  let focus := seat.keyboard.focus
  let grab := seat.keyboard.grab
  let (seat, serial) := wl_display_next_serial seat
  let seat :=
    match state with
    | wl_keyboard_key_state.PRESSED =>
      let seat :=
        match seat.has_ping_handler, focus with
        | true, some f => send seat (Msg.ping_handler f serial)
        | _, _ => seat
      let seat := weston_compositor_idle_inhibit seat
      { seat with keyboard := { seat.keyboard with grab_key := key, grab_time := time } }
    | wl_keyboard_key_state.RELEASED => weston_compositor_idle_release seat
  match notify_key_scan key state seat.keyboard.keys.length seat.keyboard.keys 0
      seat.keyboard.keys.length with
  | none => seat
  | some (data, end_) =>
    let keys := data.take end_
    let keys := if state = wl_keyboard_key_state.PRESSED then keys ++ [key] else keys
    let seat := { seat with keyboard := { seat.keyboard with keys := keys } }
    let seat :=
      if grab = keyboard_grab.default_grab ∨ grab = keyboard_grab.input_method_grab then
        let seat := send seat (Msg.run_key_binding time key state)
        { seat with keyboard := { seat.keyboard with
            grab := env.run_key_binding seat.modifier_state time key state
              seat.keyboard.grab } }
      else seat
    let grab :=
      if grab = keyboard_grab.default_grab ∨ grab = keyboard_grab.input_method_grab then
        seat.keyboard.grab
      else grab
    let seat := keyboard_grab_interface_key seat grab time key state
    match update_state with
    | weston_key_state_update.STATE_UPDATE_AUTOMATIC =>
      update_modifier_state env seat (wl_display_get_serial seat) key state
    | weston_key_state_update.STATE_UPDATE_NONE => seat

/-! ## Button events -/

/-- The function `notify_button`.  `button_count` is a `uint32_t`: both `++`
and `--` wrap modulo `2^32`. -/
def notify_button (env : Env) (seat : weston_seat) (time button : Nat)
    (state : wl_pointer_button_state) : weston_seat :=
  let focus := seat.pointer.focus
  let (seat, serial) := wl_display_next_serial seat
  let seat :=
    match state with
    | wl_pointer_button_state.PRESSED =>
      let seat :=
        match seat.has_ping_handler, focus with
        | true, some f => send seat (Msg.ping_handler f serial)
        | _, _ => seat
      let seat := weston_compositor_idle_inhibit seat
      let seat :=
        if seat.pointer.button_count = 0 then
          { seat with pointer := { seat.pointer with
              grab_button := button, grab_time := time,
              grab_x := seat.pointer.x, grab_y := seat.pointer.y } }
        else seat
      { seat with pointer := { seat.pointer with
          button_count := (seat.pointer.button_count + 1) % 2 ^ 32 } }
    | wl_pointer_button_state.RELEASED =>
      let seat := weston_compositor_idle_release seat
      { seat with pointer := { seat.pointer with
          button_count := (seat.pointer.button_count + 2 ^ 32 - 1) % 2 ^ 32 } }
  let seat := send seat (Msg.run_button_binding time button state)
  let seat := { seat with pointer := { seat.pointer with
    grab := env.run_button_binding seat.modifier_state time button state
      seat.pointer.grab } }
  let seat := pointer_grab_interface_button seat seat.pointer.grab time button state
  if seat.pointer.button_count = 1 then
    { seat with pointer := { seat.pointer with grab_serial := wl_display_get_serial seat } }
  else seat

/-! ## Bindings coming and going -/

/-- The request handler `seat_get_pointer`: the client `cr.client` obtains the
new pointer object `cr`, which goes to the head of the binding list; when the
pointer is focused on a surface of that client the focus is set again so that
the new binding gets its enter. -/
def seat_get_pointer (env : Env) (seat : weston_seat) (cr : wl_resource) : weston_seat :=
  if ¬ seat.seat_pointer then seat
  else
    let seat := { seat with pointer :=
      { seat.pointer with resource_list := cr :: seat.pointer.resource_list } }
    match seat.pointer.focus with
    | some surface =>
      if surface.client = cr.client then
        let (sx, sy) := env.surface_from_global_fixed surface seat.pointer.x seat.pointer.y
        weston_pointer_set_focus seat seat.pointer.focus sx sy
      else seat
    | none => seat

/-- The function `unbind_resource` on a pointer binding: unlink it from the
binding list (the list holds each resource once). -/
def unbind_pointer_resource (seat : weston_seat) (resource : wl_resource) : weston_seat :=
  { seat with pointer := { seat.pointer with
      resource_list := seat.pointer.resource_list.filter (fun r => r ≠ resource) } }

/-- Destruction of a pointer binding by libwayland: its `destroy_signal` runs
`lose_pointer_focus` when the pointer's `focus_listener` is linked on it, then
its `destroy` function, `unbind_resource`, unlinks it. -/
def destroy_pointer_resource (seat : weston_seat) (resource : wl_resource) : weston_seat :=
  let seat :=
    if seat.pointer.focus_listener = some resource then lose_pointer_focus seat else seat
  unbind_pointer_resource seat resource

/-! ## Initial device state -/

/-- The function `weston_pointer_init`: everything zero, the default grab
active, the position at `wl_fixed_from_int (100)`. -/
def weston_pointer_init : weston_pointer :=
  { x := 100 * 256, y := 100 * 256 }

/-- The function `weston_keyboard_init`: everything zero (`keyboard->seat`
included), the default grab active. -/
def weston_keyboard_init : weston_keyboard := {}

/-- The function `weston_touch_init`. -/
def weston_touch_init : weston_touch := {}

/-! ## Sequences of focus changes on the pointer -/

/-- What can happen to the pointer's focus: a call of
`weston_pointer_set_focus`, a client obtaining a new pointer binding
(`seat_get_pointer`), the destruction of a pointer binding. -/
inductive pointer_event where
  | set_focus (surface : Option wl_surface) (sx sy : Int)
  | get_pointer (cr : wl_resource)
  | destroy (resource : wl_resource)
deriving DecidableEq, Repr

/-- Run one `pointer_event`. -/
def pointer_step (env : Env) (seat : weston_seat) : pointer_event → weston_seat
  | pointer_event.set_focus surface sx sy => weston_pointer_set_focus seat surface sx sy
  | pointer_event.get_pointer cr => seat_get_pointer env seat cr
  | pointer_event.destroy resource => destroy_pointer_resource seat resource

/-- Run a sequence of `pointer_event`s, first to last. -/
def pointer_run (env : Env) (seat : weston_seat) (evs : List pointer_event) : weston_seat :=
  evs.foldl (pointer_step env) seat

/-- The (surface, binding) pair of a pointer enter message. -/
def pointer_enter_of : Msg → Option (wl_surface × wl_resource)
  | Msg.wl_pointer_send_enter r _ s _ _ => some (s, r)
  | _ => none

/-- The binding a pointer leave message is sent to. -/
def pointer_leave_of : Msg → Option wl_resource
  | Msg.wl_pointer_send_leave r _ _ => some r
  | _ => none

/-- Message number `i` of the log is an enter for surface `s` sent to binding `r`. -/
def enter_at (log : List Msg) (i : Nat) (s : wl_surface) (r : wl_resource) : Prop :=
  (log[i]?).bind pointer_enter_of = some (s, r)

/-- Message number `k` of the log is a leave sent to binding `r`. -/
def leave_at (log : List Msg) (k : Nat) (r : wl_resource) : Prop :=
  (log[k]?).bind pointer_leave_of = some r

instance (log : List Msg) (i : Nat) (s : wl_surface) (r : wl_resource) :
    Decidable (enter_at log i s r) := by
  unfold enter_at; infer_instance

instance (log : List Msg) (k : Nat) (r : wl_resource) : Decidable (leave_at log k r) := by
  unfold leave_at; infer_instance

/-- No two enter messages for the same (surface, binding) pair without a leave
message to that binding between them. -/
def no_double_enter (log : List Msg) : Prop :=
  ∀ i j s r, i < j → enter_at log i s r → enter_at log j s r →
    ∃ k, i < k ∧ k < j ∧ leave_at log k r

/-- The pair `(s, r)` has been entered and `r` has not been sent a leave since. -/
def open_pair (log : List Msg) (s : wl_surface) (r : wl_resource) : Prop :=
  ∃ i, enter_at log i s r ∧ ∀ k, i < k → ¬ leave_at log k r

/-- The proof invariant that ties the log to the pointer's focus state: the log
has no double enter, and every pair still open is either the current
(focus, focus binding) pair or a pair whose binding is no longer the one
`find_resource_for_surface` returns for the surface; the bindings of open pairs
are listed or destroyed. -/
def focus_log_ok (log : List Msg) (focus : Option wl_surface)
    (focus_resource : Option wl_resource) (list dead : List wl_resource) : Prop :=
  no_double_enter log ∧
  ∀ s r, open_pair log s r →
    ((focus = some s ∧ focus_resource = some r) ∨
      find_resource_for_surface list (some s) ≠ some r) ∧
    (r ∈ list ∨ r ∈ dead)

/-- The invariant of a run of pointer events: `focus_log_ok`, no destroyed
binding is listed, and the focus listener is linked on the focus binding. -/
def pointer_inv (dead : List wl_resource) (seat : weston_seat) : Prop :=
  focus_log_ok seat.log seat.pointer.focus seat.pointer.focus_resource
    seat.pointer.resource_list dead ∧
  (∀ r ∈ dead, r ∉ seat.pointer.resource_list) ∧
  (∀ r, seat.pointer.focus_resource = some r → seat.pointer.focus_listener = some r)

/-- The sequences of pointer events in which every binding a client obtains is
a new object (not in the binding list, not destroyed earlier: `dead` lists the
bindings destroyed so far) and a binding is destroyed only while it is the only
pointer binding of its client. -/
def pointer_events_ok (env : Env) :
    List wl_resource → weston_seat → List pointer_event → Bool
  | _, _, [] => true
  | dead, seat, pointer_event.set_focus surface sx sy :: evs =>
    pointer_events_ok env dead (weston_pointer_set_focus seat surface sx sy) evs
  | dead, seat, pointer_event.get_pointer cr :: evs =>
    decide (cr ∉ seat.pointer.resource_list) && decide (cr ∉ dead) &&
      pointer_events_ok env dead (seat_get_pointer env seat cr) evs
  | dead, seat, pointer_event.destroy resource :: evs =>
    decide (∀ r ∈ seat.pointer.resource_list, r.client = resource.client → r = resource) &&
      pointer_events_ok env (resource :: dead) (destroy_pointer_resource seat resource) evs

/-- A stand-in for the collaborators: nothing is ever hit, coordinates are not
transformed, the binding hooks leave the grab alone, the keymap state machine
ignores keys. -/
def env0 : Env where
  pick_surface := fun _ _ => (none, 0, 0)
  surface_from_global_fixed := fun _ x y => (x, y)
  run_key_binding := fun _ _ _ _ g => g
  run_button_binding := fun _ _ _ _ g => g
  xkb_state_update_key := fun st _ _ => st
  MODIFIER_CTRL := 1
  MODIFIER_ALT := 2
  MODIFIER_SUPER := 4
  MODIFIER_SHIFT := 8
  LED_NUM_LOCK := 1
  LED_CAPS_LOCK := 2
  LED_SCROLL_LOCK := 4

/-- A seat right after `weston_seat_init` and the `weston_seat_init_*` calls. -/
def seat0 : weston_seat :=
  { pointer := weston_pointer_init, keyboard := { weston_keyboard_init with seat := true },
    touch := weston_touch_init, hotspot_x := 16, hotspot_y := 16 }

/-! ## What a call emits -/

/-- The log of `after` is the log of `before` followed by messages that all
satisfy `P`: everything emitted between the two states satisfies `P`. -/
def emits (P : Msg → Prop) (before after : weston_seat) : Prop :=
  ∃ out, after.log = before.log ++ out ∧ ∀ m ∈ out, P m

/-! ## Classifying log entries of key events -/

/-- The log entries by which `notify_key` hands a key event on: the invocation
of the key-binding hook, the key callback of a grab, a key message to a
client. -/
def is_key_dispatch : Msg → Bool
  | Msg.run_key_binding _ _ _ => true
  | Msg.keyboard_grab_key _ _ _ _ => true
  | Msg.wl_keyboard_send_key _ _ _ _ _ => true
  | _ => false

/-- The key messages to clients in a log. -/
def keyboard_key_messages (log : List Msg) : List Msg :=
  log.filter (fun m =>
    match m with
    | Msg.wl_keyboard_send_key _ _ _ _ _ => true
    | _ => false)

/-! ## Sequences of button events -/

/-- One call of `notify_button`. -/
structure button_event where
  time : Nat
  button : Nat
  state : wl_pointer_button_state
deriving DecidableEq, Repr

/-- Run a sequence of `notify_button` calls, first to last. -/
def notify_button_run (env : Env) (seat : weston_seat) (evs : List button_event) :
    weston_seat :=
  evs.foldl (fun s e => notify_button env s e.time e.button e.state) seat

/-- The buttons currently held, in the words of the specification: a press
adds the button unless it is held already (a duplicate press is ignored), a
release removes it if it is held (a release with no matching press changes
nothing).  `held` is the set before the events. -/
def buttons_held : List Nat → List button_event → List Nat
  | held, [] => held
  | held, e :: evs =>
    match e.state with
    | wl_pointer_button_state.PRESSED =>
      buttons_held (if e.button ∈ held then held else e.button :: held) evs
    | wl_pointer_button_state.RELEASED => buttons_held (held.erase e.button) evs

/-- The sequences of button events in which every press is of a button that is
not held and every release is of a button that is held. -/
def buttons_paired : List Nat → List button_event → Bool
  | _, [] => true
  | held, e :: evs =>
    match e.state with
    | wl_pointer_button_state.PRESSED =>
      decide (e.button ∉ held) && buttons_paired (e.button :: held) evs
    | wl_pointer_button_state.RELEASED =>
      decide (e.button ∈ held) && buttons_paired (held.erase e.button) evs

/-! ## The focus invariant of the data model -/

/-- A focus binding is set only together with a focus surface, and both belong
to the same client. -/
def focus_resource_ok : Option wl_surface → Option wl_resource → Prop
  | _, none => True
  | none, some _ => False
  | some s, some r => r.client = s.client

instance (focus : Option wl_surface) (focus_resource : Option wl_resource) :
    Decidable (focus_resource_ok focus focus_resource) := by
  cases focus <;> cases focus_resource <;> unfold focus_resource_ok <;> infer_instance

/-- The focus invariant on the three devices of a seat. -/
def seat_focus_ok (seat : weston_seat) : Prop :=
  focus_resource_ok seat.pointer.focus seat.pointer.focus_resource ∧
  focus_resource_ok seat.keyboard.focus seat.keyboard.focus_resource ∧
  focus_resource_ok seat.touch.focus seat.touch.focus_resource

instance (seat : weston_seat) : Decidable (seat_focus_ok seat) := by
  unfold seat_focus_ok; infer_instance

/-! ## Concrete surfaces, bindings and event sequences -/

/-- A surface of client 7. -/
def surface_a : wl_surface := { id := 1, client := 7 }

/-- A surface of client 8. -/
def surface_b : wl_surface := { id := 2, client := 8 }

/-- The first pointer binding of client 7. -/
def binding_a1 : wl_resource := { id := 10, client := 7 }

/-- A second pointer binding of client 7. -/
def binding_a2 : wl_resource := { id := 11, client := 7 }

/-- A pointer binding of client 8. -/
def binding_b : wl_resource := { id := 12, client := 8 }

/-- Client 7 binds the pointer, the pointer enters its surface, the client binds
the pointer a second time, that second binding is destroyed, and the focus is
set to the same surface once more. -/
def rebind_events : List pointer_event :=
  [pointer_event.get_pointer binding_a1,
   pointer_event.set_focus (some surface_a) 0 0,
   pointer_event.get_pointer binding_a2,
   pointer_event.destroy binding_a2,
   pointer_event.set_focus (some surface_a) 0 0]

/-- Two clients bind the pointer, the focus moves between their surfaces, one
client binds a second time, the other client's binding is destroyed while
focused, and the focus keeps moving. -/
def paired_events : List pointer_event :=
  [pointer_event.get_pointer binding_a1,
   pointer_event.get_pointer binding_b,
   pointer_event.set_focus (some surface_a) 0 0,
   pointer_event.set_focus (some surface_b) 5 5,
   pointer_event.get_pointer binding_a2,
   pointer_event.destroy binding_b,
   pointer_event.set_focus (some surface_b) 5 5,
   pointer_event.set_focus (some surface_a) 1 1,
   pointer_event.set_focus none 0 0,
   pointer_event.set_focus (some surface_a) 1 1]

/-- A seat whose three devices are focused on `surface_a` through bindings of
client 7, with client 8 bound as well. -/
def seat_focused : weston_seat :=
  { pointer := { weston_pointer_init with
      resource_list := [binding_a1, binding_b], focus := some surface_a,
      focus_resource := some binding_a1, focus_listener := some binding_a1 },
    keyboard := { weston_keyboard_init with
      seat := true, resource_list := [binding_a1, binding_b], focus := some surface_a,
      focus_resource := some binding_a1, focus_listener := some binding_a1,
      keys := [30] },
    touch := { weston_touch_init with
      resource_list := [binding_a1, binding_b], focus := some surface_a,
      focus_resource := some binding_a1, focus_listener := some binding_a1 } }

/-- The seat `seat_focused` with a custom keyboard grab active. -/
def seat_custom_grab : weston_seat :=
  { seat_focused with keyboard := { seat_focused.keyboard with grab := keyboard_grab.custom 1 } }

/-- Left button down, right button down, left up, right up, left down. -/
def click_events : List button_event :=
  [{ time := 1, button := 272, state := wl_pointer_button_state.PRESSED },
   { time := 2, button := 273, state := wl_pointer_button_state.PRESSED },
   { time := 3, button := 272, state := wl_pointer_button_state.RELEASED },
   { time := 4, button := 273, state := wl_pointer_button_state.RELEASED },
   { time := 5, button := 272, state := wl_pointer_button_state.PRESSED }]


/-! ## Touch events -/

/-- The callback `default_grab_touch_down` of the default touch grab. -/
def default_grab_touch_down (seat : weston_seat) (time : Nat) (touch_id : Int)
    (sx sy : Int) : weston_seat :=
  match seat.touch.focus_resource, seat.touch.focus with
  | some resource, some focus =>
    let (seat, serial) := wl_display_next_serial seat
    send seat (Msg.wl_touch_send_down resource serial time focus touch_id sx sy)
  | _, _ => seat

/-- The callback `default_grab_touch_up` of the default touch grab. -/
def default_grab_touch_up (seat : weston_seat) (time : Nat) (touch_id : Int) : weston_seat :=
  match seat.touch.focus_resource with
  | some resource =>
    let (seat, serial) := wl_display_next_serial seat
    send seat (Msg.wl_touch_send_up resource serial time touch_id)
  | none => seat

/-- The callback `default_grab_touch_motion` of the default touch grab. -/
def default_grab_touch_motion (seat : weston_seat) (time : Nat) (touch_id : Int)
    (sx sy : Int) : weston_seat :=
  match seat.touch.focus_resource with
  | some resource => send seat (Msg.wl_touch_send_motion resource time touch_id sx sy)
  | none => seat

/-- The call `grab->interface->down (grab, ...)` of `notify_touch`. -/
def touch_grab_interface_down (seat : weston_seat) (grab : touch_grab) (time : Nat)
    (touch_id : Int) (sx sy : Int) : weston_seat :=
  match grab with
  | touch_grab.default_grab => default_grab_touch_down seat time touch_id sx sy
  | g => send seat (Msg.touch_grab_down g time touch_id sx sy)

/-- The call `grab->interface->up (grab, ...)` of `notify_touch`. -/
def touch_grab_interface_up (seat : weston_seat) (grab : touch_grab) (time : Nat)
    (touch_id : Int) : weston_seat :=
  match grab with
  | touch_grab.default_grab => default_grab_touch_up seat time touch_id
  | g => send seat (Msg.touch_grab_up g time touch_id)

/-- The call `grab->interface->motion (grab, ...)` of `notify_touch`. -/
def touch_grab_interface_motion (seat : weston_seat) (grab : touch_grab) (time : Nat)
    (touch_id : Int) (sx sy : Int) : weston_seat :=
  match grab with
  | touch_grab.default_grab => default_grab_touch_motion seat time touch_id sx sy
  | g => send seat (Msg.touch_grab_motion g time touch_id sx sy)

/-- The function `notify_touch`.  `num_tp` is a `uint32_t` field of the seat
(declared in `compositor.h`): both `++` and `--` wrap modulo `2^32`. -/
def notify_touch (env : Env) (seat : weston_seat) (time : Nat) (touch_id : Int)
    (x y : Int) (type : touch_type) : weston_seat :=
  let grab := seat.touch.grab
  let seat := { seat with touch := { seat.touch with grab_x := x, grab_y := y } }
  match type with
  | touch_type.WL_TOUCH_DOWN =>
    let seat := weston_compositor_idle_inhibit seat
    let seat := { seat with num_tp := (seat.num_tp + 1) % 2 ^ 32 }
    if seat.num_tp = 1 then
      let (es, sx, sy) := env.pick_surface x y
      let seat := touch_set_focus seat es
      touch_grab_interface_down seat grab time touch_id sx sy
    else
      match seat.touch.focus with
      | some es =>
        let (sx, sy) := env.surface_from_global_fixed es x y
        touch_grab_interface_down seat grab time touch_id sx sy
      | none => send seat (Msg.weston_log 1082)
  | touch_type.WL_TOUCH_MOTION =>
    match seat.touch.focus with
    | none => seat
    | some es =>
      let (sx, sy) := env.surface_from_global_fixed es x y
      touch_grab_interface_motion seat grab time touch_id sx sy
  | touch_type.WL_TOUCH_UP =>
    let seat := weston_compositor_idle_release seat
    let seat := { seat with num_tp := (seat.num_tp + 2 ^ 32 - 1) % 2 ^ 32 }
    let seat := touch_grab_interface_up seat grab time touch_id
    if seat.num_tp = 0 then touch_set_focus seat none else seat
  | touch_type.other _ => seat

/-- One call of `notify_touch`. -/
structure touch_event where
  time : Nat
  touch_id : Int
  x : Int
  y : Int
  type : touch_type
deriving DecidableEq, Repr

/-- Run one `touch_event`. -/
def notify_touch_step (env : Env) (seat : weston_seat) (e : touch_event) : weston_seat :=
  notify_touch env seat e.time e.touch_id e.x e.y e.type

/-- Run a sequence of `notify_touch` calls, first to last. -/
def notify_touch_run (env : Env) (seat : weston_seat) (evs : List touch_event) :
    weston_seat :=
  evs.foldl (notify_touch_step env) seat

/-- A hit test that finds `surface_a` everywhere, at the surface-local point
`(x - 10, y - 20)`; coordinates are transformed the same way for every
surface. -/
def env_hit_a : Env :=
  { env0 with
    pick_surface := fun x y => (some surface_a, x - 10, y - 20)
    surface_from_global_fixed := fun _ x y => (x - 10, y - 20) }

/-- The seat `seat0` with client 7 and client 8 bound to the touch device. -/
def seat_touch_bound : weston_seat :=
  { seat0 with touch := { weston_touch_init with resource_list := [binding_a1, binding_b] } }

/-- A touch-down of touch point 0 at the global point `(1, 1)`. -/
def touch_down_event : touch_event :=
  { time := 1, touch_id := 0, x := 1, y := 1, type := touch_type.WL_TOUCH_DOWN }

/-- Two fingers down, both moved, both up. -/
def two_finger_events : List touch_event :=
  [{ time := 1, touch_id := 0, x := 1, y := 1, type := touch_type.WL_TOUCH_DOWN },
   { time := 2, touch_id := 1, x := 50, y := 50, type := touch_type.WL_TOUCH_DOWN },
   { time := 3, touch_id := 0, x := 2, y := 2, type := touch_type.WL_TOUCH_MOTION },
   { time := 4, touch_id := 1, x := 51, y := 51, type := touch_type.WL_TOUCH_MOTION },
   { time := 5, touch_id := 0, x := 2, y := 2, type := touch_type.WL_TOUCH_UP },
   { time := 6, touch_id := 1, x := 51, y := 51, type := touch_type.WL_TOUCH_UP }]

/-- The sequences of touch events, run from the seat `S`, after each of which
at least one touch point is still down (`num_tp` is not 0). -/
def touch_points_stay_down (env : Env) : weston_seat → List touch_event → Bool
  | _, [] => true
  | S, e :: evs =>
    decide ((notify_touch_step env S e).num_tp ≠ 0) &&
      touch_points_stay_down env (notify_touch_step env S e) evs

/-- A second finger is moved and lifted while the first stays down. -/
def second_finger_events : List touch_event :=
  [{ time := 3, touch_id := 1, x := 51, y := 51, type := touch_type.WL_TOUCH_MOTION },
   { time := 4, touch_id := 1, x := 51, y := 51, type := touch_type.WL_TOUCH_UP },
   { time := 5, touch_id := 0, x := 2, y := 2, type := touch_type.WL_TOUCH_MOTION }]

/-! ## Keyboard focus of the whole compositor coming and going -/

/-- The function `weston_keyboard_end_grab`. -/
def weston_keyboard_end_grab (seat : weston_seat) : weston_seat :=
  { seat with keyboard := { seat.keyboard with grab := keyboard_grab.default_grab } }

/-- The handler `destroy_device_saved_kbd_focus`, run when the surface saved in
`saved_kbd_focus` is destroyed. -/
def destroy_device_saved_kbd_focus (seat : weston_seat) : weston_seat :=
  { seat with saved_kbd_focus := none }

/-- The function `notify_keyboard_focus_out`.  The loop runs over the
pressed-key array in array order. -/
def notify_keyboard_focus_out (env : Env) (seat : weston_seat) : weston_seat :=
  let (seat, serial) := wl_display_next_serial seat
  let seat := seat.keyboard.keys.foldl
    (fun seat k =>
      update_modifier_state env (weston_compositor_idle_release seat) serial k
        wl_keyboard_key_state.RELEASED)
    seat
  let seat := { seat with modifier_state := 0 }
  let seat :=
    match seat.keyboard.focus with
    | some focus => { seat with saved_kbd_focus := some focus }
    | none => seat
  let seat := weston_keyboard_set_focus seat none
  weston_keyboard_end_grab seat

/-- The body of the first loop of `notify_keyboard_focus_in`, for the key `k`. -/
def notify_keyboard_focus_in_press (env : Env) (serial : Nat)
    (update_state : weston_key_state_update) (seat : weston_seat) (k : Nat) : weston_seat :=
  let seat := weston_compositor_idle_inhibit seat
  match update_state with
  | weston_key_state_update.STATE_UPDATE_AUTOMATIC =>
    update_modifier_state env seat serial k wl_keyboard_key_state.PRESSED
  | weston_key_state_update.STATE_UPDATE_NONE => seat

/-- The body of the second loop of `notify_keyboard_focus_in`, for the key `k`:
the key-binding hook runs with time 0 and may install another grab. -/
def notify_keyboard_focus_in_hook (env : Env) (seat : weston_seat) (k : Nat) : weston_seat :=
  let seat := send seat (Msg.run_key_binding 0 k wl_keyboard_key_state.PRESSED)
  { seat with keyboard := { seat.keyboard with
      grab := env.run_key_binding seat.modifier_state 0 k
        wl_keyboard_key_state.PRESSED seat.keyboard.grab } }

/-- The function `notify_keyboard_focus_in`.  `keys` is the caller's snapshot of
the pressed keys, which `wl_array_copy` installs as the pressed-key array; the
first loop updates the modifier state per key, the second runs the key-binding
hook per key, then the saved focus is restored. -/
def notify_keyboard_focus_in (env : Env) (seat : weston_seat) (keys : List Nat)
    (update_state : weston_key_state_update) : weston_seat :=
  let (seat, serial) := wl_display_next_serial seat
  let seat := { seat with keyboard := { seat.keyboard with keys := keys } }
  let seat := keys.foldl (notify_keyboard_focus_in_press env serial update_state) seat
  let seat := keys.foldl (notify_keyboard_focus_in_hook env) seat
  match seat.saved_kbd_focus with
  | some surface =>
    let seat := weston_keyboard_set_focus seat (some surface)
    { seat with saved_kbd_focus := none }
  | none => seat

/-- The arguments of a call of `xkb_state_update_key` recorded in the log. -/
def xkb_update_of : Msg → Option (Nat × xkb_key_direction)
  | Msg.xkb_state_update_key key direction => some (key, direction)
  | _ => none

/-- The arguments of the calls of `xkb_state_update_key` recorded in a log, in
order. -/
def xkb_updates (log : List Msg) : List (Nat × xkb_key_direction) :=
  log.filterMap xkb_update_of

/-- The seat `after` is the seat `before` with further messages in its log, all
of which satisfy `P`, and nothing else changed. -/
def only_log (P : Msg → Prop) (before after : weston_seat) : Prop :=
  ∃ out, after = { before with log := before.log ++ out } ∧ ∀ m ∈ out, P m

/-- A keymap state machine in which key 37 (code 29, left control) sets bit 2
of the depressed modifiers while it is down. -/
def env_ctrl : Env :=
  { env0 with
    xkb_state_update_key := fun st key direction =>
      if key = 37 then
        { st with mods_depressed :=
            if direction = xkb_key_direction.XKB_KEY_DOWN then 4 else 0 }
      else st }

/-- The seat `seat_focused` with keys 29 and 30 pressed, control depressed, and
a custom keyboard grab active. -/
def seat_keys_down : weston_seat :=
  { seat_focused with
    keyboard := { seat_focused.keyboard with
      keys := [29, 30], grab := keyboard_grab.custom 1,
      modifiers := { mods_depressed := 4 } },
    xkb_state := { mods_depressed := 4 },
    modifier_state := 1 }

/-- The messages by which `notify_modifiers` reports a change: the LED update
hook, the modifiers callback of a grab, a modifiers message to a client. -/
def is_modifiers_notice : Msg → Bool
  | Msg.led_update _ => true
  | Msg.keyboard_grab_modifiers _ _ _ _ _ _ => true
  | Msg.wl_keyboard_send_modifiers _ _ _ _ _ _ => true
  | _ => false

/-! ## The two phases of `notify_modifiers` -/

/-- The comparison `changed` of `notify_modifiers`: one of the four serialized
values of the keymap state differs from the keyboard's stored snapshot. -/
def notify_modifiers_changed (seat : weston_seat) : Bool :=
  decide (seat.xkb_state.mods_depressed ≠ seat.keyboard.modifiers.mods_depressed ∨
    seat.xkb_state.mods_latched ≠ seat.keyboard.modifiers.mods_latched ∨
    seat.xkb_state.mods_locked ≠ seat.keyboard.modifiers.mods_locked ∨
    seat.xkb_state.group ≠ seat.keyboard.modifiers.group)

/-- The seat as `notify_modifiers` leaves it before it calls the grab: the
snapshot `keyboard->modifiers`, `modifier_state` and the LED mask are those of
the keymap state, and the LED hook has run when there is one and the mask
changed. -/
def notify_modifiers_snapshot (env : Env) (seat : weston_seat) : weston_seat :=
  { seat with
    keyboard := { seat.keyboard with modifiers :=
      { mods_depressed := seat.xkb_state.mods_depressed,
        mods_latched := seat.xkb_state.mods_latched,
        mods_locked := seat.xkb_state.mods_locked,
        group := seat.xkb_state.group } },
    modifier_state := notify_modifiers_modifier_state env seat.xkb_info
      (seat.xkb_state.mods_depressed ||| seat.xkb_state.mods_latched),
    xkb_leds := notify_modifiers_leds env seat.xkb_info seat.xkb_state,
    log := seat.log ++
      (if notify_modifiers_leds env seat.xkb_info seat.xkb_state ≠ seat.xkb_leds ∧
          seat.has_led_update then
        [Msg.led_update (notify_modifiers_leds env seat.xkb_info seat.xkb_state)]
      else []) }

/-! ## Surfaces: configure callback and mapping -/

/-- The value of `surface->configure` (`none` is `NULL`). -/
def surface_get_configure (seat : weston_seat) (surface : wl_surface) :
    Option surface_configure :=
  (seat.configure.find? (fun p => p.1 = surface)).map (fun p => p.2)

/-- The assignment `surface->configure = c`. -/
def surface_set_configure (seat : weston_seat) (surface : wl_surface)
    (c : Option surface_configure) : weston_seat :=
  let rest := seat.configure.filter (fun p => p.1 ≠ surface)
  match c with
  | some k => { seat with configure := (surface, k) :: rest }
  | none => { seat with configure := rest }

/-- The function `weston_surface_is_mapped`. -/
def weston_surface_is_mapped (seat : weston_seat) (surface : wl_surface) : Bool :=
  decide (surface ∈ seat.mapped)

/-- The call `weston_surface_unmap (surface)`: recorded in the log; the surface
is no longer mapped afterwards. -/
def weston_surface_unmap (seat : weston_seat) (surface : wl_surface) : weston_seat :=
  let seat := send seat (Msg.weston_surface_unmap surface)
  { seat with mapped := seat.mapped.filter (fun s => s ≠ surface) }

/-- Insertion of the surface into a layer list followed by
`weston_surface_update_transform`, which assigns the surface an output: it is
mapped afterwards (the surface is taken to lie on some output). -/
def weston_surface_map (seat : weston_seat) (surface : wl_surface) : weston_seat :=
  let seat := send seat (Msg.weston_surface_update_transform surface)
  { seat with mapped := surface :: seat.mapped }

/-! ## Fixed-point coordinates and outputs -/

/-- The function `wl_fixed_to_int`: division by 256, rounding towards zero as
the C operator does. -/
def wl_fixed_to_int (f : Int) : Int :=
  Int.tdiv f 256

/-- The function `wl_fixed_from_int`. -/
def wl_fixed_from_int (i : Int) : Int :=
  i * 256

/-- The function `pixman_region32_contains_point` on a region given by its
boxes. -/
def pixman_region32_contains_point (region : List pixman_box32) (x y : Int) : Bool :=
  region.any (fun b => decide (b.x1 ≤ x ∧ x < b.x2 ∧ b.y1 ≤ y ∧ y < b.y2))

/-- The loop of `clip_pointer_motion` over the output list: `valid` becomes 1
when an output contains the target, `prev` is the last output that contains the
old position. -/
def clip_pointer_motion_scan (x y old_x old_y : Int) :
    List weston_output → Bool × Option weston_output → Bool × Option weston_output
  | [], acc => acc
  | output :: rest, (valid, prev) =>
    let valid := if pixman_region32_contains_point output.region x y then true else valid
    let prev :=
      if pixman_region32_contains_point output.region old_x old_y then some output else prev
    clip_pointer_motion_scan x y old_x old_y rest (valid, prev)

/-- The function `clip_pointer_motion`: the clipped position.  When the target
is in no output and the old position is in no output either, the C code reads
through the null pointer `prev`; that is the result `none`. -/
def clip_pointer_motion (seat : weston_seat) (fx fy : Int) : Option (Int × Int) :=
  let x := wl_fixed_to_int fx
  let y := wl_fixed_to_int fy
  let old_x := wl_fixed_to_int seat.pointer.x
  let old_y := wl_fixed_to_int seat.pointer.y
  match clip_pointer_motion_scan x y old_x old_y seat.outputs (false, none) with
  | (true, _) => some (fx, fy)
  | (false, none) => none
  | (false, some prev) =>
    let fx :=
      if x < prev.x then wl_fixed_from_int prev.x
      else if x ≥ prev.x + prev.width then wl_fixed_from_int (prev.x + prev.width - 1)
      else fx
    let fy :=
      if y < prev.y then wl_fixed_from_int prev.y
      else if y ≥ prev.y + prev.current_height then
        wl_fixed_from_int (prev.y + prev.height - 1)
      else fy
    some (fx, fy)

/-! ## The drag surface -/

/-- The function `device_setup_new_drag_surface`; the second component is its
return value.  The position handed to `weston_surface_set_position` is the
pointer position, in 256ths. -/
def device_setup_new_drag_surface (seat : weston_seat) (surface : wl_surface) :
    weston_seat × Bool :=
  match surface_get_configure seat surface with
  | some _ => (send seat (Msg.wl_resource_post_error surface), false)
  | none =>
    let seat := { seat with drag_surface := some surface }
    let seat := send seat
      (Msg.weston_surface_set_position surface seat.pointer.x seat.pointer.y)
    let seat := surface_set_configure seat surface
      (some surface_configure.drag_surface_configure)
    (seat, true)

/-- The function `device_release_drag_surface`. -/
def device_release_drag_surface (seat : weston_seat) : weston_seat :=
  match seat.drag_surface with
  | none => seat
  | some drag =>
    let seat := if weston_surface_is_mapped seat drag then weston_surface_unmap seat drag
      else seat
    let seat := surface_set_configure seat drag none
    { seat with drag_surface := none }

/-- The function `device_map_drag_surface`. -/
def device_map_drag_surface (seat : weston_seat) : weston_seat :=
  match seat.drag_surface with
  | none => seat
  | some drag =>
    if weston_surface_is_mapped seat drag ∨ drag ∉ seat.has_buffer then seat
    else weston_surface_map seat drag

/-- The function `weston_seat_update_drag_surface`.  The last call moves the
drag surface by `(dx, dy)` (in 256ths) from where it is. -/
def weston_seat_update_drag_surface (seat : weston_seat) (dx dy : Int) : weston_seat :=
  if seat.drag_surface = none ∧ seat.seat_drag_surface = none then seat
  else
    let surface_changed : Bool :=
      decide (seat.drag_surface ≠ none ∧ seat.seat_drag_surface ≠ none ∧
        seat.drag_surface ≠ seat.seat_drag_surface)
    let released : Bool := decide (seat.seat_drag_surface = none) || surface_changed
    let seat := if released then device_release_drag_surface seat else seat
    if released ∧ ¬ surface_changed then seat
    else
      let (seat, ok) :=
        match seat.drag_surface, seat.seat_drag_surface with
        | none, some surface => device_setup_new_drag_surface seat surface
        | _, _ => (seat, true)
      if ¬ ok then seat
      else
        let seat := device_map_drag_surface seat
        if dx = 0 ∧ dy = 0 then seat
        else
          match seat.drag_surface with
          | some drag => send seat (Msg.weston_surface_set_position_relative drag dx dy)
          | none => seat

/-! ## Pointer motion -/

/-- The function `weston_pointer_set_current` (the listener on the surface's
destruction is not part of the model). -/
def weston_pointer_set_current (seat : weston_seat) (surface : Option wl_surface) :
    weston_seat :=
  { seat with pointer := { seat.pointer with current := surface } }

/-- The call `interface->focus (pointer->grab, ...)`. -/
def pointer_grab_interface_focus (seat : weston_seat) (grab : pointer_grab)
    (surface : Option wl_surface) (x y : Int) : weston_seat :=
  match grab with
  | pointer_grab.default_grab => default_grab_focus seat surface x y
  | g => send seat (Msg.pointer_grab_focus g surface x y)

/-- The call `interface->motion (pointer->grab, ...)`. -/
def pointer_grab_interface_motion (seat : weston_seat) (grab : pointer_grab)
    (time : Nat) (x y : Int) : weston_seat :=
  match grab with
  | pointer_grab.default_grab => default_grab_motion seat time x y
  | g => send seat (Msg.pointer_grab_motion g time x y)

/-- The field `pointer->grab->focus`. -/
def weston_pointer_grab_focus (pointer : weston_pointer) : Option wl_surface :=
  match pointer.grab with
  | pointer_grab.default_grab => pointer.default_grab_focus
  | pointer_grab.custom _ => pointer.custom_grab_focus

/-- The field `pointer->grab->x`. -/
def weston_pointer_grab_x (pointer : weston_pointer) : Int :=
  match pointer.grab with
  | pointer_grab.default_grab => pointer.default_grab_x
  | pointer_grab.custom _ => pointer.custom_grab_x

/-- The field `pointer->grab->y`. -/
def weston_pointer_grab_y (pointer : weston_pointer) : Int :=
  match pointer.grab with
  | pointer_grab.default_grab => pointer.default_grab_y
  | pointer_grab.custom _ => pointer.custom_grab_y

/-- The function `weston_seat_repick`. -/
def weston_seat_repick (env : Env) (seat : weston_seat) : weston_seat :=
  if ¬ seat.seat_pointer then seat
  else
    let (surface, cx, cy) := env.pick_surface seat.pointer.x seat.pointer.y
    let seat := { seat with pointer := { seat.pointer with current_x := cx, current_y := cy } }
    let seat :=
      if surface ≠ seat.pointer.current then
        let seat := weston_pointer_set_current seat surface
        pointer_grab_interface_focus seat seat.pointer.grab surface
          seat.pointer.current_x seat.pointer.current_y
      else seat
    match weston_pointer_grab_focus seat.pointer with
    | some focus =>
      let g := env.surface_from_global_fixed focus seat.pointer.x seat.pointer.y
      match seat.pointer.grab with
      | pointer_grab.default_grab =>
        { seat with pointer := { seat.pointer with
            default_grab_x := g.1, default_grab_y := g.2 } }
      | pointer_grab.custom _ =>
        { seat with pointer := { seat.pointer with
            custom_grab_x := g.1, custom_grab_y := g.2 } }
    | none => seat

/-- The loop of `move_pointer` over the outputs: every output with active zoom
that contains the point gets `weston_output_update_zoom`. -/
def move_pointer_zoom (seat : weston_seat) (ix iy : Int) : weston_seat :=
  seat.outputs.foldl
    (fun seat output =>
      if output.zoom_active ∧ pixman_region32_contains_point output.region ix iy then
        send seat (Msg.weston_output_update_zoom output.id)
      else seat)
    seat

/-- The end of `move_pointer`: the cursor sprite, when there is one, is moved
to the pointer position less the hotspot (positions in 256ths). -/
def move_pointer_sprite (seat : weston_seat) (ix iy : Int) : weston_seat :=
  match seat.sprite with
  | some sprite =>
    let seat := send seat (Msg.weston_surface_set_position sprite
      (wl_fixed_from_int (ix - seat.hotspot_x)) (wl_fixed_from_int (iy - seat.hotspot_y)))
    send seat (Msg.weston_surface_schedule_repaint sprite)
  | none => seat

/-- The part of `move_pointer` after `clip_pointer_motion`, `(x, y)` being the
clipped position. -/
def move_pointer_to (env : Env) (seat : weston_seat) (x y : Int) : weston_seat :=
  let seat := weston_seat_update_drag_surface seat (x - seat.pointer.x) (y - seat.pointer.y)
  let seat := { seat with pointer := { seat.pointer with x := x, y := y } }
  let ix := wl_fixed_to_int x
  let iy := wl_fixed_to_int y
  let seat := move_pointer_zoom seat ix iy
  let seat := weston_seat_repick env seat
  move_pointer_sprite seat ix iy

/-- The function `move_pointer`.  It reads `pointer->x` through
`seat->seat.pointer` without a check, so a seat without a pointer gives `none`,
as does the null `prev` of `clip_pointer_motion`. -/
def move_pointer (env : Env) (seat : weston_seat) (x y : Int) : Option weston_seat :=
  if ¬ seat.seat_pointer then none
  else
    match clip_pointer_motion seat x y with
    | none => none
    | some (x, y) => some (move_pointer_to env seat x y)

/-- The call of the grab's motion callback that ends `notify_motion` and
`notify_motion_absolute`. -/
def notify_motion_dispatch (seat : weston_seat) (time : Nat) : weston_seat :=
  pointer_grab_interface_motion seat seat.pointer.grab time
    (weston_pointer_grab_x seat.pointer) (weston_pointer_grab_y seat.pointer)

/-- The sum of two `wl_fixed_t` values: `int32_t` addition, which wraps to 32
bits in two's complement. -/
def wl_fixed_add (a b : Int) : Int :=
  (a + b + 2 ^ 31) % 2 ^ 32 - 2 ^ 31

/-- The function `notify_motion`. -/
def notify_motion (env : Env) (seat : weston_seat) (time : Nat) (dx dy : Int) :
    Option weston_seat :=
  match move_pointer env seat (wl_fixed_add seat.pointer.x dx)
      (wl_fixed_add seat.pointer.y dy) with
  | none => none
  | some seat => some (notify_motion_dispatch seat time)

/-- The function `notify_motion_absolute`. -/
def notify_motion_absolute (env : Env) (seat : weston_seat) (time : Nat) (x y : Int) :
    Option weston_seat :=
  match move_pointer env seat x y with
  | none => none
  | some seat => some (notify_motion_dispatch seat time)

/-! ## Classifying log entries of pointer motion -/

/-- The pointer messages to clients that carry focus or motion: enter, leave
and motion. -/
def is_pointer_traffic : Msg → Bool
  | Msg.wl_pointer_send_enter _ _ _ _ _ => true
  | Msg.wl_pointer_send_leave _ _ _ => true
  | Msg.wl_pointer_send_motion _ _ _ _ => true
  | _ => false

/-- A pointer enter or leave message. -/
def is_pointer_crossing : Msg → Bool
  | Msg.wl_pointer_send_enter _ _ _ _ _ => true
  | Msg.wl_pointer_send_leave _ _ _ => true
  | _ => false

/-- The binding, surface and surface-local coordinates of a pointer enter
message. -/
def pointer_enter_args : Msg → Option (wl_resource × wl_surface × Int × Int)
  | Msg.wl_pointer_send_enter r _ s sx sy => some (r, s, sx, sy)
  | _ => none

/-- The seat `after` has the pointer, the keyboard, the outputs, the serial
counter and the cursor sprite of `before`, and the messages emitted between the
two are no pointer enter, leave or motion. -/
def pointer_kept (before after : weston_seat) : Prop :=
  after.pointer = before.pointer ∧ after.seat_pointer = before.seat_pointer ∧
  after.keyboard = before.keyboard ∧ after.seat_keyboard = before.seat_keyboard ∧
  after.outputs = before.outputs ∧ after.display_serial = before.display_serial ∧
  after.sprite = before.sprite ∧ after.hotspot_x = before.hotspot_x ∧
  after.hotspot_y = before.hotspot_y ∧
  emits (fun m => is_pointer_traffic m = false) before after

/-- One output of 1024 by 768 at the origin. -/
def output_0 : weston_output :=
  { id := 0, x := 0, y := 0, width := 1024, height := 768, current_height := 768,
    region := [{ x1 := 0, y1 := 0, x2 := 1024, y2 := 768 }] }

/-- The seat `seat0` with one output and clients 7 and 8 bound to the pointer. -/
def seat_one_output : weston_seat :=
  { seat0 with
    pointer := { weston_pointer_init with resource_list := [binding_a1, binding_b] },
    outputs := [output_0] }

/-- The seat `seat_one_output` after the pointer has moved onto `surface_a` and
the focus has then been taken away with `weston_pointer_set_focus (NULL)`:
there is no focus, while `pointer->current` is still `surface_a`. -/
def seat_focus_cleared : weston_seat :=
  match notify_motion_absolute env_hit_a seat_one_output 1 (5 * 256) (5 * 256) with
  | some seat => weston_pointer_set_focus seat none 0 0
  | none => seat_one_output

/-- The seat `seat_focused` with one output and the left button held. -/
def seat_button_held : weston_seat :=
  { seat_focused with
    pointer := { seat_focused.pointer with button_count := 1, default_grab_focus := some surface_a },
    outputs := [output_0] }

/-- A hit test that finds `surface_b` everywhere. -/
def env_hit_b : Env :=
  { env0 with pick_surface := fun x y => (some surface_b, x, y) }

/-! ## The cursor sprite -/

/-- The callback `pointer_cursor_surface_configure`, `seat` being the surface's
`configure_private`.  The result is `none` when the `assert` fails. -/
def pointer_cursor_surface_configure (seat : weston_seat) (es : wl_surface)
    (dx dy width height : Int) : Option weston_seat :=
  if width = 0 then some seat
  else if seat.sprite ≠ some es then none
  else
    let seat := { seat with hotspot_x := seat.hotspot_x - dx, hotspot_y := seat.hotspot_y - dy }
    let x := wl_fixed_to_int seat.pointer.x - seat.hotspot_x
    let y := wl_fixed_to_int seat.pointer.y - seat.hotspot_y
    let seat := send seat (Msg.weston_surface_configure es x y width height)
    if ¬ weston_surface_is_mapped seat es then some (weston_surface_map seat es)
    else some seat

/-- The function `pointer_unmap_sprite`. -/
def pointer_unmap_sprite (seat : weston_seat) : weston_seat :=
  match seat.sprite with
  | none => seat
  | some sprite =>
    let seat :=
      if weston_surface_is_mapped seat sprite then weston_surface_unmap seat sprite else seat
    let seat := surface_set_configure seat sprite none
    { seat with sprite := none }

/-- The serial test of `pointer_set_cursor`,
`focus_serial - serial > UINT32_MAX / 2` in 32-bit unsigned arithmetic. -/
def pointer_set_cursor_stale (focus_serial serial : Nat) : Bool :=
  decide ((focus_serial % 2 ^ 32 + 2 ^ 32 - serial % 2 ^ 32) % 2 ^ 32 > (2 ^ 32 - 1) / 2)

/-- The request handler `pointer_set_cursor`: `client` is the requesting
client, `surface` the surface named in the request (`none` for a null
`surface_resource`), `(x, y)` the hotspot. -/
def pointer_set_cursor (env : Env) (seat : weston_seat) (client : wl_client) (serial : Nat)
    (surface : Option wl_surface) (x y : Int) : Option weston_seat :=
  match seat.pointer.focus with
  | none => some seat
  | some focus =>
    if focus.client ≠ client then some seat
    else if pointer_set_cursor_stale seat.pointer.focus_serial serial then some seat
    else
      let configured : Option wl_surface :=
        match surface with
        | some s =>
          if some s ≠ seat.sprite ∧ surface_get_configure seat s ≠ none then some s else none
        | none => none
      match configured with
      | some s => some (send seat (Msg.wl_resource_post_error s))
      | none =>
        let seat := if seat.sprite ≠ none then pointer_unmap_sprite seat else seat
        match surface with
        | none => some seat
        | some s =>
          let seat := surface_set_configure seat s
            (some surface_configure.pointer_cursor_surface_configure)
          let seat := { seat with sprite := some s, hotspot_x := x, hotspot_y := y }
          if s ∈ seat.has_buffer then
            pointer_cursor_surface_configure seat s 0 0 (env.surface_buffer_width s)
              (env.surface_buffer_height s)
          else some seat

/-- A further surface of client 7, used as a cursor image. -/
def surface_c : wl_surface := { id := 3, client := 7 }

/-- The seat `seat_focused` with `focus_serial = 5` on the pointer. -/
def seat_cursor : weston_seat :=
  { seat_focused with pointer := { seat_focused.pointer with focus_serial := 5 } }

/-- The seat `seat_cursor` in which `surface_c` has a configure callback of
another module. -/
def seat_cursor_configured : weston_seat :=
  { seat_cursor with configure := [(surface_c, surface_configure.other 0)] }

/-! ## Ending a grab -/

/-- The function `weston_pointer_end_grab`: the default grab becomes the active
grab and its focus callback runs with the raw hit-test target. -/
def weston_pointer_end_grab (seat : weston_seat) : weston_seat :=
  let seat := { seat with pointer := { seat.pointer with grab := pointer_grab.default_grab } }
  pointer_grab_interface_focus seat seat.pointer.grab seat.pointer.current
    seat.pointer.current_x seat.pointer.current_y

/-- The function `weston_touch_end_grab`. -/
def weston_touch_end_grab (seat : weston_seat) : weston_seat :=
  { seat with touch := { seat.touch with grab := touch_grab.default_grab } }

/-- The seat `seat_focused` with a custom pointer grab active and the raw
hit-test target `surface_b`. -/
def seat_pointer_grabbed : weston_seat :=
  { seat_focused with pointer := { seat_focused.pointer with
      grab := pointer_grab.custom 1, current := some surface_b,
      current_x := 3, current_y := 4 } }

/-! ## The phases of `notify_button` -/

/-- The first part of `notify_button`: the serial, the ping handler, the idle
counter, the grab context on a first press, and `button_count`. -/
def notify_button_account (seat : weston_seat) (time button : Nat)
    (state : wl_pointer_button_state) : weston_seat :=
  let focus := seat.pointer.focus
  let (seat, serial) := wl_display_next_serial seat
  match state with
  | wl_pointer_button_state.PRESSED =>
    let seat :=
      match seat.has_ping_handler, focus with
      | true, some f => send seat (Msg.ping_handler f serial)
      | _, _ => seat
    let seat := weston_compositor_idle_inhibit seat
    let seat :=
      if seat.pointer.button_count = 0 then
        { seat with pointer := { seat.pointer with
            grab_button := button, grab_time := time,
            grab_x := seat.pointer.x, grab_y := seat.pointer.y } }
      else seat
    { seat with pointer := { seat.pointer with
        button_count := (seat.pointer.button_count + 1) % 2 ^ 32 } }
  | wl_pointer_button_state.RELEASED =>
    let seat := weston_compositor_idle_release seat
    { seat with pointer := { seat.pointer with
        button_count := (seat.pointer.button_count + 2 ^ 32 - 1) % 2 ^ 32 } }

/-- The call of the button-binding hook in `notify_button`, which may install
another grab. -/
def notify_button_hook (env : Env) (seat : weston_seat) (time button : Nat)
    (state : wl_pointer_button_state) : weston_seat :=
  let seat := send seat (Msg.run_button_binding time button state)
  { seat with pointer := { seat.pointer with
    grab := env.run_button_binding seat.modifier_state time button state
      seat.pointer.grab } }

/-- The end of `notify_button`: the grab serial is taken when `button_count`
is 1. -/
def notify_button_finish (seat : weston_seat) : weston_seat :=
  if seat.pointer.button_count = 1 then
    { seat with pointer := { seat.pointer with grab_serial := wl_display_get_serial seat } }
  else seat

/-! ## Classifying leave messages -/

/-- The binding and the surface of a pointer leave message. -/
def pointer_leave_args : Msg → Option (wl_resource × Option wl_surface)
  | Msg.wl_pointer_send_leave r _ s => some (r, s)
  | _ => none

/-- The binding and the surface of a keyboard leave message. -/
def keyboard_leave_args : Msg → Option (wl_resource × Option wl_surface)
  | Msg.wl_keyboard_send_leave r _ s => some (r, s)
  | _ => none

/-- The seat `seat_focused` asked for a focus change. -/
def seat_refocused : weston_seat :=
  weston_pointer_set_focus seat_focused (some surface_b) 1 2

/-! ## The messages of a focus change -/

/-- The messages of the first block of `weston_pointer_set_focus`: the leave to
the old binding, when there is one and the surface changes. -/
def weston_pointer_set_focus_leave (seat : weston_seat) (surface : Option wl_surface) :
    List Msg :=
  match seat.pointer.focus_resource with
  | some resource =>
    if seat.pointer.focus ≠ surface then
      [Msg.wl_pointer_send_leave resource ((seat.display_serial + 1) % 2 ^ 32)
        seat.pointer.focus]
    else []
  | none => []

/-- The serial that the second block of `weston_pointer_set_focus` takes: the
next serial after the one of the leave, when a leave was sent. -/
def weston_pointer_set_focus_serial (seat : weston_seat) (surface : Option wl_surface) : Nat :=
  match weston_pointer_set_focus_leave seat surface with
  | [] => (seat.display_serial + 1) % 2 ^ 32
  | _ => ((seat.display_serial + 1) % 2 ^ 32 + 1) % 2 ^ 32

/-- The modifiers message inside the second block of `weston_pointer_set_focus`:
sent when the seat has a keyboard and the client of the surface has a keyboard
binding. -/
def weston_pointer_set_focus_modifiers (seat : weston_seat) (surface : Option wl_surface) :
    List Msg :=
  if seat.seat_keyboard then
    match find_resource_for_surface seat.keyboard.resource_list surface with
    | some kr =>
      [Msg.wl_keyboard_send_modifiers kr (weston_pointer_set_focus_serial seat surface)
        seat.keyboard.modifiers.mods_depressed seat.keyboard.modifiers.mods_latched
        seat.keyboard.modifiers.mods_locked seat.keyboard.modifiers.group]
    | none => []
  else []

/-- The messages of the second block of `weston_pointer_set_focus`: the
modifiers message and the enter, when the surface has a binding and the surface
or the binding changes. -/
def weston_pointer_set_focus_enter (seat : weston_seat) (surface : Option wl_surface)
    (sx sy : Int) : List Msg :=
  match find_resource_for_surface seat.pointer.resource_list surface, surface with
  | some r, some s =>
    if seat.pointer.focus ≠ surface ∨ seat.pointer.focus_resource ≠ some r then
      weston_pointer_set_focus_modifiers seat surface ++
        [Msg.wl_pointer_send_enter r (weston_pointer_set_focus_serial seat surface) s sx sy]
    else []
  | _, _ => []

/-- The messages of the first block of `weston_keyboard_set_focus`. -/
def weston_keyboard_set_focus_leave (seat : weston_seat) (surface : Option wl_surface) :
    List Msg :=
  match seat.keyboard.focus_resource with
  | some resource =>
    if seat.keyboard.focus ≠ surface then
      [Msg.wl_keyboard_send_leave resource ((seat.display_serial + 1) % 2 ^ 32)
        seat.keyboard.focus]
    else []
  | none => []

/-- The messages of the second block of `weston_keyboard_set_focus`. -/
def weston_keyboard_set_focus_enter (seat : weston_seat) (surface : Option wl_surface) :
    List Msg :=
  match find_resource_for_surface seat.keyboard.resource_list surface, surface with
  | some r, some s =>
    if seat.keyboard.focus ≠ surface ∨ seat.keyboard.focus_resource ≠ some r then
      [Msg.wl_keyboard_send_modifiers r
          (match weston_keyboard_set_focus_leave seat surface with
            | [] => (seat.display_serial + 1) % 2 ^ 32
            | _ => ((seat.display_serial + 1) % 2 ^ 32 + 1) % 2 ^ 32)
          seat.keyboard.modifiers.mods_depressed seat.keyboard.modifiers.mods_latched
          seat.keyboard.modifiers.mods_locked seat.keyboard.modifiers.group,
        Msg.wl_keyboard_send_enter r
          (match weston_keyboard_set_focus_leave seat surface with
            | [] => (seat.display_serial + 1) % 2 ^ 32
            | _ => ((seat.display_serial + 1) % 2 ^ 32 + 1) % 2 ^ 32)
          s seat.keyboard.keys]
    else []
  | _, _ => []

/-- The seat `seat_focused` with the pointer focus taken away: the keyboard is
still focused on `surface_a`. -/
def seat_keyboard_on_a : weston_seat :=
  { seat_focused with pointer := { seat_focused.pointer with
      focus := none, focus_resource := none, focus_listener := none } }

/-- The seat `seat_touch_bound` with a custom touch grab active (and no session
focus). -/
def seat_touch_grabbed : weston_seat :=
  { seat_touch_bound with touch := { seat_touch_bound.touch with grab := touch_grab.custom 1 } }

/-- The log entries `update_modifier_state` can leave: the call of the keymap
state machine and the notices of `notify_modifiers`. -/
def is_modifier_update : Msg → Bool
  | Msg.xkb_state_update_key _ _ => true
  | m => is_modifiers_notice m

/-- A keyboard enter message. -/
def is_keyboard_enter : Msg → Bool
  | Msg.wl_keyboard_send_enter _ _ _ _ => true
  | _ => false

/-! ## The parts of `notify_key` -/

/-- The first part of `notify_key`, up to the scan of the pressed-key array:
the serial, the ping handler, the idle counter and the grab context. -/
def notify_key_account (seat : weston_seat) (time key : Nat)
    (state : wl_keyboard_key_state) : weston_seat :=
  let focus := seat.keyboard.focus
  let (seat, serial) := wl_display_next_serial seat
  match state with
  | wl_keyboard_key_state.PRESSED =>
    let seat :=
      match seat.has_ping_handler, focus with
      | true, some f => send seat (Msg.ping_handler f serial)
      | _, _ => seat
    let seat := weston_compositor_idle_inhibit seat
    { seat with keyboard := { seat.keyboard with grab_key := key, grab_time := time } }
  | wl_keyboard_key_state.RELEASED => weston_compositor_idle_release seat

/-- The call of the key-binding hook in `notify_key`, which may install
another grab. -/
def notify_key_hook (env : Env) (seat : weston_seat) (time key : Nat)
    (state : wl_keyboard_key_state) : weston_seat :=
  let seat := send seat (Msg.run_key_binding time key state)
  { seat with keyboard := { seat.keyboard with
      grab := env.run_key_binding seat.modifier_state time key state seat.keyboard.grab } }

/-- The end of `notify_key`: the modifier state follows the key when the caller
asks for it. -/
def notify_key_finish (env : Env) (seat : weston_seat) (key : Nat)
    (state : wl_keyboard_key_state) (update_state : weston_key_state_update) : weston_seat :=
  match update_state with
  | weston_key_state_update.STATE_UPDATE_AUTOMATIC =>
    update_modifier_state env seat (wl_display_get_serial seat) key state
  | weston_key_state_update.STATE_UPDATE_NONE => seat

/-- A key or modifiers message to the keyboard binding of a client. -/
def is_keyboard_client_message : Msg → Bool
  | Msg.wl_keyboard_send_key _ _ _ _ _ => true
  | Msg.wl_keyboard_send_modifiers _ _ _ _ _ _ => true
  | _ => false

/-- A key-binding hook that consumes key 31: it has a binding for that key,
which installs the grab `custom 9`; every other key leaves the grab as it
is. -/
def env_key_binding : Env :=
  { env0 with
    run_key_binding := fun _ _ key _ g => if key = 31 then keyboard_grab.custom 9 else g }

/-! ## Keyboard initialisation -/

/-- The values of `enum wl_seat_capability` of the Wayland protocol. -/
def WL_SEAT_CAPABILITY_POINTER : Nat := 1

def WL_SEAT_CAPABILITY_KEYBOARD : Nat := 2

def WL_SEAT_CAPABILITY_TOUCH : Nat := 4

/-- The function `seat_send_updated_caps`: the capability mask of the devices
that are set goes to every binding of the seat global. -/
def seat_send_updated_caps (seat : weston_seat) : weston_seat :=
  let caps := 0
  let caps := if seat.seat_pointer then caps ||| WL_SEAT_CAPABILITY_POINTER else caps
  let caps := if seat.seat_keyboard then caps ||| WL_SEAT_CAPABILITY_KEYBOARD else caps
  let caps := if seat.seat_touch then caps ||| WL_SEAT_CAPABILITY_TOUCH else caps
  seat.base_resource_list.foldl (fun seat r => send seat (Msg.wl_seat_send_capabilities r caps))
    seat

/-- The function `wl_seat_set_keyboard`.  The argument `keyboard` says whether
the keyboard passed is `&seat->keyboard` (`true`) or `NULL` (`false`). -/
def wl_seat_set_keyboard (seat : weston_seat) (keyboard : Bool) : weston_seat :=
  if keyboard ∧ (seat.seat_keyboard ∨ seat.keyboard.seat) then seat
  else if ¬ keyboard ∧ ¬ seat.seat_keyboard then seat
  else
    let seat := { seat with seat_keyboard := keyboard }
    let seat :=
      if keyboard then { seat with keyboard := { seat.keyboard with seat := true } } else seat
    seat_send_updated_caps seat

/-- The function `weston_xkb_info_new_keymap`, on the record `xkb_info`: the
record as the function leaves it, the lines it logs, and the value returned.
The result is `none` when `xkb_info->keymap` is `NULL`, which the xkb calls
do not accept.  On the failure of `mmap` the file is closed and `keymap_fd`
becomes -1. -/
def weston_xkb_info_new_keymap (env : Env) (xkb_info : weston_xkb_info) :
    Option (weston_xkb_info × List Msg × Int) :=
  match xkb_info.keymap with
  | none => none
  | some keymap =>
    let xkb_info := { xkb_info with
      shift_mod := env.xkb_map_mod_get_index keymap xkb_mod_name.XKB_MOD_NAME_SHIFT,
      caps_mod := env.xkb_map_mod_get_index keymap xkb_mod_name.XKB_MOD_NAME_CAPS,
      ctrl_mod := env.xkb_map_mod_get_index keymap xkb_mod_name.XKB_MOD_NAME_CTRL,
      alt_mod := env.xkb_map_mod_get_index keymap xkb_mod_name.XKB_MOD_NAME_ALT,
      mod2_mod := env.xkb_map_mod_get_index keymap xkb_mod_name.Mod2,
      mod3_mod := env.xkb_map_mod_get_index keymap xkb_mod_name.Mod3,
      super_mod := env.xkb_map_mod_get_index keymap xkb_mod_name.XKB_MOD_NAME_LOGO,
      mod5_mod := env.xkb_map_mod_get_index keymap xkb_mod_name.Mod5,
      num_led := env.xkb_map_led_get_index keymap xkb_led_name.XKB_LED_NAME_NUM,
      caps_led := env.xkb_map_led_get_index keymap xkb_led_name.XKB_LED_NAME_CAPS,
      scroll_led := env.xkb_map_led_get_index keymap xkb_led_name.XKB_LED_NAME_SCROLL }
    match env.xkb_map_get_as_string keymap with
    | none => some (xkb_info, [Msg.weston_log 1412], -1)
    | some keymap_str =>
      let xkb_info := { xkb_info with keymap_size := keymap_str.length + 1 }
      let xkb_info := { xkb_info with
        keymap_fd := env.os_create_anonymous_file xkb_info.keymap_size }
      if xkb_info.keymap_fd < 0 then some (xkb_info, [Msg.weston_log 1419], -1)
      else if env.mmap xkb_info.keymap_size xkb_info.keymap_fd then
        some ({ xkb_info with keymap_area := keymap_area.mapped keymap_str }, [], 0)
      else
        some ({ xkb_info with keymap_area := keymap_area.MAP_FAILED, keymap_fd := -1 },
          [Msg.weston_log 1428], -1)

/-- The function `weston_compositor_build_global_keymap`, on the compositor's
`xkb_info` that the seat reaches. -/
def weston_compositor_build_global_keymap (env : Env) (seat : weston_seat) :
    Option (weston_seat × Int) :=
  if seat.compositor_xkb_info.keymap ≠ none then some (seat, 0)
  else
    let seat := { seat with
      compositor_xkb_info := { seat.compositor_xkb_info with
        keymap := env.xkb_map_new_from_names } }
    if seat.compositor_xkb_info.keymap = none then
      some (send (send seat (Msg.weston_log 1455)) (Msg.weston_log 1456), -1)
    else
      match weston_xkb_info_new_keymap env seat.compositor_xkb_info with
      | none => none
      | some r =>
        let seat := { seat with compositor_xkb_info := r.1, log := seat.log ++ r.2.1 }
        if r.2.2 < 0 then some (seat, -1) else some (seat, 0)

/-- The `if (keymap != NULL) ... else ...` statement of
`weston_seat_init_keyboard`, which gives the seat its keymap: the seat after it
and -1 where the function returns -1 from inside it, 0 otherwise.  `keymap` is
the keymap passed by the caller, `none` for `NULL`; `xkb_map_ref` returns the
keymap it is given. -/
def weston_seat_init_keyboard_keymap (env : Env) (seat : weston_seat)
    (keymap : Option xkb_keymap) : Option (weston_seat × Int) :=
  match keymap with
  | some k =>
    let seat := { seat with xkb_info := { seat.xkb_info with keymap := some k } }
    match weston_xkb_info_new_keymap env seat.xkb_info with
    | none => none
    | some r =>
      let seat := { seat with xkb_info := r.1, log := seat.log ++ r.2.1 }
      if r.2.2 < 0 then some (seat, -1) else some (seat, 0)
  | none =>
    match weston_compositor_build_global_keymap env seat with
    | none => none
    | some r =>
      if r.2 < 0 then some (r.1, -1)
      else some ({ r.1 with xkb_info := r.1.compositor_xkb_info }, 0)

/-- The function `weston_seat_init_keyboard`: the seat as the function leaves
it and the value returned. -/
def weston_seat_init_keyboard (env : Env) (seat : weston_seat) (keymap : Option xkb_keymap) :
    Option (weston_seat × Int) :=
  if seat.has_keyboard then some (seat, 0)
  else
    match weston_seat_init_keyboard_keymap env seat keymap with
    | none => none
    | some r =>
      if r.2 < 0 then some (r.1, -1)
      else
        let seat := r.1
        match seat.xkb_info.keymap with
        | none => none
        | some k =>
          match env.xkb_state_new k with
          | none =>
            some (send { seat with xkb_state_valid := false } (Msg.weston_log 1489), -1)
          | some state =>
            let seat := { seat with xkb_state := state, xkb_state_valid := true }
            let seat := { seat with xkb_leds := 0 }
            let seat := { seat with keyboard := weston_keyboard_init }
            let seat := wl_seat_set_keyboard seat true
            let seat := { seat with has_keyboard := true }
            some (seat, 0)

/-- A capability message to a binding of the seat global. -/
def is_capabilities : Msg → Bool
  | Msg.wl_seat_send_capabilities _ _ => true
  | _ => false

/-- A binding of the seat global by client 7. -/
def binding_seat : wl_resource := { id := 20, client := 7 }

/-- A seat before `weston_seat_init_keyboard`: the pointer is set up, the
keyboard is not, client 7 has bound the seat global, and neither the seat nor
the compositor has a keymap. -/
def seat_no_keyboard : weston_seat :=
  { pointer := weston_pointer_init, seat_keyboard := false, seat_touch := false,
    has_keyboard := false, xkb_state_valid := false, base_resource_list := [binding_seat],
    hotspot_x := 16, hotspot_y := 16 }

/-- A stand-in for the collaborators in which the keymap compiles and is
serialised, and the shared-memory file cannot be mapped. -/
def env_mmap_fails : Env :=
  { env0 with xkb_map_get_as_string := fun _ => some [120, 107, 98], mmap := fun _ _ => false }

/-- A stand-in for the collaborators in which no keymap state can be created. -/
def env_no_state : Env :=
  { env0 with xkb_state_new := fun _ => none }

/-! ## Sequences of key events -/

/-- One call of `notify_key`. -/
structure key_event where
  time : Nat
  key : Nat
  state : wl_keyboard_key_state
  update_state : weston_key_state_update
deriving DecidableEq, Repr

/-- Run one `key_event`. -/
def notify_key_step (env : Env) (seat : weston_seat) (e : key_event) : weston_seat :=
  notify_key env seat e.time e.key e.state e.update_state

/-- Run a sequence of `notify_key` calls, first to last. -/
def notify_key_run (env : Env) (seat : weston_seat) (evs : List key_event) : weston_seat :=
  evs.foldl (notify_key_step env) seat

/-- Whether the most recent event for the key `k` in `evs` was a press: going
through `evs` first to last, every event for `k` replaces the answer, which is
`false` as long as there was no event for `k`. -/
def pressed_after (evs : List key_event) (k : Nat) : Bool :=
  evs.foldl
    (fun pressed e =>
      if e.key = k then decide (e.state = wl_keyboard_key_state.PRESSED) else pressed)
    false

/-- Key 30 down, key 31 down, key 30 up, key 31 down again (a repeat), key 32
down, key 31 up. -/
def typing_events : List key_event :=
  [{ time := 1, key := 30, state := wl_keyboard_key_state.PRESSED,
     update_state := weston_key_state_update.STATE_UPDATE_NONE },
   { time := 2, key := 31, state := wl_keyboard_key_state.PRESSED,
     update_state := weston_key_state_update.STATE_UPDATE_AUTOMATIC },
   { time := 3, key := 30, state := wl_keyboard_key_state.RELEASED,
     update_state := weston_key_state_update.STATE_UPDATE_NONE },
   { time := 4, key := 31, state := wl_keyboard_key_state.PRESSED,
     update_state := weston_key_state_update.STATE_UPDATE_AUTOMATIC },
   { time := 5, key := 32, state := wl_keyboard_key_state.PRESSED,
     update_state := weston_key_state_update.STATE_UPDATE_NONE },
   { time := 6, key := 31, state := wl_keyboard_key_state.RELEASED,
     update_state := weston_key_state_update.STATE_UPDATE_NONE }]

/-! ## Sequences of pointer motion and button events -/

/-- One call of `notify_motion`, `notify_motion_absolute` or `notify_button`. -/
inductive pointer_input_event where
  | motion (time : Nat) (dx dy : Int)
  | motion_absolute (time : Nat) (x y : Int)
  | button (time button : Nat) (state : wl_pointer_button_state)
deriving DecidableEq, Repr

/-- Run one `pointer_input_event`; `none` when the call crashes. -/
def notify_pointer_step (env : Env) (seat : weston_seat) :
    pointer_input_event → Option weston_seat
  | pointer_input_event.motion time dx dy => notify_motion env seat time dx dy
  | pointer_input_event.motion_absolute time x y => notify_motion_absolute env seat time x y
  | pointer_input_event.button time button state =>
    some (notify_button env seat time button state)

/-- Run a sequence of pointer events, first to last; `none` when one of the
calls crashes. -/
def notify_pointer_run (env : Env) : weston_seat → List pointer_input_event → Option weston_seat
  | seat, [] => some seat
  | seat, e :: evs =>
    match notify_pointer_step env seat e with
    | none => none
    | some seat => notify_pointer_run env seat evs

/-- No release of the run arrives when `button_count` is 0. -/
def releases_paired (env : Env) : weston_seat → List pointer_input_event → Bool
  | _, [] => true
  | seat, e :: evs =>
    (match e with
      | pointer_input_event.button _ _ wl_pointer_button_state.RELEASED =>
        decide (seat.pointer.button_count ≠ 0)
      | _ => true) &&
    match notify_pointer_step env seat e with
    | none => true
    | some seat => releases_paired env seat evs

/-- No press of the run arrives when `button_count` is `2^32 - 1`, the largest
value of the 32-bit counter. -/
def presses_counted (env : Env) : weston_seat → List pointer_input_event → Bool
  | _, [] => true
  | seat, e :: evs =>
    (match e with
      | pointer_input_event.button _ _ wl_pointer_button_state.PRESSED =>
        decide (seat.pointer.button_count + 1 < 2 ^ 32)
      | _ => true) &&
    match notify_pointer_step env seat e with
    | none => true
    | some seat => presses_counted env seat evs

/-- The pointer moves onto `surface_a`, the left button goes down, the pointer
moves on with the button held, the button goes up, the pointer moves again. -/
def drag_events : List pointer_input_event :=
  [pointer_input_event.motion_absolute 1 (5 * 256) (5 * 256),
   pointer_input_event.button 2 272 wl_pointer_button_state.PRESSED,
   pointer_input_event.motion 3 (2 * 256) (2 * 256),
   pointer_input_event.button 4 272 wl_pointer_button_state.RELEASED,
   pointer_input_event.motion 5 256 0]

/-- The left button goes down, the pointer moves onto `surface_a` with the
button held, and the button goes down another `2^32 - 1` times without a
release. -/
def wrap_events : List pointer_input_event :=
  pointer_input_event.button 1 272 wl_pointer_button_state.PRESSED ::
  pointer_input_event.motion_absolute 2 (5 * 256) (5 * 256) ::
  List.replicate 4294967295 (pointer_input_event.button 3 272 wl_pointer_button_state.PRESSED)

/-! ## The checks of `pointer_set_cursor` -/

/-- The part of `pointer_set_cursor` that follows the focus, client and serial
checks. -/
def pointer_set_cursor_apply (env : Env) (seat : weston_seat) (surface : Option wl_surface)
    (x y : Int) : Option weston_seat :=
  let configured : Option wl_surface :=
    match surface with
    | some s =>
      if some s ≠ seat.sprite ∧ surface_get_configure seat s ≠ none then some s else none
    | none => none
  match configured with
  | some s => some (send seat (Msg.wl_resource_post_error s))
  | none =>
    let seat := if seat.sprite ≠ none then pointer_unmap_sprite seat else seat
    match surface with
    | none => some seat
    | some s =>
      let seat := surface_set_configure seat s
        (some surface_configure.pointer_cursor_surface_configure)
      let seat := { seat with sprite := some s, hotspot_x := x, hotspot_y := y }
      if s ∈ seat.has_buffer then
        pointer_cursor_surface_configure seat s 0 0 (env.surface_buffer_width s)
          (env.surface_buffer_height s)
      else some seat

/-! ## Rectangular outputs -/

/-- The point `(x, y)` lies in the rectangle `(x, y, width, height)` of the
output. -/
def output_contains (o : weston_output) (x y : Int) : Prop :=
  o.x ≤ x ∧ x < o.x + o.width ∧ o.y ≤ y ∧ y < o.y + o.height

instance (o : weston_output) (x y : Int) : Decidable (output_contains o x y) := by
  unfold output_contains
  infer_instance

/-- A rectangular output: its region is the one box of its rectangle
`(x, y, width, height)`. -/
def output_rectangular (o : weston_output) : Prop :=
  o.region = [{ x1 := o.x, y1 := o.y, x2 := o.x + o.width, y2 := o.y + o.height }]

instance (o : weston_output) : Decidable (output_rectangular o) := by
  unfold output_rectangular
  infer_instance

/-- The last listed output whose region contains the point, if any. -/
def last_output_containing : List weston_output → Int → Int → Option weston_output
  | [], _, _ => none
  | o :: rest, x, y =>
    match last_output_containing rest x y with
    | some p => some p
    | none => if pixman_region32_contains_point o.region x y then some o else none

/-- An output of 1024 by 768 at the origin whose mode is 768 by 1024 (the
output is rotated): `current->height` is 1024. -/
def output_rotated : weston_output :=
  { id := 0, x := 0, y := 0, width := 1024, height := 768, current_height := 1024,
    region := [{ x1 := 0, y1 := 0, x2 := 1024, y2 := 768 }] }

/-- The seat `seat0` with the output `output_rotated`; the pointer is at
`(100, 100)`. -/
def seat_rotated_output : weston_seat :=
  { seat0 with outputs := [output_rotated] }
/-! ## Lemmas on logs -/

theorem enter_at_snoc (log : List Msg) (m : Msg) (i : Nat) (s : wl_surface) (r : wl_resource) :
    enter_at (log ++ [m]) i s r ↔
      (i < log.length ∧ enter_at log i s r) ∨
      (i = log.length ∧ pointer_enter_of m = some (s, r)) := by
  unfold enter_at
  rcases Nat.lt_trichotomy i log.length with h | h | h
  · simp [List.getElem?_append_left, h, Nat.ne_of_lt h]
  · subst h
    simp
  · have h1 : (log ++ [m]).length ≤ i := by simp; omega
    have h2 : log.length ≤ i := by omega
    rw [List.getElem?_eq_none h1]
    simp [Nat.not_lt_of_gt h, Nat.ne_of_gt h]

theorem leave_at_snoc (log : List Msg) (m : Msg) (k : Nat) (r : wl_resource) :
    leave_at (log ++ [m]) k r ↔
      (k < log.length ∧ leave_at log k r) ∨
      (k = log.length ∧ pointer_leave_of m = some r) := by
  unfold leave_at
  rcases Nat.lt_trichotomy k log.length with h | h | h
  · simp [List.getElem?_append_left, h, Nat.ne_of_lt h]
  · subst h
    simp
  · have h1 : (log ++ [m]).length ≤ k := by simp; omega
    have h2 : log.length ≤ k := by omega
    rw [List.getElem?_eq_none h1]
    simp [Nat.not_lt_of_gt h, Nat.ne_of_gt h]

theorem enter_at_lt {log : List Msg} {i : Nat} {s : wl_surface} {r : wl_resource}
    (h : enter_at log i s r) : i < log.length := by
  unfold enter_at at h
  by_contra hc
  have : log.length ≤ i := by omega
  simp [List.getElem?_eq_none, this] at h

theorem leave_at_lt {log : List Msg} {k : Nat} {r : wl_resource}
    (h : leave_at log k r) : k < log.length := by
  unfold leave_at at h
  by_contra hc
  have : log.length ≤ k := by omega
  simp [List.getElem?_eq_none, this] at h

theorem open_pair_snoc (log : List Msg) (m : Msg) (s : wl_surface) (r : wl_resource) :
    open_pair (log ++ [m]) s r ↔
      pointer_enter_of m = some (s, r) ∨
      (open_pair log s r ∧ pointer_leave_of m ≠ some r) := by
  constructor
  · rintro ⟨i, hi, hk⟩
    rcases (enter_at_snoc log m i s r).1 hi with ⟨hlt, he⟩ | ⟨_, he⟩
    · right
      refine ⟨⟨i, he, fun k hik hl => hk k hik ?_⟩, fun hl => hk log.length hlt ?_⟩
      · exact (leave_at_snoc log m k r).2 (Or.inl ⟨leave_at_lt hl, hl⟩)
      · exact (leave_at_snoc log m _ r).2 (Or.inr ⟨rfl, hl⟩)
    · exact Or.inl he
  · rintro (he | ⟨⟨i, hi, hk⟩, hl⟩)
    · refine ⟨log.length, (enter_at_snoc log m _ s r).2 (Or.inr ⟨rfl, he⟩), fun k hik hl => ?_⟩
      rcases (leave_at_snoc log m k r).1 hl with ⟨h1, _⟩ | ⟨h1, _⟩ <;> omega
    · refine ⟨i, (enter_at_snoc log m i s r).2 (Or.inl ⟨enter_at_lt hi, hi⟩), fun k hik hl2 => ?_⟩
      rcases (leave_at_snoc log m k r).1 hl2 with ⟨_, h2⟩ | ⟨_, h2⟩
      · exact hk k hik h2
      · exact hl h2

theorem no_double_enter_snoc (log : List Msg) (m : Msg) (h : no_double_enter log)
    (hm : ∀ s r, pointer_enter_of m = some (s, r) → ¬ open_pair log s r) :
    no_double_enter (log ++ [m]) := by
  intro i j s r hij hi hj
  rcases (enter_at_snoc log m j s r).1 hj with ⟨hjl, hj2⟩ | ⟨hjl, hj2⟩
  · rcases (enter_at_snoc log m i s r).1 hi with ⟨_, hi2⟩ | ⟨hil, _⟩
    · obtain ⟨k, h1, h2, h3⟩ := h i j s r hij hi2 hj2
      exact ⟨k, h1, h2, (leave_at_snoc log m k r).2 (Or.inl ⟨leave_at_lt h3, h3⟩)⟩
    · omega
  · rcases (enter_at_snoc log m i s r).1 hi with ⟨hil, hi2⟩ | ⟨hil, _⟩
    · have hno := hm s r hj2
      by_contra hc
      apply hno
      refine ⟨i, hi2, fun k hik hl => hc ⟨k, hik, ?_, ?_⟩⟩
      · have := leave_at_lt hl
        omega
      · exact (leave_at_snoc log m k r).2 (Or.inl ⟨leave_at_lt hl, hl⟩)
    · omega

/-! ## Lemmas on what a call emits -/

theorem send_keyboard (seat : weston_seat) (m : Msg) : (send seat m).keyboard = seat.keyboard :=
  rfl

theorem send_log (seat : weston_seat) (m : Msg) : (send seat m).log = seat.log ++ [m] :=
  rfl

theorem emits_of_log_eq {P : Msg → Prop} {a b : weston_seat} (h : b.log = a.log) :
    emits P a b :=
  ⟨[], by simp [h], by simp⟩

theorem emits_refl (P : Msg → Prop) (a : weston_seat) : emits P a a :=
  emits_of_log_eq rfl

theorem emits_trans {P : Msg → Prop} {a b c : weston_seat} (h1 : emits P a b)
    (h2 : emits P b c) : emits P a c := by
  obtain ⟨o1, e1, p1⟩ := h1
  obtain ⟨o2, e2, p2⟩ := h2
  refine ⟨o1 ++ o2, by rw [e2, e1, List.append_assoc], fun m hm => ?_⟩
  rcases List.mem_append.1 hm with h | h
  · exact p1 m h
  · exact p2 m h

theorem emits_of_log_snoc {P : Msg → Prop} {a b : weston_seat} (m : Msg)
    (h : b.log = a.log ++ [m]) (hm : P m) : emits P a b :=
  ⟨[m], h, by simpa using hm⟩

theorem emits_send {P : Msg → Prop} (a : weston_seat) (m : Msg) (hm : P m) :
    emits P a (send a m) :=
  emits_of_log_snoc m rfl hm

theorem emits_mono {P Q : Msg → Prop} {a b : weston_seat} (h : emits P a b)
    (hpq : ∀ m, P m → Q m) : emits Q a b := by
  obtain ⟨o, e, p⟩ := h
  exact ⟨o, e, fun m hm => hpq m (p m hm)⟩

/-! ## Lemmas on focus resolution -/

theorem find_resource_for_client_mem {list : List wl_resource} {c : wl_client}
    {r : wl_resource} (h : find_resource_for_client list c = some r) :
    r ∈ list ∧ r.client = c := by
  induction list with
  | nil => simp [find_resource_for_client] at h
  | cons a rest ih =>
    unfold find_resource_for_client at h
    split at h
    · cases h
      simp [*]
    · have := ih h
      simp [this]

theorem find_resource_for_surface_mem {list : List wl_resource} {s : Option wl_surface}
    {r : wl_resource} (h : find_resource_for_surface list s = some r) :
    r ∈ list ∧ ∃ s0, s = some s0 ∧ r.client = s0.client := by
  cases s with
  | none => simp [find_resource_for_surface] at h
  | some s0 =>
    have := find_resource_for_client_mem (by simpa [find_resource_for_surface] using h)
    exact ⟨this.1, s0, rfl, this.2⟩

theorem find_resource_for_client_filter (l : List wl_resource) (r : wl_resource)
    (c : wl_client) (h : ∀ r' ∈ l, r'.client = r.client → r' = r) :
    find_resource_for_client (l.filter (fun x => x ≠ r)) c
      = if c = r.client then none else find_resource_for_client l c := by
  induction l with
  | nil => simp [find_resource_for_client]
  | cons a rest ih =>
    have ih' := ih (fun r' hr' => h r' (by simp [hr']))
    by_cases ha : a = r
    · subst ha
      simp only [List.filter, ne_eq, not_true_eq_false, decide_False]
      rw [ih']
      by_cases hc : c = a.client
      · simp [hc]
      · have : ¬ a.client = c := fun h => hc h.symm
        simp [hc, find_resource_for_client, this]
    · have hac : a.client ≠ r.client := fun hc => ha (h a (by simp) hc)
      simp only [List.filter, ne_eq, ha, not_false_eq_true, decide_True]
      simp only [find_resource_for_client]
      rw [ih']
      by_cases hc : c = r.client
      · subst hc
        simp [hac]
      · simp [hc]

theorem find_resource_ok (list : List wl_resource) (surface : Option wl_surface) :
    focus_resource_ok surface (find_resource_for_surface list surface) := by
  rcases hfind : find_resource_for_surface list surface with _ | r
  · cases surface <;> simp [focus_resource_ok]
  · obtain ⟨_, s0, rfl, hc⟩ := find_resource_for_surface_mem hfind
    exact hc

/-! ## Lemmas on the focus setters -/

theorem weston_pointer_set_focus_frame (seat : weston_seat) (surface : Option wl_surface)
    (sx sy : Int) :
    (weston_pointer_set_focus seat surface sx sy).pointer.resource_list
        = seat.pointer.resource_list ∧
    (weston_pointer_set_focus seat surface sx sy).pointer.focus = surface ∧
    (weston_pointer_set_focus seat surface sx sy).pointer.focus_resource
        = find_resource_for_surface seat.pointer.resource_list surface ∧
    (weston_pointer_set_focus seat surface sx sy).seat_pointer = seat.seat_pointer ∧
    (weston_pointer_set_focus seat surface sx sy).pointer.default_grab_focus = surface ∧
    (weston_pointer_set_focus seat surface sx sy).keyboard = seat.keyboard ∧
    (weston_pointer_set_focus seat surface sx sy).touch = seat.touch ∧
    (weston_pointer_set_focus seat surface sx sy).pointer.button_count
        = seat.pointer.button_count := by
  rcases hfr : seat.pointer.focus_resource with _ | r0 <;>
  by_cases hf : seat.pointer.focus = surface <;>
  rcases hfind : find_resource_for_surface seat.pointer.resource_list surface with _ | r <;>
  rcases hk : seat.seat_keyboard <;>
  rcases hkr : find_resource_for_surface seat.keyboard.resource_list surface with _ | kr <;>
  rcases surface with _ | s <;>
  simp_all [weston_pointer_set_focus, send, wl_display_next_serial] <;>
  split <;> simp_all

theorem weston_pointer_set_focus_listener (seat : weston_seat) (surface : Option wl_surface)
    (sx sy : Int)
    (h : ∀ r, seat.pointer.focus_resource = some r → seat.pointer.focus_listener = some r) :
    ∀ r, (weston_pointer_set_focus seat surface sx sy).pointer.focus_resource = some r →
      (weston_pointer_set_focus seat surface sx sy).pointer.focus_listener = some r := by
  rcases hfr : seat.pointer.focus_resource with _ | r0 <;>
  by_cases hf : seat.pointer.focus = surface <;>
  rcases hfind : find_resource_for_surface seat.pointer.resource_list surface with _ | r <;>
  rcases hk : seat.seat_keyboard <;>
  rcases hkr : find_resource_for_surface seat.keyboard.resource_list surface with _ | kr <;>
  rcases surface with _ | s <;>
  simp_all [weston_pointer_set_focus, send, wl_display_next_serial,
    find_resource_for_surface] <;>
  (try split) <;> simp_all

theorem weston_keyboard_set_focus_frame (seat : weston_seat) (surface : Option wl_surface) :
    (weston_keyboard_set_focus seat surface).keyboard.resource_list
        = seat.keyboard.resource_list ∧
    (weston_keyboard_set_focus seat surface).keyboard.focus = surface ∧
    (weston_keyboard_set_focus seat surface).keyboard.focus_resource
        = find_resource_for_surface seat.keyboard.resource_list surface ∧
    (weston_keyboard_set_focus seat surface).pointer = seat.pointer ∧
    (weston_keyboard_set_focus seat surface).touch = seat.touch := by
  rcases hfr : seat.keyboard.focus_resource with _ | r0 <;>
  by_cases hf : seat.keyboard.focus = surface <;>
  rcases hfind : find_resource_for_surface seat.keyboard.resource_list surface with _ | r <;>
  rcases surface with _ | s <;>
  simp_all [weston_keyboard_set_focus, send, wl_display_next_serial]
  split <;> simp_all

theorem weston_pointer_set_focus_same (seat : weston_seat) (surface : Option wl_surface)
    (sx sy : Int) (hf : seat.pointer.focus = surface)
    (hr : seat.pointer.focus_resource
      = find_resource_for_surface seat.pointer.resource_list surface)
    (hg : seat.pointer.default_grab_focus = surface) :
    weston_pointer_set_focus seat surface sx sy = send seat Msg.pointer_focus_signal := by
  obtain ⟨pointer, _⟩ := seat
  obtain ⟨rl, f, fr, _⟩ := pointer
  simp only at hf hr hg
  subst hg hf
  rcases hfind : find_resource_for_surface rl f with _ | r
  · rw [hfind] at hr
    subst hr
    simp only [weston_pointer_set_focus, send, hfind]
  · rw [hfind] at hr
    subst hr
    rcases f with _ | s
    · simp [find_resource_for_surface] at hfind
    · simp only [weston_pointer_set_focus, send, hfind, ne_eq, not_true_eq_false,
        or_self, if_false]

theorem weston_keyboard_set_focus_same (seat : weston_seat) (surface : Option wl_surface)
    (hf : seat.keyboard.focus = surface)
    (hr : seat.keyboard.focus_resource
      = find_resource_for_surface seat.keyboard.resource_list surface) :
    weston_keyboard_set_focus seat surface = send seat Msg.keyboard_focus_signal := by
  obtain ⟨_, keyboard, _⟩ := seat
  obtain ⟨rl, f, fr, _⟩ := keyboard
  simp only at hf hr
  subst hf
  rcases hfind : find_resource_for_surface rl f with _ | r
  · rw [hfind] at hr
    subst hr
    simp only [weston_keyboard_set_focus, send, hfind]
  · rw [hfind] at hr
    subst hr
    rcases f with _ | s
    · simp [find_resource_for_surface] at hfind
    · simp only [weston_keyboard_set_focus, send, hfind, ne_eq, not_true_eq_false,
        or_self, if_false]

theorem weston_pointer_set_focus_no_binding_log (seat : weston_seat)
    (surface : Option wl_surface) (sx sy : Int)
    (h : find_resource_for_surface seat.pointer.resource_list surface = none) :
    ∃ out, (weston_pointer_set_focus seat surface sx sy).log = seat.log ++ out ∧
      ∀ m ∈ out, pointer_enter_of m = none := by
  rcases hfr : seat.pointer.focus_resource with _ | r0
  · refine ⟨[Msg.pointer_focus_signal], ?_, by simp [pointer_enter_of]⟩
    simp [weston_pointer_set_focus, send, hfr, h]
  · by_cases hf : seat.pointer.focus = surface
    · refine ⟨[Msg.pointer_focus_signal], ?_, by simp [pointer_enter_of]⟩
      simp [weston_pointer_set_focus, send, hfr, h, hf]
    · refine ⟨[Msg.wl_pointer_send_leave r0 ((seat.display_serial + 1) % 2 ^ 32)
        seat.pointer.focus, Msg.pointer_focus_signal], ?_, by simp [pointer_enter_of]⟩
      simp [weston_pointer_set_focus, send, wl_display_next_serial, hfr, h, hf]

theorem touch_set_focus_ok (seat : weston_seat) (surface : Option wl_surface)
    (h : focus_resource_ok seat.touch.focus seat.touch.focus_resource) :
    focus_resource_ok (touch_set_focus seat surface).touch.focus
      (touch_set_focus seat surface).touch.focus_resource := by
  by_cases hf : seat.touch.focus = surface
  · simpa [touch_set_focus, hf] using h
  · rcases surface with _ | s
    · rcases hfr : seat.touch.focus_resource with _ | r0 <;>
        simp [touch_set_focus, hf, hfr, focus_resource_ok]
    · rcases hfind : find_resource_for_surface seat.touch.resource_list (some s) with _ | r
      · rcases hfr : seat.touch.focus_resource with _ | r0 <;>
          simp [touch_set_focus, hf, hfr, hfind, send, focus_resource_ok]
      · have hc := (find_resource_for_client_mem
          (by simpa [find_resource_for_surface] using hfind)).2
        rcases hfr : seat.touch.focus_resource with _ | r0 <;>
          simp [touch_set_focus, hf, hfr, hfind, focus_resource_ok, hc]

theorem touch_set_focus_frame (seat : weston_seat) (surface : Option wl_surface) :
    (touch_set_focus seat surface).pointer = seat.pointer ∧
    (touch_set_focus seat surface).keyboard = seat.keyboard := by
  by_cases hf : seat.touch.focus = surface
  · simp [touch_set_focus, hf]
  · rcases surface with _ | s
    · rcases hfr : seat.touch.focus_resource with _ | r0 <;>
        simp [touch_set_focus, hf, hfr]
    · rcases hfind : find_resource_for_surface seat.touch.resource_list (some s)
        with _ | r <;>
      rcases hfr : seat.touch.focus_resource with _ | r0 <;>
      simp [touch_set_focus, hf, hfr, hfind, send]

/-! ## Lemmas on the log invariant of the pointer focus -/

theorem focus_log_ok_nil (f : Option wl_surface) (fr : Option wl_resource)
    (l d : List wl_resource) : focus_log_ok [] f fr l d := by
  refine ⟨fun i j s r _ hi _ => ?_, fun s r ho => ?_⟩
  · simp [enter_at] at hi
  · obtain ⟨i, hi, _⟩ := ho
    simp [enter_at] at hi

theorem focus_log_ok_not_enter {log : List Msg} {f : Option wl_surface}
    {fr : Option wl_resource} {l d : List wl_resource} (m : Msg)
    (h : focus_log_ok log f fr l d) (he : pointer_enter_of m = none) :
    focus_log_ok (log ++ [m]) f fr l d := by
  refine ⟨no_double_enter_snoc log m h.1 (by simp [he]), fun s r ho => ?_⟩
  rcases (open_pair_snoc log m s r).1 ho with h1 | ⟨h1, _⟩
  · simp [he] at h1
  · exact h.2 s r h1

theorem focus_log_ok_leave {log : List Msg} {f : Option wl_surface} {r0 : wl_resource}
    {l d : List wl_resource} (serial : Nat) (x f' : Option wl_surface)
    (h : focus_log_ok log f (some r0) l d) :
    focus_log_ok (log ++ [Msg.wl_pointer_send_leave r0 serial x]) f' none l d := by
  refine ⟨no_double_enter_snoc log _ h.1 (by simp [pointer_enter_of]), fun s r ho => ?_⟩
  rcases (open_pair_snoc log _ s r).1 ho with h1 | ⟨h1, h2⟩
  · simp [pointer_enter_of] at h1
  · have hr : r0 ≠ r := by simpa [pointer_leave_of] using h2
    obtain ⟨h3, h4⟩ := h.2 s r h1
    refine ⟨Or.inr ?_, h4⟩
    rcases h3 with ⟨_, h5⟩ | h5
    · exact absurd (Option.some.inj h5) hr
    · exact h5

theorem focus_log_ok_enter {log : List Msg} {f : Option wl_surface}
    {fr : Option wl_resource} {l d : List wl_resource} (serial : Nat) (sx sy : Int)
    {s : wl_surface} {r : wl_resource}
    (h : focus_log_ok log f fr l d)
    (hfind : find_resource_for_surface l (some s) = some r)
    (hchg : f ≠ some s ∨ fr ≠ some r) (hnl : fr = none ∨ f = some s) :
    focus_log_ok (log ++ [Msg.wl_pointer_send_enter r serial s sx sy])
      (some s) (some r) l d := by
  refine ⟨no_double_enter_snoc log _ h.1 ?_, fun s1 r1 ho => ?_⟩
  · intro s1 r1 he ho
    simp only [pointer_enter_of, Option.some.injEq, Prod.mk.injEq] at he
    obtain ⟨rfl, rfl⟩ := he
    rcases (h.2 _ _ ho).1 with ⟨h1, h2⟩ | h1
    · rcases hchg with h3 | h3
      · exact h3 h1
      · exact h3 h2
    · exact h1 hfind
  · rcases (open_pair_snoc log _ s1 r1).1 ho with h1 | ⟨h1, _⟩
    · simp only [pointer_enter_of, Option.some.injEq, Prod.mk.injEq] at h1
      obtain ⟨rfl, rfl⟩ := h1
      exact ⟨Or.inl ⟨rfl, rfl⟩, Or.inl (find_resource_for_surface_mem hfind).1⟩
    · obtain ⟨h3, h4⟩ := h.2 s1 r1 h1
      refine ⟨?_, h4⟩
      rcases h3 with ⟨h5, h6⟩ | h5
      · have hs : s = s1 := by
          rcases hnl with h7 | h7
          · simp [h7] at h6
          · rw [h7] at h5
            exact Option.some.inj h5
        subst hs
        by_cases hr : r = r1
        · exact Or.inl ⟨rfl, by rw [hr]⟩
        · right
          rw [hfind]
          simpa using hr
      · exact Or.inr h5

theorem focus_log_ok_refocus {log : List Msg} {f : Option wl_surface}
    {fr : Option wl_resource} {l d : List wl_resource} (f' : Option wl_surface)
    (h : focus_log_ok log f fr l d) (hnl : fr = none ∨ f = f') :
    focus_log_ok log f' (find_resource_for_surface l f') l d := by
  refine ⟨h.1, fun s r ho => ?_⟩
  obtain ⟨h3, h4⟩ := h.2 s r ho
  refine ⟨?_, h4⟩
  rcases h3 with ⟨h5, h6⟩ | h5
  · have hs : f' = some s := by
      rcases hnl with h7 | h7
      · simp [h7] at h6
      · rw [← h7, h5]
    by_cases hr : find_resource_for_surface l (some s) = some r
    · exact Or.inl ⟨hs, by rw [hs, hr]⟩
    · exact Or.inr hr
  · exact Or.inr h5

theorem focus_log_ok_not_enter_list {log : List Msg} {f : Option wl_surface}
    {fr : Option wl_resource} {l d : List wl_resource} (ms : List Msg)
    (h : focus_log_ok log f fr l d) (he : ∀ m ∈ ms, pointer_enter_of m = none) :
    focus_log_ok (log ++ ms) f fr l d := by
  induction ms generalizing log with
  | nil => simpa using h
  | cons m ms ih =>
    rw [List.append_cons]
    exact ih (focus_log_ok_not_enter m h (he m (by simp)))
      (fun m' hm' => he m' (by simp [hm']))

theorem focus_log_ok_signal {log : List Msg} {f : Option wl_surface}
    {fr : Option wl_resource} {l d : List wl_resource} (f' : Option wl_surface)
    (h : focus_log_ok log f fr l d) (hnl : fr = none ∨ f = f') :
    focus_log_ok (log ++ [Msg.pointer_focus_signal]) f'
      (find_resource_for_surface l f') l d :=
  focus_log_ok_not_enter _ (focus_log_ok_refocus f' h hnl) rfl

theorem focus_log_ok_enter_signal {log : List Msg} {f : Option wl_surface}
    {fr : Option wl_resource} {l d : List wl_resource} (mods : List Msg)
    (serial : Nat) (sx sy : Int) {s : wl_surface} {r : wl_resource}
    (h : focus_log_ok log f fr l d)
    (hmods : ∀ m ∈ mods, pointer_enter_of m = none)
    (hfind : find_resource_for_surface l (some s) = some r)
    (hchg : f ≠ some s ∨ fr ≠ some r) (hnl : fr = none ∨ f = some s) :
    focus_log_ok
      (log ++ (mods ++ [Msg.wl_pointer_send_enter r serial s sx sy, Msg.pointer_focus_signal]))
      (some s) (some r) l d := by
  have h1 := focus_log_ok_not_enter_list mods h hmods
  have h2 := focus_log_ok_enter serial sx sy h1 hfind hchg hnl
  have h3 := focus_log_ok_not_enter Msg.pointer_focus_signal h2 rfl
  simpa using h3

theorem focus_log_ok_leave_enter_signal {log : List Msg} {f : Option wl_surface}
    {r0 : wl_resource} {l d : List wl_resource} (mods : List Msg)
    (serial0 serial : Nat) (x : Option wl_surface) (sx sy : Int) {s : wl_surface}
    {r : wl_resource}
    (h : focus_log_ok log f (some r0) l d)
    (hmods : ∀ m ∈ mods, pointer_enter_of m = none)
    (hfind : find_resource_for_surface l (some s) = some r) :
    focus_log_ok
      (log ++ (Msg.wl_pointer_send_leave r0 serial0 x ::
        (mods ++ [Msg.wl_pointer_send_enter r serial s sx sy, Msg.pointer_focus_signal])))
      (some s) (some r) l d := by
  have h1 := focus_log_ok_leave serial0 x f h
  have h2 := focus_log_ok_enter_signal mods serial sx sy h1 hmods hfind
    (Or.inr (by simp)) (Or.inl rfl)
  simpa using h2

theorem focus_log_ok_leave_signal {log : List Msg} {f : Option wl_surface}
    {r0 : wl_resource} {l d : List wl_resource}
    (serial0 : Nat) (x f' : Option wl_surface)
    (h : focus_log_ok log f (some r0) l d) :
    focus_log_ok
      (log ++ [Msg.wl_pointer_send_leave r0 serial0 x, Msg.pointer_focus_signal])
      f' (find_resource_for_surface l f') l d := by
  have h1 := focus_log_ok_leave serial0 x f h
  have h2 := focus_log_ok_signal f' h1 (Or.inl rfl)
  simpa using h2

theorem weston_pointer_set_focus_ok (seat : weston_seat) (surface : Option wl_surface)
    (sx sy : Int) (d : List wl_resource)
    (h : focus_log_ok seat.log seat.pointer.focus seat.pointer.focus_resource
      seat.pointer.resource_list d) :
    focus_log_ok (weston_pointer_set_focus seat surface sx sy).log surface
      (find_resource_for_surface seat.pointer.resource_list surface)
      seat.pointer.resource_list d := by
  rcases hfr : seat.pointer.focus_resource with _ | r0
  · rw [hfr] at h
    rcases hfind : find_resource_for_surface seat.pointer.resource_list surface with _ | r
    · simp only [weston_pointer_set_focus, send, wl_display_next_serial, hfr, hfind]
      rw [← hfind]
      exact focus_log_ok_signal surface h (Or.inl rfl)
    · rcases surface with _ | s
      · simp [find_resource_for_surface] at hfind
      · rcases hk : seat.seat_keyboard
        · simp [weston_pointer_set_focus, send, wl_display_next_serial, hfr, hfind, hk]
          exact focus_log_ok_enter_signal [] _ sx sy h (by simp) hfind (Or.inr (by simp))
            (Or.inl rfl)
        · rcases hkr : find_resource_for_surface seat.keyboard.resource_list (some s)
            with _ | kr
          · simp [weston_pointer_set_focus, send, wl_display_next_serial, hfr, hfind, hk, hkr]
            exact focus_log_ok_enter_signal [] _ sx sy h (by simp) hfind (Or.inr (by simp))
              (Or.inl rfl)
          · simp [weston_pointer_set_focus, send, wl_display_next_serial, hfr, hfind, hk, hkr]
            exact focus_log_ok_enter_signal [_] _ sx sy h (by simp [pointer_enter_of]) hfind
              (Or.inr (by simp)) (Or.inl rfl)
  · rw [hfr] at h
    by_cases hf : seat.pointer.focus = surface
    · rcases hfind : find_resource_for_surface seat.pointer.resource_list surface with _ | r
      · simp [weston_pointer_set_focus, send, wl_display_next_serial, hfr, hfind, hf]
        rw [← hfind]
        exact focus_log_ok_signal surface h (Or.inr hf)
      · rcases surface with _ | s
        · simp [find_resource_for_surface] at hfind
        · by_cases hr : r0 = r
          · subst hr
            simp [weston_pointer_set_focus, send, wl_display_next_serial, hfr, hfind, hf]
            rw [← hfind]
            exact focus_log_ok_signal (some s) h (Or.inr hf)
          · rcases hk : seat.seat_keyboard
            · simp [weston_pointer_set_focus, send, wl_display_next_serial, hfr, hfind, hk, hf,
                hr]
              exact focus_log_ok_enter_signal [] _ sx sy h (by simp) hfind
                (Or.inr (by simpa using hr)) (Or.inr hf)
            · rcases hkr : find_resource_for_surface seat.keyboard.resource_list (some s)
                with _ | kr
              · simp [weston_pointer_set_focus, send, wl_display_next_serial, hfr, hfind, hk,
                  hkr, hf, hr]
                exact focus_log_ok_enter_signal [] _ sx sy h (by simp) hfind
                  (Or.inr (by simpa using hr)) (Or.inr hf)
              · simp [weston_pointer_set_focus, send, wl_display_next_serial, hfr, hfind, hk,
                  hkr, hf, hr]
                exact focus_log_ok_enter_signal [_] _ sx sy h (by simp [pointer_enter_of])
                  hfind (Or.inr (by simpa using hr)) (Or.inr hf)
    · rcases hfind : find_resource_for_surface seat.pointer.resource_list surface with _ | r
      · simp [weston_pointer_set_focus, send, wl_display_next_serial, hfr, hfind, hf]
        rw [← hfind]
        exact focus_log_ok_leave_signal _ _ surface h
      · rcases surface with _ | s
        · simp [find_resource_for_surface] at hfind
        · rcases hk : seat.seat_keyboard
          · simp [weston_pointer_set_focus, send, wl_display_next_serial, hfr, hfind, hk, hf]
            exact focus_log_ok_leave_enter_signal [] _ _ _ sx sy h (by simp) hfind
          · rcases hkr : find_resource_for_surface seat.keyboard.resource_list (some s)
              with _ | kr
            · simp [weston_pointer_set_focus, send, wl_display_next_serial, hfr, hfind, hk,
                hkr, hf]
              exact focus_log_ok_leave_enter_signal [] _ _ _ sx sy h (by simp) hfind
            · simp [weston_pointer_set_focus, send, wl_display_next_serial, hfr, hfind, hk,
                hkr, hf]
              exact focus_log_ok_leave_enter_signal [_] _ _ _ sx sy h
                (by simp [pointer_enter_of]) hfind

theorem weston_pointer_set_focus_inv (seat : weston_seat) (surface : Option wl_surface)
    (sx sy : Int) (d : List wl_resource) (h : pointer_inv d seat) :
    pointer_inv d (weston_pointer_set_focus seat surface sx sy) := by
  obtain ⟨h1, h2, h3⟩ := h
  obtain ⟨f1, f2, f3, _⟩ := weston_pointer_set_focus_frame seat surface sx sy
  refine ⟨?_, ?_, weston_pointer_set_focus_listener seat surface sx sy h3⟩
  · rw [f1, f2, f3]
    exact weston_pointer_set_focus_ok seat surface sx sy d h1
  · rw [f1]
    exact h2

theorem focus_log_ok_cons {log : List Msg} {f : Option wl_surface}
    {fr : Option wl_resource} {l d : List wl_resource} (cr : wl_resource)
    (h : focus_log_ok log f fr l d) (hl : cr ∉ l) (hd : cr ∉ d) :
    focus_log_ok log f fr (cr :: l) d := by
  refine ⟨h.1, fun s r ho => ?_⟩
  obtain ⟨h3, h4⟩ := h.2 s r ho
  have hne : cr ≠ r := by
    rintro rfl
    rcases h4 with h5 | h5
    · exact hl h5
    · exact hd h5
  refine ⟨?_, by simp [h4, or_assoc]⟩
  rcases h3 with h5 | h5
  · exact Or.inl h5
  · right
    simp only [find_resource_for_surface, find_resource_for_client] at h5 ⊢
    split
    · simpa using hne
    · exact h5

theorem seat_get_pointer_inv (env : Env) (seat : weston_seat) (cr : wl_resource)
    (d : List wl_resource) (h : pointer_inv d seat)
    (hl : cr ∉ seat.pointer.resource_list) (hd : cr ∉ d) :
    pointer_inv d (seat_get_pointer env seat cr) := by
  obtain ⟨h1, h2, h3⟩ := h
  have hmid : pointer_inv d { seat with pointer :=
      { seat.pointer with resource_list := cr :: seat.pointer.resource_list } } := by
    refine ⟨focus_log_ok_cons cr h1 hl hd, fun r hr => ?_, h3⟩
    simp only [List.mem_cons, not_or]
    exact ⟨fun hc => hd (hc ▸ hr), h2 r hr⟩
  unfold seat_get_pointer
  split
  · exact ⟨h1, h2, h3⟩
  · simp only []
    split
    · split
      · exact weston_pointer_set_focus_inv _ _ _ _ d hmid
      · exact hmid
    · exact hmid

theorem destroy_pointer_resource_inv (seat : weston_seat) (resource : wl_resource)
    (d : List wl_resource) (h : pointer_inv d seat)
    (hu : ∀ r ∈ seat.pointer.resource_list, r.client = resource.client → r = resource) :
    pointer_inv (resource :: d) (destroy_pointer_resource seat resource) := by
  obtain ⟨h1, h2, h3⟩ := h
  have hfind : ∀ (s : wl_surface) (r : wl_resource),
      find_resource_for_surface seat.pointer.resource_list (some s) ≠ some r →
      find_resource_for_surface
        (seat.pointer.resource_list.filter (fun x => x ≠ resource)) (some s) ≠ some r := by
    intro s r hne
    simp only [find_resource_for_surface] at hne ⊢
    rw [find_resource_for_client_filter _ _ _ hu]
    split
    · simp
    · exact hne
  have hmem : ∀ r, r ∈ seat.pointer.resource_list ∨ r ∈ d →
      r ∈ seat.pointer.resource_list.filter (fun x => x ≠ resource) ∨ r ∈ resource :: d := by
    intro r hr
    by_cases hre : r = resource
    · right; simp [hre]
    · rcases hr with hr | hr
      · left; simp [hr, hre]
      · right; simp [hr]
  have hdead : ∀ r ∈ resource :: d,
      r ∉ seat.pointer.resource_list.filter (fun x => x ≠ resource) := by
    intro r hr hc
    simp only [List.mem_filter, ne_eq, decide_not, Bool.not_eq_true', decide_eq_false_iff_not]
      at hc
    rcases List.mem_cons.1 hr with h4 | h4
    · exact hc.2 h4
    · exact h2 r h4 hc.1
  unfold destroy_pointer_resource
  by_cases hl : seat.pointer.focus_listener = some resource
  · simp only [hl, if_true, lose_pointer_focus, unbind_pointer_resource]
    refine ⟨⟨h1.1, fun s r ho => ?_⟩, hdead, by simp⟩
    obtain ⟨h5, h6⟩ := h1.2 s r ho
    refine ⟨Or.inr ?_, hmem r h6⟩
    rcases h5 with ⟨_, h7⟩ | h7
    · have : r = resource := by
        have := h3 r h7
        rw [hl] at this
        exact (Option.some.inj this).symm
      subst this
      intro hc
      have := (find_resource_for_surface_mem hc).1
      simp at this
    · exact hfind s r h7
  · simp only [hl, if_false, unbind_pointer_resource]
    refine ⟨⟨h1.1, fun s r ho => ?_⟩, hdead, h3⟩
    obtain ⟨h5, h6⟩ := h1.2 s r ho
    refine ⟨?_, hmem r h6⟩
    rcases h5 with h7 | h7
    · exact Or.inl h7
    · exact Or.inr (hfind s r h7)

theorem pointer_run_inv (env : Env) (evs : List pointer_event) :
    ∀ (d : List wl_resource) (seat : weston_seat), pointer_inv d seat →
      pointer_events_ok env d seat evs = true →
      ∃ d', pointer_inv d' (pointer_run env seat evs) := by
  induction evs with
  | nil => exact fun d seat h _ => ⟨d, h⟩
  | cons ev evs ih =>
    intro d seat h hok
    cases ev with
    | set_focus surface sx sy =>
      simp only [pointer_events_ok] at hok
      exact ih d _ (weston_pointer_set_focus_inv seat surface sx sy d h) hok
    | get_pointer cr =>
      simp only [pointer_events_ok, Bool.and_eq_true, decide_eq_true_eq] at hok
      exact ih d _ (seat_get_pointer_inv env seat cr d h hok.1.1 hok.1.2) hok.2
    | destroy resource =>
      simp only [pointer_events_ok, Bool.and_eq_true, decide_eq_true_eq] at hok
      exact ih _ _ (destroy_pointer_resource_inv seat resource d h hok.1) hok.2

/-! ## Lemmas on key events -/

theorem notify_key_scan_not_found (key : Nat) (state : wl_keyboard_key_state) :
    ∀ (fuel : Nat) (data : List Nat) (k end_ : Nat),
      (∀ i, k ≤ i → i < end_ → data.getD i 0 ≠ key) →
      notify_key_scan key state fuel data k end_ = some (data, end_) := by
  intro fuel
  induction fuel with
  | zero => intro data k end_ _; rfl
  | succ n ih =>
    intro data k end_ h
    unfold notify_key_scan
    split
    · rename_i hk
      rw [if_neg (h k (Nat.le_refl k) hk)]
      exact ih data (k + 1) end_ (fun i hi => h i (by omega))
    · rfl

theorem getD_ne_of_not_mem {keys : List Nat} {key : Nat} (h : key ∉ keys) (i : Nat)
    (hi : i < keys.length) : keys.getD i 0 ≠ key := by
  intro hc
  apply h
  rw [← hc, List.getD_eq_getElem keys 0 hi]
  exact List.getElem_mem hi

theorem notify_key_scan_pressed_found (key : Nat) :
    ∀ (fuel : Nat) (data : List Nat) (k end_ i : Nat),
      k ≤ i → i < end_ → end_ ≤ k + fuel → data.getD i 0 = key →
      notify_key_scan key wl_keyboard_key_state.PRESSED fuel data k end_ = none := by
  intro fuel
  induction fuel with
  | zero => intro data k end_ i h1 h2 h3 _; omega
  | succ n ih =>
    intro data k end_ i h1 h2 h3 h4
    unfold notify_key_scan
    have hk : k < end_ := by omega
    rw [if_pos hk]
    by_cases hd : data.getD k 0 = key
    · rw [if_pos hd, if_pos rfl]
    · rw [if_neg hd]
      have hne : k ≠ i := fun hki => hd (hki ▸ h4)
      exact ih data (k + 1) end_ i (by omega) h2 (by omega) h4

theorem notify_key_scan_pressed_mem {keys : List Nat} {key : Nat} (h : key ∈ keys) :
    notify_key_scan key wl_keyboard_key_state.PRESSED keys.length keys 0 keys.length
      = none := by
  obtain ⟨i, hi, hget⟩ := List.getElem_of_mem h
  refine notify_key_scan_pressed_found key keys.length keys 0 keys.length i (Nat.zero_le _)
    hi (by omega) ?_
  rw [List.getD_eq_getElem keys 0 hi]
  exact hget

theorem notify_key_scan_released (key : Nat) :
    ∀ (fuel : Nat) (data : List Nat) (k end_ : Nat),
      ∃ res, notify_key_scan key wl_keyboard_key_state.RELEASED fuel data k end_
        = some res := by
  intro fuel
  induction fuel with
  | zero => intro data k end_; exact ⟨_, rfl⟩
  | succ n ih =>
    intro data k end_
    unfold notify_key_scan
    split
    · split
      · rw [if_neg (by decide)]
        exact ih _ _ _
      · exact ih _ _ _
    · exact ⟨_, rfl⟩

theorem notify_key_scan_fuel (key : Nat) (state : wl_keyboard_key_state) :
    ∀ (fuel extra : Nat) (data : List Nat) (k end_ : Nat), end_ ≤ k + fuel →
      notify_key_scan key state (fuel + extra) data k end_
        = notify_key_scan key state fuel data k end_ := by
  intro fuel
  induction fuel with
  | zero =>
    intro extra data k end_ h
    cases extra with
    | zero => rfl
    | succ e =>
      simp only [Nat.zero_add]
      unfold notify_key_scan
      rw [if_neg (by omega)]
  | succ n ih =>
    intro extra data k end_ h
    have : n + 1 + extra = (n + extra) + 1 := by omega
    rw [this]
    unfold notify_key_scan
    split
    · split
      · split
        · rfl
        · exact ih extra _ (k + 1) (end_ - 1) (by omega)
      · exact ih extra _ (k + 1) end_ (by omega)
    · rfl

theorem default_grab_key_keyboard (seat : weston_seat) (time key : Nat)
    (state : wl_keyboard_key_state) :
    (default_grab_key seat time key state).keyboard = seat.keyboard := by
  unfold default_grab_key
  split <;> simp [send, wl_display_next_serial]

theorem keyboard_grab_interface_key_keyboard (seat : weston_seat) (grab : keyboard_grab)
    (time key : Nat) (state : wl_keyboard_key_state) :
    (keyboard_grab_interface_key seat grab time key state).keyboard = seat.keyboard := by
  unfold keyboard_grab_interface_key
  split
  · exact default_grab_key_keyboard seat time key state
  · simp [send]

theorem default_grab_modifiers_keyboard (seat : weston_seat) (a b c d e : Nat) :
    (default_grab_modifiers seat a b c d e).keyboard = seat.keyboard := by
  unfold default_grab_modifiers
  split
  · rfl
  · simp only [send]
    split
    · split <;> rfl
    · rfl

theorem keyboard_grab_interface_modifiers_keyboard (seat : weston_seat)
    (grab : keyboard_grab) (a b c d e : Nat) :
    (keyboard_grab_interface_modifiers seat grab a b c d e).keyboard = seat.keyboard := by
  unfold keyboard_grab_interface_modifiers
  split
  · exact default_grab_modifiers_keyboard seat a b c d e
  · simp [send]

theorem notify_modifiers_keyboard (env : Env) (seat : weston_seat) (serial : Nat) :
    (notify_modifiers env seat serial).keyboard =
      { seat.keyboard with modifiers :=
          { mods_depressed := seat.xkb_state.mods_depressed,
            mods_latched := seat.xkb_state.mods_latched,
            mods_locked := seat.xkb_state.mods_locked,
            group := seat.xkb_state.group } } := by
  simp only [notify_modifiers, apply_ite weston_seat.keyboard,
    keyboard_grab_interface_modifiers_keyboard, send, ite_self]

theorem update_modifier_state_keyboard (env : Env) (seat : weston_seat) (serial key : Nat)
    (state : wl_keyboard_key_state) :
    (update_modifier_state env seat serial key state).keyboard.keys = seat.keyboard.keys ∧
    (update_modifier_state env seat serial key state).keyboard.grab = seat.keyboard.grab ∧
    (update_modifier_state env seat serial key state).keyboard.focus
      = seat.keyboard.focus ∧
    (update_modifier_state env seat serial key state).keyboard.focus_resource
      = seat.keyboard.focus_resource := by
  unfold update_modifier_state
  simp [notify_modifiers_keyboard, send]

theorem default_grab_modifiers_emits (seat : weston_seat) (a b c d e : Nat) :
    emits (fun m => is_key_dispatch m = false) seat
      (default_grab_modifiers seat a b c d e) := by
  unfold default_grab_modifiers
  split
  · exact emits_refl _ _
  · simp only []
    split
    · split
      · exact emits_trans (emits_send _ _ (by rfl)) (emits_send _ _ (by rfl))
      · exact emits_send _ _ (by rfl)
    · exact emits_send _ _ (by rfl)

theorem keyboard_grab_interface_modifiers_emits (seat : weston_seat) (grab : keyboard_grab)
    (a b c d e : Nat) :
    emits (fun m => is_key_dispatch m = false) seat
      (keyboard_grab_interface_modifiers seat grab a b c d e) := by
  unfold keyboard_grab_interface_modifiers
  split
  · exact default_grab_modifiers_emits seat a b c d e
  · exact emits_send _ _ (by rfl)

theorem notify_modifiers_emits (env : Env) (seat : weston_seat) (serial : Nat) :
    emits (fun m => is_key_dispatch m = false) seat (notify_modifiers env seat serial) := by
  by_cases hled : notify_modifiers_leds env seat.xkb_info seat.xkb_state ≠ seat.xkb_leds ∧
      seat.has_led_update = true <;>
  by_cases hch : (seat.xkb_state.mods_depressed ≠ seat.keyboard.modifiers.mods_depressed ∨
      seat.xkb_state.mods_latched ≠ seat.keyboard.modifiers.mods_latched ∨
      seat.xkb_state.mods_locked ≠ seat.keyboard.modifiers.mods_locked ∨
      seat.xkb_state.group ≠ seat.keyboard.modifiers.group) <;>
  simp only [notify_modifiers, hled, hch, send, if_true, if_false, decide_True, decide_False,
    not_false_eq_true, and_self, ne_eq]
  · exact emits_trans (emits_of_log_snoc _ rfl (by rfl))
      (keyboard_grab_interface_modifiers_emits _ _ _ _ _ _ _)
  · exact emits_of_log_snoc _ rfl (by rfl)
  · exact emits_trans (emits_of_log_eq rfl)
      (keyboard_grab_interface_modifiers_emits _ _ _ _ _ _ _)
  · exact emits_of_log_eq rfl

theorem update_modifier_state_emits (env : Env) (seat : weston_seat) (serial key : Nat)
    (state : wl_keyboard_key_state) :
    emits (fun m => is_key_dispatch m = false) seat
      (update_modifier_state env seat serial key state) := by
  unfold update_modifier_state
  exact emits_trans
    (emits_trans (emits_send seat (Msg.xkb_state_update_key _ _) (by rfl))
      (emits_of_log_eq (by rfl)))
    (notify_modifiers_emits env _ serial)

theorem update_modifier_state_after (env : Env) (S : weston_seat) (serial key : Nat)
    (state : wl_keyboard_key_state) (base pre : List Msg) (g : keyboard_grab)
    (fr : Option wl_resource) (hlog : S.log = base ++ pre) (hg : S.keyboard.grab = g)
    (hfr : S.keyboard.focus_resource = fr) :
    (∃ out, (update_modifier_state env S serial key state).log = base ++ (pre ++ out) ∧
      ∀ m ∈ out, is_key_dispatch m = false) ∧
    (update_modifier_state env S serial key state).keyboard.grab = g ∧
    (update_modifier_state env S serial key state).keyboard.focus_resource = fr := by
  obtain ⟨out, h1, h2⟩ := update_modifier_state_emits env S serial key state
  obtain ⟨_, k2, _, k4⟩ := update_modifier_state_keyboard env S serial key state
  exact ⟨⟨out, by rw [h1, hlog, List.append_assoc], h2⟩, by rw [k2, hg], by rw [k4, hfr]⟩

theorem notify_key_pressed_repeat (env : Env) (seat : weston_seat) (time key : Nat)
    (update_state : weston_key_state_update) (h : key ∈ seat.keyboard.keys) :
    (notify_key env seat time key wl_keyboard_key_state.PRESSED update_state).keyboard.keys
      = seat.keyboard.keys ∧
    (notify_key env seat time key wl_keyboard_key_state.PRESSED update_state).keyboard.grab
      = seat.keyboard.grab ∧
    emits (fun m => ∃ f serial, m = Msg.ping_handler f serial) seat
      (notify_key env seat time key wl_keyboard_key_state.PRESSED update_state) := by
  have hscan := notify_key_scan_pressed_mem h
  rcases hp : seat.has_ping_handler <;> rcases hf : seat.keyboard.focus with _ | f <;>
  simp only [notify_key, wl_display_next_serial, weston_compositor_idle_inhibit, hp, hf,
    hscan, send] <;>
  refine ⟨trivial, trivial, ?_⟩
  · exact emits_of_log_eq rfl
  · exact emits_of_log_eq rfl
  · exact emits_of_log_eq rfl
  · exact emits_of_log_snoc _ rfl ⟨_, _, rfl⟩

theorem notify_key_release_default (env : Env) (seat : weston_seat) (time key : Nat)
    (update_state : weston_key_state_update) (r : wl_resource)
    (hgrab : seat.keyboard.grab = keyboard_grab.default_grab)
    (hfocus : seat.keyboard.focus_resource = some r)
    (hhook : env.run_key_binding seat.modifier_state time key
      wl_keyboard_key_state.RELEASED keyboard_grab.default_grab = keyboard_grab.default_grab) :
    (∃ out,
      (notify_key env seat time key wl_keyboard_key_state.RELEASED update_state).log
        = seat.log ++ ([Msg.run_key_binding time key wl_keyboard_key_state.RELEASED,
            Msg.wl_keyboard_send_key r (((seat.display_serial + 1) % 2 ^ 32 + 1) % 2 ^ 32)
              time key wl_keyboard_key_state.RELEASED] ++ out) ∧
      ∀ m ∈ out, is_key_dispatch m = false) ∧
    (notify_key env seat time key wl_keyboard_key_state.RELEASED update_state).keyboard.grab
      = keyboard_grab.default_grab ∧
    (notify_key env seat time key
      wl_keyboard_key_state.RELEASED update_state).keyboard.focus_resource = some r := by
  obtain ⟨⟨data, end_⟩, hscan⟩ := notify_key_scan_released key seat.keyboard.keys.length
    seat.keyboard.keys 0 seat.keyboard.keys.length
  cases update_state
  · simp only [notify_key, wl_display_next_serial, weston_compositor_idle_release, hscan,
      hgrab, hhook, send, true_or, if_true, keyboard_grab_interface_key, default_grab_key,
      hfocus, wl_display_get_serial]
    exact update_modifier_state_after env _ _ _ _ seat.log _ _ _ (by simp) rfl rfl
  · simp only [notify_key, wl_display_next_serial, weston_compositor_idle_release, hscan,
      hgrab, hhook, send, true_or, if_true, keyboard_grab_interface_key, default_grab_key,
      hfocus]
    exact ⟨⟨[], by simp, by simp⟩, trivial, trivial⟩

theorem notify_key_press_custom (env : Env) (seat : weston_seat) (time key n : Nat)
    (update_state : weston_key_state_update)
    (hgrab : seat.keyboard.grab = keyboard_grab.custom n)
    (h : key ∉ seat.keyboard.keys) :
    ∃ pre post,
      (notify_key env seat time key wl_keyboard_key_state.PRESSED update_state).log
        = seat.log ++ (pre ++ [Msg.keyboard_grab_key (keyboard_grab.custom n) time key
            wl_keyboard_key_state.PRESSED] ++ post) ∧
      (∀ m ∈ pre, is_key_dispatch m = false) ∧ (∀ m ∈ post, is_key_dispatch m = false) := by
  have hscan := notify_key_scan_not_found key wl_keyboard_key_state.PRESSED
    seat.keyboard.keys.length seat.keyboard.keys 0 seat.keyboard.keys.length
    (fun i _ hi => getD_ne_of_not_mem h i hi)
  have hmain : ∀ (pings : List Msg) (S : weston_seat), S.log = seat.log ++ pings →
      (∀ m ∈ pings, is_key_dispatch m = false) →
      ∃ pre post,
        (match update_state with
          | weston_key_state_update.STATE_UPDATE_AUTOMATIC =>
            update_modifier_state env
              (send S (Msg.keyboard_grab_key (keyboard_grab.custom n) time key
                wl_keyboard_key_state.PRESSED))
              (wl_display_get_serial (send S (Msg.keyboard_grab_key (keyboard_grab.custom n)
                time key wl_keyboard_key_state.PRESSED))) key wl_keyboard_key_state.PRESSED
          | weston_key_state_update.STATE_UPDATE_NONE =>
            send S (Msg.keyboard_grab_key (keyboard_grab.custom n) time key
              wl_keyboard_key_state.PRESSED)).log
          = seat.log ++ (pre ++ [Msg.keyboard_grab_key (keyboard_grab.custom n) time key
            wl_keyboard_key_state.PRESSED] ++ post) ∧
        (∀ m ∈ pre, is_key_dispatch m = false) ∧
        (∀ m ∈ post, is_key_dispatch m = false) := by
    intro pings S hS hp
    cases update_state
    · obtain ⟨out, h1, h2⟩ := update_modifier_state_emits env
        (send S (Msg.keyboard_grab_key (keyboard_grab.custom n) time key
          wl_keyboard_key_state.PRESSED))
        (wl_display_get_serial (send S (Msg.keyboard_grab_key (keyboard_grab.custom n)
          time key wl_keyboard_key_state.PRESSED))) key wl_keyboard_key_state.PRESSED
      refine ⟨pings, out, ?_, hp, h2⟩
      show (update_modifier_state env _ _ key wl_keyboard_key_state.PRESSED).log = _
      rw [h1]
      simp only [send, hS, List.append_assoc]
    · refine ⟨pings, [], ?_, hp, by simp⟩
      show (send S _).log = _
      simp only [send, hS, List.append_assoc, List.append_nil]
  have hng : ¬ (keyboard_grab.custom n = keyboard_grab.default_grab ∨
      keyboard_grab.custom n = keyboard_grab.input_method_grab) := by simp
  rcases hp : seat.has_ping_handler <;> rcases hf : seat.keyboard.focus with _ | f <;>
  simp only [notify_key, wl_display_next_serial, weston_compositor_idle_inhibit, hp, hf,
    hscan, hgrab, keyboard_grab_interface_key, if_true, hng, if_false, send_keyboard]
  · exact hmain [] _ (by simp) (by simp)
  · exact hmain [] _ (by simp) (by simp)
  · exact hmain [] _ (by simp) (by simp)
  · refine hmain [Msg.ping_handler f ((seat.display_serial + 1) % 2 ^ 32)] _ ?_ ?_
    · rfl
    · simp [is_key_dispatch]

theorem keyboard_key_messages_append (a b : List Msg) :
    keyboard_key_messages (a ++ b) = keyboard_key_messages a ++ keyboard_key_messages b := by
  simp [keyboard_key_messages]

theorem keyboard_key_messages_no_dispatch (out : List Msg)
    (h : ∀ m ∈ out, is_key_dispatch m = false) : keyboard_key_messages out = [] := by
  unfold keyboard_key_messages
  rw [List.filter_eq_nil_iff]
  intro m hm
  have := h m hm
  cases m <;> simp_all [is_key_dispatch]

theorem keyboard_key_messages_hook_key (r : wl_resource) (serial time key : Nat)
    (state : wl_keyboard_key_state) :
    keyboard_key_messages [Msg.run_key_binding time key state,
      Msg.wl_keyboard_send_key r serial time key state]
      = [Msg.wl_keyboard_send_key r serial time key state] :=
  rfl

/-! ## Lemmas on button events -/

theorem default_grab_button_count (seat : weston_seat) (time button : Nat)
    (state : wl_pointer_button_state) :
    (default_grab_button seat time button state).pointer.button_count
      = seat.pointer.button_count := by
  unfold default_grab_button
  rcases hfr : seat.pointer.focus_resource with _ | r <;> simp only [] <;> split
  · rw [(weston_pointer_set_focus_frame _ _ _ _).2.2.2.2.2.2.2]
  · rfl
  · rw [(weston_pointer_set_focus_frame _ _ _ _).2.2.2.2.2.2.2]
    rfl
  · rfl

theorem pointer_grab_interface_button_count (seat : weston_seat) (grab : pointer_grab)
    (time button : Nat) (state : wl_pointer_button_state) :
    (pointer_grab_interface_button seat grab time button state).pointer.button_count
      = seat.pointer.button_count := by
  unfold pointer_grab_interface_button
  split
  · exact default_grab_button_count seat time button state
  · rfl

theorem grab_serial_step_count (S : weston_seat) :
    (if S.pointer.button_count = 1 then
        { S with pointer := { S.pointer with grab_serial := wl_display_get_serial S } }
      else S).pointer.button_count = S.pointer.button_count := by
  split <;> rfl

theorem notify_button_count (env : Env) (seat : weston_seat) (time button : Nat)
    (state : wl_pointer_button_state) :
    (notify_button env seat time button state).pointer.button_count =
      match state with
      | wl_pointer_button_state.PRESSED => (seat.pointer.button_count + 1) % 2 ^ 32
      | wl_pointer_button_state.RELEASED =>
        (seat.pointer.button_count + 2 ^ 32 - 1) % 2 ^ 32 := by
  unfold notify_button
  rw [grab_serial_step_count, pointer_grab_interface_button_count]
  cases state
  · rfl
  · rcases hp : seat.has_ping_handler <;> rcases hf : seat.pointer.focus with _ | f <;>
    by_cases hc : seat.pointer.button_count = 0 <;>
    simp only [wl_display_next_serial, weston_compositor_idle_inhibit, send, hp, hf, hc,
      if_true, if_false]

theorem notify_button_run_count (env : Env) (evs : List button_event) :
    ∀ (held : List Nat) (seat : weston_seat),
      seat.pointer.button_count = held.length →
      held.length + evs.length < 2 ^ 32 →
      buttons_paired held evs = true →
      (notify_button_run env seat evs).pointer.button_count
        = (buttons_held held evs).length := by
  induction evs with
  | nil => exact fun held seat h _ _ => h
  | cons e evs ih =>
    intro held seat hc hlen hp
    obtain ⟨time, button, state⟩ := e
    simp only [List.length_cons] at hlen
    have hn := notify_button_count env seat time button state
    cases state
    · simp only [buttons_paired, Bool.and_eq_true, decide_eq_true_eq] at hp
      simp only [notify_button_run, List.foldl_cons, buttons_held]
      have hpos : 0 < held.length := List.length_pos_of_mem hp.1
      refine ih (held.erase button) _ ?_ ?_ hp.2
      · rw [hn, hc, List.length_erase_of_mem hp.1]
        simp only []
        omega
      · rw [List.length_erase_of_mem hp.1]
        omega
    · simp only [buttons_paired, Bool.and_eq_true, decide_eq_true_eq] at hp
      simp only [notify_button_run, List.foldl_cons, buttons_held, hp.1, if_false]
      refine ih (button :: held) _ ?_ ?_ hp.2
      · rw [hn, hc]
        simp only [List.length_cons]
        omega
      · simp only [List.length_cons]
        omega

/-! ## C1: at most one enter per (surface, binding) pair between leaves -/

/-- C1, the claim as stated fails: client 7 binds the pointer, the pointer
enters its surface (enter to the first binding), the client binds a second
time (enter to the second binding, no leave to the first), the second binding
is destroyed, and the next `weston_pointer_set_focus` on the same surface sends
a second enter for the same surface to the first binding, with no leave
anywhere in the log. -/
theorem pointer_double_enter_after_rebind :
    ¬ no_double_enter (pointer_run env0 seat0 rebind_events).log := by
  intro h
  obtain ⟨k, h1, h2, h3⟩ := h 0 4 surface_a binding_a1 (by decide) (by decide) (by decide)
  interval_cases k <;> revert h3 <;> decide

/-- C1, amended: from a pointer whose focus listener sits on its focus binding
and an empty log, every sequence of `weston_pointer_set_focus` calls, binding
additions (`seat_get_pointer`) and binding destructions in which each added
binding is a new object and a binding is destroyed only while it is its
client's only pointer binding yields a log without two enters for the same
(surface, binding) pair that have no leave to that binding between them. -/
theorem pointer_enter_once_between_leaves (env : Env) (seat : weston_seat)
    (evs : List pointer_event) (hlog : seat.log = [])
    (hlisten : ∀ r, seat.pointer.focus_resource = some r →
      seat.pointer.focus_listener = some r)
    (hok : pointer_events_ok env [] seat evs = true) :
    no_double_enter (pointer_run env seat evs).log := by
  have h0 : pointer_inv [] seat := by
    refine ⟨?_, by simp, hlisten⟩
    rw [hlog]
    exact focus_log_ok_nil _ _ _ _
  obtain ⟨d', h⟩ := pointer_run_inv env evs [] seat h0 hok
  exact h.1.1

/-- C1, amended, at a concrete run: two clients, a second binding for one of
them, the destruction of the other client's focused binding. -/
theorem pointer_enter_once_between_leaves_witness :
    seat0.log = [] ∧
    (∀ r, seat0.pointer.focus_resource = some r → seat0.pointer.focus_listener = some r) ∧
    pointer_events_ok env0 [] seat0 paired_events = true ∧
    no_double_enter (pointer_run env0 seat0 paired_events).log :=
  ⟨rfl, by decide, by decide,
    pointer_enter_once_between_leaves env0 seat0 paired_events rfl (by decide) (by decide)⟩

/-! ## C2: setting the same focus twice -/

/-- C2: with the binding list unchanged, a second `weston_pointer_set_focus`
(resp. `weston_keyboard_set_focus`) on the same surface right after the first
only emits the focus signal: it appends no enter, leave or other message to
the log and leaves `focus`, `focus_resource` and `focus_serial` as they were. -/
theorem set_focus_twice_sends_nothing (seat : weston_seat) (surface : Option wl_surface)
    (sx sy sx2 sy2 : Int) :
    ((weston_pointer_set_focus (weston_pointer_set_focus seat surface sx sy)
          surface sx2 sy2).log
        = (weston_pointer_set_focus seat surface sx sy).log ++ [Msg.pointer_focus_signal] ∧
      (weston_pointer_set_focus (weston_pointer_set_focus seat surface sx sy)
          surface sx2 sy2).pointer
        = (weston_pointer_set_focus seat surface sx sy).pointer ∧
      (weston_pointer_set_focus (weston_pointer_set_focus seat surface sx sy)
          surface sx2 sy2).pointer.focus = surface ∧
      (weston_pointer_set_focus (weston_pointer_set_focus seat surface sx sy)
          surface sx2 sy2).pointer.focus_resource
        = (weston_pointer_set_focus seat surface sx sy).pointer.focus_resource ∧
      (weston_pointer_set_focus (weston_pointer_set_focus seat surface sx sy)
          surface sx2 sy2).pointer.focus_serial
        = (weston_pointer_set_focus seat surface sx sy).pointer.focus_serial) ∧
    ((weston_keyboard_set_focus (weston_keyboard_set_focus seat surface) surface).log
        = (weston_keyboard_set_focus seat surface).log ++ [Msg.keyboard_focus_signal] ∧
      (weston_keyboard_set_focus (weston_keyboard_set_focus seat surface) surface).keyboard
        = (weston_keyboard_set_focus seat surface).keyboard ∧
      (weston_keyboard_set_focus (weston_keyboard_set_focus seat surface)
          surface).keyboard.focus = surface ∧
      (weston_keyboard_set_focus (weston_keyboard_set_focus seat surface)
          surface).keyboard.focus_resource
        = (weston_keyboard_set_focus seat surface).keyboard.focus_resource ∧
      (weston_keyboard_set_focus (weston_keyboard_set_focus seat surface)
          surface).keyboard.focus_serial
        = (weston_keyboard_set_focus seat surface).keyboard.focus_serial) := by
  obtain ⟨p1, p2, p3, _, p5, _⟩ := weston_pointer_set_focus_frame seat surface sx sy
  obtain ⟨k1, k2, k3, _, _⟩ := weston_keyboard_set_focus_frame seat surface
  have hp := weston_pointer_set_focus_same (weston_pointer_set_focus seat surface sx sy)
    surface sx2 sy2 p2 (by rw [p3, p1]) p5
  have hk := weston_keyboard_set_focus_same (weston_keyboard_set_focus seat surface)
    surface k2 (by rw [k3, k1])
  rw [hp, hk]
  exact ⟨⟨rfl, rfl, p2, rfl, rfl⟩, ⟨rfl, rfl, k2, rfl, rfl⟩⟩

/-! ## C3: the focus invariant -/

/-- C3: the focus invariant (a device's `focus_resource` is set only when its
`focus` is set and both belong to the same client) is preserved by
`weston_pointer_set_focus`, `weston_keyboard_set_focus`, `touch_set_focus` and
the three `lose_*_focus` destruction handlers. -/
theorem focus_invariant_preserved (seat : weston_seat) (surface : Option wl_surface)
    (sx sy : Int) (h : seat_focus_ok seat) :
    seat_focus_ok (weston_pointer_set_focus seat surface sx sy) ∧
    seat_focus_ok (weston_keyboard_set_focus seat surface) ∧
    seat_focus_ok (touch_set_focus seat surface) ∧
    seat_focus_ok (lose_pointer_focus seat) ∧
    seat_focus_ok (lose_keyboard_focus seat) ∧
    seat_focus_ok (lose_touch_focus seat) := by
  obtain ⟨hp, hk, ht⟩ := h
  obtain ⟨_, p2, p3, _, _, p6, p7, _⟩ := weston_pointer_set_focus_frame seat surface sx sy
  obtain ⟨_, k2, k3, k4, k5⟩ := weston_keyboard_set_focus_frame seat surface
  obtain ⟨t1, t2⟩ := touch_set_focus_frame seat surface
  refine ⟨⟨?_, ?_, ?_⟩, ⟨?_, ?_, ?_⟩, ⟨?_, ?_, ?_⟩, ⟨?_, hk, ht⟩, ⟨hp, ?_, ht⟩, ⟨hp, hk, ?_⟩⟩
  · rw [p2, p3]
    exact find_resource_ok _ _
  · rw [p6]
    exact hk
  · rw [p7]
    exact ht
  · rw [k4]
    exact hp
  · rw [k2, k3]
    exact find_resource_ok _ _
  · rw [k5]
    exact ht
  · rw [t1]
    exact hp
  · rw [t2]
    exact hk
  · exact touch_set_focus_ok seat surface ht
  · cases hfo : seat.pointer.focus <;> simp [lose_pointer_focus, focus_resource_ok]
  · cases hfo : seat.keyboard.focus <;> simp [lose_keyboard_focus, focus_resource_ok]
  · cases hfo : seat.touch.focus <;> simp [lose_touch_focus, focus_resource_ok]

/-- C3 at a concrete seat: all three devices focused on a surface of client 7,
the focus then moved to a surface of client 8. -/
theorem focus_invariant_preserved_witness :
    seat_focus_ok seat_focused ∧
    seat_focus_ok (weston_pointer_set_focus seat_focused (some surface_b) 3 4) ∧
    seat_focus_ok (weston_keyboard_set_focus seat_focused (some surface_b)) ∧
    seat_focus_ok (touch_set_focus seat_focused (some surface_b)) ∧
    seat_focus_ok (lose_pointer_focus seat_focused) ∧
    seat_focus_ok (lose_keyboard_focus seat_focused) ∧
    seat_focus_ok (lose_touch_focus seat_focused) :=
  ⟨by decide, focus_invariant_preserved seat_focused (some surface_b) 3 4 (by decide)⟩

/-! ## C4: the focus is recorded whether or not an enter is sent -/

/-- C4: after `weston_pointer_set_focus (pointer, S, sx, sy)`, for every `S`
(`NULL` included), the pointer's `focus` is `S` and its `focus_resource` is
`find_resource_for_surface (resource_list, S)`; when that is `NULL` (the
client of `S` has no binding) the focus is recorded all the same and none of
the messages the call emits is an enter. -/
theorem pointer_set_focus_records_focus (seat : weston_seat) (surface : Option wl_surface)
    (sx sy : Int) :
    (weston_pointer_set_focus seat surface sx sy).pointer.focus = surface ∧
    (weston_pointer_set_focus seat surface sx sy).pointer.focus_resource
      = find_resource_for_surface seat.pointer.resource_list surface ∧
    (find_resource_for_surface seat.pointer.resource_list surface = none →
      ∃ out, (weston_pointer_set_focus seat surface sx sy).log = seat.log ++ out ∧
        ∀ m ∈ out, pointer_enter_of m = none) := by
  obtain ⟨_, p2, p3, _⟩ := weston_pointer_set_focus_frame seat surface sx sy
  exact ⟨p2, p3, weston_pointer_set_focus_no_binding_log seat surface sx sy⟩

/-! ## C5: find_resource_for_surface -/

/-- C5: `find_resource_for_surface` returns `NULL` for the `NULL` surface;
for a surface `s` it returns `r` exactly when `r` is the first entry of the
list, in list order, whose client is the client of `s`, and it returns `NULL`
exactly when no entry of the list belongs to that client. -/
theorem find_resource_for_surface_first (list : List wl_resource) :
    find_resource_for_surface list none = none ∧
    (∀ (s : wl_surface) (r : wl_resource),
      find_resource_for_surface list (some s) = some r ↔
        ∃ pre post, list = pre ++ r :: post ∧ r.client = s.client ∧
          ∀ x ∈ pre, x.client ≠ s.client) ∧
    (∀ s : wl_surface,
      find_resource_for_surface list (some s) = none ↔
        ∀ x ∈ list, x.client ≠ s.client) := by
  refine ⟨rfl, fun s r => ?_, fun s => ?_⟩
  · simp only [find_resource_for_surface]
    induction list with
    | nil => simp [find_resource_for_client]
    | cons a rest ih =>
      unfold find_resource_for_client
      by_cases ha : a.client = s.client
      · simp only [ha, if_true, Option.some.injEq]
        constructor
        · rintro rfl
          exact ⟨[], rest, rfl, ha, by simp⟩
        · rintro ⟨pre, post, hl, _, hpre⟩
          cases pre with
          | nil =>
            simp only [List.nil_append, List.cons.injEq] at hl
            exact hl.1
          | cons b pre =>
            simp only [List.cons_append, List.cons.injEq] at hl
            exact absurd ha (hl.1 ▸ hpre b (by simp))
      · simp only [ha, if_false]
        rw [ih]
        constructor
        · rintro ⟨pre, post, hl, hc, hpre⟩
          refine ⟨a :: pre, post, by simp [hl], hc, ?_⟩
          intro x hx
          rcases List.mem_cons.1 hx with rfl | hx
          · exact ha
          · exact hpre x hx
        · rintro ⟨pre, post, hl, hc, hpre⟩
          cases pre with
          | nil =>
            simp only [List.nil_append, List.cons.injEq] at hl
            exact absurd (hl.1 ▸ hc) ha
          | cons b pre =>
            simp only [List.cons_append, List.cons.injEq] at hl
            exact ⟨pre, post, hl.2, hc, fun x hx => hpre x (by simp [hx])⟩
  · simp only [find_resource_for_surface]
    induction list with
    | nil => simp [find_resource_for_client]
    | cons a rest ih =>
      unfold find_resource_for_client
      by_cases ha : a.client = s.client
      · simp [ha]
      · simp [ha, ih]

/-! ## C6: releasing a key that is not pressed -/

/-- C6: for every pressed-key array and every key `k` that is not in it,
`notify_key (k, RELEASED)` leaves the array as it was: the same keys in the same
order, hence the same size. -/
theorem release_of_unpressed_key_keeps_keys (env : Env) (seat : weston_seat)
    (time key : Nat) (update_state : weston_key_state_update)
    (h : key ∉ seat.keyboard.keys) :
    (notify_key env seat time key wl_keyboard_key_state.RELEASED update_state).keyboard.keys
      = seat.keyboard.keys := by
  have hscan := notify_key_scan_not_found key wl_keyboard_key_state.RELEASED
    seat.keyboard.keys.length seat.keyboard.keys 0 seat.keyboard.keys.length
    (fun i _ hi => getD_ne_of_not_mem h i hi)
  by_cases hg : seat.keyboard.grab = keyboard_grab.default_grab ∨
      seat.keyboard.grab = keyboard_grab.input_method_grab <;>
  cases update_state <;>
  simp [notify_key, wl_display_next_serial, weston_compositor_idle_release, hscan, hg, send,
    update_modifier_state_keyboard, keyboard_grab_interface_key_keyboard]

/-- C6 at a concrete keyboard: keys `[30]` pressed, key 31 released. -/
theorem release_of_unpressed_key_keeps_keys_witness :
    31 ∉ seat_focused.keyboard.keys ∧
    (notify_key env0 seat_focused 5 31 wl_keyboard_key_state.RELEASED
      weston_key_state_update.STATE_UPDATE_AUTOMATIC).keyboard.keys
      = seat_focused.keyboard.keys :=
  ⟨by decide,
    release_of_unpressed_key_keeps_keys env0 seat_focused 5 31
      weston_key_state_update.STATE_UPDATE_AUTOMATIC (by decide)⟩

/-! ## C7: releasing a key twice -/

/-- C7, the claim as stated fails: keyboard focused on a bound client, default
grab, key 30 pressed.  The first release empties the pressed-key array, and
the second release of the key, which is no longer pressed, is forwarded to the
client like the first: two key-release messages in the log. -/
theorem second_release_is_forwarded_too :
    seat_focused.keyboard.grab = keyboard_grab.default_grab ∧
    seat_focused.keyboard.focus_resource = some binding_a1 ∧
    seat_focused.keyboard.keys = [30] ∧
    (notify_key env0 seat_focused 5 30 wl_keyboard_key_state.RELEASED
      weston_key_state_update.STATE_UPDATE_NONE).keyboard.keys = [] ∧
    keyboard_key_messages
      (notify_key env0
        (notify_key env0 seat_focused 5 30 wl_keyboard_key_state.RELEASED
          weston_key_state_update.STATE_UPDATE_NONE)
        6 30 wl_keyboard_key_state.RELEASED weston_key_state_update.STATE_UPDATE_NONE).log
      = [Msg.wl_keyboard_send_key binding_a1 2 5 30 wl_keyboard_key_state.RELEASED,
         Msg.wl_keyboard_send_key binding_a1 4 6 30 wl_keyboard_key_state.RELEASED] := by
  decide

/-- C7, amended: with the keyboard focused on a bound client under the default
grab, and a key-binding hook that installs no grab on releases, every
`notify_key (t, k, RELEASED)` call forwards one key-release message to the
client, whether or not `k` is in the pressed-key array: two consecutive calls
add two key-release messages to the log. -/
theorem key_release_forwarded_on_every_call (env : Env) (seat : weston_seat)
    (time1 time2 key : Nat) (update_state : weston_key_state_update) (r : wl_resource)
    (hgrab : seat.keyboard.grab = keyboard_grab.default_grab)
    (hfocus : seat.keyboard.focus_resource = some r)
    (hhook : ∀ ms t, env.run_key_binding ms t key wl_keyboard_key_state.RELEASED
      keyboard_grab.default_grab = keyboard_grab.default_grab) :
    ∃ serial1 serial2,
      keyboard_key_messages
          (notify_key env seat time1 key wl_keyboard_key_state.RELEASED update_state).log
        = keyboard_key_messages seat.log ++
            [Msg.wl_keyboard_send_key r serial1 time1 key wl_keyboard_key_state.RELEASED] ∧
      keyboard_key_messages
          (notify_key env
            (notify_key env seat time1 key wl_keyboard_key_state.RELEASED update_state)
            time2 key wl_keyboard_key_state.RELEASED update_state).log
        = keyboard_key_messages seat.log ++
            [Msg.wl_keyboard_send_key r serial1 time1 key wl_keyboard_key_state.RELEASED,
             Msg.wl_keyboard_send_key r serial2 time2 key wl_keyboard_key_state.RELEASED] := by
  obtain ⟨⟨out1, l1, n1⟩, g1, f1⟩ :=
    notify_key_release_default env seat time1 key update_state r hgrab hfocus (hhook _ _)
  obtain ⟨⟨out2, l2, n2⟩, _, _⟩ :=
    notify_key_release_default env _ time2 key update_state r g1 f1 (hhook _ _)
  refine ⟨((seat.display_serial + 1) % 2 ^ 32 + 1) % 2 ^ 32,
    (((notify_key env seat time1 key wl_keyboard_key_state.RELEASED
      update_state).display_serial + 1) % 2 ^ 32 + 1) % 2 ^ 32, ?_, ?_⟩
  · rw [l1]
    simp only [keyboard_key_messages_append, keyboard_key_messages_no_dispatch out1 n1,
      keyboard_key_messages_hook_key, List.append_nil]
  · rw [l2, l1]
    simp only [keyboard_key_messages_append, keyboard_key_messages_no_dispatch out1 n1,
      keyboard_key_messages_no_dispatch out2 n2, keyboard_key_messages_hook_key,
      List.append_nil, List.append_assoc, List.singleton_append, List.nil_append]

/-- C7, amended, at a concrete seat: key 30 pressed, released twice. -/
theorem key_release_forwarded_on_every_call_witness :
    seat_focused.keyboard.grab = keyboard_grab.default_grab ∧
    seat_focused.keyboard.focus_resource = some binding_a1 ∧
    ∃ serial1 serial2,
      keyboard_key_messages
          (notify_key env0 seat_focused 5 30 wl_keyboard_key_state.RELEASED
            weston_key_state_update.STATE_UPDATE_AUTOMATIC).log
        = keyboard_key_messages seat_focused.log ++
            [Msg.wl_keyboard_send_key binding_a1 serial1 5 30
              wl_keyboard_key_state.RELEASED] ∧
      keyboard_key_messages
          (notify_key env0
            (notify_key env0 seat_focused 5 30 wl_keyboard_key_state.RELEASED
              weston_key_state_update.STATE_UPDATE_AUTOMATIC)
            6 30 wl_keyboard_key_state.RELEASED
            weston_key_state_update.STATE_UPDATE_AUTOMATIC).log
        = keyboard_key_messages seat_focused.log ++
            [Msg.wl_keyboard_send_key binding_a1 serial1 5 30 wl_keyboard_key_state.RELEASED,
             Msg.wl_keyboard_send_key binding_a1 serial2 6 30
              wl_keyboard_key_state.RELEASED] :=
  ⟨rfl, rfl,
    key_release_forwarded_on_every_call env0 seat_focused 5 6 30
      weston_key_state_update.STATE_UPDATE_AUTOMATIC binding_a1 rfl rfl (fun _ _ => rfl)⟩

/-! ## C8: pressing a pressed key under the default grab -/

/-- C8: under the default keyboard grab, for every pressed-key array that
contains `k`, `notify_key (k, PRESSED)` leaves the array unchanged and forwards
nothing: the only thing it may emit is the ping to the focus surface, so the
key-binding hook is not run, no grab's key callback is invoked and no key
message is sent. -/
theorem repeated_press_is_dropped (env : Env) (seat : weston_seat) (time key : Nat)
    (update_state : weston_key_state_update)
    (_hgrab : seat.keyboard.grab = keyboard_grab.default_grab)
    (h : key ∈ seat.keyboard.keys) :
    (notify_key env seat time key wl_keyboard_key_state.PRESSED update_state).keyboard.keys
      = seat.keyboard.keys ∧
    emits (fun m => (∃ f serial, m = Msg.ping_handler f serial) ∧ is_key_dispatch m = false)
      seat (notify_key env seat time key wl_keyboard_key_state.PRESSED update_state) := by
  obtain ⟨h1, _, h3⟩ := notify_key_pressed_repeat env seat time key update_state h
  refine ⟨h1, emits_mono h3 ?_⟩
  rintro m ⟨f, serial, rfl⟩
  exact ⟨⟨f, serial, rfl⟩, rfl⟩

/-- C8 at a concrete keyboard: default grab, keys `[30]`, key 30 pressed again. -/
theorem repeated_press_is_dropped_witness :
    seat_focused.keyboard.grab = keyboard_grab.default_grab ∧
    30 ∈ seat_focused.keyboard.keys ∧
    (notify_key env0 seat_focused 5 30 wl_keyboard_key_state.PRESSED
      weston_key_state_update.STATE_UPDATE_AUTOMATIC).keyboard.keys
      = seat_focused.keyboard.keys ∧
    emits (fun m => (∃ f serial, m = Msg.ping_handler f serial) ∧ is_key_dispatch m = false)
      seat_focused
      (notify_key env0 seat_focused 5 30 wl_keyboard_key_state.PRESSED
        weston_key_state_update.STATE_UPDATE_AUTOMATIC) :=
  ⟨rfl, by decide,
    repeated_press_is_dropped env0 seat_focused 5 30
      weston_key_state_update.STATE_UPDATE_AUTOMATIC rfl (by decide)⟩

/-! ## C9: pressing a pressed key under a custom grab -/

/-- C9, the claim as stated fails: with a custom keyboard grab active and key
30 in the pressed-key array, `notify_key (30, PRESSED)` returns from the scan of
the array: the log stays empty, the custom grab's key callback is not in it. -/
theorem custom_grab_repeat_not_delivered :
    seat_custom_grab.keyboard.grab = keyboard_grab.custom 1 ∧
    30 ∈ seat_custom_grab.keyboard.keys ∧
    seat_custom_grab.log = [] ∧
    (notify_key env0 seat_custom_grab 5 30 wl_keyboard_key_state.PRESSED
      weston_key_state_update.STATE_UPDATE_NONE).log = [] ∧
    Msg.keyboard_grab_key (keyboard_grab.custom 1) 5 30 wl_keyboard_key_state.PRESSED ∉
      (notify_key env0 seat_custom_grab 5 30 wl_keyboard_key_state.PRESSED
        weston_key_state_update.STATE_UPDATE_NONE).log := by
  decide

/-- C9, amended: when the active keyboard grab is a custom grab,
`notify_key (k, PRESSED)` for a key `k` already in the pressed-key array is
suppressed as under the default grab (nothing but the ping is emitted, the
custom grab's key callback is not invoked); for a key that is not in the array
the custom grab's key callback is invoked once and the key-binding hook is
skipped. -/
theorem custom_grab_sees_new_presses_only (env : Env) (seat : weston_seat)
    (time key n : Nat) (update_state : weston_key_state_update)
    (hgrab : seat.keyboard.grab = keyboard_grab.custom n) :
    (key ∈ seat.keyboard.keys →
      emits (fun m => (∃ f serial, m = Msg.ping_handler f serial) ∧
          is_key_dispatch m = false)
        seat (notify_key env seat time key wl_keyboard_key_state.PRESSED update_state)) ∧
    (key ∉ seat.keyboard.keys →
      ∃ pre post,
        (notify_key env seat time key wl_keyboard_key_state.PRESSED update_state).log
          = seat.log ++ (pre ++ [Msg.keyboard_grab_key (keyboard_grab.custom n) time key
              wl_keyboard_key_state.PRESSED] ++ post) ∧
        (∀ m ∈ pre, is_key_dispatch m = false) ∧
        (∀ m ∈ post, is_key_dispatch m = false)) := by
  refine ⟨fun h => ?_, fun h => notify_key_press_custom env seat time key n update_state hgrab h⟩
  obtain ⟨_, _, h3⟩ := notify_key_pressed_repeat env seat time key update_state h
  refine emits_mono h3 ?_
  rintro m ⟨f, serial, rfl⟩
  exact ⟨⟨f, serial, rfl⟩, rfl⟩

/-- C9, amended, at a concrete keyboard with a custom grab and keys `[30]`:
key 30 pressed again, and key 31 pressed. -/
theorem custom_grab_sees_new_presses_only_witness :
    seat_custom_grab.keyboard.grab = keyboard_grab.custom 1 ∧
    30 ∈ seat_custom_grab.keyboard.keys ∧ 31 ∉ seat_custom_grab.keyboard.keys ∧
    emits (fun m => (∃ f serial, m = Msg.ping_handler f serial) ∧
        is_key_dispatch m = false)
      seat_custom_grab
      (notify_key env0 seat_custom_grab 5 30 wl_keyboard_key_state.PRESSED
        weston_key_state_update.STATE_UPDATE_AUTOMATIC) ∧
    ∃ pre post,
      (notify_key env0 seat_custom_grab 5 31 wl_keyboard_key_state.PRESSED
          weston_key_state_update.STATE_UPDATE_AUTOMATIC).log
        = seat_custom_grab.log ++ (pre ++ [Msg.keyboard_grab_key (keyboard_grab.custom 1) 5 31
            wl_keyboard_key_state.PRESSED] ++ post) ∧
      (∀ m ∈ pre, is_key_dispatch m = false) ∧
      (∀ m ∈ post, is_key_dispatch m = false) :=
  ⟨rfl, by decide, by decide,
    (custom_grab_sees_new_presses_only env0 seat_custom_grab 5 30 1
      weston_key_state_update.STATE_UPDATE_AUTOMATIC rfl).1 (by decide),
    (custom_grab_sees_new_presses_only env0 seat_custom_grab 5 31 1
      weston_key_state_update.STATE_UPDATE_AUTOMATIC rfl).2 (by decide)⟩

/-! ## C10: button_count -/

/-- C10, the claim as stated fails: a release arriving when `button_count` is 0
(no button held, no matching press) changes `button_count`: the unconditional
`button_count--` wraps it to `2^32 - 1`, while no button is held. -/
theorem release_at_zero_changes_button_count :
    seat0.pointer.button_count = 0 ∧
    buttons_held []
      [{ time := 1, button := 272, state := wl_pointer_button_state.RELEASED }] = [] ∧
    (notify_button_run env0 seat0
      [{ time := 1, button := 272, state := wl_pointer_button_state.RELEASED }]
      ).pointer.button_count = 4294967295 := by
  decide

/-- C10, amended: `notify_button` adds one to `button_count` on every press
and subtracts one on every release, matched or not (modulo `2^32`); so from
`button_count = 0`, for every sequence of fewer than `2^32` events in which
each press is of a button that is not held and each release is of a button
that is held, `button_count` equals the number of buttons currently held. -/
theorem button_count_counts_held_buttons (env : Env) (seat : weston_seat)
    (evs : List button_event) (h0 : seat.pointer.button_count = 0)
    (hlen : evs.length < 2 ^ 32) (hp : buttons_paired [] evs = true) :
    (∀ (s : weston_seat) (time button : Nat),
      (notify_button env s time button wl_pointer_button_state.PRESSED).pointer.button_count
        = (s.pointer.button_count + 1) % 2 ^ 32 ∧
      (notify_button env s time button wl_pointer_button_state.RELEASED).pointer.button_count
        = (s.pointer.button_count + 2 ^ 32 - 1) % 2 ^ 32) ∧
    (notify_button_run env seat evs).pointer.button_count = (buttons_held [] evs).length := by
  refine ⟨fun s time button => ⟨?_, ?_⟩, ?_⟩
  · exact notify_button_count env s time button wl_pointer_button_state.PRESSED
  · exact notify_button_count env s time button wl_pointer_button_state.RELEASED
  · exact notify_button_run_count env evs [] seat h0 (by simpa using hlen) hp

/-- C10, amended, at a concrete run: left down, right down, left up, right up,
left down leaves one button held and `button_count = 1`. -/
theorem button_count_counts_held_buttons_witness :
    seat0.pointer.button_count = 0 ∧ click_events.length < 2 ^ 32 ∧
    buttons_paired [] click_events = true ∧
    (notify_button_run env0 seat0 click_events).pointer.button_count
      = (buttons_held [] click_events).length ∧
    (buttons_held [] click_events).length = 1 :=
  ⟨rfl, by decide, by decide,
    (button_count_counts_held_buttons env0 seat0 click_events rfl (by decide) (by decide)).2,
    by decide⟩


/-! ## Lemmas on touch events -/

theorem touch_set_focus_focus (seat : weston_seat) (surface : Option wl_surface) :
    (touch_set_focus seat surface).touch.focus =
      if seat.touch.focus = surface then surface
      else if find_resource_for_surface seat.touch.resource_list surface = none then none
      else surface := by
  unfold touch_set_focus
  by_cases h : seat.touch.focus = surface
  · simp [h]
  · rcases surface with _ | s
    · simp [h, find_resource_for_surface]
    · rcases hfr : seat.touch.focus_resource with _ | fr <;>
      rcases hfind : find_resource_for_surface seat.touch.resource_list (some s)
        with _ | r <;>
      simp [h, hfr, hfind, send]

theorem touch_set_focus_rest (seat : weston_seat) (surface : Option wl_surface) :
    (touch_set_focus seat surface).num_tp = seat.num_tp ∧
    (touch_set_focus seat surface).touch.grab = seat.touch.grab ∧
    (touch_set_focus seat surface).touch.resource_list = seat.touch.resource_list ∧
    (touch_set_focus seat surface).display_serial = seat.display_serial := by
  unfold touch_set_focus
  by_cases h : seat.touch.focus = surface
  · simp [h]
  · rcases surface with _ | s
    · rcases hfr : seat.touch.focus_resource with _ | fr <;> simp [h, hfr]
    · rcases hfr : seat.touch.focus_resource with _ | fr <;>
      rcases hfind : find_resource_for_surface seat.touch.resource_list (some s)
        with _ | r <;>
      simp [h, hfr, hfind, send]

theorem touch_grab_interface_down_frame (seat : weston_seat) (grab : touch_grab)
    (time : Nat) (touch_id sx sy : Int) :
    (touch_grab_interface_down seat grab time touch_id sx sy).touch = seat.touch ∧
    (touch_grab_interface_down seat grab time touch_id sx sy).num_tp = seat.num_tp := by
  rcases grab with _ | n
  · rcases hfr : seat.touch.focus_resource with _ | fr <;>
    rcases hf : seat.touch.focus with _ | f <;>
    simp [touch_grab_interface_down, default_grab_touch_down, hfr, hf, send,
      wl_display_next_serial]
  · simp [touch_grab_interface_down, send]

theorem touch_grab_interface_up_frame (seat : weston_seat) (grab : touch_grab)
    (time : Nat) (touch_id : Int) :
    (touch_grab_interface_up seat grab time touch_id).touch = seat.touch ∧
    (touch_grab_interface_up seat grab time touch_id).num_tp = seat.num_tp := by
  rcases grab with _ | n
  · rcases hfr : seat.touch.focus_resource with _ | fr <;>
    simp [touch_grab_interface_up, default_grab_touch_up, hfr, send, wl_display_next_serial]
  · simp [touch_grab_interface_up, send]

theorem touch_grab_interface_motion_frame (seat : weston_seat) (grab : touch_grab)
    (time : Nat) (touch_id sx sy : Int) :
    (touch_grab_interface_motion seat grab time touch_id sx sy).touch = seat.touch ∧
    (touch_grab_interface_motion seat grab time touch_id sx sy).num_tp = seat.num_tp := by
  rcases grab with _ | n
  · rcases hfr : seat.touch.focus_resource with _ | fr <;>
    simp [touch_grab_interface_motion, default_grab_touch_motion, hfr, send]
  · simp [touch_grab_interface_motion, send]

theorem notify_touch_num_tp (env : Env) (seat : weston_seat) (time : Nat)
    (touch_id x y : Int) (type : touch_type) :
    (notify_touch env seat time touch_id x y type).num_tp =
      match type with
      | touch_type.WL_TOUCH_DOWN => (seat.num_tp + 1) % 2 ^ 32
      | touch_type.WL_TOUCH_UP => (seat.num_tp + 2 ^ 32 - 1) % 2 ^ 32
      | _ => seat.num_tp := by
  rcases type with _ | _ | _ | n
  · simp only [notify_touch, weston_compositor_idle_inhibit]
    split
    · rw [(touch_grab_interface_down_frame _ _ _ _ _ _).2, (touch_set_focus_rest _ _).1]
    · split
      · rw [(touch_grab_interface_down_frame _ _ _ _ _ _).2]
      · rfl
  · simp only [notify_touch]
    split
    · rfl
    · rw [(touch_grab_interface_motion_frame _ _ _ _ _ _).2]
  · simp only [notify_touch, weston_compositor_idle_release]
    split
    · rw [(touch_set_focus_rest _ _).1, (touch_grab_interface_up_frame _ _ _ _).2]
    · rw [(touch_grab_interface_up_frame _ _ _ _).2]
  · rfl

theorem notify_touch_focus (env : Env) (seat : weston_seat) (time : Nat)
    (touch_id x y : Int) (type : touch_type) :
    (notify_touch env seat time touch_id x y type).touch.focus =
      match type with
      | touch_type.WL_TOUCH_DOWN =>
        if (seat.num_tp + 1) % 2 ^ 32 = 1 then
          if seat.touch.focus = (env.pick_surface x y).1 then (env.pick_surface x y).1
          else if find_resource_for_surface seat.touch.resource_list
              (env.pick_surface x y).1 = none then none
          else (env.pick_surface x y).1
        else seat.touch.focus
      | touch_type.WL_TOUCH_UP =>
        if (seat.num_tp + 2 ^ 32 - 1) % 2 ^ 32 = 0 then none else seat.touch.focus
      | _ => seat.touch.focus := by
  rcases type with _ | _ | _ | n
  · simp only [notify_touch, weston_compositor_idle_inhibit]
    split
    · rw [(touch_grab_interface_down_frame _ _ _ _ _ _).1, touch_set_focus_focus]
    · split
      · rw [(touch_grab_interface_down_frame _ _ _ _ _ _).1]
      · rfl
  · simp only [notify_touch]
    split
    · rfl
    · rw [(touch_grab_interface_motion_frame _ _ _ _ _ _).1]
  · simp only [notify_touch, weston_compositor_idle_release]
    split
    · rename_i h
      rw [(touch_grab_interface_up_frame _ _ _ _).2] at h
      rw [touch_set_focus_focus, (touch_grab_interface_up_frame _ _ _ _).1]
      simp only [] at h
      rw [if_pos h]
      simp
    · rename_i h
      rw [(touch_grab_interface_up_frame _ _ _ _).2] at h
      rw [(touch_grab_interface_up_frame _ _ _ _).1]
      simp only [] at h
      rw [if_neg h]
  · rfl

theorem notify_touch_step_lt (env : Env) (seat : weston_seat) (e : touch_event)
    (h : seat.num_tp < 2 ^ 32) : (notify_touch_step env seat e).num_tp < 2 ^ 32 := by
  unfold notify_touch_step
  rw [notify_touch_num_tp]
  rcases e.type with _ | _ | _ | n
  · exact Nat.mod_lt _ (by norm_num)
  · exact h
  · exact Nat.mod_lt _ (by norm_num)
  · exact h

theorem notify_touch_run_lt (env : Env) (evs : List touch_event) :
    ∀ seat : weston_seat, seat.num_tp < 2 ^ 32 →
      (notify_touch_run env seat evs).num_tp < 2 ^ 32 := by
  induction evs with
  | nil => intro seat h; exact h
  | cons e evs ih =>
    intro seat h
    exact ih _ (notify_touch_step_lt env seat e h)

theorem notify_touch_step_bound (env : Env) (seat : weston_seat) (e : touch_event) (k : Nat)
    (hk : k + 1 < 2 ^ 32)
    (h : seat.touch.focus ≠ none → 1 ≤ seat.num_tp ∧ seat.num_tp ≤ k) :
    (notify_touch_step env seat e).touch.focus ≠ none →
      1 ≤ (notify_touch_step env seat e).num_tp ∧
      (notify_touch_step env seat e).num_tp ≤ k + 1 := by
  unfold notify_touch_step
  rw [notify_touch_num_tp, notify_touch_focus]
  norm_num at hk
  rcases e.type with _ | _ | _ | n
  · simp only []
    by_cases h1 : (seat.num_tp + 1) % 2 ^ 32 = 1
    · intro _
      rw [h1]
      omega
    · rw [if_neg h1]
      intro hf
      have := h hf
      norm_num
      omega
  · simp only []
    intro hf
    have := h hf
    omega
  · simp only []
    by_cases h1 : (seat.num_tp + 2 ^ 32 - 1) % 2 ^ 32 = 0
    · rw [if_pos h1]
      intro hf
      exact absurd rfl hf
    · rw [if_neg h1]
      intro hf
      have := h hf
      norm_num at h1 ⊢
      omega
  · simp only []
    intro hf
    have := h hf
    omega

theorem notify_touch_run_bound (env : Env) (evs : List touch_event) :
    ∀ (seat : weston_seat) (k : Nat), k + evs.length < 2 ^ 32 →
      (seat.touch.focus ≠ none → 1 ≤ seat.num_tp ∧ seat.num_tp ≤ k) →
      (notify_touch_run env seat evs).touch.focus ≠ none →
        1 ≤ (notify_touch_run env seat evs).num_tp := by
  induction evs with
  | nil => intro seat k _ h hf; exact (h hf).1
  | cons e evs ih =>
    intro seat k hk h
    simp only [List.length_cons] at hk
    exact ih (notify_touch_step env seat e) (k + 1) (by omega)
      (notify_touch_step_bound env seat e k (by omega) h)

theorem notify_touch_resource_list (env : Env) (seat : weston_seat) (time : Nat)
    (touch_id x y : Int) (type : touch_type) :
    (notify_touch env seat time touch_id x y type).touch.resource_list
      = seat.touch.resource_list := by
  rcases type with _ | _ | _ | n
  · simp only [notify_touch, weston_compositor_idle_inhibit]
    split
    · rw [(touch_grab_interface_down_frame _ _ _ _ _ _).1, (touch_set_focus_rest _ _).2.2.1]
    · split
      · rw [(touch_grab_interface_down_frame _ _ _ _ _ _).1]
      · rfl
  · simp only [notify_touch]
    split
    · rfl
    · rw [(touch_grab_interface_motion_frame _ _ _ _ _ _).1]
  · simp only [notify_touch, weston_compositor_idle_release]
    split
    · rw [(touch_set_focus_rest _ _).2.2.1, (touch_grab_interface_up_frame _ _ _ _).1]
    · rw [(touch_grab_interface_up_frame _ _ _ _).1]
  · rfl

theorem notify_touch_step_focus_bound (env : Env) (seat : weston_seat) (e : touch_event)
    (h : seat.touch.focus ≠ none →
      find_resource_for_surface seat.touch.resource_list seat.touch.focus ≠ none) :
    (notify_touch_step env seat e).touch.focus ≠ none →
      find_resource_for_surface (notify_touch_step env seat e).touch.resource_list
        (notify_touch_step env seat e).touch.focus ≠ none := by
  unfold notify_touch_step
  rw [notify_touch_resource_list, notify_touch_focus]
  rcases e.type with _ | _ | _ | n
  · simp only []
    split
    · split
      · rename_i h2
        rw [← h2]
        exact h
      · split
        · intro h3
          exact absurd rfl h3
        · rename_i h3
          exact fun _ => h3
    · exact h
  · exact h
  · simp only []
    split
    · intro h3
      exact absurd rfl h3
    · exact h
  · exact h

theorem notify_touch_run_focus_bound (env : Env) (evs : List touch_event) :
    ∀ seat : weston_seat,
      (seat.touch.focus ≠ none →
        find_resource_for_surface seat.touch.resource_list seat.touch.focus ≠ none) →
      (notify_touch_run env seat evs).touch.resource_list = seat.touch.resource_list ∧
      ((notify_touch_run env seat evs).touch.focus ≠ none →
        find_resource_for_surface seat.touch.resource_list
          (notify_touch_run env seat evs).touch.focus ≠ none) := by
  induction evs with
  | nil => intro seat h; exact ⟨rfl, h⟩
  | cons e evs ih =>
    intro seat h
    have hr : (notify_touch_step env seat e).touch.resource_list = seat.touch.resource_list :=
      notify_touch_resource_list env seat _ _ _ _ _
    obtain ⟨i1, i2⟩ := ih (notify_touch_step env seat e)
      (notify_touch_step_focus_bound env seat e h)
    rw [hr] at i1 i2
    exact ⟨i1, i2⟩

theorem num_tp_down_first (n : Nat) (h : n < 2 ^ 32) : (n + 1) % 2 ^ 32 = 1 ↔ n = 0 := by
  norm_num at h ⊢
  omega

theorem num_tp_up_last (n : Nat) (h : n < 2 ^ 32) : (n + 2 ^ 32 - 1) % 2 ^ 32 = 0 ↔ n = 1 := by
  norm_num at h ⊢
  omega

theorem notify_touch_run_cons (env : Env) (S : weston_seat) (e : touch_event)
    (evs : List touch_event) :
    notify_touch_run env S (e :: evs)
      = notify_touch_run env (notify_touch_step env S e) evs :=
  rfl

theorem notify_touch_run_replicate_down (n : Nat) :
    ∀ S : weston_seat, S.touch.focus = some surface_a →
      (notify_touch_run env_hit_a S (List.replicate n touch_down_event)).touch.focus
        = some surface_a ∧
      (notify_touch_run env_hit_a S (List.replicate n touch_down_event)).num_tp
        = (S.num_tp + n) % 2 ^ 32 ∨
      (n = 0 ∧ notify_touch_run env_hit_a S (List.replicate n touch_down_event) = S) := by
  induction n with
  | zero => intro S _; exact Or.inr ⟨rfl, rfl⟩
  | succ n ih =>
    intro S hS
    have hf : (notify_touch_step env_hit_a S touch_down_event).touch.focus
        = some surface_a := by
      unfold notify_touch_step
      rw [notify_touch_focus]
      simp [touch_down_event, env_hit_a, hS]
    have hn : (notify_touch_step env_hit_a S touch_down_event).num_tp
        = (S.num_tp + 1) % 2 ^ 32 := by
      unfold notify_touch_step
      rw [notify_touch_num_tp]
      rfl
    rw [List.replicate_succ]
    rcases ih _ hf with ⟨h1, h2⟩ | ⟨h0, h3⟩
    · refine Or.inl ⟨h1, ?_⟩
      show (notify_touch_run env_hit_a (notify_touch_step env_hit_a S touch_down_event)
        (List.replicate n touch_down_event)).num_tp = _
      rw [h2, hn]
      omega
    · subst h0
      refine Or.inl ⟨hf, ?_⟩
      show (notify_touch_step env_hit_a S touch_down_event).num_tp = _
      rw [hn]

/-! ## C11: the touch session focus -/

/-- C11 (as amended).  For every sequence of `notify_touch` events from idle
(`num_tp = 0`, no focus), whatever its length, and every next event: a down
event that finds `num_tp = 0` takes it to 1 and sets the focus to the surface
the hit test returns when that surface's client has a touch binding, and to no
surface otherwise; the up event that finds `num_tp = 1` takes it to 0 and
clears the focus; every other event leaves the focus as it is.  As long as
fewer than `2^32` events have run, the focus is null whenever `num_tp` is 0. -/
theorem touch_focus_follows_session (env : Env) (seat : weston_seat)
    (evs : List touch_event) (e : touch_event)
    (hidle : seat.num_tp = 0) (hfocus : seat.touch.focus = none) :
    (evs.length < 2 ^ 32 → (notify_touch_run env seat evs).num_tp = 0 →
      (notify_touch_run env seat evs).touch.focus = none) ∧
    (e.type = touch_type.WL_TOUCH_DOWN → (notify_touch_run env seat evs).num_tp = 0 →
      (notify_touch_step env (notify_touch_run env seat evs) e).num_tp = 1 ∧
      (notify_touch_step env (notify_touch_run env seat evs) e).touch.focus =
        if find_resource_for_surface seat.touch.resource_list
            (env.pick_surface e.x e.y).1 = none then none
        else (env.pick_surface e.x e.y).1) ∧
    (e.type = touch_type.WL_TOUCH_UP → (notify_touch_run env seat evs).num_tp = 1 →
      (notify_touch_step env (notify_touch_run env seat evs) e).num_tp = 0 ∧
      (notify_touch_step env (notify_touch_run env seat evs) e).touch.focus = none) ∧
    (¬ (e.type = touch_type.WL_TOUCH_DOWN ∧ (notify_touch_run env seat evs).num_tp = 0) →
      ¬ (e.type = touch_type.WL_TOUCH_UP ∧ (notify_touch_run env seat evs).num_tp = 1) →
      (notify_touch_step env (notify_touch_run env seat evs) e).touch.focus
        = (notify_touch_run env seat evs).touch.focus) := by
  have hlt : (notify_touch_run env seat evs).num_tp < 2 ^ 32 :=
    notify_touch_run_lt env evs seat (by rw [hidle]; norm_num)
  obtain ⟨hres, hinv⟩ := notify_touch_run_focus_bound env evs seat
    (fun h => absurd hfocus h)
  have hzero : evs.length < 2 ^ 32 → (notify_touch_run env seat evs).num_tp = 0 →
      (notify_touch_run env seat evs).touch.focus = none := by
    intro hlen h0
    by_contra hne
    have := notify_touch_run_bound env evs seat 0 (by omega) (fun h => absurd hfocus h) hne
    omega
  refine ⟨hzero, ?_, ?_, ?_⟩
  all_goals generalize notify_touch_run env seat evs = S at hlt hres hinv
  all_goals unfold notify_touch_step
  · rw [notify_touch_num_tp, notify_touch_focus]
    intro he h0
    rw [he]
    simp only []
    rw [if_pos ((num_tp_down_first _ hlt).mpr h0), hres]
    refine ⟨(num_tp_down_first _ hlt).mpr h0, ?_⟩
    by_cases h2 : S.touch.focus = (env.pick_surface e.x e.y).1
    · rw [if_pos h2]
      rcases hp : (env.pick_surface e.x e.y).1 with _ | A
      · rfl
      · rw [hp] at h2
        have := hinv (by rw [h2]; exact Option.some_ne_none A)
        rw [h2] at this
        rw [if_neg this]
    · rw [if_neg h2]
  · rw [notify_touch_num_tp, notify_touch_focus]
    intro he h1
    rw [he]
    simp only []
    rw [if_pos ((num_tp_up_last _ hlt).mpr h1)]
    exact ⟨(num_tp_up_last _ hlt).mpr h1, rfl⟩
  · rw [notify_touch_focus]
    intro hd hu
    rcases he : e.type with _ | _ | _ | n
    · simp only []
      rw [if_neg (fun h => hd ⟨he, (num_tp_down_first _ hlt).mp h⟩)]
    · rfl
    · simp only []
      rw [if_neg (fun h => hu ⟨he, (num_tp_up_last _ hlt).mp h⟩)]
    · rfl

/-- C11 (as amended) at concrete runs with a hit test that finds `surface_a`:
after two fingers down, moved and lifted there is no focus; the first down sets
the focus to `surface_a` when its client is bound and to no surface when it is
not; a second down leaves the focus; the up of the only finger clears it. -/
theorem touch_focus_follows_session_witness :
    seat_touch_bound.num_tp = 0 ∧ seat_touch_bound.touch.focus = none ∧
    (notify_touch_run env_hit_a seat_touch_bound two_finger_events).touch.focus = none ∧
    (notify_touch_step env_hit_a (notify_touch_run env_hit_a seat_touch_bound [])
      touch_down_event).touch.focus = some surface_a ∧
    (notify_touch_step env_hit_a (notify_touch_run env_hit_a seat0 [])
      touch_down_event).touch.focus = none ∧
    (notify_touch_step env_hit_a (notify_touch_run env_hit_a seat_touch_bound [touch_down_event])
      { time := 2, touch_id := 1, x := 50, y := 50, type := touch_type.WL_TOUCH_DOWN }).touch.focus
        = some surface_a ∧
    (notify_touch_step env_hit_a (notify_touch_run env_hit_a seat_touch_bound [touch_down_event])
      { time := 2, touch_id := 0, x := 1, y := 1, type := touch_type.WL_TOUCH_UP }).touch.focus
        = none :=
  ⟨rfl, rfl,
    (touch_focus_follows_session env_hit_a seat_touch_bound two_finger_events
      touch_down_event rfl rfl).1 (by decide) (by decide),
    ((touch_focus_follows_session env_hit_a seat_touch_bound [] touch_down_event
      rfl rfl).2.1 rfl rfl).2.trans (by decide),
    ((touch_focus_follows_session env_hit_a seat0 [] touch_down_event
      rfl rfl).2.1 rfl rfl).2.trans (by decide),
    ((touch_focus_follows_session env_hit_a seat_touch_bound [touch_down_event]
      { time := 2, touch_id := 1, x := 50, y := 50, type := touch_type.WL_TOUCH_DOWN }
      rfl rfl).2.2.2 (by decide) (by decide)).trans (by decide),
    ((touch_focus_follows_session env_hit_a seat_touch_bound [touch_down_event]
      { time := 2, touch_id := 0, x := 1, y := 1, type := touch_type.WL_TOUCH_UP }
      rfl rfl).2.2.1 rfl (by decide)).2⟩

/-- C11, counterexample.  From idle, `2^32` touch-down events on a surface
whose client has a touch binding wrap the 32-bit counter `num_tp` to 0 while
the session focus is still set: the focus is not null although `num_tp` is 0. -/
theorem touch_focus_set_at_wrapped_count :
    seat_touch_bound.num_tp = 0 ∧ seat_touch_bound.touch.focus = none ∧
    (notify_touch_run env_hit_a seat_touch_bound
      (List.replicate 4294967296 touch_down_event)).num_tp = 0 ∧
    (notify_touch_run env_hit_a seat_touch_bound
      (List.replicate 4294967296 touch_down_event)).touch.focus = some surface_a := by
  have h1 : (notify_touch_step env_hit_a seat_touch_bound touch_down_event).touch.focus
      = some surface_a := by decide
  have h2 : (notify_touch_step env_hit_a seat_touch_bound touch_down_event).num_tp = 1 := by
    decide
  have hrep : List.replicate 4294967296 touch_down_event
      = touch_down_event :: List.replicate 4294967295 touch_down_event :=
    List.replicate_succ touch_down_event 4294967295
  refine ⟨rfl, rfl, ?_⟩
  rw [hrep, notify_touch_run_cons]
  rcases notify_touch_run_replicate_down 4294967295 _ h1 with ⟨k1, k2⟩ | ⟨k0, _⟩
  · rw [h2] at k2
    exact ⟨k2.trans (by norm_num), k1⟩
  · exact absurd k0 (by norm_num)

theorem notify_touch_first_down (env : Env) (seat : weston_seat) (A : wl_surface)
    (r : wl_resource) (t : Nat) (id x y : Int)
    (hidle : seat.num_tp = 0) (hfocus : seat.touch.focus = none)
    (hhit : (env.pick_surface x y).1 = some A)
    (hbind : find_resource_for_surface seat.touch.resource_list (some A) = some r) :
    (notify_touch env seat t id x y touch_type.WL_TOUCH_DOWN).touch.focus = some A ∧
    (notify_touch env seat t id x y touch_type.WL_TOUCH_DOWN).touch.focus_resource
      = some r ∧
    (notify_touch env seat t id x y touch_type.WL_TOUCH_DOWN).num_tp = 1 ∧
    (notify_touch env seat t id x y touch_type.WL_TOUCH_DOWN).touch.grab
      = seat.touch.grab := by
  rcases hp : env.pick_surface x y with ⟨es, sx, sy⟩
  rw [hp] at hhit
  simp only [] at hhit
  subst hhit
  simp only [notify_touch, weston_compositor_idle_inhibit, hidle, hp]
  norm_num
  rw [(touch_grab_interface_down_frame _ _ _ _ _ _).1,
    (touch_grab_interface_down_frame _ _ _ _ _ _).2]
  rcases hfr : seat.touch.focus_resource with _ | fr <;>
  simp [touch_set_focus, hfocus, hbind, hfr]

theorem notify_touch_later_down (env : Env) (S : weston_seat) (A : wl_surface)
    (r : wl_resource) (t : Nat) (id x y : Int)
    (hnum : S.num_tp = 1) (hfocus : S.touch.focus = some A)
    (hres : S.touch.focus_resource = some r) :
    (∀ pick : Int → Int → Option wl_surface × Int × Int,
      notify_touch { env with pick_surface := pick } S t id x y touch_type.WL_TOUCH_DOWN
        = notify_touch env S t id x y touch_type.WL_TOUCH_DOWN) ∧
    (notify_touch env S t id x y touch_type.WL_TOUCH_DOWN).log = S.log ++
      [match S.touch.grab with
        | touch_grab.default_grab =>
          Msg.wl_touch_send_down r ((S.display_serial + 1) % 2 ^ 32) t A id
            (env.surface_from_global_fixed A x y).1 (env.surface_from_global_fixed A x y).2
        | g =>
          Msg.touch_grab_down g t id
            (env.surface_from_global_fixed A x y).1
            (env.surface_from_global_fixed A x y).2] := by
  refine ⟨fun pick => ?_, ?_⟩
  · simp [notify_touch, weston_compositor_idle_inhibit, hnum, hfocus]
  · rcases hq : env.surface_from_global_fixed A x y with ⟨sx, sy⟩
    rcases hg : S.touch.grab with _ | n <;>
    simp [notify_touch, weston_compositor_idle_inhibit, hnum, hfocus, hres, hq, hg,
      touch_grab_interface_down, default_grab_touch_down, send, wl_display_next_serial]

theorem notify_touch_run_focus_kept (env : Env) (A : wl_surface) (evs : List touch_event) :
    ∀ S : weston_seat, S.touch.focus = some A → S.num_tp ≠ 0 → S.num_tp < 2 ^ 32 →
      touch_points_stay_down env S evs = true →
      (notify_touch_run env S evs).touch.focus = some A ∧
      (notify_touch_run env S evs).num_tp ≠ 0 := by
  induction evs with
  | nil => intro S hf h0 _ _; exact ⟨hf, h0⟩
  | cons e evs ih =>
    intro S hf h0 hlt hdown
    simp only [touch_points_stay_down, Bool.and_eq_true, decide_eq_true_eq] at hdown
    rw [notify_touch_run_cons]
    refine ih _ ?_ hdown.1 (notify_touch_step_lt env S e hlt) hdown.2
    have hn := hdown.1
    unfold notify_touch_step at hn ⊢
    rw [notify_touch_num_tp] at hn
    rw [notify_touch_focus]
    norm_num at hlt
    generalize e.type = ty at hn ⊢
    rcases ty with _ | _ | _ | n
    · simp only []
      have h1 : ¬ (S.num_tp + 1) % 2 ^ 32 = 1 := by norm_num; omega
      rw [if_neg h1]
      exact hf
    · exact hf
    · simp only [] at hn ⊢
      rw [if_neg hn]
      exact hf
    · exact hf

/-! ## C12: a second touch-down goes to the surface of the first -/

/-- C12.  When the first touch-down (from idle) hits surface `A` whose client
has the touch binding `r`, a second touch-down at any point `(x2, y2)` does not
consult the hit test (its result is the same under every hit test), hands the
grab's down callback the point converted into the coordinates of `A` (the
default grab sends the down message to `r` naming `A`), and the session focus
stays `A` over every further sequence of events that keeps a touch point down;
the up event that brings `num_tp` back to 0 clears it. -/
theorem second_touch_down_goes_to_first_surface (env : Env) (seat : weston_seat)
    (A : wl_surface) (r : wl_resource) (t1 t2 : Nat) (id1 id2 x1 y1 x2 y2 : Int)
    (s1 s2 : weston_seat)
    (hidle : seat.num_tp = 0) (hfocus : seat.touch.focus = none)
    (hhit : (env.pick_surface x1 y1).1 = some A)
    (hbind : find_resource_for_surface seat.touch.resource_list (some A) = some r)
    (h1 : s1 = notify_touch env seat t1 id1 x1 y1 touch_type.WL_TOUCH_DOWN)
    (h2 : s2 = notify_touch env s1 t2 id2 x2 y2 touch_type.WL_TOUCH_DOWN) :
    (∀ pick : Int → Int → Option wl_surface × Int × Int,
      notify_touch { env with pick_surface := pick } s1 t2 id2 x2 y2
        touch_type.WL_TOUCH_DOWN = s2) ∧
    s2.log = s1.log ++
      [match seat.touch.grab with
        | touch_grab.default_grab =>
          Msg.wl_touch_send_down r ((s1.display_serial + 1) % 2 ^ 32) t2 A id2
            (env.surface_from_global_fixed A x2 y2).1
            (env.surface_from_global_fixed A x2 y2).2
        | g =>
          Msg.touch_grab_down g t2 id2
            (env.surface_from_global_fixed A x2 y2).1
            (env.surface_from_global_fixed A x2 y2).2] ∧
    s2.touch.focus = some A ∧ s2.num_tp = 2 ∧
    (∀ evs : List touch_event, touch_points_stay_down env s2 evs = true →
      (notify_touch_run env s2 evs).touch.focus = some A ∧
      ∀ e : touch_event, e.type = touch_type.WL_TOUCH_UP →
        (notify_touch_step env (notify_touch_run env s2 evs) e).num_tp = 0 →
        (notify_touch_step env (notify_touch_run env s2 evs) e).touch.focus = none) := by
  obtain ⟨f1, r1, n1, g1⟩ :=
    notify_touch_first_down env seat A r t1 id1 x1 y1 hidle hfocus hhit hbind
  rw [← h1] at f1 r1 n1 g1
  obtain ⟨p1, p2⟩ := notify_touch_later_down env s1 A r t2 id2 x2 y2 n1 f1 r1
  rw [← h2] at p2
  have hf2 : s2.touch.focus = some A := by
    rw [h2, notify_touch_focus]
    simp [n1, f1]
  have hn2 : s2.num_tp = 2 := by
    rw [h2, notify_touch_num_tp]
    simp [n1]
  refine ⟨fun pick => by rw [h2]; exact p1 pick, ?_, hf2, hn2, fun evs hdown => ⟨?_, ?_⟩⟩
  · rw [p2, g1]
  · exact (notify_touch_run_focus_kept env A evs s2 hf2 (by rw [hn2]; norm_num)
      (by rw [hn2]; norm_num) hdown).1
  · intro e he h0
    unfold notify_touch_step at h0 ⊢
    rw [notify_touch_num_tp, he] at h0
    rw [notify_touch_focus, he]
    simp only [] at h0 ⊢
    rw [if_pos h0]

/-- C12 at a concrete run: the first finger hits `surface_a` at `(1, 1)`, the
second comes down at `(50, 50)`; the second down is the same under a hit test
that finds nothing, both down messages go to the binding of client 7, and the
focus is still `surface_a` after the second finger has moved and lifted. -/
theorem second_touch_down_goes_to_first_surface_witness :
    (notify_touch { env_hit_a with pick_surface := fun _ _ => (none, 0, 0) }
      (notify_touch env_hit_a seat_touch_bound 1 0 1 1
        touch_type.WL_TOUCH_DOWN) 2 1 50 50 touch_type.WL_TOUCH_DOWN
        = notify_touch env_hit_a (notify_touch env_hit_a seat_touch_bound 1 0 1 1
            touch_type.WL_TOUCH_DOWN) 2 1 50 50 touch_type.WL_TOUCH_DOWN) ∧
    (notify_touch env_hit_a (notify_touch env_hit_a seat_touch_bound 1 0 1 1
      touch_type.WL_TOUCH_DOWN) 2 1 50 50 touch_type.WL_TOUCH_DOWN).log
        = [Msg.wl_touch_send_down binding_a1 1 1 surface_a 0 (-9) (-19),
           Msg.wl_touch_send_down binding_a1 2 2 surface_a 1 40 30] ∧
    (notify_touch_run env_hit_a (notify_touch env_hit_a (notify_touch env_hit_a
      seat_touch_bound 1 0 1 1 touch_type.WL_TOUCH_DOWN) 2 1 50 50
        touch_type.WL_TOUCH_DOWN) second_finger_events).touch.focus = some surface_a :=
  have h := second_touch_down_goes_to_first_surface env_hit_a seat_touch_bound surface_a
    binding_a1 1 2 0 1 1 1 50 50 _ _ (by decide) (by decide) (by decide) (by decide) rfl rfl
  ⟨h.1 (fun _ _ => (none, 0, 0)), h.2.1.trans (by decide), (h.2.2.2.2 second_finger_events
    (by decide)).1⟩

/-! ## Lemmas on the keyboard focus of the compositor -/

theorem only_log_refl (P : Msg → Prop) (a : weston_seat) : only_log P a a :=
  ⟨[], by simp, by simp⟩

theorem only_log_send (P : Msg → Prop) (a : weston_seat) (m : Msg) (hm : P m) :
    only_log P a (send a m) :=
  ⟨[m], rfl, by simpa using hm⟩

theorem only_log_trans {P : Msg → Prop} {a b c : weston_seat} (h1 : only_log P a b)
    (h2 : only_log P b c) : only_log P a c := by
  obtain ⟨o1, e1, p1⟩ := h1
  obtain ⟨o2, e2, p2⟩ := h2
  refine ⟨o1 ++ o2, ?_, ?_⟩
  · rw [e2, e1]
    simp
  · intro m hm
    rcases List.mem_append.mp hm with h | h
    · exact p1 m h
    · exact p2 m h

theorem xkb_updates_append (a b : List Msg) :
    xkb_updates (a ++ b) = xkb_updates a ++ xkb_updates b := by
  simp [xkb_updates, List.filterMap_append]

theorem xkb_update_of_notice (m : Msg) (h : is_modifiers_notice m = true) :
    xkb_update_of m = none := by
  cases m <;> first | rfl | simp [is_modifiers_notice] at h

theorem xkb_updates_of_notices (out : List Msg)
    (h : ∀ m ∈ out, is_modifiers_notice m = true) : xkb_updates out = [] := by
  induction out with
  | nil => rfl
  | cons m out ih =>
    unfold xkb_updates
    rw [List.filterMap_cons, xkb_update_of_notice m (h m (List.mem_cons_self _ _))]
    exact ih (fun m' hm' => h m' (List.mem_cons_of_mem _ hm'))

theorem weston_keyboard_set_focus_rest (seat : weston_seat) (surface : Option wl_surface) :
    (weston_keyboard_set_focus seat surface).modifier_state = seat.modifier_state ∧
    (weston_keyboard_set_focus seat surface).saved_kbd_focus = seat.saved_kbd_focus ∧
    (weston_keyboard_set_focus seat surface).keyboard.grab = seat.keyboard.grab ∧
    (weston_keyboard_set_focus seat surface).keyboard.keys = seat.keyboard.keys ∧
    (weston_keyboard_set_focus seat surface).xkb_state = seat.xkb_state ∧
    xkb_updates (weston_keyboard_set_focus seat surface).log = xkb_updates seat.log := by
  rcases hfr : seat.keyboard.focus_resource with _ | r0 <;>
  by_cases hf : seat.keyboard.focus = surface <;>
  rcases hfind : find_resource_for_surface seat.keyboard.resource_list surface with _ | r <;>
  rcases surface with _ | s <;>
  simp_all [weston_keyboard_set_focus, send, wl_display_next_serial, xkb_updates,
    List.filterMap_append, xkb_update_of]
  split <;> simp_all [List.filterMap_append, xkb_update_of]

theorem default_grab_modifiers_only_log (seat : weston_seat) (a b c d e : Nat) :
    only_log (fun m => is_modifiers_notice m = true) seat
      (default_grab_modifiers seat a b c d e) := by
  unfold default_grab_modifiers
  split
  · exact only_log_refl _ _
  · simp only []
    split
    · split
      · exact only_log_trans (only_log_send _ _ _ (by rfl)) (only_log_send _ _ _ (by rfl))
      · exact only_log_send _ _ _ (by rfl)
    · exact only_log_send _ _ _ (by rfl)

theorem keyboard_grab_interface_modifiers_only_log (seat : weston_seat)
    (grab : keyboard_grab) (a b c d e : Nat) :
    only_log (fun m => is_modifiers_notice m = true) seat
      (keyboard_grab_interface_modifiers seat grab a b c d e) := by
  unfold keyboard_grab_interface_modifiers
  split
  · exact default_grab_modifiers_only_log seat a b c d e
  · exact only_log_send _ _ _ (by rfl)

theorem notify_modifiers_eq (env : Env) (seat : weston_seat) (serial : Nat) :
    notify_modifiers env seat serial =
      if notify_modifiers_changed seat = true then
        keyboard_grab_interface_modifiers (notify_modifiers_snapshot env seat)
          seat.keyboard.grab serial seat.xkb_state.mods_depressed
          seat.xkb_state.mods_latched seat.xkb_state.mods_locked seat.xkb_state.group
      else notify_modifiers_snapshot env seat := by
  by_cases hled : notify_modifiers_leds env seat.xkb_info seat.xkb_state ≠ seat.xkb_leds ∧
      seat.has_led_update = true <;>
  by_cases hch : (seat.xkb_state.mods_depressed ≠ seat.keyboard.modifiers.mods_depressed ∨
      seat.xkb_state.mods_latched ≠ seat.keyboard.modifiers.mods_latched ∨
      seat.xkb_state.mods_locked ≠ seat.keyboard.modifiers.mods_locked ∨
      seat.xkb_state.group ≠ seat.keyboard.modifiers.group) <;>
  simp only [notify_modifiers, notify_modifiers_changed, notify_modifiers_snapshot, hled, hch,
    send, if_true, if_false, decide_True, decide_False, not_false_eq_true, and_self, ne_eq,
    List.append_nil]

theorem notify_modifiers_only_log (env : Env) (seat : weston_seat) (serial : Nat) :
    only_log (fun m => is_modifiers_notice m = true) (notify_modifiers_snapshot env seat)
      (notify_modifiers env seat serial) := by
  rw [notify_modifiers_eq]
  split
  · exact keyboard_grab_interface_modifiers_only_log _ _ _ _ _ _ _
  · exact only_log_refl _ _

theorem xkb_updates_led (c : Prop) [Decidable c] (leds : Nat) :
    xkb_updates (if c then [Msg.led_update leds] else []) = [] := by
  split <;> rfl

theorem update_modifier_state_rest (env : Env) (seat : weston_seat) (serial key : Nat)
    (state : wl_keyboard_key_state) :
    (update_modifier_state env seat serial key state).xkb_state
      = env.xkb_state_update_key seat.xkb_state ((key + 8) % 2 ^ 32)
          (if state = wl_keyboard_key_state.PRESSED then xkb_key_direction.XKB_KEY_DOWN
            else xkb_key_direction.XKB_KEY_UP) ∧
    (update_modifier_state env seat serial key state).saved_kbd_focus
      = seat.saved_kbd_focus ∧
    (update_modifier_state env seat serial key state).keyboard.resource_list
      = seat.keyboard.resource_list ∧
    xkb_updates (update_modifier_state env seat serial key state).log
      = xkb_updates seat.log ++
          [((key + 8) % 2 ^ 32, if state = wl_keyboard_key_state.PRESSED then
              xkb_key_direction.XKB_KEY_DOWN else xkb_key_direction.XKB_KEY_UP)] := by
  unfold update_modifier_state
  simp only []
  obtain ⟨out, e, p⟩ := notify_modifiers_only_log env
    { send seat (Msg.xkb_state_update_key ((key + 8) % 2 ^ 32)
        (if state = wl_keyboard_key_state.PRESSED then xkb_key_direction.XKB_KEY_DOWN
          else xkb_key_direction.XKB_KEY_UP)) with
      xkb_state := env.xkb_state_update_key
        (send seat (Msg.xkb_state_update_key ((key + 8) % 2 ^ 32)
          (if state = wl_keyboard_key_state.PRESSED then xkb_key_direction.XKB_KEY_DOWN
            else xkb_key_direction.XKB_KEY_UP))).xkb_state ((key + 8) % 2 ^ 32)
        (if state = wl_keyboard_key_state.PRESSED then xkb_key_direction.XKB_KEY_DOWN
          else xkb_key_direction.XKB_KEY_UP) } serial
  rw [e]
  refine ⟨rfl, rfl, rfl, ?_⟩
  simp only [notify_modifiers_snapshot, send, xkb_updates_append,
    xkb_updates_of_notices out p, List.append_nil, xkb_updates_led]
  rfl

theorem release_keys_fold (env : Env) (serial : Nat) (keys : List Nat) :
    ∀ seat : weston_seat,
      (keys.foldl (fun seat k => update_modifier_state env
          (weston_compositor_idle_release seat) serial k wl_keyboard_key_state.RELEASED)
        seat).keyboard.focus = seat.keyboard.focus ∧
      (keys.foldl (fun seat k => update_modifier_state env
          (weston_compositor_idle_release seat) serial k wl_keyboard_key_state.RELEASED)
        seat).keyboard.keys = seat.keyboard.keys ∧
      (keys.foldl (fun seat k => update_modifier_state env
          (weston_compositor_idle_release seat) serial k wl_keyboard_key_state.RELEASED)
        seat).xkb_state
        = keys.foldl (fun st k => env.xkb_state_update_key st ((k + 8) % 2 ^ 32)
            xkb_key_direction.XKB_KEY_UP) seat.xkb_state ∧
      xkb_updates (keys.foldl (fun seat k => update_modifier_state env
          (weston_compositor_idle_release seat) serial k wl_keyboard_key_state.RELEASED)
        seat).log
        = xkb_updates seat.log ++ keys.map (fun k => ((k + 8) % 2 ^ 32, xkb_key_direction.XKB_KEY_UP)) := by
  induction keys with
  | nil => intro seat; simp
  | cons k keys ih =>
    intro seat
    obtain ⟨a1, a2, a3, a4⟩ := ih (update_modifier_state env
      (weston_compositor_idle_release seat) serial k wl_keyboard_key_state.RELEASED)
    obtain ⟨b1, _, b3, _⟩ := update_modifier_state_keyboard env
      (weston_compositor_idle_release seat) serial k wl_keyboard_key_state.RELEASED
    obtain ⟨c1, _, _, c4⟩ := update_modifier_state_rest env
      (weston_compositor_idle_release seat) serial k wl_keyboard_key_state.RELEASED
    simp only [List.foldl_cons, List.map_cons]
    refine ⟨a1.trans b3, a2.trans b1, a3.trans ?_, a4.trans ?_⟩
    · rw [c1]
      rfl
    · rw [c4]
      simp [weston_compositor_idle_release]

theorem focus_out_tail (X : weston_seat) :
    (weston_keyboard_end_grab (weston_keyboard_set_focus X none)).modifier_state
      = X.modifier_state ∧
    (weston_keyboard_end_grab (weston_keyboard_set_focus X none)).keyboard.focus = none ∧
    (weston_keyboard_end_grab (weston_keyboard_set_focus X none)).keyboard.focus_resource
      = none ∧
    (weston_keyboard_end_grab (weston_keyboard_set_focus X none)).saved_kbd_focus
      = X.saved_kbd_focus ∧
    (weston_keyboard_end_grab (weston_keyboard_set_focus X none)).keyboard.grab
      = keyboard_grab.default_grab ∧
    (weston_keyboard_end_grab (weston_keyboard_set_focus X none)).xkb_state = X.xkb_state ∧
    xkb_updates (weston_keyboard_end_grab (weston_keyboard_set_focus X none)).log
      = xkb_updates X.log ∧
    (weston_keyboard_end_grab (weston_keyboard_set_focus X none)).keyboard.keys
      = X.keyboard.keys := by
  obtain ⟨_, f2, f3, _, _⟩ := weston_keyboard_set_focus_frame X none
  obtain ⟨r1, r2, _, r4, r5, r6⟩ := weston_keyboard_set_focus_rest X none
  refine ⟨r1, f2, ?_, r2, rfl, r5, r6, r4⟩
  exact f3.trans rfl

theorem notify_keyboard_focus_out_result (env : Env) (seat : weston_seat)
    (S : wl_surface) (hfocus : seat.keyboard.focus = some S) :
    xkb_updates (notify_keyboard_focus_out env seat).log
      = xkb_updates seat.log ++
          seat.keyboard.keys.map (fun k => ((k + 8) % 2 ^ 32, xkb_key_direction.XKB_KEY_UP)) ∧
    (notify_keyboard_focus_out env seat).xkb_state
      = seat.keyboard.keys.foldl (fun st k => env.xkb_state_update_key st ((k + 8) % 2 ^ 32)
          xkb_key_direction.XKB_KEY_UP) seat.xkb_state ∧
    (notify_keyboard_focus_out env seat).modifier_state = 0 ∧
    (notify_keyboard_focus_out env seat).keyboard.focus = none ∧
    (notify_keyboard_focus_out env seat).keyboard.focus_resource = none ∧
    (notify_keyboard_focus_out env seat).saved_kbd_focus = some S ∧
    (notify_keyboard_focus_out env seat).keyboard.grab = keyboard_grab.default_grab := by
  obtain ⟨k1, _, k3, k4⟩ := release_keys_fold env ((seat.display_serial + 1) % 2 ^ 32)
    seat.keyboard.keys { seat with display_serial := (seat.display_serial + 1) % 2 ^ 32 }
  simp only [] at k1 k3 k4
  unfold notify_keyboard_focus_out
  simp only [wl_display_next_serial]
  rw [k1, hfocus]
  simp only []
  refine ⟨?_, ?_, ?_, ?_, ?_, ?_, ?_⟩
  · rw [(focus_out_tail _).2.2.2.2.2.2.1]
    exact k4
  · rw [(focus_out_tail _).2.2.2.2.2.1]
    exact k3
  · rw [(focus_out_tail _).1]
  · exact (focus_out_tail _).2.1
  · exact (focus_out_tail _).2.2.1
  · rw [(focus_out_tail _).2.2.2.1]
  · exact (focus_out_tail _).2.2.2.2.1

/-! ## C13: the keyboard focus leaves the compositor -/

/-- C13.  For every keyboard state with focus surface `S` and pressed keys `K`,
`notify_keyboard_focus_out` calls the keymap state machine once per key of `K`,
in array order, with that key's code plus 8 (in `uint32_t`) and the direction
"up" (and makes no other call of it), and leaves `modifier_state = 0`, keyboard
focus and `focus_resource` null, `saved_kbd_focus = S` and the default keyboard
grab active. -/
theorem focus_out_releases_keys_and_saves_focus (env : Env) (seat : weston_seat)
    (S : wl_surface) (hfocus : seat.keyboard.focus = some S) :
    xkb_updates (notify_keyboard_focus_out env seat).log
      = xkb_updates seat.log ++
          seat.keyboard.keys.map (fun k => ((k + 8) % 2 ^ 32, xkb_key_direction.XKB_KEY_UP)) ∧
    (notify_keyboard_focus_out env seat).xkb_state
      = seat.keyboard.keys.foldl (fun st k => env.xkb_state_update_key st ((k + 8) % 2 ^ 32)
          xkb_key_direction.XKB_KEY_UP) seat.xkb_state ∧
    (notify_keyboard_focus_out env seat).modifier_state = 0 ∧
    (notify_keyboard_focus_out env seat).keyboard.focus = none ∧
    (notify_keyboard_focus_out env seat).keyboard.focus_resource = none ∧
    (notify_keyboard_focus_out env seat).saved_kbd_focus = some S ∧
    (notify_keyboard_focus_out env seat).keyboard.grab = keyboard_grab.default_grab :=
  notify_keyboard_focus_out_result env seat S hfocus

/-- C13 at a concrete keyboard: keys 29 and 30 pressed, control depressed, a
custom grab active, focus on `surface_a`. -/
theorem focus_out_releases_keys_and_saves_focus_witness :
    seat_keys_down.keyboard.focus = some surface_a ∧
    xkb_updates (notify_keyboard_focus_out env_ctrl seat_keys_down).log
      = [(37, xkb_key_direction.XKB_KEY_UP), (38, xkb_key_direction.XKB_KEY_UP)] ∧
    (notify_keyboard_focus_out env_ctrl seat_keys_down).xkb_state.mods_depressed = 0 ∧
    (notify_keyboard_focus_out env_ctrl seat_keys_down).modifier_state = 0 ∧
    (notify_keyboard_focus_out env_ctrl seat_keys_down).saved_kbd_focus = some surface_a ∧
    (notify_keyboard_focus_out env_ctrl seat_keys_down).keyboard.grab
      = keyboard_grab.default_grab :=
  have h := focus_out_releases_keys_and_saves_focus env_ctrl seat_keys_down surface_a rfl
  ⟨rfl, h.1.trans (by decide), by rw [h.2.1]; decide, h.2.2.1, h.2.2.2.2.2.1, h.2.2.2.2.2.2⟩

theorem focus_in_press_fold (env : Env) (serial : Nat)
    (update_state : weston_key_state_update) (keys : List Nat) :
    ∀ seat : weston_seat,
      (keys.foldl (notify_keyboard_focus_in_press env serial update_state)
        seat).keyboard.focus = seat.keyboard.focus ∧
      (keys.foldl (notify_keyboard_focus_in_press env serial update_state)
        seat).saved_kbd_focus = seat.saved_kbd_focus := by
  induction keys with
  | nil => intro seat; exact ⟨rfl, rfl⟩
  | cons k keys ih =>
    intro seat
    simp only [List.foldl_cons]
    obtain ⟨a1, a2⟩ := ih (notify_keyboard_focus_in_press env serial update_state seat k)
    rw [a1, a2]
    unfold notify_keyboard_focus_in_press
    cases update_state
    · obtain ⟨_, _, b3, _⟩ := update_modifier_state_keyboard env
        (weston_compositor_idle_inhibit seat) serial k wl_keyboard_key_state.PRESSED
      obtain ⟨_, c2, _, _⟩ := update_modifier_state_rest env
        (weston_compositor_idle_inhibit seat) serial k wl_keyboard_key_state.PRESSED
      exact ⟨b3, c2⟩
    · exact ⟨rfl, rfl⟩

theorem focus_in_hook_fold (env : Env) (keys : List Nat) :
    ∀ seat : weston_seat,
      (keys.foldl (notify_keyboard_focus_in_hook env) seat).keyboard.focus
        = seat.keyboard.focus ∧
      (keys.foldl (notify_keyboard_focus_in_hook env) seat).saved_kbd_focus
        = seat.saved_kbd_focus := by
  induction keys with
  | nil => intro seat; exact ⟨rfl, rfl⟩
  | cons k keys ih =>
    intro seat
    simp only [List.foldl_cons]
    obtain ⟨a1, a2⟩ := ih (notify_keyboard_focus_in_hook env seat k)
    rw [a1, a2]
    exact ⟨rfl, rfl⟩

theorem notify_keyboard_focus_in_focus (env : Env) (X : weston_seat) (keys : List Nat)
    (update_state : weston_key_state_update) :
    (notify_keyboard_focus_in env X keys update_state).keyboard.focus
      = (match X.saved_kbd_focus with
        | some s => some s
        | none => X.keyboard.focus) ∧
    (notify_keyboard_focus_in env X keys update_state).saved_kbd_focus = none := by
  unfold notify_keyboard_focus_in
  simp only [wl_display_next_serial]
  rw [(focus_in_hook_fold env keys _).2, (focus_in_press_fold env _ update_state keys _).2]
  simp only []
  rcases hs : X.saved_kbd_focus with _ | s
  · simp only []
    rw [(focus_in_hook_fold env keys _).1, (focus_in_hook_fold env keys _).2,
      (focus_in_press_fold env _ update_state keys _).1,
      (focus_in_press_fold env _ update_state keys _).2]
    refine ⟨rfl, ?_⟩
    simp only []
  · simp only []
    exact ⟨(weston_keyboard_set_focus_frame _ _).2.1, trivial⟩

/-! ## C14: the keyboard focus comes back -/

/-- C14.  For every keyboard focused on surface `S`, `notify_keyboard_focus_out`
followed by `notify_keyboard_focus_in (keys)` ends with keyboard focus `S`
again and `saved_kbd_focus` null; when the destruction handler of the saved
surface (`destroy_device_saved_kbd_focus`) ran in between, the focus stays
null. -/
theorem focus_out_then_in_restores_focus (env : Env) (seat : weston_seat) (S : wl_surface)
    (keys : List Nat) (update_state : weston_key_state_update)
    (hfocus : seat.keyboard.focus = some S) :
    (notify_keyboard_focus_in env (notify_keyboard_focus_out env seat) keys
      update_state).keyboard.focus = some S ∧
    (notify_keyboard_focus_in env (notify_keyboard_focus_out env seat) keys
      update_state).saved_kbd_focus = none ∧
    (notify_keyboard_focus_in env
      (destroy_device_saved_kbd_focus (notify_keyboard_focus_out env seat)) keys
      update_state).keyboard.focus = none ∧
    (notify_keyboard_focus_in env
      (destroy_device_saved_kbd_focus (notify_keyboard_focus_out env seat)) keys
      update_state).saved_kbd_focus = none := by
  obtain ⟨_, _, _, o4, _, o6, _⟩ := notify_keyboard_focus_out_result env seat S hfocus
  obtain ⟨a1, a2⟩ := notify_keyboard_focus_in_focus env
    (notify_keyboard_focus_out env seat) keys update_state
  obtain ⟨b1, b2⟩ := notify_keyboard_focus_in_focus env
    (destroy_device_saved_kbd_focus (notify_keyboard_focus_out env seat)) keys update_state
  refine ⟨?_, a2, ?_, b2⟩
  · rw [a1, o6]
  · rw [b1]
    exact o4

/-- C14 at a concrete keyboard: focus on `surface_a`, focus-out, then focus-in
with keys 29 and 30, with and without the destruction handler in between. -/
theorem focus_out_then_in_restores_focus_witness :
    seat_keys_down.keyboard.focus = some surface_a ∧
    (notify_keyboard_focus_in env_ctrl (notify_keyboard_focus_out env_ctrl seat_keys_down)
      [29, 30] weston_key_state_update.STATE_UPDATE_AUTOMATIC).keyboard.focus
        = some surface_a ∧
    (notify_keyboard_focus_in env_ctrl (notify_keyboard_focus_out env_ctrl seat_keys_down)
      [29, 30] weston_key_state_update.STATE_UPDATE_AUTOMATIC).saved_kbd_focus = none ∧
    (notify_keyboard_focus_in env_ctrl
      (destroy_device_saved_kbd_focus (notify_keyboard_focus_out env_ctrl seat_keys_down))
      [29, 30] weston_key_state_update.STATE_UPDATE_AUTOMATIC).keyboard.focus = none :=
  have h := focus_out_then_in_restores_focus env_ctrl seat_keys_down surface_a [29, 30]
    weston_key_state_update.STATE_UPDATE_AUTOMATIC rfl
  ⟨rfl, h.1, h.2.1, h.2.2.1⟩

/-! ## Lemmas on the modifier state -/

theorem and_two_pow_ne_zero (mask index : Nat) :
    (mask &&& 2 ^ index != 0) = mask.testBit index := by
  cases h : mask.testBit index
  · have h0 : mask &&& 2 ^ index = 0 := by
      apply Nat.eq_of_testBit_eq
      intro j
      rw [Nat.testBit_and, Nat.testBit_two_pow, Nat.zero_testBit]
      by_cases hj : index = j
      · subst hj
        simp [h]
      · simp [hj]
    simp [h0]
  · have h1 : (mask &&& 2 ^ index).testBit index = true := by
      rw [Nat.testBit_and, Nat.testBit_two_pow, h]
      simp
    have hne : mask &&& 2 ^ index ≠ 0 := by
      intro h0
      rw [h0, Nat.zero_testBit] at h1
      exact Bool.noConfusion h1
    simp [hne]

theorem mod_bit_set_eq_testBit (env : Env) (mask index : Nat) (h : index < 32) :
    mod_bit_set env mask index = mask.testBit index := by
  unfold mod_bit_set int_shift_left_one
  rw [if_pos h, Nat.one_shiftLeft, and_two_pow_ne_zero, Nat.testBit_mod_two_pow]
  simp [h]

theorem notify_modifiers_modifier_state_eq (env : Env) (seat : weston_seat) (serial : Nat) :
    (notify_modifiers env seat serial).modifier_state
      = notify_modifiers_modifier_state env seat.xkb_info
          (seat.xkb_state.mods_depressed ||| seat.xkb_state.mods_latched) := by
  obtain ⟨out, e, _⟩ := notify_modifiers_only_log env seat serial
  rw [e]
  rfl

theorem notify_modifiers_idempotent (env : Env) (seat : weston_seat) (serial serial2 : Nat) :
    notify_modifiers env (notify_modifiers env seat serial) serial2
      = notify_modifiers env seat serial := by
  obtain ⟨out, e, _⟩ := notify_modifiers_only_log env seat serial
  rw [e, notify_modifiers_eq]
  simp [notify_modifiers_changed, notify_modifiers_snapshot]

/-! ## C17: `notify_modifiers` notifies on change only -/

/-- C17.  `notify_modifiers` calls the modifiers callback of the active keyboard
grab if and only if one of the serialized values (depressed, latched, locked,
group) differs from the keyboard's stored snapshot: its result is the callback
applied to the updated seat when `changed` holds and the updated seat itself
otherwise, and updating the seat emits nothing but the LED hook.  In both cases
the stored snapshot equals the new values afterwards, so a second call with the
keymap state unchanged changes nothing and sends nothing. -/
theorem modifiers_callback_iff_changed (env : Env) (seat : weston_seat)
    (serial serial2 : Nat) :
    (notify_modifiers env seat serial =
      if notify_modifiers_changed seat = true then
        keyboard_grab_interface_modifiers (notify_modifiers_snapshot env seat)
          seat.keyboard.grab serial seat.xkb_state.mods_depressed
          seat.xkb_state.mods_latched seat.xkb_state.mods_locked seat.xkb_state.group
      else notify_modifiers_snapshot env seat) ∧
    (∃ out, (notify_modifiers_snapshot env seat).log = seat.log ++ out ∧
      ∀ m ∈ out, ∃ leds, m = Msg.led_update leds) ∧
    (∀ n, seat.keyboard.grab = keyboard_grab.custom n →
      (notify_modifiers env seat serial).log = (notify_modifiers_snapshot env seat).log ++
        if notify_modifiers_changed seat = true then
          [Msg.keyboard_grab_modifiers (keyboard_grab.custom n) serial
            seat.xkb_state.mods_depressed seat.xkb_state.mods_latched
            seat.xkb_state.mods_locked seat.xkb_state.group]
        else []) ∧
    (notify_modifiers env seat serial).keyboard.modifiers =
      { mods_depressed := seat.xkb_state.mods_depressed,
        mods_latched := seat.xkb_state.mods_latched,
        mods_locked := seat.xkb_state.mods_locked,
        group := seat.xkb_state.group } ∧
    notify_modifiers_changed (notify_modifiers env seat serial) = false ∧
    notify_modifiers env (notify_modifiers env seat serial) serial2
      = notify_modifiers env seat serial := by
  refine ⟨notify_modifiers_eq env seat serial, ?_, ?_, ?_, ?_,
    notify_modifiers_idempotent env seat serial serial2⟩
  · refine ⟨_, rfl, ?_⟩
    intro m hm
    split at hm
    · exact ⟨_, List.mem_singleton.mp hm⟩
    · cases hm
  · intro n hn
    rw [notify_modifiers_eq]
    split
    · simp [keyboard_grab_interface_modifiers, hn, send]
    · simp
  · rw [notify_modifiers_keyboard]
  · obtain ⟨out, e, _⟩ := notify_modifiers_only_log env seat serial
    rw [e]
    simp [notify_modifiers_changed, notify_modifiers_snapshot]

/-! ## C18: the modifier flags of the seat -/

/-- C18.  With the flag values of `compositor.h` (ctrl 1, alt 2, super 4,
shift 8) and modifier indices that are bit positions of the 32-bit mask (below
32): after `notify_modifiers`, `modifier_state` contains the ctrl, alt, super,
shift flag exactly when the bit at the keymap's ctrl, alt, super, shift index
is set in `mods_depressed | mods_latched`; it contains no other flag; and it
does not depend on `mods_locked`. -/
theorem modifier_state_from_depressed_or_latched (env : Env) (seat : weston_seat)
    (serial : Nat) (hc : env.MODIFIER_CTRL = 1) (ha : env.MODIFIER_ALT = 2)
    (hs : env.MODIFIER_SUPER = 4) (hsh : env.MODIFIER_SHIFT = 8)
    (hci : seat.xkb_info.ctrl_mod < 32) (hai : seat.xkb_info.alt_mod < 32)
    (hsi : seat.xkb_info.super_mod < 32) (hshi : seat.xkb_info.shift_mod < 32) :
    ((notify_modifiers env seat serial).modifier_state &&& env.MODIFIER_CTRL ≠ 0 ↔
      (seat.xkb_state.mods_depressed ||| seat.xkb_state.mods_latched).testBit
        seat.xkb_info.ctrl_mod = true) ∧
    ((notify_modifiers env seat serial).modifier_state &&& env.MODIFIER_ALT ≠ 0 ↔
      (seat.xkb_state.mods_depressed ||| seat.xkb_state.mods_latched).testBit
        seat.xkb_info.alt_mod = true) ∧
    ((notify_modifiers env seat serial).modifier_state &&& env.MODIFIER_SUPER ≠ 0 ↔
      (seat.xkb_state.mods_depressed ||| seat.xkb_state.mods_latched).testBit
        seat.xkb_info.super_mod = true) ∧
    ((notify_modifiers env seat serial).modifier_state &&& env.MODIFIER_SHIFT ≠ 0 ↔
      (seat.xkb_state.mods_depressed ||| seat.xkb_state.mods_latched).testBit
        seat.xkb_info.shift_mod = true) ∧
    (notify_modifiers env seat serial).modifier_state &&&
        (env.MODIFIER_CTRL ||| env.MODIFIER_ALT ||| env.MODIFIER_SUPER ||| env.MODIFIER_SHIFT)
      = (notify_modifiers env seat serial).modifier_state ∧
    (∀ locked : Nat,
      (notify_modifiers env
        { seat with xkb_state := { seat.xkb_state with mods_locked := locked } }
        serial).modifier_state = (notify_modifiers env seat serial).modifier_state) := by
  refine ⟨?_, ?_, ?_, ?_, ?_, fun locked => ?_⟩ <;>
  simp only [notify_modifiers_modifier_state_eq, notify_modifiers_modifier_state,
    mod_bit_set_eq_testBit _ _ _ hci, mod_bit_set_eq_testBit _ _ _ hai,
    mod_bit_set_eq_testBit _ _ _ hsi, mod_bit_set_eq_testBit _ _ _ hshi, hc, ha, hs, hsh] <;>
  generalize (seat.xkb_state.mods_depressed ||| seat.xkb_state.mods_latched).testBit
    seat.xkb_info.ctrl_mod = a <;>
  generalize (seat.xkb_state.mods_depressed ||| seat.xkb_state.mods_latched).testBit
    seat.xkb_info.alt_mod = b <;>
  generalize (seat.xkb_state.mods_depressed ||| seat.xkb_state.mods_latched).testBit
    seat.xkb_info.super_mod = c <;>
  generalize (seat.xkb_state.mods_depressed ||| seat.xkb_state.mods_latched).testBit
    seat.xkb_info.shift_mod = d <;>
  cases a <;> cases b <;> cases c <;> cases d <;> decide

/-- C18 at a concrete seat: control depressed gives `modifier_state = 1`, also
when shift is locked. -/
theorem modifier_state_from_depressed_or_latched_witness :
    env_ctrl.MODIFIER_CTRL = 1 ∧ env_ctrl.MODIFIER_ALT = 2 ∧ env_ctrl.MODIFIER_SUPER = 4 ∧
    env_ctrl.MODIFIER_SHIFT = 8 ∧
    seat_keys_down.xkb_info.ctrl_mod < 32 ∧ seat_keys_down.xkb_info.alt_mod < 32 ∧
    seat_keys_down.xkb_info.super_mod < 32 ∧ seat_keys_down.xkb_info.shift_mod < 32 ∧
    (notify_modifiers env_ctrl seat_keys_down 1).modifier_state = 1 ∧
    (notify_modifiers env_ctrl
      { seat_keys_down with xkb_state := { seat_keys_down.xkb_state with mods_locked := 8 } }
      1).modifier_state = 1 :=
  have h := modifier_state_from_depressed_or_latched env_ctrl seat_keys_down 1 rfl rfl rfl rfl
    (by decide) (by decide) (by decide) (by decide)
  ⟨rfl, rfl, rfl, rfl, by decide, by decide, by decide, by decide, by decide,
    (h.2.2.2.2.2 8).trans (by decide)⟩

/-! ## Lemmas on pointer motion -/

theorem pointer_kept_refl (a : weston_seat) : pointer_kept a a :=
  ⟨rfl, rfl, rfl, rfl, rfl, rfl, rfl, rfl, rfl, emits_refl _ _⟩

theorem pointer_kept_trans {a b c : weston_seat} (h1 : pointer_kept a b)
    (h2 : pointer_kept b c) : pointer_kept a c := by
  obtain ⟨a1, a2, a3, a4, a5, a6, a7, a8, a9, a10⟩ := h1
  obtain ⟨b1, b2, b3, b4, b5, b6, b7, b8, b9, b10⟩ := h2
  exact ⟨b1.trans a1, b2.trans a2, b3.trans a3, b4.trans a4, b5.trans a5, b6.trans a6,
    b7.trans a7, b8.trans a8, b9.trans a9, emits_trans a10 b10⟩

theorem pointer_kept_send (a : weston_seat) (m : Msg) (hm : is_pointer_traffic m = false) :
    pointer_kept a (send a m) :=
  ⟨rfl, rfl, rfl, rfl, rfl, rfl, rfl, rfl, rfl, emits_send a m hm⟩

theorem surface_set_configure_kept (a : weston_seat) (s : wl_surface)
    (c : Option surface_configure) : pointer_kept a (surface_set_configure a s c) := by
  unfold surface_set_configure
  cases c <;> exact ⟨rfl, rfl, rfl, rfl, rfl, rfl, rfl, rfl, rfl, emits_of_log_eq rfl⟩

theorem weston_surface_unmap_kept (a : weston_seat) (s : wl_surface) :
    pointer_kept a (weston_surface_unmap a s) :=
  ⟨rfl, rfl, rfl, rfl, rfl, rfl, rfl, rfl, rfl, emits_of_log_snoc _ rfl (by rfl)⟩

theorem weston_surface_map_kept (a : weston_seat) (s : wl_surface) :
    pointer_kept a (weston_surface_map a s) :=
  ⟨rfl, rfl, rfl, rfl, rfl, rfl, rfl, rfl, rfl, emits_of_log_snoc _ rfl (by rfl)⟩

theorem pointer_kept_drag_surface (a : weston_seat) (d : Option wl_surface) :
    pointer_kept a { a with drag_surface := d } :=
  ⟨rfl, rfl, rfl, rfl, rfl, rfl, rfl, rfl, rfl, emits_of_log_eq rfl⟩

theorem device_release_drag_surface_kept (a : weston_seat) :
    pointer_kept a (device_release_drag_surface a) := by
  unfold device_release_drag_surface
  split
  · exact pointer_kept_refl a
  · simp only []
    refine pointer_kept_trans ?_ (pointer_kept_drag_surface _ none)
    refine pointer_kept_trans ?_ (surface_set_configure_kept _ _ _)
    split
    · exact weston_surface_unmap_kept _ _
    · exact pointer_kept_refl a

theorem device_setup_new_drag_surface_kept (a : weston_seat) (s : wl_surface) :
    pointer_kept a (device_setup_new_drag_surface a s).1 := by
  unfold device_setup_new_drag_surface
  split
  · exact pointer_kept_send _ _ (by rfl)
  · simp only []
    refine pointer_kept_trans ?_ (surface_set_configure_kept _ _ _)
    exact pointer_kept_trans (pointer_kept_drag_surface _ _) (pointer_kept_send _ _ (by rfl))

theorem device_map_drag_surface_kept (a : weston_seat) :
    pointer_kept a (device_map_drag_surface a) := by
  unfold device_map_drag_surface
  split
  · exact pointer_kept_refl a
  · split
    · exact pointer_kept_refl a
    · exact weston_surface_map_kept _ _

theorem weston_seat_update_drag_surface_kept (a : weston_seat) (dx dy : Int) :
    pointer_kept a (weston_seat_update_drag_surface a dx dy) := by
  unfold weston_seat_update_drag_surface
  split
  · exact pointer_kept_refl a
  · simp only []
    have hrel : pointer_kept a
        (if (decide (a.seat_drag_surface = none) ||
            decide (a.drag_surface ≠ none ∧ a.seat_drag_surface ≠ none ∧
              a.drag_surface ≠ a.seat_drag_surface)) = true
          then device_release_drag_surface a else a) := by
      split
      · exact device_release_drag_surface_kept a
      · exact pointer_kept_refl a
    split
    · exact hrel
    · refine pointer_kept_trans hrel ?_
      generalize (if (decide (a.seat_drag_surface = none) ||
            decide (a.drag_surface ≠ none ∧ a.seat_drag_surface ≠ none ∧
              a.drag_surface ≠ a.seat_drag_surface)) = true
          then device_release_drag_surface a else a) = b
      have hsetup : pointer_kept b
          (match b.drag_surface, b.seat_drag_surface with
            | none, some surface => device_setup_new_drag_surface b surface
            | _, _ => (b, true)).1 := by
        split
        · exact device_setup_new_drag_surface_kept b _
        · exact pointer_kept_refl b
      generalize (match b.drag_surface, b.seat_drag_surface with
            | none, some surface => device_setup_new_drag_surface b surface
            | _, _ => (b, true)) = p at hsetup
      obtain ⟨c, ok⟩ := p
      simp only [] at hsetup ⊢
      split
      · exact hsetup
      · refine pointer_kept_trans hsetup ?_
        split
        · exact device_map_drag_surface_kept c
        · split
          · exact pointer_kept_trans (device_map_drag_surface_kept c)
              (pointer_kept_send _ _ (by rfl))
          · exact device_map_drag_surface_kept c

theorem move_pointer_zoom_kept (ix iy : Int) (a : weston_seat) :
    pointer_kept a (move_pointer_zoom a ix iy) := by
  unfold move_pointer_zoom
  generalize a.outputs = outputs
  induction outputs generalizing a with
  | nil => exact pointer_kept_refl a
  | cons o outputs ih =>
    simp only [List.foldl_cons]
    refine pointer_kept_trans ?_ (ih _)
    split
    · exact pointer_kept_send _ _ (by rfl)
    · exact pointer_kept_refl a

theorem move_pointer_sprite_kept (ix iy : Int) (a : weston_seat) :
    pointer_kept a (move_pointer_sprite a ix iy) := by
  unfold move_pointer_sprite
  split
  · exact pointer_kept_trans (pointer_kept_send _ _ (by rfl)) (pointer_kept_send _ _ (by rfl))
  · exact pointer_kept_refl a

theorem weston_seat_repick_quiet (env : Env) (seat : weston_seat)
    (hp : seat.seat_pointer = true)
    (hgrab : seat.pointer.grab = pointer_grab.default_grab)
    (h : 0 < seat.pointer.button_count ∨
      (env.pick_surface seat.pointer.x seat.pointer.y).1 = seat.pointer.current) :
    weston_seat_repick env seat =
      { seat with pointer := { seat.pointer with
          current := (env.pick_surface seat.pointer.x seat.pointer.y).1,
          current_x := (env.pick_surface seat.pointer.x seat.pointer.y).2.1,
          current_y := (env.pick_surface seat.pointer.x seat.pointer.y).2.2,
          default_grab_x :=
            (match seat.pointer.default_grab_focus with
              | some f => (env.surface_from_global_fixed f seat.pointer.x seat.pointer.y).1
              | none => seat.pointer.default_grab_x),
          default_grab_y :=
            (match seat.pointer.default_grab_focus with
              | some f => (env.surface_from_global_fixed f seat.pointer.x seat.pointer.y).2
              | none => seat.pointer.default_grab_y) } } := by
  rcases hpick : env.pick_surface seat.pointer.x seat.pointer.y with ⟨es, cx, cy⟩
  rw [hpick] at h
  simp only [] at h
  by_cases hc : es = seat.pointer.current
  · rcases hf : seat.pointer.default_grab_focus with _ | f
    · simp [weston_seat_repick, hp, hpick, hc, weston_pointer_grab_focus, hgrab, hf]
    · rcases hq : env.surface_from_global_fixed f seat.pointer.x seat.pointer.y with ⟨gx, gy⟩
      simp [weston_seat_repick, hp, hpick, hc, weston_pointer_grab_focus, hgrab, hf, hq]
  · have hb : 0 < seat.pointer.button_count := by
      rcases h with h | h
      · exact h
      · exact absurd h hc
    rcases hf : seat.pointer.default_grab_focus with _ | f
    · simp [weston_seat_repick, hp, hpick, hc, weston_pointer_grab_focus, hgrab, hf,
        weston_pointer_set_current, pointer_grab_interface_focus, default_grab_focus, hb]
    · rcases hq : env.surface_from_global_fixed f seat.pointer.x seat.pointer.y with ⟨gx, gy⟩
      simp [weston_seat_repick, hp, hpick, hc, weston_pointer_grab_focus, hgrab, hf, hq,
        weston_pointer_set_current, pointer_grab_interface_focus, default_grab_focus, hb]

theorem move_pointer_to_quiet (env : Env) (seat : weston_seat) (x y : Int)
    (hp : seat.seat_pointer = true)
    (hgrab : seat.pointer.grab = pointer_grab.default_grab)
    (h : 0 < seat.pointer.button_count ∨ (env.pick_surface x y).1 = seat.pointer.current) :
    (move_pointer_to env seat x y).pointer =
      { seat.pointer with
          x := x, y := y,
          current := (env.pick_surface x y).1,
          current_x := (env.pick_surface x y).2.1,
          current_y := (env.pick_surface x y).2.2,
          default_grab_x :=
            (match seat.pointer.default_grab_focus with
              | some f => (env.surface_from_global_fixed f x y).1
              | none => seat.pointer.default_grab_x),
          default_grab_y :=
            (match seat.pointer.default_grab_focus with
              | some f => (env.surface_from_global_fixed f x y).2
              | none => seat.pointer.default_grab_y) } ∧
    (move_pointer_to env seat x y).seat_pointer = true ∧
    (move_pointer_to env seat x y).outputs = seat.outputs ∧
    emits (fun m => is_pointer_traffic m = false) seat (move_pointer_to env seat x y) := by
  unfold move_pointer_to
  simp only []
  have hA := weston_seat_update_drag_surface_kept seat (x - seat.pointer.x)
    (y - seat.pointer.y)
  generalize weston_seat_update_drag_surface seat (x - seat.pointer.x)
    (y - seat.pointer.y) = A at hA ⊢
  obtain ⟨a1, a2, _, _, a5, _, _, _, _, a10⟩ := hA
  have hC := move_pointer_zoom_kept (wl_fixed_to_int x) (wl_fixed_to_int y)
    { A with pointer := { A.pointer with x := x, y := y } }
  generalize move_pointer_zoom { A with pointer := { A.pointer with x := x, y := y } }
    (wl_fixed_to_int x) (wl_fixed_to_int y) = C at hC ⊢
  obtain ⟨c1, c2, _, _, c5, _, _, _, _, c10⟩ := hC
  simp only [] at c1 c2 c5
  have hD := weston_seat_repick_quiet env C (c2.trans (a2.trans hp))
    (by rw [c1]; simp only []; rw [a1]; exact hgrab)
    (by rw [c1]; simp only []; rw [a1]; exact h)
  rw [hD]
  have hE := move_pointer_sprite_kept (wl_fixed_to_int x) (wl_fixed_to_int y)
    (weston_seat_repick env C)
  rw [hD] at hE
  obtain ⟨e1, e2, _, _, e5, _, _, _, _, e10⟩ := hE
  refine ⟨?_, ?_, ?_, ?_⟩
  · rw [e1]
    simp only []
    rw [c1]
    simp only []
    rw [a1]
  · rw [e2]
    exact c2.trans (a2.trans hp)
  · rw [e5]
    exact c5.trans a5
  · refine emits_trans a10 (emits_trans (emits_of_log_eq (by rfl)) (emits_trans c10
      (emits_trans (emits_of_log_eq (by rfl)) e10)))

theorem notify_motion_dispatch_default (S : weston_seat) (time : Nat)
    (hgrab : S.pointer.grab = pointer_grab.default_grab) :
    notify_motion_dispatch S time =
      match S.pointer.focus_resource with
      | some r => send S (Msg.wl_pointer_send_motion r time S.pointer.default_grab_x
          S.pointer.default_grab_y)
      | none => S := by
  simp [notify_motion_dispatch, pointer_grab_interface_motion, hgrab, default_grab_motion,
    weston_pointer_grab_x, weston_pointer_grab_y]

theorem notify_motion_eq_absolute (env : Env) (seat : weston_seat) (time : Nat)
    (dx dy : Int) :
    notify_motion env seat time dx dy
      = notify_motion_absolute env seat time (wl_fixed_add seat.pointer.x dx)
          (wl_fixed_add seat.pointer.y dy) :=
  rfl

/-! ## C15: motion while a button is held -/

/-- C15.  Under the default pointer grab, while `button_count > 0`, a call of
`notify_motion_absolute` that `clip_pointer_motion` lets through (and so a call
of `notify_motion`, which is `notify_motion_absolute` at the old position plus
the delta, added in `int32_t`) returns, leaves the pointer's focus and `focus_resource` as they
were whatever the hit test finds, and emits no enter, leave or motion message
except, last, the motion message to the focus binding when there is one. -/
theorem motion_with_button_held_keeps_focus (env : Env) (seat : weston_seat) (time : Nat)
    (x y cx cy : Int)
    (hp : seat.seat_pointer = true)
    (hgrab : seat.pointer.grab = pointer_grab.default_grab)
    (hcount : 0 < seat.pointer.button_count)
    (hclip : clip_pointer_motion seat x y = some (cx, cy)) :
    (∀ dx dy : Int, notify_motion env seat time dx dy
      = notify_motion_absolute env seat time (wl_fixed_add seat.pointer.x dx)
          (wl_fixed_add seat.pointer.y dy)) ∧
    ∃ seat', notify_motion_absolute env seat time x y = some seat' ∧
      seat'.pointer.focus = seat.pointer.focus ∧
      seat'.pointer.focus_resource = seat.pointer.focus_resource ∧
      ∃ pre, (∀ m ∈ pre, is_pointer_traffic m = false) ∧
        seat'.log = seat.log ++ pre ++
          (match seat.pointer.focus_resource with
            | some r =>
              [Msg.wl_pointer_send_motion r time
                (match seat.pointer.default_grab_focus with
                  | some f => (env.surface_from_global_fixed f cx cy).1
                  | none => seat.pointer.default_grab_x)
                (match seat.pointer.default_grab_focus with
                  | some f => (env.surface_from_global_fixed f cx cy).2
                  | none => seat.pointer.default_grab_y)]
            | none => []) := by
  refine ⟨fun dx dy => rfl, ?_⟩
  obtain ⟨m1, m2, _, out, m4, m5⟩ := move_pointer_to_quiet env seat cx cy hp hgrab
    (Or.inl hcount)
  have hg : (move_pointer_to env seat cx cy).pointer.grab = pointer_grab.default_grab := by
    rw [m1]; exact hgrab
  have hfr : (move_pointer_to env seat cx cy).pointer.focus_resource
      = seat.pointer.focus_resource := by rw [m1]
  have hf : (move_pointer_to env seat cx cy).pointer.focus = seat.pointer.focus := by rw [m1]
  refine ⟨notify_motion_dispatch (move_pointer_to env seat cx cy) time, ?_, ?_, ?_, out, m5, ?_⟩
  · simp [notify_motion_absolute, move_pointer, hp, hclip]
  · rw [notify_motion_dispatch_default _ _ hg, hfr]
    rcases seat.pointer.focus_resource with _ | r
    · exact hf
    · exact hf
  · rw [notify_motion_dispatch_default _ _ hg, hfr]
    rcases hr : seat.pointer.focus_resource with _ | r
    · exact hfr.trans hr
    · exact hfr.trans hr
  · rw [notify_motion_dispatch_default _ _ hg, hfr]
    rcases hr : seat.pointer.focus_resource with _ | r
    · simp only [List.append_nil]
      exact m4
    · simp only [send_log]
      rw [m4, m1]

/-- C15 at a concrete seat: focus on `surface_a`, one button held, the pointer
at `(25600, 25600)`, the hit test finds `surface_b`; the focus stays `surface_a`
and the only message is the motion message to the binding of client 7.  The
relative motion by `(-24064, -24064)` is the absolute motion to `(1536, 1536)`,
and the relative motion by `2147483647` wraps in `int32_t`. -/
theorem motion_with_button_held_keeps_focus_witness :
    seat_button_held.seat_pointer = true ∧
    seat_button_held.pointer.grab = pointer_grab.default_grab ∧
    0 < seat_button_held.pointer.button_count ∧
    clip_pointer_motion seat_button_held 1536 1536 = some (1536, 1536) ∧
    (env_hit_b.pick_surface 1536 1536).1 = some surface_b ∧
    notify_motion env_hit_b seat_button_held 2 (-24064) (-24064)
      = notify_motion_absolute env_hit_b seat_button_held 2 1536 1536 ∧
    notify_motion env_hit_b seat_button_held 2 2147483647 0
      = notify_motion_absolute env_hit_b seat_button_held 2 (-2147458049) 25600 ∧
    ∃ seat', notify_motion_absolute env_hit_b seat_button_held 2 1536 1536 = some seat' ∧
      seat'.pointer.focus = some surface_a ∧
      seat'.log = [Msg.wl_pointer_send_motion binding_a1 2 1536 1536] :=
  ⟨rfl, rfl, by decide, by decide, rfl,
    (motion_with_button_held_keeps_focus env_hit_b seat_button_held 2 1536 1536 1536 1536
      rfl rfl (by decide) (by decide)).1 (-24064) (-24064),
    (motion_with_button_held_keeps_focus env_hit_b seat_button_held 2 1536 1536 1536 1536
      rfl rfl (by decide) (by decide)).1 2147483647 0,
    (motion_with_button_held_keeps_focus env_hit_b seat_button_held 2 1536 1536 1536 1536
      rfl rfl (by decide) (by decide)).2.elim
      (fun s h => ⟨s, h.1, h.2.1, by
        have h3 := h.1
        have : s = (notify_motion_absolute env_hit_b seat_button_held 2 1536 1536).get
            (by decide) := by simp [h3]
        rw [this]
        decide⟩)⟩

theorem weston_pointer_set_focus_rest (seat : weston_seat) (surface : Option wl_surface)
    (sx sy : Int) :
    (weston_pointer_set_focus seat surface sx sy).pointer.grab = seat.pointer.grab ∧
    (weston_pointer_set_focus seat surface sx sy).pointer.x = seat.pointer.x ∧
    (weston_pointer_set_focus seat surface sx sy).pointer.y = seat.pointer.y ∧
    (weston_pointer_set_focus seat surface sx sy).pointer.current = seat.pointer.current ∧
    (weston_pointer_set_focus seat surface sx sy).outputs = seat.outputs ∧
    (weston_pointer_set_focus seat surface sx sy).sprite = seat.sprite := by
  rcases hfr : seat.pointer.focus_resource with _ | r0 <;>
  by_cases hf : seat.pointer.focus = surface <;>
  rcases hfind : find_resource_for_surface seat.pointer.resource_list surface with _ | r <;>
  rcases hk : seat.seat_keyboard <;>
  rcases hkr : find_resource_for_surface seat.keyboard.resource_list surface with _ | kr <;>
  rcases surface with _ | s <;>
  simp_all [weston_pointer_set_focus, send, wl_display_next_serial] <;>
  split <;> simp_all

theorem weston_pointer_set_focus_enters (seat : weston_seat) (A : wl_surface)
    (r : wl_resource) (sx sy : Int) (hf : seat.pointer.focus ≠ some A)
    (hfind : find_resource_for_surface seat.pointer.resource_list (some A) = some r) :
    ∃ out, (weston_pointer_set_focus seat (some A) sx sy).log = seat.log ++ out ∧
      out.filterMap pointer_enter_args = [(r, A, sx, sy)] := by
  rcases hfr : seat.pointer.focus_resource with _ | r0 <;>
  rcases hk : seat.seat_keyboard <;>
  rcases hkr : find_resource_for_surface seat.keyboard.resource_list (some A) with _ | kr <;>
  simp [weston_pointer_set_focus, send, wl_display_next_serial, hf, hfind, hfr, hk, hkr,
    pointer_enter_args]

theorem weston_pointer_set_focus_grab (seat : weston_seat) (surface : Option wl_surface)
    (sx sy : Int) :
    (weston_pointer_set_focus seat surface sx sy).pointer.grab = seat.pointer.grab :=
  (weston_pointer_set_focus_rest seat surface sx sy).1

theorem weston_pointer_set_focus_x (seat : weston_seat) (surface : Option wl_surface)
    (sx sy : Int) :
    (weston_pointer_set_focus seat surface sx sy).pointer.x = seat.pointer.x :=
  (weston_pointer_set_focus_rest seat surface sx sy).2.1

theorem weston_pointer_set_focus_y (seat : weston_seat) (surface : Option wl_surface)
    (sx sy : Int) :
    (weston_pointer_set_focus seat surface sx sy).pointer.y = seat.pointer.y :=
  (weston_pointer_set_focus_rest seat surface sx sy).2.2.1

theorem weston_pointer_set_focus_default_grab_focus (seat : weston_seat)
    (surface : Option wl_surface) (sx sy : Int) :
    (weston_pointer_set_focus seat surface sx sy).pointer.default_grab_focus = surface :=
  (weston_pointer_set_focus_frame seat surface sx sy).2.2.2.2.1

theorem weston_seat_repick_enter (env : Env) (seat : weston_seat) (A : wl_surface)
    (sx sy : Int) (hp : seat.seat_pointer = true)
    (hgrab : seat.pointer.grab = pointer_grab.default_grab)
    (hcount : seat.pointer.button_count = 0)
    (hpick : env.pick_surface seat.pointer.x seat.pointer.y = (some A, sx, sy))
    (hcur : seat.pointer.current ≠ some A) :
    weston_seat_repick env seat =
      { weston_pointer_set_focus
          { seat with pointer := { seat.pointer with
              current := some A, current_x := sx, current_y := sy } } (some A) sx sy with
        pointer := { (weston_pointer_set_focus
          { seat with pointer := { seat.pointer with
              current := some A, current_x := sx, current_y := sy } }
            (some A) sx sy).pointer with
          default_grab_x :=
            (env.surface_from_global_fixed A seat.pointer.x seat.pointer.y).1,
          default_grab_y :=
            (env.surface_from_global_fixed A seat.pointer.x seat.pointer.y).2 } } := by
  have hcur' : ¬ some A = seat.pointer.current := fun h => hcur h.symm
  simp only [weston_seat_repick, hp, hpick, weston_pointer_set_current,
    pointer_grab_interface_focus, hgrab, default_grab_focus, hcount, weston_pointer_grab_focus,
    weston_pointer_set_focus_grab, weston_pointer_set_focus_default_grab_focus,
    weston_pointer_set_focus_x, weston_pointer_set_focus_y,
    ne_eq, hcur', not_false_eq_true, if_true, if_false, Nat.lt_irrefl, not_true_eq_false,
    Bool.not_eq_true, gt_iff_lt]

theorem clip_pointer_motion_scan_valid (x y old_x old_y : Int) (outputs : List weston_output) :
    ∀ (valid : Bool) (prev : Option weston_output),
      (valid = true ∨
        ∃ o ∈ outputs, pixman_region32_contains_point o.region x y = true) →
      (clip_pointer_motion_scan x y old_x old_y outputs (valid, prev)).1 = true := by
  induction outputs with
  | nil =>
    intro valid prev h
    rcases h with h | ⟨o, ho, _⟩
    · exact h
    · cases ho
  | cons o outputs ih =>
    intro valid prev h
    simp only [clip_pointer_motion_scan]
    apply ih
    rcases h with h | ⟨o', ho', hc⟩
    · left
      rw [h]
      simp
    · rcases List.mem_cons.mp ho' with rfl | hmem
      · left
        rw [hc]
        rfl
      · exact Or.inr ⟨o', hmem, hc⟩

theorem clip_pointer_motion_inside (seat : weston_seat) (fx fy : Int)
    (hin : ∃ o ∈ seat.outputs,
      pixman_region32_contains_point o.region (wl_fixed_to_int fx) (wl_fixed_to_int fy)
        = true) :
    clip_pointer_motion seat fx fy = some (fx, fy) := by
  have h := clip_pointer_motion_scan_valid (wl_fixed_to_int fx) (wl_fixed_to_int fy)
    (wl_fixed_to_int seat.pointer.x) (wl_fixed_to_int seat.pointer.y) seat.outputs false none
    (Or.inr hin)
  unfold clip_pointer_motion
  simp only []
  rcases hs : clip_pointer_motion_scan (wl_fixed_to_int fx) (wl_fixed_to_int fy)
    (wl_fixed_to_int seat.pointer.x) (wl_fixed_to_int seat.pointer.y) seat.outputs
    (false, none) with ⟨valid, prev⟩
  rw [hs] at h
  simp only [] at h
  subst h
  rfl

theorem pointer_enter_args_of_quiet (out : List Msg)
    (h : ∀ m ∈ out, is_pointer_traffic m = false) : out.filterMap pointer_enter_args = [] := by
  induction out with
  | nil => rfl
  | cons m out ih =>
    have hm := h m (List.mem_cons_self _ _)
    have hnone : pointer_enter_args m = none := by
      cases m <;> first | rfl | simp [is_pointer_traffic] at hm
    rw [List.filterMap_cons, hnone]
    exact ih (fun m' hm' => h m' (List.mem_cons_of_mem _ hm'))

theorem move_pointer_to_enter (env : Env) (seat : weston_seat) (A : wl_surface)
    (r : wl_resource) (x y sx sy : Int)
    (hp : seat.seat_pointer = true)
    (hgrab : seat.pointer.grab = pointer_grab.default_grab)
    (hcount : seat.pointer.button_count = 0)
    (hpick : env.pick_surface x y = (some A, sx, sy))
    (hcur : seat.pointer.current ≠ some A)
    (hf : seat.pointer.focus ≠ some A)
    (hfind : find_resource_for_surface seat.pointer.resource_list (some A) = some r) :
    (move_pointer_to env seat x y).pointer.focus = some A ∧
    (move_pointer_to env seat x y).pointer.focus_resource = some r ∧
    (move_pointer_to env seat x y).pointer.current = some A ∧
    (move_pointer_to env seat x y).pointer.x = x ∧
    (move_pointer_to env seat x y).pointer.y = y ∧
    (move_pointer_to env seat x y).pointer.grab = pointer_grab.default_grab ∧
    (move_pointer_to env seat x y).seat_pointer = true ∧
    (move_pointer_to env seat x y).outputs = seat.outputs ∧
    ∃ out, (move_pointer_to env seat x y).log = seat.log ++ out ∧
      out.filterMap pointer_enter_args = [(r, A, sx, sy)] := by
  unfold move_pointer_to
  simp only []
  have hA := weston_seat_update_drag_surface_kept seat (x - seat.pointer.x)
    (y - seat.pointer.y)
  generalize weston_seat_update_drag_surface seat (x - seat.pointer.x)
    (y - seat.pointer.y) = A' at hA ⊢
  obtain ⟨a1, a2, _, _, a5, _, _, _, _, o1, a10, a11⟩ := hA
  have hC := move_pointer_zoom_kept (wl_fixed_to_int x) (wl_fixed_to_int y)
    { A' with pointer := { A'.pointer with x := x, y := y } }
  generalize move_pointer_zoom { A' with pointer := { A'.pointer with x := x, y := y } }
    (wl_fixed_to_int x) (wl_fixed_to_int y) = C at hC ⊢
  obtain ⟨c1, c2, _, _, c5, _, _, _, _, o2, c10, c11⟩ := hC
  simp only [] at c1 c2 c5 c10
  have hD := weston_seat_repick_enter env C A sx sy (c2.trans (a2.trans hp))
    (by rw [c1]; simp only []; rw [a1]; exact hgrab)
    (by rw [c1]; simp only []; rw [a1]; exact hcount)
    (by rw [c1]; simp only []; exact hpick)
    (by rw [c1]; simp only []; rw [a1]; exact hcur)
  have hE := move_pointer_sprite_kept (wl_fixed_to_int x) (wl_fixed_to_int y)
    (weston_seat_repick env C)
  obtain ⟨e1, e2, _, _, e5, _, _, _, _, o3, e10, e11⟩ := hE
  obtain ⟨f1, f2, f3, f4, _, _, _, _⟩ := weston_pointer_set_focus_frame
    { C with pointer := { C.pointer with
        current := some A, current_x := sx, current_y := sy } } (some A) sx sy
  obtain ⟨r1, r2, r3, r4, r5, _⟩ := weston_pointer_set_focus_rest
    { C with pointer := { C.pointer with
        current := some A, current_x := sx, current_y := sy } } (some A) sx sy
  obtain ⟨o4, s1, s2⟩ := weston_pointer_set_focus_enters
    { C with pointer := { C.pointer with
        current := some A, current_x := sx, current_y := sy } } A r sx sy
    (by simp only []; rw [c1]; simp only []; rw [a1]; exact hf)
    (by simp only []; rw [c1]; simp only []; rw [a1]; exact hfind)
  simp only [] at f1 f2 f3 f4 r1 r2 r3 r4 r5 s1
  refine ⟨?_, ?_, ?_, ?_, ?_, ?_, ?_, ?_, o1 ++ (o2 ++ (o4 ++ o3)), ?_, ?_⟩
  · rw [e1, hD]; exact f2
  · rw [e1, hD]; simp only []
    rw [f3, c1]; simp only []
    rw [a1]; exact hfind
  · rw [e1, hD]; simp only []
    exact r4
  · rw [e1, hD]; simp only []
    rw [r2, c1]
  · rw [e1, hD]; simp only []
    rw [r3, c1]
  · rw [e1, hD]; simp only []
    rw [r1, c1]; simp only []
    rw [a1]; exact hgrab
  · rw [e2, hD]; simp only []
    rw [f4]
    exact c2.trans (a2.trans hp)
  · rw [e5, hD]; simp only []
    rw [r5]
    exact c5.trans a5
  · rw [e10]
    rw [hD]; simp only []
    rw [s1, c10, a10]
    simp only [List.append_assoc]
  · simp only [List.filterMap_append, pointer_enter_args_of_quiet o1 a11,
      pointer_enter_args_of_quiet o2 c11, pointer_enter_args_of_quiet o3 e11, s2,
      List.nil_append, List.append_nil]

theorem notify_motion_dispatch_default_frame (S : weston_seat) (time : Nat)
    (hgrab : S.pointer.grab = pointer_grab.default_grab) :
    (notify_motion_dispatch S time).pointer = S.pointer ∧
    (notify_motion_dispatch S time).seat_pointer = S.seat_pointer ∧
    (notify_motion_dispatch S time).outputs = S.outputs ∧
    ∃ out, (notify_motion_dispatch S time).log = S.log ++ out ∧
      out.filterMap pointer_enter_args = [] := by
  rw [notify_motion_dispatch_default S time hgrab]
  rcases S.pointer.focus_resource with _ | r
  · exact ⟨rfl, rfl, rfl, [], by simp, rfl⟩
  · exact ⟨rfl, rfl, rfl, [_], rfl, rfl⟩

theorem notify_motion_absolute_inside (env : Env) (seat : weston_seat) (time : Nat)
    (x y : Int) (hp : seat.seat_pointer = true)
    (hin : ∃ o ∈ seat.outputs,
      pixman_region32_contains_point o.region (wl_fixed_to_int x) (wl_fixed_to_int y) = true) :
    notify_motion_absolute env seat time x y
      = some (notify_motion_dispatch (move_pointer_to env seat x y) time) := by
  simp [notify_motion_absolute, move_pointer, hp, clip_pointer_motion_inside seat x y hin]

/-! ## C16: the pointer moves onto a surface -/

/-- C16 (as amended).  With no focus, no buttons held, the default grab, and
the raw hit-test target `pointer->current` not already `A`: for every point
`(x, y)` inside an output that hits surface `A` (at the surface-local point
`(sx, sy)`) whose client has the pointer binding `r`,
`notify_motion_absolute (t, x, y)` returns, makes `A` the pointer focus and
sends exactly one enter message, to `r`, for `A`, carrying `(sx, sy)`;
repeating the call with the same coordinates sends no further enter. -/
theorem motion_absolute_enters_once (env : Env) (seat : weston_seat) (A : wl_surface)
    (r : wl_resource) (t t2 : Nat) (x y sx sy : Int)
    (hp : seat.seat_pointer = true)
    (hfocus : seat.pointer.focus = none)
    (hcount : seat.pointer.button_count = 0)
    (hgrab : seat.pointer.grab = pointer_grab.default_grab)
    (hcur : seat.pointer.current ≠ some A)
    (hin : ∃ o ∈ seat.outputs,
      pixman_region32_contains_point o.region (wl_fixed_to_int x) (wl_fixed_to_int y) = true)
    (hpick : env.pick_surface x y = (some A, sx, sy))
    (hfind : find_resource_for_surface seat.pointer.resource_list (some A) = some r) :
    ∃ s1 s2, notify_motion_absolute env seat t x y = some s1 ∧
      s1.pointer.focus = some A ∧ s1.pointer.focus_resource = some r ∧
      (∃ out, s1.log = seat.log ++ out ∧
        out.filterMap pointer_enter_args = [(r, A, sx, sy)]) ∧
      notify_motion_absolute env s1 t2 x y = some s2 ∧
      s2.pointer.focus = some A ∧
      (∃ out, s2.log = s1.log ++ out ∧ out.filterMap pointer_enter_args = []) := by
  obtain ⟨m1, m2, m3, m4, m5, m6, m7, m8, o1, m9, m10⟩ :=
    move_pointer_to_enter env seat A r x y sx sy hp hgrab hcount hpick hcur
      (by rw [hfocus]; exact fun h => Option.noConfusion h) hfind
  obtain ⟨d1, d2, d3, o2, d4, d5⟩ :=
    notify_motion_dispatch_default_frame (move_pointer_to env seat x y) t m6
  have hin1 : ∃ o ∈ (notify_motion_dispatch (move_pointer_to env seat x y) t).outputs,
      pixman_region32_contains_point o.region (wl_fixed_to_int x) (wl_fixed_to_int y)
        = true := by
    rw [d3, m8]; exact hin
  have hp1 : (notify_motion_dispatch (move_pointer_to env seat x y) t).seat_pointer = true :=
    d2.trans m7
  have hg1 : (notify_motion_dispatch (move_pointer_to env seat x y) t).pointer.grab
      = pointer_grab.default_grab := by rw [d1]; exact m6
  obtain ⟨q1, q2, q3, o3, q4, q5⟩ := move_pointer_to_quiet env
    (notify_motion_dispatch (move_pointer_to env seat x y) t) x y hp1 hg1
    (Or.inr (by rw [d1, m3, hpick]))
  have hg2 : (move_pointer_to env
      (notify_motion_dispatch (move_pointer_to env seat x y) t) x y).pointer.grab
      = pointer_grab.default_grab := by rw [q1]; exact hg1
  obtain ⟨k1, _, _, o4, k4, k5⟩ := notify_motion_dispatch_default_frame
    (move_pointer_to env (notify_motion_dispatch (move_pointer_to env seat x y) t) x y) t2 hg2
  refine ⟨_, _, notify_motion_absolute_inside env seat t x y hp hin, ?_, ?_, ?_,
    notify_motion_absolute_inside env _ t2 x y hp1 hin1, ?_, ?_⟩
  · rw [d1]; exact m1
  · rw [d1]; exact m2
  · refine ⟨o1 ++ o2, ?_, ?_⟩
    · rw [d4, m9, List.append_assoc]
    · rw [List.filterMap_append, m10, d5, List.append_nil]
  · rw [k1, q1]
    simp only []
    rw [d1]; exact m1
  · refine ⟨o3 ++ o4, ?_, ?_⟩
    · rw [k4, q4, List.append_assoc]
    · rw [List.filterMap_append, pointer_enter_args_of_quiet o3 q5, k5]
      rfl

/-- C16 (as amended) at a concrete seat: one output, clients 7 and 8 bound, the
pointer moved to `(5, 5)` (1280 in 256ths) where the hit test finds
`surface_a`. -/
theorem motion_absolute_enters_once_witness :
    seat_one_output.seat_pointer = true ∧ seat_one_output.pointer.focus = none ∧
    seat_one_output.pointer.button_count = 0 ∧
    seat_one_output.pointer.grab = pointer_grab.default_grab ∧
    seat_one_output.pointer.current ≠ some surface_a ∧
    (∃ o ∈ seat_one_output.outputs,
      pixman_region32_contains_point o.region (wl_fixed_to_int 1280) (wl_fixed_to_int 1280)
        = true) ∧
    env_hit_a.pick_surface 1280 1280 = (some surface_a, 1270, 1260) ∧
    find_resource_for_surface seat_one_output.pointer.resource_list (some surface_a)
      = some binding_a1 ∧
    ∃ s1 s2, notify_motion_absolute env_hit_a seat_one_output 1 1280 1280 = some s1 ∧
      s1.pointer.focus = some surface_a ∧ s1.pointer.focus_resource = some binding_a1 ∧
      (∃ out, s1.log = seat_one_output.log ++ out ∧
        out.filterMap pointer_enter_args = [(binding_a1, surface_a, 1270, 1260)]) ∧
      notify_motion_absolute env_hit_a s1 2 1280 1280 = some s2 ∧
      s2.pointer.focus = some surface_a ∧
      (∃ out, s2.log = s1.log ++ out ∧ out.filterMap pointer_enter_args = []) :=
  ⟨rfl, rfl, rfl, rfl, by decide, ⟨output_0, by decide, by decide⟩, rfl, by decide,
    motion_absolute_enters_once env_hit_a seat_one_output surface_a binding_a1 1 2 1280 1280
      1270 1260 rfl rfl rfl rfl (by decide) ⟨output_0, by decide, by decide⟩ rfl (by decide)⟩

/-- C16, counterexample.  In the seat `seat_focus_cleared` (reached from the
initial seat by one motion onto `surface_a` and `weston_pointer_set_focus
(NULL)`) there is no focus, no button is held and the default grab is active;
the point is inside the output and hits `surface_a`, whose client has a pointer
binding; yet `notify_motion_absolute` sends no enter and leaves the focus
null, because `pointer->current` is `surface_a` already. -/
theorem motion_absolute_no_enter_when_current :
    seat_focus_cleared.seat_pointer = true ∧ seat_focus_cleared.pointer.focus = none ∧
    seat_focus_cleared.pointer.button_count = 0 ∧
    seat_focus_cleared.pointer.grab = pointer_grab.default_grab ∧
    (∃ o ∈ seat_focus_cleared.outputs,
      pixman_region32_contains_point o.region (wl_fixed_to_int 1536) (wl_fixed_to_int 1536)
        = true) ∧
    (env_hit_a.pick_surface 1536 1536).1 = some surface_a ∧
    find_resource_for_surface seat_focus_cleared.pointer.resource_list (some surface_a)
      = some binding_a1 ∧
    (notify_motion_absolute env_hit_a seat_focus_cleared 2 1536 1536).map
        (fun s => (s.pointer.focus, s.log.drop seat_focus_cleared.log.length))
      = some (none, []) := by
  refine ⟨by decide, by decide, by decide, by decide, ⟨output_0, by decide, by decide⟩,
    rfl, by decide, by decide⟩

/-! ## C19: a set_cursor request with a stale serial -/

/-- C19 (as amended).  A `pointer_set_cursor` request whose serial is newer
than the pointer's `focus_serial` in 32-bit wrap-around order, that is with
`(focus_serial - serial) mod 2^32 > 2^31 - 1`, is silently ignored: the seat is
left exactly as it was (cursor sprite, hotspot and log included, so no error
is posted). -/
theorem set_cursor_with_newer_serial_ignored (env : Env) (seat : weston_seat)
    (client : wl_client) (serial : Nat) (surface : Option wl_surface) (x y : Int)
    (hstale : (seat.pointer.focus_serial % 2 ^ 32 + 2 ^ 32 - serial % 2 ^ 32) % 2 ^ 32
      > 2 ^ 31 - 1) :
    pointer_set_cursor env seat client serial surface x y = some seat := by
  have hs : pointer_set_cursor_stale seat.pointer.focus_serial serial = true := by
    unfold pointer_set_cursor_stale
    norm_num at hstale ⊢
    exact hstale
  unfold pointer_set_cursor
  rcases seat.pointer.focus with _ | focus
  · rfl
  · simp [hs]

/-- C19 (as amended) at a concrete seat: `focus_serial = 5`, request with
serial 6. -/
theorem set_cursor_with_newer_serial_ignored_witness :
    (seat_cursor.pointer.focus_serial % 2 ^ 32 + 2 ^ 32 - 6 % 2 ^ 32) % 2 ^ 32 > 2 ^ 31 - 1 ∧
    pointer_set_cursor env0 seat_cursor 7 6 (some surface_c) 1 2 = some seat_cursor :=
  ⟨by decide, set_cursor_with_newer_serial_ignored env0 seat_cursor 7 6 (some surface_c) 1 2
    (by decide)⟩

/-- C19, counterexample.  The pointer is focused on a surface of client 7 with
`focus_serial = 5`; a request of client 7 with serial 4, which does not match,
is not ignored: the cursor sprite and the hotspot change. -/
theorem set_cursor_with_older_serial_accepted :
    seat_cursor.pointer.focus_serial = 5 ∧ seat_cursor.sprite = none ∧
    seat_cursor.hotspot_x = 0 ∧ seat_cursor.hotspot_y = 0 ∧
    (pointer_set_cursor env0 seat_cursor 7 4 (some surface_c) 1 2).map
        (fun s => (s.sprite, s.hotspot_x, s.hotspot_y))
      = some (some surface_c, 1, 2) := by
  decide

/-! ## C20: a set_cursor request naming a configured surface -/

/-- C20.  A `pointer_set_cursor` request that passes the focus, client and
serial checks and names a surface that is not the current sprite and already
has a configure callback posts a protocol error on that surface and changes
nothing else: the result is the seat with that one log entry added, so the
sprite, the hotspot and the surface's configure callback are as they were. -/
theorem set_cursor_on_configured_surface_posts_error (env : Env) (seat : weston_seat)
    (client : wl_client) (serial : Nat) (s focus : wl_surface) (c : surface_configure)
    (x y : Int)
    (hfocus : seat.pointer.focus = some focus) (hclient : focus.client = client)
    (hserial : (seat.pointer.focus_serial % 2 ^ 32 + 2 ^ 32 - serial % 2 ^ 32) % 2 ^ 32
      ≤ 2 ^ 31 - 1)
    (hsprite : seat.sprite ≠ some s) (hconf : surface_get_configure seat s = some c) :
    pointer_set_cursor env seat client serial (some s) x y
      = some (send seat (Msg.wl_resource_post_error s)) ∧
    (send seat (Msg.wl_resource_post_error s)).sprite = seat.sprite ∧
    (send seat (Msg.wl_resource_post_error s)).hotspot_x = seat.hotspot_x ∧
    (send seat (Msg.wl_resource_post_error s)).hotspot_y = seat.hotspot_y ∧
    surface_get_configure (send seat (Msg.wl_resource_post_error s)) s = some c := by
  have hs : pointer_set_cursor_stale seat.pointer.focus_serial serial = false := by
    unfold pointer_set_cursor_stale
    norm_num at hserial ⊢
    exact hserial
  have hsprite' : ¬ some s = seat.sprite := fun h => hsprite h.symm
  refine ⟨?_, rfl, rfl, rfl, hconf⟩
  simp [pointer_set_cursor, hfocus, hclient, hs, hsprite', hconf]

/-- C20 at a concrete seat: `surface_c` has a configure callback of another
module and is named in a request of the focused client with the focus
serial. -/
theorem set_cursor_on_configured_surface_posts_error_witness :
    seat_cursor_configured.pointer.focus = some surface_a ∧ surface_a.client = 7 ∧
    (seat_cursor_configured.pointer.focus_serial % 2 ^ 32 + 2 ^ 32 - 5 % 2 ^ 32) % 2 ^ 32
      ≤ 2 ^ 31 - 1 ∧
    seat_cursor_configured.sprite ≠ some surface_c ∧
    surface_get_configure seat_cursor_configured surface_c = some (surface_configure.other 0) ∧
    pointer_set_cursor env0 seat_cursor_configured 7 5 (some surface_c) 1 2
      = some (send seat_cursor_configured (Msg.wl_resource_post_error surface_c)) :=
  ⟨rfl, rfl, by decide, by decide, by decide,
    (set_cursor_on_configured_surface_posts_error env0 seat_cursor_configured 7 5 surface_c
      surface_a (surface_configure.other 0) 1 2 rfl rfl (by decide) (by decide)
      (by decide)).1⟩

/-! ## Lemmas on the phases of `notify_button` -/

theorem notify_button_eq (env : Env) (seat : weston_seat) (time button : Nat)
    (state : wl_pointer_button_state) :
    notify_button env seat time button state =
      notify_button_finish
        (pointer_grab_interface_button
          (notify_button_hook env (notify_button_account seat time button state)
            time button state)
          (notify_button_hook env (notify_button_account seat time button state)
            time button state).pointer.grab time button state) := by
  cases state <;> rfl

theorem pointer_grab_interface_button_pressed (seat : weston_seat) (grab : pointer_grab)
    (time button : Nat) :
    (pointer_grab_interface_button seat grab time button
      wl_pointer_button_state.PRESSED).pointer = seat.pointer := by
  rcases grab with _ | n
  · rcases hfr : seat.pointer.focus_resource with _ | r <;>
    simp [pointer_grab_interface_button, default_grab_button, hfr, send,
      wl_display_next_serial]
  · rfl

theorem notify_button_finish_pointer (S : weston_seat) :
    (notify_button_finish S).pointer.button_count = S.pointer.button_count ∧
    (notify_button_finish S).pointer.grab_button = S.pointer.grab_button ∧
    (notify_button_finish S).pointer.grab_time = S.pointer.grab_time ∧
    (notify_button_finish S).pointer.grab_x = S.pointer.grab_x ∧
    (notify_button_finish S).pointer.grab_y = S.pointer.grab_y ∧
    (notify_button_finish S).pointer.grab = S.pointer.grab ∧
    (notify_button_finish S).pointer.focus = S.pointer.focus ∧
    (notify_button_finish S).pointer.current = S.pointer.current ∧
    (notify_button_finish S).seat_pointer = S.seat_pointer ∧
    (notify_button_finish S).outputs = S.outputs ∧
    (notify_button_finish S).pointer.x = S.pointer.x ∧
    (notify_button_finish S).pointer.y = S.pointer.y := by
  unfold notify_button_finish
  split <;> exact ⟨rfl, rfl, rfl, rfl, rfl, rfl, rfl, rfl, rfl, rfl, rfl, rfl⟩

theorem notify_button_hook_account_pressed (env : Env) (seat : weston_seat)
    (time button : Nat) :
    (notify_button_hook env (notify_button_account seat time button
        wl_pointer_button_state.PRESSED) time button
        wl_pointer_button_state.PRESSED).pointer =
      { seat.pointer with
        grab_button := if seat.pointer.button_count = 0 then button
          else seat.pointer.grab_button,
        grab_time := if seat.pointer.button_count = 0 then time else seat.pointer.grab_time,
        grab_x := if seat.pointer.button_count = 0 then seat.pointer.x
          else seat.pointer.grab_x,
        grab_y := if seat.pointer.button_count = 0 then seat.pointer.y
          else seat.pointer.grab_y,
        button_count := (seat.pointer.button_count + 1) % 2 ^ 32,
        grab := env.run_button_binding seat.modifier_state time button
          wl_pointer_button_state.PRESSED seat.pointer.grab } := by
  rcases hp : seat.has_ping_handler <;> rcases hf : seat.pointer.focus with _ | f <;>
  by_cases hc : seat.pointer.button_count = 0 <;>
  simp [notify_button_hook, notify_button_account, wl_display_next_serial,
    weston_compositor_idle_inhibit, send, hp, hf, hc]

theorem notify_button_pressed_pointer (env : Env) (seat : weston_seat) (time button : Nat) :
    (notify_button env seat time button wl_pointer_button_state.PRESSED).pointer.button_count
      = (seat.pointer.button_count + 1) % 2 ^ 32 ∧
    (notify_button env seat time button wl_pointer_button_state.PRESSED).pointer.grab_button
      = (if seat.pointer.button_count = 0 then button else seat.pointer.grab_button) ∧
    (notify_button env seat time button wl_pointer_button_state.PRESSED).pointer.grab_time
      = (if seat.pointer.button_count = 0 then time else seat.pointer.grab_time) ∧
    (notify_button env seat time button wl_pointer_button_state.PRESSED).pointer.grab_x
      = (if seat.pointer.button_count = 0 then seat.pointer.x else seat.pointer.grab_x) ∧
    (notify_button env seat time button wl_pointer_button_state.PRESSED).pointer.grab_y
      = (if seat.pointer.button_count = 0 then seat.pointer.y else seat.pointer.grab_y) ∧
    (notify_button env seat time button wl_pointer_button_state.PRESSED).pointer.grab
      = env.run_button_binding seat.modifier_state time button
          wl_pointer_button_state.PRESSED seat.pointer.grab ∧
    (notify_button env seat time button wl_pointer_button_state.PRESSED).pointer.focus
      = seat.pointer.focus ∧
    (notify_button env seat time button wl_pointer_button_state.PRESSED).pointer.current
      = seat.pointer.current := by
  rw [notify_button_eq]
  obtain ⟨f1, f2, f3, f4, f5, f6, f7, f8, _⟩ := notify_button_finish_pointer
    (pointer_grab_interface_button
      (notify_button_hook env (notify_button_account seat time button
        wl_pointer_button_state.PRESSED) time button wl_pointer_button_state.PRESSED)
      (notify_button_hook env (notify_button_account seat time button
        wl_pointer_button_state.PRESSED) time button
        wl_pointer_button_state.PRESSED).pointer.grab time button
      wl_pointer_button_state.PRESSED)
  rw [f1, f2, f3, f4, f5, f6, f7, f8, pointer_grab_interface_button_pressed,
    notify_button_hook_account_pressed]
  exact ⟨rfl, rfl, rfl, rfl, rfl, rfl, rfl, rfl⟩

/-! ## C23: ending a grab -/

/-- C23.  `weston_pointer_end_grab` is the default focus callback applied, with
the raw hit-test target `pointer->current`, to the seat in which the default
grab has been made the active grab: afterwards the active grab is the default
grab, and the pointer focus is `pointer->current` if `button_count` is 0 and
unchanged otherwise.  `weston_keyboard_end_grab` and `weston_touch_end_grab`
leave the default grab active as well. -/
theorem end_grab_restores_default_grab (seat : weston_seat) :
    weston_pointer_end_grab seat =
      default_grab_focus
        { seat with pointer := { seat.pointer with grab := pointer_grab.default_grab } }
        seat.pointer.current seat.pointer.current_x seat.pointer.current_y ∧
    (weston_pointer_end_grab seat).pointer.grab = pointer_grab.default_grab ∧
    (seat.pointer.button_count = 0 →
      (weston_pointer_end_grab seat).pointer.focus = seat.pointer.current) ∧
    (0 < seat.pointer.button_count →
      (weston_pointer_end_grab seat).pointer.focus = seat.pointer.focus) ∧
    (weston_keyboard_end_grab seat).keyboard.grab = keyboard_grab.default_grab ∧
    (weston_touch_end_grab seat).touch.grab = touch_grab.default_grab := by
  have heq : weston_pointer_end_grab seat =
      default_grab_focus
        { seat with pointer := { seat.pointer with grab := pointer_grab.default_grab } }
        seat.pointer.current seat.pointer.current_x seat.pointer.current_y := rfl
  refine ⟨heq, ?_, ?_, ?_, rfl, rfl⟩
  · rw [heq]
    unfold default_grab_focus
    split
    · rfl
    · rw [weston_pointer_set_focus_grab]
  · intro h0
    rw [heq]
    unfold default_grab_focus
    simp only [h0, gt_iff_lt, Nat.lt_irrefl, if_false]
    exact (weston_pointer_set_focus_frame _ _ _ _).2.1
  · intro hpos
    rw [heq]
    unfold default_grab_focus
    simp only [gt_iff_lt, hpos, if_true]

/-! ## C24: the grab context of a button press -/

/-- C24.  `notify_button` with a press arriving when `button_count` is 0 records
the grab context (`grab_button`, `grab_time`, and the pointer position in
`grab_x`, `grab_y`) and makes `button_count` 1; a press arriving when
`button_count > 0` increments `button_count` (as the 32-bit `++` does) and
leaves `grab_button`, `grab_time`, `grab_x`, `grab_y` unchanged. -/
theorem press_records_grab_context (env : Env) (seat : weston_seat) (time button : Nat) :
    (seat.pointer.button_count = 0 →
      (notify_button env seat time button wl_pointer_button_state.PRESSED).pointer.button_count
        = 1 ∧
      (notify_button env seat time button wl_pointer_button_state.PRESSED).pointer.grab_button
        = button ∧
      (notify_button env seat time button wl_pointer_button_state.PRESSED).pointer.grab_time
        = time ∧
      (notify_button env seat time button wl_pointer_button_state.PRESSED).pointer.grab_x
        = seat.pointer.x ∧
      (notify_button env seat time button wl_pointer_button_state.PRESSED).pointer.grab_y
        = seat.pointer.y) ∧
    (0 < seat.pointer.button_count →
      (notify_button env seat time button wl_pointer_button_state.PRESSED).pointer.button_count
        = (seat.pointer.button_count + 1) % 2 ^ 32 ∧
      (seat.pointer.button_count + 1 < 2 ^ 32 →
        (notify_button env seat time button
          wl_pointer_button_state.PRESSED).pointer.button_count
          = seat.pointer.button_count + 1) ∧
      (notify_button env seat time button wl_pointer_button_state.PRESSED).pointer.grab_button
        = seat.pointer.grab_button ∧
      (notify_button env seat time button wl_pointer_button_state.PRESSED).pointer.grab_time
        = seat.pointer.grab_time ∧
      (notify_button env seat time button wl_pointer_button_state.PRESSED).pointer.grab_x
        = seat.pointer.grab_x ∧
      (notify_button env seat time button wl_pointer_button_state.PRESSED).pointer.grab_y
        = seat.pointer.grab_y) := by
  obtain ⟨h1, h2, h3, h4, h5, _⟩ := notify_button_pressed_pointer env seat time button
  rw [h1, h2, h3, h4, h5]
  refine ⟨fun h0 => ?_, fun hpos => ?_⟩
  · simp [h0]
  · have hne : seat.pointer.button_count ≠ 0 := Nat.pos_iff_ne_zero.mp hpos
    simp only [hne, if_false, true_and]
    exact ⟨fun hlt => Nat.mod_eq_of_lt hlt, trivial⟩

/-! ## Lemmas on the messages of a focus change -/

theorem weston_pointer_set_focus_log (seat : weston_seat) (surface : Option wl_surface)
    (sx sy : Int) :
    (weston_pointer_set_focus seat surface sx sy).log =
      seat.log ++ (weston_pointer_set_focus_leave seat surface ++
        (weston_pointer_set_focus_enter seat surface sx sy ++ [Msg.pointer_focus_signal])) := by
  rcases hfr : seat.pointer.focus_resource with _ | r0 <;>
  by_cases hf : seat.pointer.focus = surface <;>
  rcases hfind : find_resource_for_surface seat.pointer.resource_list surface with _ | r <;>
  rcases hk : seat.seat_keyboard <;>
  rcases hkr : find_resource_for_surface seat.keyboard.resource_list surface with _ | kr <;>
  rcases surface with _ | s <;>
  simp [weston_pointer_set_focus, send, wl_display_next_serial, hf, hfind, hfr, hk, hkr,
    weston_pointer_set_focus_leave, weston_pointer_set_focus_enter,
    weston_pointer_set_focus_modifiers, weston_pointer_set_focus_serial] <;>
  split <;> simp_all

theorem weston_keyboard_set_focus_log (seat : weston_seat) (surface : Option wl_surface) :
    (weston_keyboard_set_focus seat surface).log =
      seat.log ++ (weston_keyboard_set_focus_leave seat surface ++
        (weston_keyboard_set_focus_enter seat surface ++ [Msg.keyboard_focus_signal])) := by
  rcases hfr : seat.keyboard.focus_resource with _ | r0 <;>
  by_cases hf : seat.keyboard.focus = surface <;>
  rcases hfind : find_resource_for_surface seat.keyboard.resource_list surface with _ | r <;>
  rcases surface with _ | s <;>
  simp [weston_keyboard_set_focus, send, wl_display_next_serial, hf, hfind, hfr,
    weston_keyboard_set_focus_leave, weston_keyboard_set_focus_enter]
  split <;> simp_all

theorem weston_pointer_set_focus_enter_no_leave (seat : weston_seat)
    (surface : Option wl_surface) (sx sy : Int) :
    (weston_pointer_set_focus_enter seat surface sx sy ++
      [Msg.pointer_focus_signal]).filterMap pointer_leave_args = [] := by
  unfold weston_pointer_set_focus_enter weston_pointer_set_focus_modifiers
  split
  · split
    · split
      · split <;> rfl
      · rfl
    · rfl
  · rfl

theorem weston_keyboard_set_focus_enter_no_leave (seat : weston_seat)
    (surface : Option wl_surface) :
    (weston_keyboard_set_focus_enter seat surface ++
      [Msg.keyboard_focus_signal]).filterMap keyboard_leave_args = [] := by
  unfold weston_keyboard_set_focus_enter
  split
  · split <;> rfl
  · rfl

/-! ## C25: the leave message of a focus change -/

/-- C25.  When the pointer has a focus binding and `weston_pointer_set_focus` is
called with a surface different from the current focus, the first message of
the call is a leave to the old binding naming the old focus surface, and the
call sends no other leave (so that leave comes before any enter of the call);
when the new surface equals the current focus the call sends no leave.  The
same holds for the keyboard and `weston_keyboard_set_focus`. -/
theorem set_focus_sends_one_leave_first (seat : weston_seat) (surface : Option wl_surface)
    (sx sy : Int) :
    (∀ r0, seat.pointer.focus_resource = some r0 → seat.pointer.focus ≠ surface →
      ∃ serial post, (weston_pointer_set_focus seat surface sx sy).log
          = seat.log ++ Msg.wl_pointer_send_leave r0 serial seat.pointer.focus :: post ∧
        post.filterMap pointer_leave_args = []) ∧
    (seat.pointer.focus = surface →
      ∃ out, (weston_pointer_set_focus seat surface sx sy).log = seat.log ++ out ∧
        out.filterMap pointer_leave_args = []) ∧
    (∀ r0, seat.keyboard.focus_resource = some r0 → seat.keyboard.focus ≠ surface →
      ∃ serial post, (weston_keyboard_set_focus seat surface).log
          = seat.log ++ Msg.wl_keyboard_send_leave r0 serial seat.keyboard.focus :: post ∧
        post.filterMap keyboard_leave_args = []) ∧
    (seat.keyboard.focus = surface →
      ∃ out, (weston_keyboard_set_focus seat surface).log = seat.log ++ out ∧
        out.filterMap keyboard_leave_args = []) := by
  refine ⟨fun r0 hfr hf => ?_, fun hf => ?_, fun r0 hfr hf => ?_, fun hf => ?_⟩
  · refine ⟨(seat.display_serial + 1) % 2 ^ 32,
      weston_pointer_set_focus_enter seat surface sx sy ++ [Msg.pointer_focus_signal], ?_,
      weston_pointer_set_focus_enter_no_leave seat surface sx sy⟩
    rw [weston_pointer_set_focus_log]
    simp [weston_pointer_set_focus_leave, hfr, hf]
  · refine ⟨weston_pointer_set_focus_enter seat surface sx sy ++ [Msg.pointer_focus_signal],
      ?_, weston_pointer_set_focus_enter_no_leave seat surface sx sy⟩
    rw [weston_pointer_set_focus_log]
    rcases hfr : seat.pointer.focus_resource with _ | r0 <;>
    simp [weston_pointer_set_focus_leave, hfr, hf]
  · refine ⟨(seat.display_serial + 1) % 2 ^ 32,
      weston_keyboard_set_focus_enter seat surface ++ [Msg.keyboard_focus_signal], ?_,
      weston_keyboard_set_focus_enter_no_leave seat surface⟩
    rw [weston_keyboard_set_focus_log]
    simp [weston_keyboard_set_focus_leave, hfr, hf]
  · refine ⟨weston_keyboard_set_focus_enter seat surface ++ [Msg.keyboard_focus_signal],
      ?_, weston_keyboard_set_focus_enter_no_leave seat surface⟩
    rw [weston_keyboard_set_focus_log]
    rcases hfr : seat.keyboard.focus_resource with _ | r0 <;>
    simp [weston_keyboard_set_focus_leave, hfr, hf]

/-! ## C26: the modifiers message of a pointer enter -/

/-- C26, counterexample.  The keyboard is focused on `surface_a` and the pointer
has no focus; `weston_pointer_set_focus` to `surface_a` sends an enter and,
before it, a modifiers message to the keyboard binding of the surface's client,
although the keyboard focus is the new pointer focus. -/
theorem pointer_enter_sends_modifiers_to_keyboard_focus :
    seat_keyboard_on_a.keyboard.focus = some surface_a ∧
    (weston_pointer_set_focus seat_keyboard_on_a (some surface_a) 0 0).pointer.focus
      = some surface_a ∧
    (weston_pointer_set_focus seat_keyboard_on_a (some surface_a) 0 0).log
      = [Msg.wl_keyboard_send_modifiers binding_a1 1 0 0 0 0,
         Msg.wl_pointer_send_enter binding_a1 1 surface_a 0 0,
         Msg.pointer_focus_signal] := by
  decide

/-- C26 (as amended).  When `weston_pointer_set_focus` sends an enter for a
surface (the surface has a pointer binding, and the surface or the binding
changes), the enter is preceded by one modifiers message, carrying the
keyboard's stored modifier state and the serial of the enter, to the keyboard
binding of the surface's client whenever the seat has a keyboard and that
client has a keyboard binding, and by none otherwise; the keyboard focus plays
no part: the messages are the same whatever the keyboard focus is. -/
theorem pointer_enter_forwards_modifiers (seat : weston_seat) (s : wl_surface)
    (r : wl_resource) (sx sy : Int)
    (hfind : find_resource_for_surface seat.pointer.resource_list (some s) = some r)
    (hchg : seat.pointer.focus ≠ some s ∨ seat.pointer.focus_resource ≠ some r) :
    (weston_pointer_set_focus seat (some s) sx sy).log =
      seat.log ++ (weston_pointer_set_focus_leave seat (some s) ++
        (weston_pointer_set_focus_modifiers seat (some s) ++
          [Msg.wl_pointer_send_enter r (weston_pointer_set_focus_serial seat (some s)) s sx sy,
           Msg.pointer_focus_signal])) ∧
    (∀ kr, seat.seat_keyboard = true →
      find_resource_for_surface seat.keyboard.resource_list (some s) = some kr →
      weston_pointer_set_focus_modifiers seat (some s) =
        [Msg.wl_keyboard_send_modifiers kr (weston_pointer_set_focus_serial seat (some s))
          seat.keyboard.modifiers.mods_depressed seat.keyboard.modifiers.mods_latched
          seat.keyboard.modifiers.mods_locked seat.keyboard.modifiers.group]) ∧
    (seat.seat_keyboard = false ∨
        find_resource_for_surface seat.keyboard.resource_list (some s) = none →
      weston_pointer_set_focus_modifiers seat (some s) = []) ∧
    (∀ kf : Option wl_surface,
      (weston_pointer_set_focus
        { seat with keyboard := { seat.keyboard with focus := kf } } (some s) sx sy).log
        = (weston_pointer_set_focus seat (some s) sx sy).log) := by
  refine ⟨?_, fun kr hk hkr => ?_, fun h => ?_, fun kf => ?_⟩
  · rw [weston_pointer_set_focus_log]
    simp [weston_pointer_set_focus_enter, hfind, hchg]
  · simp [weston_pointer_set_focus_modifiers, hk, hkr]
  · rcases h with h | h
    · simp [weston_pointer_set_focus_modifiers, h]
    · unfold weston_pointer_set_focus_modifiers
      rw [h]
      split <;> rfl
  · rw [weston_pointer_set_focus_log, weston_pointer_set_focus_log]
    rfl

/-- C26 (as amended) at a concrete seat: the keyboard focused on `surface_a`,
the pointer without focus. -/
theorem pointer_enter_forwards_modifiers_witness :
    find_resource_for_surface seat_keyboard_on_a.pointer.resource_list (some surface_a)
      = some binding_a1 ∧
    (seat_keyboard_on_a.pointer.focus ≠ some surface_a ∨
      seat_keyboard_on_a.pointer.focus_resource ≠ some binding_a1) ∧
    weston_pointer_set_focus_modifiers seat_keyboard_on_a (some surface_a)
      = [Msg.wl_keyboard_send_modifiers binding_a1 1 0 0 0 0] ∧
    (weston_pointer_set_focus
      { seat_keyboard_on_a with keyboard := { seat_keyboard_on_a.keyboard with focus := none } }
      (some surface_a) 0 0).log
      = (weston_pointer_set_focus seat_keyboard_on_a (some surface_a) 0 0).log :=
  have h := pointer_enter_forwards_modifiers seat_keyboard_on_a surface_a binding_a1 0 0
    (by decide) (by decide)
  ⟨by decide, by decide, (h.2.1 binding_a1 rfl (by decide)).trans (by decide), h.2.2.2 none⟩

/-! ## C28: touch events without a session focus -/

/-- C28, counterexample.  A custom touch grab is active and there is no session
focus; a touch up event invokes the grab's up callback. -/
theorem touch_up_without_focus_reaches_grab :
    seat_touch_grabbed.touch.focus = none ∧
    (notify_touch env0 seat_touch_grabbed 5 0 1 1 touch_type.WL_TOUCH_UP).log
      = [Msg.touch_grab_up (touch_grab.custom 1) 5 0] := by
  decide

/-- C28 (as amended).  While there is no session focus: a touch motion event is
dropped (the seat changes only in `grab_x`, `grab_y`; no callback, no message);
a non-initial touch down does not invoke the grab's down callback (it writes a
log line); a touch up event does invoke the up callback of the active grab,
which for the default grab sends nothing when there is no focus binding and
for any other grab is that grab's callback. -/
theorem touch_without_focus (env : Env) (seat : weston_seat) (time : Nat)
    (touch_id x y : Int) (hfocus : seat.touch.focus = none) :
    notify_touch env seat time touch_id x y touch_type.WL_TOUCH_MOTION
      = { seat with touch := { seat.touch with grab_x := x, grab_y := y } } ∧
    ((seat.num_tp + 1) % 2 ^ 32 ≠ 1 →
      (notify_touch env seat time touch_id x y touch_type.WL_TOUCH_DOWN).log
        = seat.log ++ [Msg.weston_log 1082]) ∧
    (∀ n, seat.touch.grab = touch_grab.custom n →
      (notify_touch env seat time touch_id x y touch_type.WL_TOUCH_UP).log
        = seat.log ++ [Msg.touch_grab_up (touch_grab.custom n) time touch_id]) ∧
    (seat.touch.grab = touch_grab.default_grab → seat.touch.focus_resource = none →
      (notify_touch env seat time touch_id x y touch_type.WL_TOUCH_UP).log = seat.log) := by
  refine ⟨?_, fun h1 => ?_, fun n hg => ?_, fun hg hfr => ?_⟩
  · simp [notify_touch, hfocus]
  · norm_num at h1
    simp [notify_touch, weston_compositor_idle_inhibit, h1, hfocus, send]
  · simp only [notify_touch, weston_compositor_idle_release, hg, touch_grab_interface_up, send]
    split
    · simp [touch_set_focus, hfocus]
    · rfl
  · simp only [notify_touch, weston_compositor_idle_release, hg, touch_grab_interface_up,
      default_grab_touch_up, hfr]
    split
    · simp [touch_set_focus, hfocus]
    · rfl

/-- C28 (as amended) at a concrete seat: no session focus, a custom touch grab,
one touch point counted. -/
theorem touch_without_focus_witness :
    seat_touch_grabbed.touch.focus = none ∧
    notify_touch env0 seat_touch_grabbed 5 0 1 1 touch_type.WL_TOUCH_MOTION
      = { seat_touch_grabbed with
          touch := { seat_touch_grabbed.touch with grab_x := 1, grab_y := 1 } } ∧
    (notify_touch env0 { seat_touch_grabbed with num_tp := 1 } 5 0 1 1
      touch_type.WL_TOUCH_DOWN).log = [Msg.weston_log 1082] :=
  ⟨rfl, (touch_without_focus env0 seat_touch_grabbed 5 0 1 1 rfl).1,
    (touch_without_focus env0 { seat_touch_grabbed with num_tp := 1 } 5 0 1 1 rfl).2.1
      (by decide)⟩

/-! ## Lemmas on the order of events in `notify_keyboard_focus_in` -/

theorem is_modifier_update_of_notice (m : Msg) (h : is_modifiers_notice m = true) :
    is_modifier_update m = true := by
  cases m <;> first | rfl | simp [is_modifiers_notice] at h

theorem is_modifier_update_not_dispatch (m : Msg) (h : is_modifier_update m = true) :
    is_key_dispatch m = false ∧ is_keyboard_enter m = false := by
  cases m <;> first | exact ⟨rfl, rfl⟩ | simp [is_modifier_update, is_modifiers_notice] at h

theorem notify_modifiers_log_notices (env : Env) (seat : weston_seat) (serial : Nat) :
    ∃ out, (notify_modifiers env seat serial).log = seat.log ++ out ∧
      ∀ m ∈ out, is_modifiers_notice m = true := by
  obtain ⟨out, e, p⟩ := notify_modifiers_only_log env seat serial
  refine ⟨(if notify_modifiers_leds env seat.xkb_info seat.xkb_state ≠ seat.xkb_leds ∧
      seat.has_led_update then
        [Msg.led_update (notify_modifiers_leds env seat.xkb_info seat.xkb_state)]
      else []) ++ out, ?_, ?_⟩
  · rw [e]
    simp [notify_modifiers_snapshot]
  · intro m hm
    rcases List.mem_append.mp hm with h | h
    · split at h
      · rw [List.mem_singleton.mp h]
        rfl
      · cases h
    · exact p m h

theorem update_modifier_state_log (env : Env) (seat : weston_seat) (serial key : Nat)
    (state : wl_keyboard_key_state) :
    ∃ out, (update_modifier_state env seat serial key state).log =
        seat.log ++ Msg.xkb_state_update_key ((key + 8) % 2 ^ 32)
          (if state = wl_keyboard_key_state.PRESSED then xkb_key_direction.XKB_KEY_DOWN
            else xkb_key_direction.XKB_KEY_UP) :: out ∧
      ∀ m ∈ out, is_modifiers_notice m = true := by
  unfold update_modifier_state
  simp only []
  obtain ⟨out, e, p⟩ := notify_modifiers_log_notices env
    { send seat (Msg.xkb_state_update_key ((key + 8) % 2 ^ 32)
        (if state = wl_keyboard_key_state.PRESSED then xkb_key_direction.XKB_KEY_DOWN
          else xkb_key_direction.XKB_KEY_UP)) with
      xkb_state := env.xkb_state_update_key
        (send seat (Msg.xkb_state_update_key ((key + 8) % 2 ^ 32)
          (if state = wl_keyboard_key_state.PRESSED then xkb_key_direction.XKB_KEY_DOWN
            else xkb_key_direction.XKB_KEY_UP))).xkb_state ((key + 8) % 2 ^ 32)
        (if state = wl_keyboard_key_state.PRESSED then xkb_key_direction.XKB_KEY_DOWN
          else xkb_key_direction.XKB_KEY_UP) } serial
  exact ⟨out, by rw [e]; simp [send], p⟩

theorem focus_in_press_fold_log (env : Env) (serial : Nat) (keys : List Nat) :
    ∀ seat : weston_seat, ∃ A,
      (keys.foldl (notify_keyboard_focus_in_press env serial
          weston_key_state_update.STATE_UPDATE_AUTOMATIC) seat).log = seat.log ++ A ∧
      xkb_updates A = keys.map (fun k => ((k + 8) % 2 ^ 32, xkb_key_direction.XKB_KEY_DOWN)) ∧
      ∀ m ∈ A, is_modifier_update m = true := by
  induction keys with
  | nil => intro seat; exact ⟨[], by simp, rfl, by simp⟩
  | cons k keys ih =>
    intro seat
    simp only [List.foldl_cons, List.map_cons]
    obtain ⟨A, a1, a2, a3⟩ := ih (notify_keyboard_focus_in_press env serial
      weston_key_state_update.STATE_UPDATE_AUTOMATIC seat k)
    obtain ⟨out, o1, o2⟩ := update_modifier_state_log env
      (weston_compositor_idle_inhibit seat) serial k wl_keyboard_key_state.PRESSED
    have hstep : (notify_keyboard_focus_in_press env serial
        weston_key_state_update.STATE_UPDATE_AUTOMATIC seat k).log
        = seat.log ++ Msg.xkb_state_update_key ((k + 8) % 2 ^ 32) xkb_key_direction.XKB_KEY_DOWN :: out :=
      o1
    refine ⟨Msg.xkb_state_update_key ((k + 8) % 2 ^ 32) xkb_key_direction.XKB_KEY_DOWN :: (out ++ A),
      ?_, ?_, ?_⟩
    · rw [a1, hstep]
      simp
    · have : xkb_updates (Msg.xkb_state_update_key ((k + 8) % 2 ^ 32) xkb_key_direction.XKB_KEY_DOWN ::
          (out ++ A)) = ((k + 8) % 2 ^ 32, xkb_key_direction.XKB_KEY_DOWN) :: xkb_updates (out ++ A) := rfl
      rw [this, xkb_updates_append, xkb_updates_of_notices out o2, a2]
      rfl
    · intro m hm
      rcases List.mem_cons.mp hm with rfl | hm
      · rfl
      · rcases List.mem_append.mp hm with h | h
        · exact is_modifier_update_of_notice m (o2 m h)
        · exact a3 m h

theorem focus_in_hook_fold_log (env : Env) (keys : List Nat) :
    ∀ seat : weston_seat,
      (keys.foldl (notify_keyboard_focus_in_hook env) seat).log =
        seat.log ++ keys.map (fun k => Msg.run_key_binding 0 k wl_keyboard_key_state.PRESSED) := by
  induction keys with
  | nil => intro seat; simp
  | cons k keys ih =>
    intro seat
    simp only [List.foldl_cons, List.map_cons]
    rw [ih]
    simp [notify_keyboard_focus_in_hook, send]

theorem weston_keyboard_set_focus_messages (seat : weston_seat) (surface : Option wl_surface) :
    ∀ m ∈ weston_keyboard_set_focus_leave seat surface ++
        (weston_keyboard_set_focus_enter seat surface ++ [Msg.keyboard_focus_signal]),
      xkb_update_of m = none ∧ is_key_dispatch m = false := by
  intro m hm
  unfold weston_keyboard_set_focus_leave weston_keyboard_set_focus_enter at hm
  have hsig : ∀ l1 l2 : List Msg,
      (∀ x ∈ l1, xkb_update_of x = none ∧ is_key_dispatch x = false) →
      (∀ x ∈ l2, xkb_update_of x = none ∧ is_key_dispatch x = false) →
      m ∈ l1 ++ (l2 ++ [Msg.keyboard_focus_signal]) →
      xkb_update_of m = none ∧ is_key_dispatch m = false := by
    intro l1 l2 h1 h2 h
    rcases List.mem_append.mp h with h | h
    · exact h1 m h
    · rcases List.mem_append.mp h with h | h
      · exact h2 m h
      · rw [List.mem_singleton.mp h]
        exact ⟨rfl, rfl⟩
  refine hsig _ _ ?_ ?_ hm
  · intro x hx
    split at hx
    · split at hx
      · rw [List.mem_singleton.mp hx]
        exact ⟨rfl, rfl⟩
      · cases hx
    · cases hx
  · intro x hx
    split at hx
    · split at hx
      · rcases List.mem_cons.mp hx with rfl | hx
        · exact ⟨rfl, rfl⟩
        · rw [List.mem_singleton.mp hx]
          exact ⟨rfl, rfl⟩
      · cases hx
    · cases hx

/-! ## C27: order of events in `notify_keyboard_focus_in` -/

/-- C27. With automatic state update, the log of `notify_keyboard_focus_in` for
the keys `keys` grows by three consecutive parts.  The first holds the calls of
the keymap state machine, one key-down per key in the order of `keys` (each
with the key's code plus 8 in `uint32_t`), and besides them no key-binding hook invocation and no keyboard enter message.  The
second is the key-binding hook invoked once per key, in the order of `keys`,
with time 0 and state pressed.  The third, in which the saved focus is restored,
holds no call of the keymap state machine and no hook invocation.  So every
modifier update precedes every hook invocation, and every hook invocation
precedes the enter message of the restored focus. -/
theorem focus_in_updates_then_bindings_then_focus (env : Env) (seat : weston_seat)
    (keys : List Nat) :
    ∃ A C,
      (notify_keyboard_focus_in env seat keys
          weston_key_state_update.STATE_UPDATE_AUTOMATIC).log =
        seat.log ++ (A ++
          (keys.map (fun k => Msg.run_key_binding 0 k wl_keyboard_key_state.PRESSED) ++ C)) ∧
      xkb_updates A = keys.map (fun k => ((k + 8) % 2 ^ 32, xkb_key_direction.XKB_KEY_DOWN)) ∧
      (∀ m ∈ A, is_key_dispatch m = false ∧ is_keyboard_enter m = false) ∧
      (∀ m ∈ C, xkb_update_of m = none ∧ is_key_dispatch m = false) := by
  obtain ⟨A, a1, a2, a3⟩ := focus_in_press_fold_log env ((seat.display_serial + 1) % 2 ^ 32) keys
    { (wl_display_next_serial seat).1 with
      keyboard := { (wl_display_next_serial seat).1.keyboard with keys := keys } }
  have hb := focus_in_hook_fold_log env keys
    (keys.foldl (notify_keyboard_focus_in_press env ((seat.display_serial + 1) % 2 ^ 32)
      weston_key_state_update.STATE_UPDATE_AUTOMATIC)
      { (wl_display_next_serial seat).1 with
        keyboard := { (wl_display_next_serial seat).1.keyboard with keys := keys } })
  rw [a1] at hb
  have hbase : ({ (wl_display_next_serial seat).1 with
      keyboard := { (wl_display_next_serial seat).1.keyboard with keys := keys } } :
        weston_seat).log = seat.log := rfl
  rw [hbase] at hb
  unfold notify_keyboard_focus_in
  simp only [wl_display_next_serial] at hb ⊢
  generalize List.foldl (notify_keyboard_focus_in_hook env) _ keys = X at hb ⊢
  split
  · rename_i surface hs
    refine ⟨A, weston_keyboard_set_focus_leave X (some surface) ++
        (weston_keyboard_set_focus_enter X (some surface) ++ [Msg.keyboard_focus_signal]),
      ?_, a2, fun m hm => is_modifier_update_not_dispatch m (a3 m hm),
      weston_keyboard_set_focus_messages X (some surface)⟩
    show (weston_keyboard_set_focus X (some surface)).log = _
    rw [weston_keyboard_set_focus_log, hb]
    simp only [List.append_assoc]
  · refine ⟨A, [], ?_, a2, fun m hm => is_modifier_update_not_dispatch m (a3 m hm), by simp⟩
    rw [hb]
    simp

/-! ## Lemmas on the parts of `notify_key` -/

theorem notify_key_eq (env : Env) (seat : weston_seat) (time key : Nat)
    (state : wl_keyboard_key_state) (update_state : weston_key_state_update)
    (hgrab : seat.keyboard.grab = keyboard_grab.default_grab ∨
      seat.keyboard.grab = keyboard_grab.input_method_grab)
    (data : List Nat) (end_ : Nat)
    (hscan : notify_key_scan key state seat.keyboard.keys.length seat.keyboard.keys 0
      seat.keyboard.keys.length = some (data, end_)) :
    notify_key env seat time key state update_state =
      notify_key_finish env
        (keyboard_grab_interface_key
          (notify_key_hook env
            { notify_key_account seat time key state with
              keyboard := { (notify_key_account seat time key state).keyboard with
                keys := if state = wl_keyboard_key_state.PRESSED then data.take end_ ++ [key]
                  else data.take end_ } } time key state)
          (notify_key_hook env
            { notify_key_account seat time key state with
              keyboard := { (notify_key_account seat time key state).keyboard with
                keys := if state = wl_keyboard_key_state.PRESSED then data.take end_ ++ [key]
                  else data.take end_ } } time key state).keyboard.grab
          time key state) key state update_state := by
  cases state <;>
  rcases hp : seat.has_ping_handler <;> rcases hf : seat.keyboard.focus with _ | f <;>
  simp only [notify_key, notify_key_account, notify_key_hook, notify_key_finish,
    wl_display_next_serial, weston_compositor_idle_inhibit, weston_compositor_idle_release,
    hp, hf, hscan, hgrab, if_true, send_keyboard]

theorem notify_key_scan_some (key : Nat) (state : wl_keyboard_key_state) (keys : List Nat)
    (h : state = wl_keyboard_key_state.PRESSED → key ∉ keys) :
    ∃ p, notify_key_scan key state keys.length keys 0 keys.length = some p := by
  cases state
  · exact notify_key_scan_released key keys.length keys 0 keys.length
  · exact ⟨_, notify_key_scan_not_found key wl_keyboard_key_state.PRESSED keys.length keys 0
      keys.length (fun i _ hi => getD_ne_of_not_mem (h rfl) i hi)⟩

theorem notify_key_account_frame (seat : weston_seat) (time key : Nat)
    (state : wl_keyboard_key_state) :
    (∃ pings, (notify_key_account seat time key state).log = seat.log ++ pings ∧
      ∀ m ∈ pings, is_key_dispatch m = false) ∧
    (notify_key_account seat time key state).keyboard.grab = seat.keyboard.grab ∧
    (notify_key_account seat time key state).keyboard.focus_resource
      = seat.keyboard.focus_resource ∧
    (notify_key_account seat time key state).keyboard.keys = seat.keyboard.keys ∧
    (notify_key_account seat time key state).modifier_state = seat.modifier_state ∧
    (notify_key_account seat time key state).display_serial
      = (seat.display_serial + 1) % 2 ^ 32 := by
  refine ⟨?_, ?_⟩
  · cases state <;>
    rcases hp : seat.has_ping_handler <;> rcases hf : seat.keyboard.focus with _ | f <;>
    simp [notify_key_account, wl_display_next_serial, weston_compositor_idle_inhibit,
      weston_compositor_idle_release, hp, hf, send, is_key_dispatch]
  · cases state <;>
    rcases hp : seat.has_ping_handler <;> rcases hf : seat.keyboard.focus with _ | f <;>
    simp [notify_key_account, wl_display_next_serial, weston_compositor_idle_inhibit,
      weston_compositor_idle_release, hp, hf, send]

theorem keyboard_grab_interface_key_log (seat : weston_seat) (grab : keyboard_grab)
    (time key : Nat) (state : wl_keyboard_key_state) :
    (keyboard_grab_interface_key seat grab time key state).log =
      seat.log ++
        (if grab = keyboard_grab.default_grab then
          match seat.keyboard.focus_resource with
          | some r => [Msg.wl_keyboard_send_key r ((seat.display_serial + 1) % 2 ^ 32)
              time key state]
          | none => []
        else [Msg.keyboard_grab_key grab time key state]) := by
  rcases grab with _ | _ | n
  · rcases hfr : seat.keyboard.focus_resource with _ | r <;>
    simp [keyboard_grab_interface_key, default_grab_key, hfr, send, wl_display_next_serial]
  · simp [keyboard_grab_interface_key, send]
  · simp [keyboard_grab_interface_key, send]

theorem notify_key_finish_emits (env : Env) (seat : weston_seat) (key : Nat)
    (state : wl_keyboard_key_state) (update_state : weston_key_state_update) :
    emits (fun m => is_key_dispatch m = false) seat
      (notify_key_finish env seat key state update_state) := by
  cases update_state
  · exact update_modifier_state_emits env seat _ key state
  · exact ⟨[], by simp [notify_key_finish], by simp⟩

theorem notify_modifiers_no_client (env : Env) (seat : weston_seat) (serial : Nat)
    (hg : seat.keyboard.grab ≠ keyboard_grab.default_grab) :
    emits (fun m => is_keyboard_client_message m = false) seat
      (notify_modifiers env seat serial) := by
  rw [notify_modifiers_eq]
  have hs : emits (fun m => is_keyboard_client_message m = false) seat
      (notify_modifiers_snapshot env seat) := by
    refine ⟨_, rfl, ?_⟩
    intro m hm
    split at hm
    · rw [List.mem_singleton.mp hm]
      rfl
    · cases hm
  split
  · refine emits_trans hs ?_
    rcases hgr : seat.keyboard.grab with _ | _ | n
    · exact absurd hgr hg
    · exact emits_of_log_snoc _ rfl (by rfl)
    · exact emits_of_log_snoc _ rfl (by rfl)
  · exact hs

theorem update_modifier_state_no_client (env : Env) (seat : weston_seat) (serial key : Nat)
    (state : wl_keyboard_key_state)
    (hg : seat.keyboard.grab ≠ keyboard_grab.default_grab) :
    emits (fun m => is_keyboard_client_message m = false) seat
      (update_modifier_state env seat serial key state) := by
  unfold update_modifier_state
  exact emits_trans
    (emits_trans (emits_send seat (Msg.xkb_state_update_key _ _) (by rfl))
      (emits_of_log_eq (by rfl)))
    (notify_modifiers_no_client env _ serial hg)

theorem notify_key_finish_no_client (env : Env) (seat : weston_seat) (key : Nat)
    (state : wl_keyboard_key_state) (update_state : weston_key_state_update)
    (hg : seat.keyboard.grab ≠ keyboard_grab.default_grab) :
    emits (fun m => is_keyboard_client_message m = false) seat
      (notify_key_finish env seat key state update_state) := by
  cases update_state
  · exact update_modifier_state_no_client env seat _ key state hg
  · exact ⟨[], by simp [notify_key_finish], by simp⟩

theorem notify_key_account_no_client (seat : weston_seat) (time key : Nat)
    (state : wl_keyboard_key_state) :
    emits (fun m => is_keyboard_client_message m = false) seat
      (notify_key_account seat time key state) := by
  cases state <;>
  rcases hp : seat.has_ping_handler <;> rcases hf : seat.keyboard.focus with _ | f <;>
  simp [emits, notify_key_account, wl_display_next_serial, weston_compositor_idle_inhibit,
    weston_compositor_idle_release, hp, hf, send, is_keyboard_client_message]

theorem keyboard_grab_interface_key_grab (seat : weston_seat) (time key : Nat)
    (state : wl_keyboard_key_state)
    (h : seat.keyboard.grab ≠ keyboard_grab.default_grab) :
    (keyboard_grab_interface_key seat seat.keyboard.grab time key state).keyboard.grab
      = seat.keyboard.grab := by
  rcases hg : seat.keyboard.grab with _ | _ | n
  · exact absurd hg h
  · simp [keyboard_grab_interface_key, send, hg]
  · simp [keyboard_grab_interface_key, send, hg]

/-! ## C22: the key-binding hook and the key callback -/

/-- C22.  In `notify_key` under the default or input-method grab, a repeated
press (a press of a key that is already in the pressed-key array) leaves the
function before the hook and before any key callback.  For every other event
the key-binding hook runs first and one key callback follows it, the one of the
grab that is in place when the hook returns.  The hook consumes an event by
installing another grab (`input.c` reads `keyboard->grab` again after the
hook): the event then goes to the key callback of that grab and not to the one
of the grab that was active, and when the installed grab is not the default
grab no key or modifiers message goes to a client.  When the hook leaves the
default grab in place the event reaches `default_grab_key`, which forwards it to
the focus binding.  Apart from the hook and that one callback the call
dispatches the key nowhere. -/
theorem key_binding_hook_precedes_key_callback (env : Env) (seat : weston_seat)
    (time key : Nat) (state : wl_keyboard_key_state) (update_state : weston_key_state_update)
    (hgrab : seat.keyboard.grab = keyboard_grab.default_grab ∨
      seat.keyboard.grab = keyboard_grab.input_method_grab) :
    ∃ out, (notify_key env seat time key state update_state).log = seat.log ++ out ∧
      (state = wl_keyboard_key_state.PRESSED ∧ key ∈ seat.keyboard.keys →
        ∀ m ∈ out, is_key_dispatch m = false) ∧
      (¬ (state = wl_keyboard_key_state.PRESSED ∧ key ∈ seat.keyboard.keys) →
        ∃ pre post,
          out = pre ++ Msg.run_key_binding time key state ::
            ((if env.run_key_binding seat.modifier_state time key state seat.keyboard.grab
                  = keyboard_grab.default_grab then
                match seat.keyboard.focus_resource with
                | some r => [Msg.wl_keyboard_send_key r
                    (((seat.display_serial + 1) % 2 ^ 32 + 1) % 2 ^ 32) time key state]
                | none => []
              else [Msg.keyboard_grab_key
                (env.run_key_binding seat.modifier_state time key state seat.keyboard.grab)
                time key state]) ++ post) ∧
          (∀ m ∈ pre, is_key_dispatch m = false) ∧
          (∀ m ∈ post, is_key_dispatch m = false) ∧
          (env.run_key_binding seat.modifier_state time key state seat.keyboard.grab
              ≠ keyboard_grab.default_grab →
            ∀ m ∈ out, is_keyboard_client_message m = false)) := by
  by_cases hrep : state = wl_keyboard_key_state.PRESSED ∧ key ∈ seat.keyboard.keys
  · obtain ⟨hst, hmem⟩ := hrep
    subst hst
    obtain ⟨_, _, out, e, p⟩ := notify_key_pressed_repeat env seat time key update_state hmem
    refine ⟨out, e, fun _ m hm => ?_, fun h => absurd ⟨rfl, hmem⟩ h⟩
    obtain ⟨f, serial, hm2⟩ := p m hm
    rw [hm2]
    rfl
  · have hnew : state = wl_keyboard_key_state.PRESSED → key ∉ seat.keyboard.keys :=
      fun h1 h2 => hrep ⟨h1, h2⟩
    obtain ⟨⟨data, end_⟩, hscan⟩ := notify_key_scan_some key state seat.keyboard.keys hnew
    obtain ⟨⟨pings, a1, a2⟩, a3, a4, _, a5, a6⟩ := notify_key_account_frame seat time key state
    obtain ⟨pings2, b1, b2⟩ := notify_key_account_no_client seat time key state
    have hpp : pings2 = pings := List.append_cancel_left (b1.symm.trans a1)
    subst hpp
    have e0 := notify_key_eq env seat time key state update_state hgrab data end_ hscan
    generalize hH : notify_key_hook env
      { notify_key_account seat time key state with
        keyboard := { (notify_key_account seat time key state).keyboard with
          keys := if state = wl_keyboard_key_state.PRESSED then data.take end_ ++ [key]
            else data.take end_ } } time key state = H at e0
    have hHg : H.keyboard.grab
        = env.run_key_binding seat.modifier_state time key state seat.keyboard.grab := by
      rw [← hH]
      simp only [notify_key_hook, send, a3, a5]
    have hHlog : H.log = seat.log ++ (pings2 ++ [Msg.run_key_binding time key state]) := by
      rw [← hH]
      simp only [notify_key_hook, send, a1, List.append_assoc]
    have hHfr : H.keyboard.focus_resource = seat.keyboard.focus_resource := by
      rw [← hH]
      simp only [notify_key_hook, send, a4]
    have hHs : H.display_serial = (seat.display_serial + 1) % 2 ^ 32 := by
      rw [← hH]
      simp only [notify_key_hook, send, a6]
    obtain ⟨post, f1, f2⟩ := notify_key_finish_emits env
      (keyboard_grab_interface_key H H.keyboard.grab time key state) key state update_state
    have hlog : (notify_key env seat time key state update_state).log =
        seat.log ++ (pings2 ++ Msg.run_key_binding time key state ::
          ((if env.run_key_binding seat.modifier_state time key state seat.keyboard.grab
                = keyboard_grab.default_grab then
              match seat.keyboard.focus_resource with
              | some r => [Msg.wl_keyboard_send_key r
                  (((seat.display_serial + 1) % 2 ^ 32 + 1) % 2 ^ 32) time key state]
              | none => []
            else [Msg.keyboard_grab_key
              (env.run_key_binding seat.modifier_state time key state seat.keyboard.grab)
              time key state]) ++ post)) := by
      rw [e0, f1, keyboard_grab_interface_key_log, hHlog, hHfr, hHs, hHg]
      simp only [List.append_assoc, List.singleton_append, List.cons_append, List.nil_append]
    refine ⟨_, hlog, fun h => absurd h hrep, fun _ => ⟨pings2, post, rfl, a2, f2, ?_⟩⟩
    intro hne m hm
    have hK : (keyboard_grab_interface_key H H.keyboard.grab time key state).keyboard.grab
        ≠ keyboard_grab.default_grab := by
      rw [keyboard_grab_interface_key_grab H time key state (by rw [hHg]; exact hne), hHg]
      exact hne
    obtain ⟨post2, g1, g2⟩ := notify_key_finish_no_client env
      (keyboard_grab_interface_key H H.keyboard.grab time key state) key state update_state hK
    have hpost : post2 = post := List.append_cancel_left (g1.symm.trans f1)
    subst hpost
    rw [if_neg hne] at hm
    rcases List.mem_append.mp hm with h | h
    · exact b2 m h
    · rcases List.mem_cons.mp h with h | h
      · rw [h]
        rfl
      · rcases List.mem_append.mp h with h | h
        · rw [List.mem_singleton.mp h]
          rfl
        · exact g2 m h

/-- C22 at a concrete seat: default grab, focus on `surface_a` through
`binding_a1`, and a hook with a binding for key 31 that installs the grab
`custom 9`.  The press of key 31 goes to the hook and then to the key callback
of the installed grab, and no message goes to the client; the press of key 32,
which the hook lets pass, goes to the hook and then to `binding_a1`. -/
theorem key_binding_hook_precedes_key_callback_witness :
    seat_focused.keyboard.grab = keyboard_grab.default_grab ∧
    seat_focused.keyboard.focus_resource = some binding_a1 ∧
    (notify_key env_key_binding seat_focused 5 31 wl_keyboard_key_state.PRESSED
      weston_key_state_update.STATE_UPDATE_AUTOMATIC).log =
        [Msg.run_key_binding 5 31 wl_keyboard_key_state.PRESSED,
          Msg.keyboard_grab_key (keyboard_grab.custom 9) 5 31 wl_keyboard_key_state.PRESSED,
          Msg.xkb_state_update_key 39 xkb_key_direction.XKB_KEY_DOWN] ∧
    (notify_key env_key_binding seat_focused 5 32 wl_keyboard_key_state.PRESSED
      weston_key_state_update.STATE_UPDATE_AUTOMATIC).log =
        [Msg.run_key_binding 5 32 wl_keyboard_key_state.PRESSED,
          Msg.wl_keyboard_send_key binding_a1 2 5 32 wl_keyboard_key_state.PRESSED,
          Msg.xkb_state_update_key 40 xkb_key_direction.XKB_KEY_DOWN] ∧
    ∃ out,
      (notify_key env_key_binding seat_focused 5 31 wl_keyboard_key_state.PRESSED
        weston_key_state_update.STATE_UPDATE_AUTOMATIC).log = seat_focused.log ++ out ∧
      ∀ m ∈ out, is_keyboard_client_message m = false :=
  ⟨rfl, rfl, by decide, by decide,
    (key_binding_hook_precedes_key_callback env_key_binding seat_focused 5 31
      wl_keyboard_key_state.PRESSED weston_key_state_update.STATE_UPDATE_AUTOMATIC
      (Or.inl rfl)).elim
      (fun out h => ⟨out, h.1,
        (h.2.2 (by decide)).elim (fun _ hp => hp.elim (fun _ hq => hq.2.2.2 (by decide)))⟩)⟩

/-! ## Lemmas on keyboard initialisation -/

theorem weston_xkb_info_new_keymap_returns (env : Env) (xkb_info : weston_xkb_info)
    (k : xkb_keymap) (hk : xkb_info.keymap = some k) :
    ∃ info out ret, weston_xkb_info_new_keymap env xkb_info = some (info, out, ret) ∧
      (ret = 0 ∨ ret = -1) ∧ info.keymap = some k ∧
      ∀ m ∈ out, ∃ line, m = Msg.weston_log line := by
  unfold weston_xkb_info_new_keymap
  rw [hk]
  simp only []
  rcases env.xkb_map_get_as_string k with _ | keymap_str
  · exact ⟨_, _, _, rfl, Or.inr rfl, rfl, by simp⟩
  · simp only []
    split
    · exact ⟨_, _, _, rfl, Or.inr rfl, rfl, by simp⟩
    · split
      · exact ⟨_, _, _, rfl, Or.inl rfl, rfl, by simp⟩
      · exact ⟨_, _, _, rfl, Or.inr rfl, rfl, by simp⟩

theorem weston_compositor_build_global_keymap_returns (env : Env) (seat : weston_seat) :
    ∃ S ret, weston_compositor_build_global_keymap env seat = some (S, ret) ∧
      (ret = 0 ∨ ret = -1) ∧ (ret = 0 → S.compositor_xkb_info.keymap ≠ none) ∧
      S.has_keyboard = seat.has_keyboard ∧ S.seat_keyboard = seat.seat_keyboard ∧
      S.keyboard = seat.keyboard ∧
      ∃ out, S.log = seat.log ++ out ∧ ∀ m ∈ out, ∃ line, m = Msg.weston_log line := by
  unfold weston_compositor_build_global_keymap
  by_cases h0 : seat.compositor_xkb_info.keymap ≠ none
  · rw [if_pos h0]
    exact ⟨_, _, rfl, Or.inl rfl, fun _ => h0, rfl, rfl, rfl, [], by simp, by simp⟩
  · rw [if_neg h0]
    simp only []
    rcases hn : env.xkb_map_new_from_names with _ | k
    · rw [if_pos rfl]
      refine ⟨_, _, rfl, Or.inr rfl, fun h => absurd h (by decide), rfl, rfl, rfl,
        [Msg.weston_log 1455, Msg.weston_log 1456], by simp [send], ?_⟩
      intro m hm
      simp only [List.mem_cons, List.mem_singleton, List.not_mem_nil, or_false] at hm
      rcases hm with rfl | rfl
      · exact ⟨_, rfl⟩
      · exact ⟨_, rfl⟩
    · rw [if_neg (by simp)]
      obtain ⟨info, out, ret, e, hret, hkm, hout⟩ := weston_xkb_info_new_keymap_returns env
        { seat.compositor_xkb_info with keymap := some k } k rfl
      rw [e]
      simp only []
      rcases hret with rfl | rfl
      · rw [if_neg (by decide)]
        exact ⟨_, _, rfl, Or.inl rfl, fun _ => by simp [hkm], rfl, rfl, rfl, out, rfl, hout⟩
      · rw [if_pos (by decide)]
        exact ⟨_, _, rfl, Or.inr rfl, fun h => absurd h (by decide), rfl, rfl, rfl, out, rfl,
          hout⟩

theorem weston_seat_init_keyboard_keymap_returns (env : Env) (seat : weston_seat)
    (keymap : Option xkb_keymap) :
    ∃ S ret, weston_seat_init_keyboard_keymap env seat keymap = some (S, ret) ∧
      (ret = 0 ∨ ret = -1) ∧ (ret = 0 → S.xkb_info.keymap ≠ none) ∧
      S.has_keyboard = seat.has_keyboard ∧ S.seat_keyboard = seat.seat_keyboard ∧
      S.keyboard = seat.keyboard ∧
      ∃ out, S.log = seat.log ++ out ∧ ∀ m ∈ out, ∃ line, m = Msg.weston_log line := by
  unfold weston_seat_init_keyboard_keymap
  rcases keymap with _ | k
  · obtain ⟨S, ret, e, hret, hkm, h1, h2, h3, out, h4, h5⟩ :=
      weston_compositor_build_global_keymap_returns env seat
    simp only [e]
    rcases hret with rfl | rfl
    · rw [if_neg (by decide)]
      exact ⟨_, _, rfl, Or.inl rfl, fun _ => hkm rfl, h1, h2, h3, out, h4, h5⟩
    · rw [if_pos (by decide)]
      exact ⟨_, _, rfl, Or.inr rfl, fun h => absurd h (by decide), h1, h2, h3, out, h4, h5⟩
  · obtain ⟨info, out, ret, e, hret, hkm, hout⟩ := weston_xkb_info_new_keymap_returns env
      { seat.xkb_info with keymap := some k } k rfl
    simp only [e]
    rcases hret with rfl | rfl
    · rw [if_neg (by decide)]
      exact ⟨_, _, rfl, Or.inl rfl, fun _ => by simp [hkm], rfl, rfl, rfl, out, rfl, hout⟩
    · rw [if_pos (by decide)]
      exact ⟨_, _, rfl, Or.inr rfl, fun h => absurd h (by decide), rfl, rfl, rfl, out, rfl,
        hout⟩

/-! ## C21: a failed keyboard initialisation -/

/-- C21.  `weston_seat_init_keyboard` always returns, with 0 or -1.  Whenever it
returns -1 (the keymap did not compile, could not be serialised, the
shared-memory file could not be created or mapped, or the keymap state could
not be created), the flag `has_keyboard` was 0 and is 0 afterwards, the seat's
keyboard device (`seat->seat.keyboard`) and the keyboard record are as before,
so a device that was unset is still unset, and everything emitted is a log
line: no capability message is sent. -/
theorem init_keyboard_failure_leaves_no_keyboard (env : Env) (seat : weston_seat)
    (keymap : Option xkb_keymap) :
    ∃ seat' ret, weston_seat_init_keyboard env seat keymap = some (seat', ret) ∧
      (ret = 0 ∨ ret = -1) ∧
      (ret = -1 →
        seat.has_keyboard = false ∧ seat'.has_keyboard = false ∧
        seat'.seat_keyboard = seat.seat_keyboard ∧ seat'.keyboard = seat.keyboard ∧
        ∃ out, seat'.log = seat.log ++ out ∧
          (∀ m ∈ out, ∃ line, m = Msg.weston_log line) ∧
          ∀ m ∈ out, is_capabilities m = false) := by
  have hcap : ∀ out : List Msg, (∀ m ∈ out, ∃ line, m = Msg.weston_log line) →
      ∀ m ∈ out, is_capabilities m = false := by
    intro out h m hm
    obtain ⟨line, rfl⟩ := h m hm
    rfl
  unfold weston_seat_init_keyboard
  rcases hflag : seat.has_keyboard
  · simp only [Bool.false_eq_true, if_false]
    obtain ⟨S, ret, e, hret, hkm, h1, h2, h3, out, h4, h5⟩ :=
      weston_seat_init_keyboard_keymap_returns env seat keymap
    rw [e]
    simp only []
    rcases hret with rfl | rfl
    · rw [if_neg (by decide)]
      rcases hk : S.xkb_info.keymap with _ | k
      · exact absurd hk (hkm rfl)
      · simp only []
        rcases env.xkb_state_new k with _ | state
        · simp only []
          refine ⟨_, _, rfl, Or.inr rfl, fun _ => ⟨trivial, ?_, h2, h3,
            out ++ [Msg.weston_log 1489], ?_, ?_, ?_⟩⟩
          · simp [send, h1, hflag]
          · simp [send, h4]
          · intro m hm
            rcases List.mem_append.mp hm with h | h
            · exact h5 m h
            · exact ⟨1489, List.mem_singleton.mp h⟩
          · intro m hm
            rcases List.mem_append.mp hm with h | h
            · exact hcap out h5 m h
            · rw [List.mem_singleton.mp h]
              rfl
        · exact ⟨_, _, rfl, Or.inl rfl, fun h => absurd h (by decide)⟩
    · rw [if_pos (by decide)]
      exact ⟨_, _, rfl, Or.inr rfl, fun _ => ⟨trivial, by rw [h1, hflag], h2, h3, out, h4, h5,
        hcap out h5⟩⟩
  · simp only [if_true]
    exact ⟨_, _, rfl, Or.inl rfl, fun h => absurd h (by decide)⟩

/-- C21 at a concrete seat: the pointer is set up, the keyboard is not, client
7 has bound the seat global; the keymap compiles and `mmap` fails, and with
another set of collaborators the keymap state cannot be created.  Both calls
return -1 and leave the keyboard unset with nothing but log lines emitted. -/
theorem init_keyboard_failure_leaves_no_keyboard_witness :
    (∃ seat', weston_seat_init_keyboard env_mmap_fails seat_no_keyboard none
        = some (seat', -1) ∧
      seat'.has_keyboard = false ∧ seat'.seat_keyboard = false ∧
      seat'.log = [Msg.weston_log 1428]) ∧
    (∃ seat', weston_seat_init_keyboard env_no_state seat_no_keyboard (some 5)
        = some (seat', -1) ∧
      seat'.has_keyboard = false ∧ seat'.seat_keyboard = false ∧
      seat'.log = [Msg.weston_log 1489]) ∧
    (∃ seat', weston_seat_init_keyboard env0 seat_no_keyboard none = some (seat', 0) ∧
      seat'.has_keyboard = true ∧ seat'.seat_keyboard = true ∧
      seat'.log = [Msg.wl_seat_send_capabilities binding_seat 3]) := by
  refine ⟨?_, ?_, ?_⟩
  · obtain ⟨seat', ret, h, _, hfail⟩ :=
      init_keyboard_failure_leaves_no_keyboard env_mmap_fails seat_no_keyboard none
    have hc : (weston_seat_init_keyboard env_mmap_fails seat_no_keyboard none).map
        (fun r => (r.2, r.1.log)) = some (-1, [Msg.weston_log 1428]) := by decide
    rw [h] at hc
    simp only [Option.map_some', Option.some.injEq, Prod.mk.injEq] at hc
    obtain ⟨rfl, hlog⟩ := hc
    obtain ⟨_, h2, h3, _⟩ := hfail rfl
    exact ⟨seat', h, h2, h3, hlog⟩
  · obtain ⟨seat', ret, h, _, hfail⟩ :=
      init_keyboard_failure_leaves_no_keyboard env_no_state seat_no_keyboard (some 5)
    have hc : (weston_seat_init_keyboard env_no_state seat_no_keyboard (some 5)).map
        (fun r => (r.2, r.1.log)) = some (-1, [Msg.weston_log 1489]) := by decide
    rw [h] at hc
    simp only [Option.map_some', Option.some.injEq, Prod.mk.injEq] at hc
    obtain ⟨rfl, hlog⟩ := hc
    obtain ⟨_, h2, h3, _⟩ := hfail rfl
    exact ⟨seat', h, h2, h3, hlog⟩
  · exact ⟨_, rfl, by decide, by decide, by decide⟩

/-! ## Lemmas on the pressed-key array over sequences of key events -/

theorem notify_key_keys_none (env : Env) (seat : weston_seat) (time key : Nat)
    (state : wl_keyboard_key_state) (update_state : weston_key_state_update)
    (hscan : notify_key_scan key state seat.keyboard.keys.length seat.keyboard.keys 0
      seat.keyboard.keys.length = none) :
    (notify_key env seat time key state update_state).keyboard.keys = seat.keyboard.keys := by
  cases state <;>
  rcases hp : seat.has_ping_handler <;> rcases hf : seat.keyboard.focus with _ | f <;>
  simp [notify_key, wl_display_next_serial, weston_compositor_idle_release,
    weston_compositor_idle_inhibit, hscan, hp, hf, send]

theorem notify_key_keys_some (env : Env) (seat : weston_seat) (time key : Nat)
    (state : wl_keyboard_key_state) (update_state : weston_key_state_update)
    (data : List Nat) (end_ : Nat)
    (hscan : notify_key_scan key state seat.keyboard.keys.length seat.keyboard.keys 0
      seat.keyboard.keys.length = some (data, end_)) :
    (notify_key env seat time key state update_state).keyboard.keys =
      if state = wl_keyboard_key_state.PRESSED then data.take end_ ++ [key]
      else data.take end_ := by
  by_cases hg : seat.keyboard.grab = keyboard_grab.default_grab ∨
      seat.keyboard.grab = keyboard_grab.input_method_grab <;>
  cases update_state <;> cases state <;>
  rcases hp : seat.has_ping_handler <;> rcases hf : seat.keyboard.focus with _ | f <;>
  simp [notify_key, wl_display_next_serial, weston_compositor_idle_release,
    weston_compositor_idle_inhibit, hscan, hg, hp, hf, send,
    update_modifier_state_keyboard, keyboard_grab_interface_key_keyboard]

theorem notify_key_scan_released_at (key : Nat) :
    ∀ (fuel : Nat) (data : List Nat) (k end_ i : Nat),
      k ≤ i → i < end_ → end_ ≤ k + fuel → data.getD i 0 = key →
      (∀ j, k ≤ j → j < end_ → j ≠ i → data.getD j 0 ≠ key) →
      notify_key_scan key wl_keyboard_key_state.RELEASED fuel data k end_
        = some (data.set i (data.getD (end_ - 1) 0), end_ - 1) := by
  intro fuel
  induction fuel with
  | zero => intro data k end_ i h1 h2 h3 _ _; omega
  | succ n ih =>
    intro data k end_ i h1 h2 h3 h4 h5
    unfold notify_key_scan
    have hk : k < end_ := by omega
    rw [if_pos hk]
    by_cases hd : data.getD k 0 = key
    · have hki : k = i := by
        by_contra hne
        exact h5 k (Nat.le_refl k) hk hne hd
      subst hki
      rw [if_pos hd, if_neg (by decide)]
      refine notify_key_scan_not_found key _ n _ (k + 1) (end_ - 1) ?_
      intro j hj1 hj2
      have hjk : j ≠ k := by omega
      rw [List.getD_eq_getElem?_getD, List.getElem?_set_ne (Ne.symm hjk),
        ← List.getD_eq_getElem?_getD]
      exact h5 j (by omega) (by omega) hjk
    · rw [if_neg hd]
      have hne : k ≠ i := fun hki => hd (hki ▸ h4)
      exact ih data (k + 1) end_ i (by omega) h2 (by omega) h4
        (fun j hj1 hj2 hj3 => h5 j (by omega) hj2 hj3)
theorem indexOf_mid (a b : List Nat) (key : Nat) (h : key ∉ a) :
    (a ++ key :: b).indexOf key = a.length := by
  induction a with
  | nil => simp
  | cons x a ih =>
    have hx : x ≠ key := fun e => h (e ▸ List.mem_cons_self _ _)
    have ha : key ∉ a := fun e => h (List.mem_cons_of_mem _ e)
    simp [List.indexOf_cons, hx, ih ha]

theorem swap_remove_mid (a c : List Nat) (key last : Nat) :
    ((a ++ key :: (c ++ [last])).set a.length
        ((a ++ key :: (c ++ [last])).getD ((a ++ key :: (c ++ [last])).length - 1) 0)).take
      ((a ++ key :: (c ++ [last])).length - 1) = a ++ last :: c := by
  have hlen : (a ++ key :: (c ++ [last])).length - 1 = a.length + (c.length + 1) := by
    simp
  have hget : (a ++ key :: (c ++ [last])).getD (a.length + (c.length + 1)) 0 = last := by
    rw [List.getD_eq_getElem?_getD, List.getElem?_append_right (by omega)]
    simp
  rw [hlen, hget]
  simp [List.set_append, List.take_append_eq_append_take]

theorem swap_remove_last (a : List Nat) (key : Nat) :
    ((a ++ [key]).set a.length ((a ++ [key]).getD ((a ++ [key]).length - 1) 0)).take
      ((a ++ [key]).length - 1) = a := by
  simp [List.set_append, List.take_append_eq_append_take]

theorem swap_remove (keys : List Nat) (key : Nat) (hnd : keys.Nodup) (hmem : key ∈ keys) :
    ((keys.set (keys.indexOf key) (keys.getD (keys.length - 1) 0)).take
        (keys.length - 1)).Nodup ∧
    ((keys.set (keys.indexOf key) (keys.getD (keys.length - 1) 0)).take
        (keys.length - 1)).length = keys.length - 1 ∧
    ∀ x, x ∈ (keys.set (keys.indexOf key) (keys.getD (keys.length - 1) 0)).take
        (keys.length - 1) ↔ (x ∈ keys ∧ x ≠ key) := by
  obtain ⟨a, b, rfl⟩ := List.append_of_mem hmem
  have hna : key ∉ a := by
    intro h
    have := List.nodup_append.mp hnd
    exact this.2.2 h (List.mem_cons_self _ _)
  rw [indexOf_mid a b key hna]
  rcases List.eq_nil_or_concat b with rfl | ⟨c, last, rfl⟩
  · rw [swap_remove_last]
    refine ⟨(List.nodup_append.mp hnd).1, by simp, fun x => ?_⟩
    constructor
    · intro hx
      exact ⟨List.mem_append_left _ hx, fun e => hna (e ▸ hx)⟩
    · rintro ⟨hx, hne⟩
      rcases List.mem_append.mp hx with h | h
      · exact h
      · exact absurd (List.mem_singleton.mp h) hne
  · rw [List.concat_eq_append] at hnd ⊢
    rw [swap_remove_mid]
    have h1 : a.Nodup := (List.nodup_append.mp hnd).1
    have h2 : (key :: (c ++ [last])).Nodup := (List.nodup_append.mp hnd).2.1
    have h4 : ∀ x, x ∈ a → x ∈ key :: (c ++ [last]) → False :=
      fun x hx hy => (List.nodup_append.mp hnd).2.2 hx hy
    have h3 : (c ++ [last]).Nodup := (List.nodup_cons.mp h2).2
    have hkc : key ∉ c := fun h => (List.nodup_cons.mp h2).1 (List.mem_append_left _ h)
    have hkl : key ≠ last := fun h => (List.nodup_cons.mp h2).1
      (List.mem_append_right _ (h ▸ List.mem_singleton_self _))
    have hlc : last ∉ c := fun h => (List.nodup_append.mp h3).2.2 h (List.mem_singleton_self _)
    have hla : last ∉ a := fun h => h4 last h
      (List.mem_cons_of_mem _ (List.mem_append_right _ (List.mem_singleton_self _)))
    refine ⟨?_, by simp, fun x => ?_⟩
    · refine List.nodup_append.mpr ⟨h1, List.nodup_cons.mpr ⟨hlc, (List.nodup_append.mp h3).1⟩,
        ?_⟩
      intro x hx hy
      rcases List.mem_cons.mp hy with rfl | hy
      · exact hla hx
      · exact h4 x hx (List.mem_cons_of_mem _ (List.mem_append_left _ hy))
    · simp only [List.mem_append, List.mem_cons, List.mem_singleton, List.not_mem_nil,
        or_false]
      constructor
      · rintro (hx | rfl | hx)
        · exact ⟨Or.inl hx, fun e => hna (e ▸ hx)⟩
        · exact ⟨Or.inr (Or.inr (Or.inr rfl)), fun e => hkl e.symm⟩
        · exact ⟨Or.inr (Or.inr (Or.inl hx)), fun e => hkc (e ▸ hx)⟩
      · rintro ⟨hx | rfl | hx | rfl, hne⟩
        · exact Or.inl hx
        · exact absurd rfl hne
        · exact Or.inr (Or.inr hx)
        · exact Or.inr (Or.inl rfl)

theorem notify_key_released_pressed_key (env : Env) (seat : weston_seat) (time key : Nat)
    (update_state : weston_key_state_update) (hnd : seat.keyboard.keys.Nodup)
    (hmem : key ∈ seat.keyboard.keys) :
    (notify_key env seat time key wl_keyboard_key_state.RELEASED update_state).keyboard.keys =
      (seat.keyboard.keys.set (seat.keyboard.keys.indexOf key)
        (seat.keyboard.keys.getD (seat.keyboard.keys.length - 1) 0)).take
        (seat.keyboard.keys.length - 1) := by
  have hi : seat.keyboard.keys.indexOf key < seat.keyboard.keys.length :=
    List.indexOf_lt_length.mpr hmem
  have hscan := notify_key_scan_released_at key seat.keyboard.keys.length seat.keyboard.keys 0
    seat.keyboard.keys.length (seat.keyboard.keys.indexOf key) (Nat.zero_le _) hi (by omega)
    (by rw [List.getD_eq_getElem _ 0 hi]; exact List.getElem_indexOf hi)
    (by
      intro j _ hj hne hget
      rw [List.getD_eq_getElem _ 0 hj] at hget
      apply hne
      rw [← hget, List.indexOf_getElem hnd j hj])
  rw [notify_key_keys_some env seat time key wl_keyboard_key_state.RELEASED update_state _ _
    hscan, if_neg (by decide)]

theorem notify_key_keys_step (env : Env) (seat : weston_seat) (time key : Nat)
    (state : wl_keyboard_key_state) (update_state : weston_key_state_update)
    (hnd : seat.keyboard.keys.Nodup) :
    (notify_key env seat time key state update_state).keyboard.keys.Nodup ∧
    ∀ k, k ∈ (notify_key env seat time key state update_state).keyboard.keys ↔
      if key = k then state = wl_keyboard_key_state.PRESSED else k ∈ seat.keyboard.keys := by
  by_cases hmem : key ∈ seat.keyboard.keys
  · cases state
    · rw [notify_key_released_pressed_key env seat time key update_state hnd hmem]
      obtain ⟨h1, _, h3⟩ := swap_remove seat.keyboard.keys key hnd hmem
      refine ⟨h1, fun k => ?_⟩
      rw [h3]
      by_cases hk : key = k
      · subst hk
        simp
      · simp [hk, Ne.symm hk]
    · rw [notify_key_keys_none env seat time key wl_keyboard_key_state.PRESSED update_state
        (notify_key_scan_pressed_mem hmem)]
      refine ⟨hnd, fun k => ?_⟩
      by_cases hk : key = k
      · subst hk
        simp [hmem]
      · simp [hk]
  · have hscan := notify_key_scan_not_found key state seat.keyboard.keys.length
      seat.keyboard.keys 0 seat.keyboard.keys.length
      (fun i _ hi => getD_ne_of_not_mem hmem i hi)
    rw [notify_key_keys_some env seat time key state update_state _ _ hscan, List.take_length]
    cases state
    · rw [if_neg (by decide)]
      refine ⟨hnd, fun k => ?_⟩
      by_cases hk : key = k
      · subst hk
        simp [hmem]
      · simp [hk]
    · rw [if_pos rfl]
      refine ⟨List.nodup_append.mpr ⟨hnd, List.nodup_singleton _, ?_⟩, fun k => ?_⟩
      · intro x hx hy
        rw [List.mem_singleton.mp hy] at hx
        exact hmem hx
      · by_cases hk : key = k
        · subst hk
          simp
        · simp [hk, Ne.symm hk]

theorem pressed_after_concat (evs : List key_event) (e : key_event) (k : Nat) :
    pressed_after (evs ++ [e]) k =
      if e.key = k then decide (e.state = wl_keyboard_key_state.PRESSED)
      else pressed_after evs k := by
  simp [pressed_after, List.foldl_append]

theorem notify_key_run_concat (env : Env) (seat : weston_seat) (evs : List key_event)
    (e : key_event) :
    notify_key_run env seat (evs ++ [e]) =
      notify_key env (notify_key_run env seat evs) e.time e.key e.state e.update_state := by
  simp [notify_key_run, notify_key_step, List.foldl_append]

theorem notify_key_run_keys (env : Env) (seat : weston_seat) (evs : List key_event)
    (h0 : seat.keyboard.keys = []) :
    (notify_key_run env seat evs).keyboard.keys.Nodup ∧
    ∀ k, k ∈ (notify_key_run env seat evs).keyboard.keys ↔ pressed_after evs k = true := by
  induction evs using List.reverseRecOn with
  | nil => simp [notify_key_run, h0, pressed_after]
  | append_singleton evs e ih =>
    rw [notify_key_run_concat]
    obtain ⟨h1, h2⟩ := notify_key_keys_step env (notify_key_run env seat evs) e.time e.key
      e.state e.update_state ih.1
    refine ⟨h1, fun k => ?_⟩
    rw [h2, pressed_after_concat]
    by_cases hk : e.key = k
    · simp [hk]
    · simp [hk, ih.2]

/-! ## C30: the pressed-key array over sequences of key events -/

/-- C30.  For every sequence `evs` of `notify_key` events from a keyboard whose
pressed-key array is empty (and so after each event of any such sequence, every
prefix being such a sequence), the array has no duplicate entries and contains
the key `k` if and only if the most recent event for `k` was a press.  A
release of a key that is in the array shrinks it by exactly one entry: the last
entry is written into the slot of the released key and the array is cut by
one. -/
theorem key_array_tracks_pressed_keys (env : Env) (seat : weston_seat) (evs : List key_event)
    (h0 : seat.keyboard.keys = []) :
    (notify_key_run env seat evs).keyboard.keys.Nodup ∧
    (∀ k, k ∈ (notify_key_run env seat evs).keyboard.keys ↔ pressed_after evs k = true) ∧
    ∀ e : key_event, e.state = wl_keyboard_key_state.RELEASED →
      e.key ∈ (notify_key_run env seat evs).keyboard.keys →
      (notify_key_run env seat (evs ++ [e])).keyboard.keys.length + 1
        = (notify_key_run env seat evs).keyboard.keys.length ∧
      (notify_key_run env seat (evs ++ [e])).keyboard.keys =
        ((notify_key_run env seat evs).keyboard.keys.set
          ((notify_key_run env seat evs).keyboard.keys.indexOf e.key)
          ((notify_key_run env seat evs).keyboard.keys.getD
            ((notify_key_run env seat evs).keyboard.keys.length - 1) 0)).take
          ((notify_key_run env seat evs).keyboard.keys.length - 1) := by
  obtain ⟨h1, h2⟩ := notify_key_run_keys env seat evs h0
  refine ⟨h1, h2, fun e he hmem => ?_⟩
  rw [notify_key_run_concat, he,
    notify_key_released_pressed_key env _ e.time e.key e.update_state h1 hmem]
  refine ⟨?_, rfl⟩
  rw [(swap_remove _ e.key h1 hmem).2.1]
  have := List.length_pos_of_mem hmem
  omega

/-- C30 at a concrete run from the empty array: key 30 down, key 31 down, key
30 up, key 31 down again, key 32 down, key 31 up leaves the array `[32]`. -/
theorem key_array_tracks_pressed_keys_witness :
    seat0.keyboard.keys = [] ∧
    (notify_key_run env0 seat0 typing_events).keyboard.keys = [32] ∧
    (notify_key_run env0 seat0 (typing_events.take 2)).keyboard.keys = [30, 31] ∧
    (notify_key_run env0 seat0 (typing_events.take 3)).keyboard.keys = [31] ∧
    (notify_key_run env0 seat0 typing_events).keyboard.keys.Nodup ∧
    (∀ k, k ∈ (notify_key_run env0 seat0 typing_events).keyboard.keys ↔
      pressed_after typing_events k = true) :=
  ⟨rfl, by decide, by decide, by decide,
    (key_array_tracks_pressed_keys env0 seat0 typing_events rfl).1,
    (key_array_tracks_pressed_keys env0 seat0 typing_events rfl).2.1⟩

/-! ## Lemmas on the focus invariant over pointer events -/

theorem default_grab_button_released (seat : weston_seat) (time button : Nat) :
    (default_grab_button seat time button wl_pointer_button_state.RELEASED).pointer.grab
      = seat.pointer.grab ∧
    (default_grab_button seat time button wl_pointer_button_state.RELEASED).pointer.current
      = seat.pointer.current ∧
    (seat.pointer.button_count = 0 →
      (default_grab_button seat time button wl_pointer_button_state.RELEASED).pointer.focus
        = seat.pointer.current) := by
  unfold default_grab_button
  rcases hfr : seat.pointer.focus_resource with _ | r <;>
  simp only [wl_display_next_serial, send] <;>
  split
  · exact ⟨(weston_pointer_set_focus_rest _ _ _ _).1,
      (weston_pointer_set_focus_rest _ _ _ _).2.2.2.1,
      fun _ => (weston_pointer_set_focus_frame _ _ _ _).2.1⟩
  · rename_i h
    exact ⟨rfl, rfl, fun h0 => absurd ⟨h0, trivial⟩ h⟩
  · exact ⟨(weston_pointer_set_focus_rest _ _ _ _).1,
      (weston_pointer_set_focus_rest _ _ _ _).2.2.2.1,
      fun _ => (weston_pointer_set_focus_frame _ _ _ _).2.1⟩
  · rename_i h
    exact ⟨rfl, rfl, fun h0 => absurd ⟨h0, trivial⟩ h⟩

theorem notify_button_account_released (seat : weston_seat) (time button : Nat) :
    (notify_button_account seat time button wl_pointer_button_state.RELEASED).pointer =
      { seat.pointer with
        button_count := (seat.pointer.button_count + 2 ^ 32 - 1) % 2 ^ 32 } := by
  unfold notify_button_account
  rfl

theorem notify_button_hook_pointer (env : Env) (seat : weston_seat) (time button : Nat)
    (state : wl_pointer_button_state) :
    (notify_button_hook env seat time button state).pointer =
      { seat.pointer with
        grab := env.run_button_binding seat.modifier_state time button state
          seat.pointer.grab } :=
  rfl

theorem notify_button_hook_account_released (env : Env) (seat : weston_seat)
    (time button : Nat) :
    ∃ m, (notify_button_hook env (notify_button_account seat time button
        wl_pointer_button_state.RELEASED) time button
        wl_pointer_button_state.RELEASED).pointer =
      { seat.pointer with
        button_count := (seat.pointer.button_count + 2 ^ 32 - 1) % 2 ^ 32,
        grab := env.run_button_binding m time button
          wl_pointer_button_state.RELEASED seat.pointer.grab } := by
  refine ⟨(notify_button_account seat time button
    wl_pointer_button_state.RELEASED).modifier_state, ?_⟩
  rw [notify_button_hook_pointer, notify_button_account_released]

theorem notify_button_released_pointer (env : Env) (seat : weston_seat) (time button : Nat)
    (hgrab : seat.pointer.grab = pointer_grab.default_grab)
    (hhook : ∀ m, env.run_button_binding m time button
      wl_pointer_button_state.RELEASED pointer_grab.default_grab = pointer_grab.default_grab) :
    (notify_button env seat time button wl_pointer_button_state.RELEASED).pointer.grab
      = pointer_grab.default_grab ∧
    (notify_button env seat time button wl_pointer_button_state.RELEASED).pointer.current
      = seat.pointer.current ∧
    ((notify_button env seat time button wl_pointer_button_state.RELEASED).pointer.button_count
        = 0 →
      (notify_button env seat time button wl_pointer_button_state.RELEASED).pointer.focus
        = seat.pointer.current) := by
  have hcount := notify_button_count env seat time button wl_pointer_button_state.RELEASED
  simp only [] at hcount
  rw [hcount]
  rw [notify_button_eq]
  obtain ⟨_, _, _, _, _, f6, f7, f8, _⟩ := notify_button_finish_pointer
    (pointer_grab_interface_button
      (notify_button_hook env (notify_button_account seat time button
        wl_pointer_button_state.RELEASED) time button wl_pointer_button_state.RELEASED)
      (notify_button_hook env (notify_button_account seat time button
        wl_pointer_button_state.RELEASED) time button
        wl_pointer_button_state.RELEASED).pointer.grab time button
      wl_pointer_button_state.RELEASED)
  rw [f6, f7, f8]
  obtain ⟨m, hH⟩ := notify_button_hook_account_released env seat time button
  rw [hgrab, hhook m] at hH
  generalize notify_button_hook env (notify_button_account seat time button
    wl_pointer_button_state.RELEASED) time button wl_pointer_button_state.RELEASED = H at hH ⊢
  have hHg : H.pointer.grab = pointer_grab.default_grab := by rw [hH]
  have hHc : H.pointer.current = seat.pointer.current := by rw [hH]
  have hHn : H.pointer.button_count = (seat.pointer.button_count + 2 ^ 32 - 1) % 2 ^ 32 := by
    rw [hH]
  rw [hHg]
  simp only [pointer_grab_interface_button]
  obtain ⟨d1, d2, d3⟩ := default_grab_button_released H time button
  refine ⟨d1.trans hHg, d2.trans hHc, fun h0 => ?_⟩
  rw [d3 (hHn.trans h0), hHc]

theorem weston_seat_repick_synced (env : Env) (seat : weston_seat)
    (hgrab : seat.pointer.grab = pointer_grab.default_grab)
    (hinv : seat.pointer.button_count = 0 → seat.pointer.focus = seat.pointer.current) :
    (weston_seat_repick env seat).pointer.grab = pointer_grab.default_grab ∧
    (weston_seat_repick env seat).pointer.button_count = seat.pointer.button_count ∧
    (weston_seat_repick env seat).seat_pointer = seat.seat_pointer ∧
    ((weston_seat_repick env seat).pointer.button_count = 0 →
      (weston_seat_repick env seat).pointer.focus
        = (weston_seat_repick env seat).pointer.current) := by
  by_cases hp : seat.seat_pointer = true
  · by_cases h : 0 < seat.pointer.button_count ∨
        (env.pick_surface seat.pointer.x seat.pointer.y).1 = seat.pointer.current
    · rw [weston_seat_repick_quiet env seat hp hgrab h]
      refine ⟨hgrab, rfl, rfl, fun h0 => ?_⟩
      simp only [] at h0 ⊢
      rcases h with h | h
      · omega
      · rw [h]
        exact hinv h0
    · have hcount : seat.pointer.button_count = 0 := by
        by_contra hc
        exact h (Or.inl (Nat.pos_of_ne_zero hc))
      have hcur : ¬ (env.pick_surface seat.pointer.x seat.pointer.y).1 = seat.pointer.current :=
        fun hc => h (Or.inr hc)
      rcases hpick : env.pick_surface seat.pointer.x seat.pointer.y with ⟨es, cx, cy⟩
      rw [hpick] at hcur
      simp only [] at hcur
      rcases es with _ | A
      · simp only [weston_seat_repick, hp, hpick, weston_pointer_set_current,
          pointer_grab_interface_focus, hgrab, default_grab_focus, hcount,
          weston_pointer_grab_focus, weston_pointer_set_focus_grab,
          weston_pointer_set_focus_default_grab_focus,
          ne_eq, hcur, not_false_eq_true, if_true, if_false, Nat.lt_irrefl,
          not_true_eq_false, Bool.not_eq_true, gt_iff_lt]
        refine ⟨?_, ?_, ?_, fun _ => ?_⟩
        · trivial
        · rw [(weston_pointer_set_focus_frame _ _ _ _).2.2.2.2.2.2.2]
        · rw [(weston_pointer_set_focus_frame _ _ _ _).2.2.2.1]
        · rw [(weston_pointer_set_focus_frame _ _ _ _).2.1,
            (weston_pointer_set_focus_rest _ _ _ _).2.2.2.1]
      · simp only [weston_seat_repick, hp, hpick, weston_pointer_set_current,
          pointer_grab_interface_focus, hgrab, default_grab_focus, hcount,
          weston_pointer_grab_focus, weston_pointer_set_focus_grab,
          weston_pointer_set_focus_default_grab_focus,
          ne_eq, hcur, not_false_eq_true, if_true, if_false, Nat.lt_irrefl,
          not_true_eq_false, Bool.not_eq_true, gt_iff_lt]
        refine ⟨?_, ?_, ?_, fun _ => ?_⟩
        · trivial
        · rw [(weston_pointer_set_focus_frame _ _ _ _).2.2.2.2.2.2.2]
        · rw [(weston_pointer_set_focus_frame _ _ _ _).2.2.2.1]
        · rw [(weston_pointer_set_focus_frame _ _ _ _).2.1,
            (weston_pointer_set_focus_rest _ _ _ _).2.2.2.1]
  · have he : weston_seat_repick env seat = seat := by
      simp [weston_seat_repick, hp]
    rw [he]
    exact ⟨hgrab, rfl, rfl, hinv⟩


theorem move_pointer_to_synced (env : Env) (seat : weston_seat) (x y : Int)
    (hgrab : seat.pointer.grab = pointer_grab.default_grab)
    (hinv : seat.pointer.button_count = 0 → seat.pointer.focus = seat.pointer.current) :
    (move_pointer_to env seat x y).pointer.grab = pointer_grab.default_grab ∧
    (move_pointer_to env seat x y).pointer.button_count = seat.pointer.button_count ∧
    ((move_pointer_to env seat x y).pointer.button_count = 0 →
      (move_pointer_to env seat x y).pointer.focus
        = (move_pointer_to env seat x y).pointer.current) := by
  unfold move_pointer_to
  simp only []
  have hA := weston_seat_update_drag_surface_kept seat (x - seat.pointer.x)
    (y - seat.pointer.y)
  generalize weston_seat_update_drag_surface seat (x - seat.pointer.x)
    (y - seat.pointer.y) = A at hA ⊢
  obtain ⟨a1, _⟩ := hA
  have hC := move_pointer_zoom_kept (wl_fixed_to_int x) (wl_fixed_to_int y)
    { A with pointer := { A.pointer with x := x, y := y } }
  generalize move_pointer_zoom { A with pointer := { A.pointer with x := x, y := y } }
    (wl_fixed_to_int x) (wl_fixed_to_int y) = C at hC ⊢
  obtain ⟨c1, _⟩ := hC
  simp only [] at c1
  have hCg : C.pointer.grab = pointer_grab.default_grab := by
    rw [c1]; simp only []; rw [a1]; exact hgrab
  have hCn : C.pointer.button_count = seat.pointer.button_count := by
    rw [c1]; simp only []; rw [a1]
  have hCi : C.pointer.button_count = 0 → C.pointer.focus = C.pointer.current := by
    rw [c1]; simp only []; rw [a1]; exact hinv
  obtain ⟨r1, r2, _, r4⟩ := weston_seat_repick_synced env C hCg hCi
  have hE := move_pointer_sprite_kept (wl_fixed_to_int x) (wl_fixed_to_int y)
    (weston_seat_repick env C)
  obtain ⟨e1, _⟩ := hE
  rw [e1]
  exact ⟨r1, r2.trans hCn, r4⟩

theorem notify_pointer_step_synced (env : Env) (seat S : weston_seat)
    (e : pointer_input_event)
    (hhook : ∀ m t b s, env.run_button_binding m t b s pointer_grab.default_grab
      = pointer_grab.default_grab)
    (hgrab : seat.pointer.grab = pointer_grab.default_grab)
    (hlt : seat.pointer.button_count < 2 ^ 32)
    (hinv : seat.pointer.button_count = 0 → seat.pointer.focus = seat.pointer.current)
    (hrel : releases_paired env seat [e] = true)
    (hpress : presses_counted env seat [e] = true)
    (hstep : notify_pointer_step env seat e = some S) :
    S.pointer.grab = pointer_grab.default_grab ∧ S.pointer.button_count < 2 ^ 32 ∧
    (S.pointer.button_count = 0 → S.pointer.focus = S.pointer.current) := by
  have hmove : ∀ (time : Nat) (x y : Int), notify_motion_absolute env seat time x y = some S →
      S.pointer.grab = pointer_grab.default_grab ∧ S.pointer.button_count < 2 ^ 32 ∧
      (S.pointer.button_count = 0 → S.pointer.focus = S.pointer.current) := by
    intro time x y h
    unfold notify_motion_absolute move_pointer at h
    split at h
    · cases h
    · rename_i M hM
      split at hM
      · cases hM
      · split at hM
        · cases hM
        · rename_i cx cy hclip
          simp only [Option.some.injEq] at hM h
          subst hM
          subst h
          obtain ⟨m1, m2, m3⟩ := move_pointer_to_synced env seat cx cy hgrab hinv
          obtain ⟨d1, _⟩ := notify_motion_dispatch_default_frame
            (move_pointer_to env seat cx cy) time m1
          rw [d1]
          exact ⟨m1, by rw [m2]; exact hlt, m3⟩
  rcases e with ⟨time, dx, dy⟩ | ⟨time, x, y⟩ | ⟨time, button, state⟩
  · exact hmove time _ _ hstep
  · exact hmove time x y hstep
  · simp only [notify_pointer_step, Option.some.injEq] at hstep
    subst hstep
    have hcount := notify_button_count env seat time button state
    cases state
    · simp only [releases_paired, notify_pointer_step, Bool.and_true, decide_eq_true_eq]
        at hrel
      simp only [] at hcount
      obtain ⟨b1, b2, b3⟩ := notify_button_released_pointer env seat time button hgrab
        (fun m => hhook m _ _ _)
      refine ⟨b1, ?_, fun h0 => ?_⟩
      · rw [hcount]
        exact Nat.mod_lt _ (by norm_num)
      · rw [b3 h0, b2]
    · simp only [presses_counted, notify_pointer_step, Bool.and_true, decide_eq_true_eq]
        at hpress
      simp only [] at hcount
      obtain ⟨_, _, _, _, _, p6, _, _⟩ := notify_button_pressed_pointer env seat time button
      refine ⟨?_, ?_, fun h0 => ?_⟩
      · rw [p6, hgrab]
        exact hhook _ _ _ _
      · rw [hcount]
        exact Nat.mod_lt _ (by norm_num)
      · rw [hcount, Nat.mod_eq_of_lt hpress] at h0
        omega

theorem notify_pointer_run_cons (env : Env) (seat : weston_seat) (e : pointer_input_event)
    (evs : List pointer_input_event) :
    notify_pointer_run env seat (e :: evs) =
      match notify_pointer_step env seat e with
      | none => none
      | some seat => notify_pointer_run env seat evs :=
  rfl

theorem releases_paired_cons (env : Env) (seat : weston_seat) (e : pointer_input_event)
    (evs : List pointer_input_event) (h : releases_paired env seat (e :: evs) = true) :
    releases_paired env seat [e] = true ∧
    ∀ S, notify_pointer_step env seat e = some S → releases_paired env S evs = true := by
  simp only [releases_paired, Bool.and_eq_true] at h ⊢
  refine ⟨⟨h.1, ?_⟩, fun S hS => ?_⟩
  · split <;> rfl
  · have h2 := h.2
    rw [hS] at h2
    exact h2

theorem presses_counted_cons (env : Env) (seat : weston_seat) (e : pointer_input_event)
    (evs : List pointer_input_event) (h : presses_counted env seat (e :: evs) = true) :
    presses_counted env seat [e] = true ∧
    ∀ S, notify_pointer_step env seat e = some S → presses_counted env S evs = true := by
  simp only [presses_counted, Bool.and_eq_true] at h ⊢
  refine ⟨⟨h.1, ?_⟩, fun S hS => ?_⟩
  · split <;> rfl
  · have h2 := h.2
    rw [hS] at h2
    exact h2

theorem notify_pointer_run_synced (env : Env)
    (hhook : ∀ m t b s, env.run_button_binding m t b s pointer_grab.default_grab
      = pointer_grab.default_grab) (evs : List pointer_input_event) :
    ∀ (seat S : weston_seat), seat.pointer.grab = pointer_grab.default_grab →
      seat.pointer.button_count < 2 ^ 32 →
      (seat.pointer.button_count = 0 → seat.pointer.focus = seat.pointer.current) →
      releases_paired env seat evs = true → presses_counted env seat evs = true →
      notify_pointer_run env seat evs = some S →
      S.pointer.grab = pointer_grab.default_grab ∧ S.pointer.button_count < 2 ^ 32 ∧
      (S.pointer.button_count = 0 → S.pointer.focus = S.pointer.current) := by
  induction evs with
  | nil =>
    intro seat S hgrab hlt hinv _ _ hrun
    simp only [notify_pointer_run, Option.some.injEq] at hrun
    subst hrun
    exact ⟨hgrab, hlt, hinv⟩
  | cons e evs ih =>
    intro seat S hgrab hlt hinv hrel hpress hrun
    rw [notify_pointer_run_cons] at hrun
    obtain ⟨r1, r2⟩ := releases_paired_cons env seat e evs hrel
    obtain ⟨p1, p2⟩ := presses_counted_cons env seat e evs hpress
    rcases hstep : notify_pointer_step env seat e with _ | M
    · rw [hstep] at hrun
      cases hrun
    · rw [hstep] at hrun
      obtain ⟨m1, m2, m3⟩ := notify_pointer_step_synced env seat M e hhook hgrab hlt hinv r1 p1
        hstep
      exact ih M S m1 m2 m3 (r2 M hstep) (p2 M hstep) hrun

theorem releases_paired_of_no_release (env : Env) (evs : List pointer_input_event) :
    ∀ seat : weston_seat,
      (∀ e ∈ evs, ∀ t b, e ≠ pointer_input_event.button t b wl_pointer_button_state.RELEASED) →
      releases_paired env seat evs = true := by
  induction evs with
  | nil => intro seat _; rfl
  | cons e evs ih =>
    intro seat h
    simp only [releases_paired, Bool.and_eq_true]
    refine ⟨?_, ?_⟩
    · split
      · rename_i t b
        exact absurd rfl (h _ (List.mem_cons_self _ _) t b)
      · rfl
    · split
      · rfl
      · exact ih _ (fun e' he' => h e' (List.mem_cons_of_mem _ he'))

theorem notify_pointer_run_presses (env : Env)
    (hhook : ∀ m t b s, env.run_button_binding m t b s pointer_grab.default_grab
      = pointer_grab.default_grab) (time button : Nat) (n : Nat) :
    ∀ seat : weston_seat, seat.pointer.grab = pointer_grab.default_grab →
      seat.pointer.button_count < 2 ^ 32 →
      ∃ S, notify_pointer_run env seat (List.replicate n
          (pointer_input_event.button time button wl_pointer_button_state.PRESSED)) = some S ∧
        S.pointer.grab = pointer_grab.default_grab ∧
        S.pointer.button_count = (seat.pointer.button_count + n) % 2 ^ 32 ∧
        S.pointer.focus = seat.pointer.focus ∧ S.pointer.current = seat.pointer.current := by
  induction n with
  | zero =>
    intro seat hgrab hlt
    exact ⟨seat, rfl, hgrab, (Nat.mod_eq_of_lt hlt).symm, rfl, rfl⟩
  | succ n ih =>
    intro seat hgrab hlt
    rw [List.replicate_succ, notify_pointer_run_cons]
    simp only [notify_pointer_step]
    obtain ⟨p1, _, _, _, _, p6, p7, p8⟩ := notify_button_pressed_pointer env seat time button
    obtain ⟨S, h1, h2, h3, h4, h5⟩ := ih (notify_button env seat time button
      wl_pointer_button_state.PRESSED) (by rw [p6, hgrab]; exact hhook _ _ _ _)
      (by rw [p1]; exact Nat.mod_lt _ (by norm_num))
    refine ⟨S, h1, h2, ?_, h4.trans p7, h5.trans p8⟩
    rw [h3, p1]
    omega

theorem notify_pointer_run_append (env : Env) (a b : List pointer_input_event) :
    ∀ seat : weston_seat,
      notify_pointer_run env seat (a ++ b) =
        (notify_pointer_run env seat a).bind (fun s => notify_pointer_run env s b) := by
  induction a with
  | nil => intro seat; rfl
  | cons e a ih =>
    intro seat
    rw [List.cons_append, notify_pointer_run_cons, notify_pointer_run_cons]
    rcases notify_pointer_step env seat e with _ | M
    · rfl
    · exact ih M

/-! ## C29: the pointer focus follows the hit-test target while no button is held -/

/-- C29, counterexample.  From the initial pointer state under the default grab,
with no release in the run at all: the left button goes down, the pointer moves
onto `surface_a` with the button held (the focus stays null, `pointer->current`
becomes `surface_a`), and `2^32 - 1` further presses wrap the 32-bit
`button_count` to 0.  Then `button_count` is 0 while the focus is null and
`pointer->current` is `surface_a`. -/
theorem focus_differs_from_current_at_wrapped_count :
    seat_one_output.pointer.grab = pointer_grab.default_grab ∧
    seat_one_output.pointer.button_count = 0 ∧
    seat_one_output.pointer.focus = seat_one_output.pointer.current ∧
    releases_paired env_hit_a seat_one_output wrap_events = true ∧
    ∃ S, notify_pointer_run env_hit_a seat_one_output wrap_events = some S ∧
      S.pointer.grab = pointer_grab.default_grab ∧ S.pointer.button_count = 0 ∧
      S.pointer.focus = none ∧ S.pointer.current = some surface_a := by
  refine ⟨rfl, rfl, rfl, ?_, ?_⟩
  · refine releases_paired_of_no_release env_hit_a wrap_events seat_one_output ?_
    intro e he t b
    unfold wrap_events at he
    rcases List.mem_cons.mp he with rfl | he
    · intro h
      cases h
    · rcases List.mem_cons.mp he with rfl | he
      · intro h
        cases h
      · rw [List.eq_of_mem_replicate he]
        intro h
        cases h
  · have h2 : (notify_pointer_run env_hit_a seat_one_output
        [pointer_input_event.button 1 272 wl_pointer_button_state.PRESSED,
         pointer_input_event.motion_absolute 2 (5 * 256) (5 * 256)]).map
        (fun S => (S.pointer.grab, S.pointer.button_count, S.pointer.focus,
          S.pointer.current)) =
        some (pointer_grab.default_grab, 1, none, some surface_a) := by decide
    have hw : wrap_events =
        [pointer_input_event.button 1 272 wl_pointer_button_state.PRESSED,
         pointer_input_event.motion_absolute 2 (5 * 256) (5 * 256)] ++
        List.replicate 4294967295
          (pointer_input_event.button 3 272 wl_pointer_button_state.PRESSED) := by
      unfold wrap_events
      simp only [List.cons_append, List.nil_append]
    rw [hw, notify_pointer_run_append]
    rcases hrun2 : notify_pointer_run env_hit_a seat_one_output
        [pointer_input_event.button 1 272 wl_pointer_button_state.PRESSED,
         pointer_input_event.motion_absolute 2 (5 * 256) (5 * 256)] with _ | S2
    · rw [hrun2] at h2
      simp only [Option.map_none', reduceCtorEq] at h2
    · rw [hrun2] at h2
      simp only [Option.map_some', Option.some.injEq, Prod.mk.injEq] at h2
      obtain ⟨g, c, f, cur⟩ := h2
      rw [Option.some_bind]
      obtain ⟨S, r1, r2, r3, r4, r5⟩ := notify_pointer_run_presses env_hit_a
        (fun _ _ _ _ => rfl) 3 272 4294967295 S2 g (by rw [c]; norm_num)
      refine ⟨S, r1, r2, ?_, r4.trans f, r5.trans cur⟩
      rw [r3, c]
      norm_num

/-- C29 (as amended).  For every sequence of `notify_motion`,
`notify_motion_absolute` and `notify_button` events under the default pointer
grab (the button-binding hook leaves the default grab in place), from a pointer
with no button held whose focus is `pointer->current`, with no release arriving
at `button_count` 0 and no press arriving at `button_count` `2^32 - 1`: after
the events (and so after each event, every prefix being such a sequence) the
default grab is active and, if `button_count` is 0, the pointer focus is
`pointer->current`.  A release arriving at `button_count` 1 brings the count to
0 and sets the focus to `pointer->current`. -/
theorem focus_follows_current_when_no_button (env : Env) (seat S : weston_seat)
    (evs : List pointer_input_event)
    (hhook : ∀ m t b s, env.run_button_binding m t b s pointer_grab.default_grab
      = pointer_grab.default_grab)
    (hgrab : seat.pointer.grab = pointer_grab.default_grab)
    (hcount : seat.pointer.button_count = 0)
    (hfocus : seat.pointer.focus = seat.pointer.current)
    (hrel : releases_paired env seat evs = true)
    (hpress : presses_counted env seat evs = true)
    (hrun : notify_pointer_run env seat evs = some S) :
    S.pointer.grab = pointer_grab.default_grab ∧
    (S.pointer.button_count = 0 → S.pointer.focus = S.pointer.current) ∧
    ∀ time button, S.pointer.button_count = 1 →
      (notify_button env S time button wl_pointer_button_state.RELEASED).pointer.button_count
        = 0 ∧
      (notify_button env S time button wl_pointer_button_state.RELEASED).pointer.focus
        = (notify_button env S time button
            wl_pointer_button_state.RELEASED).pointer.current := by
  obtain ⟨s1, _, s3⟩ := notify_pointer_run_synced env hhook evs seat S hgrab
    (by rw [hcount]; norm_num) (fun _ => hfocus) hrel hpress hrun
  refine ⟨s1, s3, fun time button h1 => ?_⟩
  have hc := notify_button_count env S time button wl_pointer_button_state.RELEASED
  simp only [] at hc
  rw [h1] at hc
  have hc0 : (notify_button env S time button
      wl_pointer_button_state.RELEASED).pointer.button_count = 0 := by
    rw [hc]
    norm_num
  obtain ⟨_, b2, b3⟩ := notify_button_released_pointer env S time button s1
    (fun m => hhook m _ _ _)
  exact ⟨hc0, by rw [b3 hc0, b2]⟩

/-- C29 (as amended) at a concrete run: the pointer moves onto `surface_a`, the
left button goes down, the pointer moves with the button held, the button goes
up, the pointer moves again.  The run returns with no button held and the focus
on `surface_a`, the hit-test target. -/
theorem focus_follows_current_when_no_button_witness :
    ∃ S, notify_pointer_run env_hit_a seat_one_output drag_events = some S ∧
      S.pointer.button_count = 0 ∧ S.pointer.current = some surface_a ∧
      S.pointer.grab = pointer_grab.default_grab ∧ S.pointer.focus = S.pointer.current := by
  have hm : (notify_pointer_run env_hit_a seat_one_output drag_events).map
      (fun S => (S.pointer.button_count, S.pointer.current)) = some (0, some surface_a) := by
    decide
  rcases hrun : notify_pointer_run env_hit_a seat_one_output drag_events with _ | S
  · rw [hrun] at hm
    cases hm
  · rw [hrun] at hm
    simp only [Option.map_some', Option.some.injEq, Prod.mk.injEq] at hm
    obtain ⟨k1, k2⟩ := focus_follows_current_when_no_button env_hit_a seat_one_output S
      drag_events (fun _ _ _ _ => rfl) rfl rfl rfl (by decide) (by decide) hrun
    exact ⟨S, rfl, hm.1, hm.2, k1, k2.1 hm.1⟩

/-! ## Lemmas on releasing a key of an array with repeated entries -/

theorem getD_ne_of_single (a b : List Nat) (key : Nat) (ha : key ∉ a) (hb : key ∉ b) (j : Nat)
    (hj : j < (a ++ key :: b).length) (hne : j ≠ a.length) :
    (a ++ key :: b).getD j 0 ≠ key := by
  rw [List.getD_eq_getElem _ 0 hj]
  by_cases hlt : j < a.length
  · rw [List.getElem_append_left hlt]
    exact fun h => ha (h ▸ List.getElem_mem hlt)
  · have hge : a.length ≤ j := Nat.le_of_not_lt hlt
    rw [List.getElem_append_right hge]
    obtain ⟨k, hk⟩ : ∃ k, j - a.length = k + 1 := ⟨j - a.length - 1, by omega⟩
    simp only [hk, List.getElem_cons_succ]
    exact fun h => hb (h ▸ List.getElem_mem _)

theorem notify_key_released_listed_once (env : Env) (seat : weston_seat) (time key : Nat)
    (update_state : weston_key_state_update) (a b : List Nat)
    (hkeys : seat.keyboard.keys = a ++ key :: b) (ha : key ∉ a) (hb : key ∉ b) :
    (notify_key env seat time key wl_keyboard_key_state.RELEASED update_state).keyboard.keys =
      ((a ++ key :: b).set a.length ((a ++ key :: b).getD ((a ++ key :: b).length - 1) 0)).take
        ((a ++ key :: b).length - 1) := by
  have hi : a.length < (a ++ key :: b).length := by simp
  have hscan := notify_key_scan_released_at key (a ++ key :: b).length (a ++ key :: b) 0
    (a ++ key :: b).length a.length (Nat.zero_le _) hi (by omega)
    (by rw [List.getD_eq_getElem _ 0 hi, List.getElem_append_right (Nat.le_refl _)]; simp)
    (fun j _ hj hne => getD_ne_of_single a b key ha hb j hj hne)
  rw [← hkeys] at hscan
  rw [notify_key_keys_some env seat time key wl_keyboard_key_state.RELEASED update_state _ _
    hscan, if_neg (by decide), hkeys]

theorem release_of_key_listed_once (env : Env) (seat : weston_seat) (time key : Nat)
    (update_state : weston_key_state_update) (h : seat.keyboard.keys.count key ≤ 1) :
    key ∉ (notify_key env seat time key wl_keyboard_key_state.RELEASED
      update_state).keyboard.keys := by
  by_cases hmem : key ∈ seat.keyboard.keys
  · obtain ⟨a, b, hkeys⟩ := List.append_of_mem hmem
    have hc : a.count key + (b.count key + 1) ≤ 1 := by
      have := h
      rw [hkeys, List.count_append, List.count_cons_self] at this
      exact this
    have ha : key ∉ a := List.count_eq_zero.mp (by omega)
    have hb : key ∉ b := List.count_eq_zero.mp (by omega)
    rw [notify_key_released_listed_once env seat time key update_state a b hkeys ha hb]
    rcases List.eq_nil_or_concat b with rfl | ⟨c, last, rfl⟩
    · rw [swap_remove_last]
      exact ha
    · rw [List.concat_eq_append] at hb ⊢
      rw [swap_remove_mid]
      intro hin
      rcases List.mem_append.mp hin with h1 | h1
      · exact ha h1
      · rcases List.mem_cons.mp h1 with h2 | h2
        · exact hb (List.mem_append_right _ (h2 ▸ List.mem_singleton_self _))
        · exact hb (List.mem_append_left _ h2)
  · have hscan := notify_key_scan_not_found key wl_keyboard_key_state.RELEASED
      seat.keyboard.keys.length seat.keyboard.keys 0 seat.keyboard.keys.length
      (fun i _ hi => getD_ne_of_not_mem hmem i hi)
    rw [notify_key_keys_some env seat time key wl_keyboard_key_state.RELEASED update_state _ _
      hscan, if_neg (by decide), List.take_length]
    exact hmem

theorem focus_in_press_fold_keys (env : Env) (serial : Nat)
    (update_state : weston_key_state_update) (keys : List Nat) :
    ∀ seat : weston_seat,
      (keys.foldl (notify_keyboard_focus_in_press env serial update_state)
        seat).keyboard.keys = seat.keyboard.keys := by
  induction keys with
  | nil => intro seat; rfl
  | cons k keys ih =>
    intro seat
    simp only [List.foldl_cons]
    rw [ih]
    unfold notify_keyboard_focus_in_press
    cases update_state
    · exact (update_modifier_state_keyboard env _ serial k wl_keyboard_key_state.PRESSED).1
    · rfl

theorem focus_in_hook_fold_keys (env : Env) (keys : List Nat) :
    ∀ seat : weston_seat,
      (keys.foldl (notify_keyboard_focus_in_hook env) seat).keyboard.keys
        = seat.keyboard.keys := by
  induction keys with
  | nil => intro seat; rfl
  | cons k keys ih =>
    intro seat
    simp only [List.foldl_cons]
    rw [ih]
    rfl

theorem notify_keyboard_focus_in_keys (env : Env) (seat : weston_seat) (keys : List Nat)
    (update_state : weston_key_state_update) :
    (notify_keyboard_focus_in env seat keys update_state).keyboard.keys = keys := by
  unfold notify_keyboard_focus_in
  simp only [wl_display_next_serial]
  split
  · show (weston_keyboard_set_focus _ _).keyboard.keys = keys
    rw [(weston_keyboard_set_focus_rest _ _).2.2.2.1, focus_in_hook_fold_keys,
      focus_in_press_fold_keys]
  · rw [focus_in_hook_fold_keys, focus_in_press_fold_keys]

/-! ## C31: releasing a key that the array lists more than once -/

/-- C31, counterexample.  `notify_keyboard_focus_in` installs the caller's
snapshot `[30, 31, 30]`, which lists key 30 twice, as the pressed-key array.
`notify_key (30, RELEASED)` then overwrites the first entry with the last one,
which is key 30 again, and does not look at that slot again: the array is
`[30, 31]` and still contains key 30. -/
theorem release_leaves_key_listed_twice :
    (notify_keyboard_focus_in env0 seat0 [30, 31, 30]
      weston_key_state_update.STATE_UPDATE_NONE).keyboard.keys = [30, 31, 30] ∧
    (notify_key env0
      (notify_keyboard_focus_in env0 seat0 [30, 31, 30]
        weston_key_state_update.STATE_UPDATE_NONE)
      5 30 wl_keyboard_key_state.RELEASED
      weston_key_state_update.STATE_UPDATE_NONE).keyboard.keys = [30, 31] ∧
    30 ∈ (notify_key env0
      (notify_keyboard_focus_in env0 seat0 [30, 31, 30]
        weston_key_state_update.STATE_UPDATE_NONE)
      5 30 wl_keyboard_key_state.RELEASED
      weston_key_state_update.STATE_UPDATE_NONE).keyboard.keys := by
  decide

/-- C31 (as amended).  For every pressed-key array that lists the key `k` at
most once, whatever other keys it lists and however often, after
`notify_key (k, RELEASED)` the array does not contain `k`.  The array that
`notify_keyboard_focus_in` installs is the caller's snapshot as it is, so this
covers every snapshot that lists `k` at most once. -/
theorem release_removes_key_listed_once (env : Env) (seat : weston_seat) (time key : Nat)
    (update_state : weston_key_state_update) (h : seat.keyboard.keys.count key ≤ 1) :
    key ∉ (notify_key env seat time key wl_keyboard_key_state.RELEASED
      update_state).keyboard.keys ∧
    ∀ (before : weston_seat) (snapshot : List Nat) (in_state : weston_key_state_update),
      seat = notify_keyboard_focus_in env before snapshot in_state →
      seat.keyboard.keys = snapshot :=
  ⟨release_of_key_listed_once env seat time key update_state h,
    fun before snapshot in_state hs =>
      hs ▸ notify_keyboard_focus_in_keys env before snapshot in_state⟩

/-- C31 (as amended) at a concrete keyboard: the snapshot `[31, 30, 31]` lists
key 31 twice and key 30 once; the release of key 30 leaves `[31, 31]`. -/
theorem release_removes_key_listed_once_witness :
    (notify_keyboard_focus_in env0 seat0 [31, 30, 31]
      weston_key_state_update.STATE_UPDATE_NONE).keyboard.keys = [31, 30, 31] ∧
    (notify_key env0
      (notify_keyboard_focus_in env0 seat0 [31, 30, 31]
        weston_key_state_update.STATE_UPDATE_NONE)
      5 30 wl_keyboard_key_state.RELEASED
      weston_key_state_update.STATE_UPDATE_NONE).keyboard.keys = [31, 31] ∧
    30 ∉ (notify_key env0
      (notify_keyboard_focus_in env0 seat0 [31, 30, 31]
        weston_key_state_update.STATE_UPDATE_NONE)
      5 30 wl_keyboard_key_state.RELEASED
      weston_key_state_update.STATE_UPDATE_NONE).keyboard.keys :=
  ⟨by decide, by decide,
    (release_removes_key_listed_once env0
      (notify_keyboard_focus_in env0 seat0 [31, 30, 31]
        weston_key_state_update.STATE_UPDATE_NONE)
      5 30 weston_key_state_update.STATE_UPDATE_NONE (by decide)).1⟩

/-! ## Lemmas on the pressed-key array across a focus-out -/

theorem notify_keyboard_focus_out_frame (env : Env) (seat : weston_seat) :
    (notify_keyboard_focus_out env seat).keyboard.keys = seat.keyboard.keys ∧
    (notify_keyboard_focus_out env seat).keyboard.grab = keyboard_grab.default_grab ∧
    (notify_keyboard_focus_out env seat).keyboard.focus = none ∧
    xkb_updates (notify_keyboard_focus_out env seat).log
      = xkb_updates seat.log ++
          seat.keyboard.keys.map (fun k => ((k + 8) % 2 ^ 32, xkb_key_direction.XKB_KEY_UP)) := by
  obtain ⟨_, k2, _, k4⟩ := release_keys_fold env ((seat.display_serial + 1) % 2 ^ 32)
    seat.keyboard.keys { seat with display_serial := (seat.display_serial + 1) % 2 ^ 32 }
  simp only [] at k2 k4
  unfold notify_keyboard_focus_out
  simp only [wl_display_next_serial]
  split
  · refine ⟨?_, (focus_out_tail _).2.2.2.2.1, (focus_out_tail _).2.1, ?_⟩
    · rw [(focus_out_tail _).2.2.2.2.2.2.2]
      exact k2
    · rw [(focus_out_tail _).2.2.2.2.2.2.1]
      exact k4
  · refine ⟨?_, (focus_out_tail _).2.2.2.2.1, (focus_out_tail _).2.1, ?_⟩
    · rw [(focus_out_tail _).2.2.2.2.2.2.2]
      exact k2
    · rw [(focus_out_tail _).2.2.2.2.2.2.1]
      exact k4

theorem notify_key_pressed_repeat_unfocused (env : Env) (seat : weston_seat) (time key : Nat)
    (update_state : weston_key_state_update) (h : key ∈ seat.keyboard.keys)
    (hfocus : seat.keyboard.focus = none) :
    (notify_key env seat time key wl_keyboard_key_state.PRESSED update_state).keyboard.keys
      = seat.keyboard.keys ∧
    (notify_key env seat time key wl_keyboard_key_state.PRESSED update_state).log
      = seat.log := by
  have hscan := notify_key_scan_pressed_mem h
  rcases hp : seat.has_ping_handler <;>
  simp only [notify_key, wl_display_next_serial, weston_compositor_idle_inhibit, hp, hfocus,
    hscan, send] <;>
  exact ⟨trivial, trivial⟩

/-! ## C32: the pressed-key array across a focus-out -/

/-- C32.  `notify_keyboard_focus_out` leaves the pressed-key array as it was,
although it has reported every key of the array to the keymap state machine as
released (with the key's code plus 8 in `uint32_t`), and leaves the default grab active with no focus.  So a press of one
of these keys that arrives next is taken for a repeat: `notify_key` returns
from the scan of the array, which stays as it is, and nothing is emitted (no
key-binding hook, no grab callback, no message). -/
theorem focus_out_keeps_pressed_keys (env : Env) (seat : weston_seat) :
    (notify_keyboard_focus_out env seat).keyboard.keys = seat.keyboard.keys ∧
    xkb_updates (notify_keyboard_focus_out env seat).log
      = xkb_updates seat.log ++
          seat.keyboard.keys.map (fun k => ((k + 8) % 2 ^ 32, xkb_key_direction.XKB_KEY_UP)) ∧
    (notify_keyboard_focus_out env seat).keyboard.grab = keyboard_grab.default_grab ∧
    ∀ k ∈ seat.keyboard.keys, ∀ (time : Nat) (update_state : weston_key_state_update),
      (notify_key env (notify_keyboard_focus_out env seat) time k
        wl_keyboard_key_state.PRESSED update_state).keyboard.keys = seat.keyboard.keys ∧
      (notify_key env (notify_keyboard_focus_out env seat) time k
        wl_keyboard_key_state.PRESSED update_state).log
        = (notify_keyboard_focus_out env seat).log := by
  obtain ⟨f1, f2, f3, f4⟩ := notify_keyboard_focus_out_frame env seat
  refine ⟨f1, f4, f2, fun k hk time update_state => ?_⟩
  obtain ⟨r1, r2⟩ := notify_key_pressed_repeat_unfocused env
    (notify_keyboard_focus_out env seat) time k update_state (f1 ▸ hk) f3
  exact ⟨r1.trans f1, r2⟩

/-! ## Lemmas on the serial check of `pointer_set_cursor` -/

theorem pointer_set_cursor_eq (env : Env) (seat : weston_seat) (client : wl_client)
    (serial : Nat) (surface : Option wl_surface) (x y : Int) :
    pointer_set_cursor env seat client serial surface x y =
      match seat.pointer.focus with
      | none => some seat
      | some focus =>
        if focus.client ≠ client then some seat
        else if pointer_set_cursor_stale seat.pointer.focus_serial serial then some seat
        else pointer_set_cursor_apply env seat surface x y := by
  unfold pointer_set_cursor pointer_set_cursor_apply
  rfl

theorem pointer_set_cursor_stale_iff (focus_serial serial : Nat) :
    pointer_set_cursor_stale focus_serial serial = false ↔
      (focus_serial % 2 ^ 32 + 2 ^ 32 - serial % 2 ^ 32) % 2 ^ 32 ≤ 2 ^ 31 - 1 := by
  unfold pointer_set_cursor_stale
  rw [decide_eq_false_iff_not]
  norm_num

/-! ## C33: the serial check of `pointer_set_cursor` -/

/-- C33.  For a `pointer_set_cursor` request from the client of the pointer's
focus surface, the serial check `focus_serial - serial > UINT32_MAX / 2` lets
the request through if and only if `(focus_serial - serial) mod 2^32` is at
most `2^31 - 1`: then the request is processed (the part of the function after
the checks runs), and otherwise the seat is left as it was.  In particular a
serial equal to `focus_serial` passes, every serial that is `d ≤ 2^31 - 1`
older than `focus_serial` passes, and every serial that is `d` newer, for
`1 ≤ d ≤ 2^31`, is ignored. -/
theorem set_cursor_serial_check (env : Env) (seat : weston_seat) (client : wl_client)
    (serial : Nat) (surface : Option wl_surface) (x y : Int) (focus : wl_surface)
    (hfocus : seat.pointer.focus = some focus) (hclient : focus.client = client) :
    (pointer_set_cursor_stale seat.pointer.focus_serial serial = false ↔
      (seat.pointer.focus_serial % 2 ^ 32 + 2 ^ 32 - serial % 2 ^ 32) % 2 ^ 32
        ≤ 2 ^ 31 - 1) ∧
    pointer_set_cursor env seat client serial surface x y =
      (if (seat.pointer.focus_serial % 2 ^ 32 + 2 ^ 32 - serial % 2 ^ 32) % 2 ^ 32
          ≤ 2 ^ 31 - 1 then
        pointer_set_cursor_apply env seat surface x y
      else some seat) ∧
    (serial % 2 ^ 32 = seat.pointer.focus_serial % 2 ^ 32 →
      pointer_set_cursor_stale seat.pointer.focus_serial serial = false) ∧
    (∀ d, d ≤ 2 ^ 31 - 1 →
      serial % 2 ^ 32 = (seat.pointer.focus_serial % 2 ^ 32 + 2 ^ 32 - d) % 2 ^ 32 →
      pointer_set_cursor_stale seat.pointer.focus_serial serial = false) ∧
    (∀ d, 1 ≤ d → d ≤ 2 ^ 31 →
      serial % 2 ^ 32 = (seat.pointer.focus_serial % 2 ^ 32 + d) % 2 ^ 32 →
      pointer_set_cursor_stale seat.pointer.focus_serial serial = true) := by
  have hiff := pointer_set_cursor_stale_iff seat.pointer.focus_serial serial
  refine ⟨hiff, ?_, fun h => ?_, fun d hd h => ?_, fun d h1 hd h => ?_⟩
  · rw [pointer_set_cursor_eq, hfocus]
    simp only [hclient, ne_eq, not_true_eq_false, if_false]
    by_cases hs : (seat.pointer.focus_serial % 2 ^ 32 + 2 ^ 32 - serial % 2 ^ 32) % 2 ^ 32
        ≤ 2 ^ 31 - 1
    · rw [if_pos hs, hiff.mpr hs]
      rfl
    · rw [if_neg hs]
      have : pointer_set_cursor_stale seat.pointer.focus_serial serial = true := by
        rcases hb : pointer_set_cursor_stale seat.pointer.focus_serial serial
        · exact absurd (hiff.mp hb) hs
        · rfl
      rw [this]
      rfl
  · rw [hiff, h]
    have := Nat.mod_lt seat.pointer.focus_serial (show 0 < 2 ^ 32 by norm_num)
    omega
  · rw [hiff, h]
    have := Nat.mod_lt seat.pointer.focus_serial (show 0 < 2 ^ 32 by norm_num)
    omega
  · rcases hb : pointer_set_cursor_stale seat.pointer.focus_serial serial
    · have := hiff.mp hb
      rw [h] at this
      have := Nat.mod_lt seat.pointer.focus_serial (show 0 < 2 ^ 32 by norm_num)
      omega
    · rfl

/-- C33 at a concrete seat: the pointer is focused on a surface of client 7
with `focus_serial = 5`.  The request of client 7 with serial 5 is processed,
as is the one with serial 4; the one with serial 6 leaves the seat as it
was. -/
theorem set_cursor_serial_check_witness :
    seat_cursor.pointer.focus = some surface_a ∧ surface_a.client = 7 ∧
    pointer_set_cursor env0 seat_cursor 7 5 (some surface_c) 1 2 =
      pointer_set_cursor_apply env0 seat_cursor (some surface_c) 1 2 ∧
    pointer_set_cursor env0 seat_cursor 7 4 (some surface_c) 1 2 =
      pointer_set_cursor_apply env0 seat_cursor (some surface_c) 1 2 ∧
    pointer_set_cursor env0 seat_cursor 7 6 (some surface_c) 1 2 = some seat_cursor ∧
    pointer_set_cursor_apply env0 seat_cursor (some surface_c) 1 2 ≠ some seat_cursor :=
  ⟨rfl, rfl,
    (set_cursor_serial_check env0 seat_cursor 7 5 (some surface_c) 1 2 surface_a rfl
      rfl).2.1.trans
      (if_pos (by decide)),
    (set_cursor_serial_check env0 seat_cursor 7 4 (some surface_c) 1 2 surface_a rfl
      rfl).2.1.trans
      (if_pos (by decide)),
    (set_cursor_serial_check env0 seat_cursor 7 6 (some surface_c) 1 2 surface_a rfl
      rfl).2.1.trans
      (if_neg (by decide)),
    by decide⟩

/-! ## Lemmas on `clip_pointer_motion` -/

theorem clip_pointer_motion_scan_eq (x y old_x old_y : Int) (outputs : List weston_output) :
    ∀ (valid : Bool) (prev : Option weston_output),
      clip_pointer_motion_scan x y old_x old_y outputs (valid, prev) =
        (valid || outputs.any (fun o => pixman_region32_contains_point o.region x y),
          match last_output_containing outputs old_x old_y with
          | some p => some p
          | none => prev) := by
  induction outputs with
  | nil => intro valid prev; simp [clip_pointer_motion_scan, last_output_containing]
  | cons o outputs ih =>
    intro valid prev
    simp only [clip_pointer_motion_scan, last_output_containing, List.any_cons]
    rw [ih]
    rcases hl : last_output_containing outputs old_x old_y with _ | p <;>
    rcases hv : pixman_region32_contains_point o.region x y <;>
    rcases ho : pixman_region32_contains_point o.region old_x old_y <;>
    rcases valid <;> simp

theorem last_output_containing_mem (outputs : List weston_output) (x y : Int)
    (p : weston_output) (h : last_output_containing outputs x y = some p) :
    p ∈ outputs ∧ pixman_region32_contains_point p.region x y = true := by
  induction outputs with
  | nil => simp [last_output_containing] at h
  | cons o outputs ih =>
    simp only [last_output_containing] at h
    rcases hl : last_output_containing outputs x y with _ | q
    · rw [hl] at h
      simp only [] at h
      split at h
      · rename_i hc
        simp only [Option.some.injEq] at h
        subst h
        exact ⟨List.mem_cons_self _ _, hc⟩
      · cases h
    · rw [hl] at h
      simp only [Option.some.injEq] at h
      subst h
      exact ⟨List.mem_cons_of_mem _ (ih hl).1, (ih hl).2⟩

theorem output_rectangular_contains (o : weston_output) (x y : Int)
    (hr : output_rectangular o) :
    pixman_region32_contains_point o.region x y = true ↔ output_contains o x y := by
  unfold output_rectangular at hr
  rw [hr]
  simp [pixman_region32_contains_point, output_contains]

theorem wl_fixed_to_int_from_int (i : Int) : wl_fixed_to_int (wl_fixed_from_int i) = i := by
  unfold wl_fixed_to_int wl_fixed_from_int
  exact Int.mul_tdiv_cancel i (by decide)

/-! ## C34: `clip_pointer_motion` -/

/-- C34, failing input.  One rectangular output of 1024 by 768 at the origin
whose mode height `current->height` is 1024, the pointer at `(100, 100)`, the
target `(100, 800)`.  The target is in no output and the previous position is
in the output, but `clip_pointer_motion` returns the target unchanged: its
test for the lower edge compares `y` with `prev->y + prev->current->height`,
which is 1024, so the point stays at `y = 800`, outside the rectangle
`(0, 0, 1024, 768)`. -/
theorem clip_pointer_motion_leaves_point_below_output :
    output_rectangular output_rotated ∧
    seat_rotated_output.outputs = [output_rotated] ∧
    wl_fixed_to_int seat_rotated_output.pointer.x = 100 ∧
    wl_fixed_to_int seat_rotated_output.pointer.y = 100 ∧
    pixman_region32_contains_point output_rotated.region 100 800 = false ∧
    last_output_containing seat_rotated_output.outputs 100 100 = some output_rotated ∧
    clip_pointer_motion seat_rotated_output (wl_fixed_from_int 100) (wl_fixed_from_int 800)
      = some (wl_fixed_from_int 100, wl_fixed_from_int 800) ∧
    ¬ output_contains output_rotated (wl_fixed_to_int (wl_fixed_from_int 100))
      (wl_fixed_to_int (wl_fixed_from_int 800)) := by
  decide

/-- C34, what the code does.  If the target's integer position lies in the
region of some output, `clip_pointer_motion` returns the point unchanged.
Otherwise, if `prev`, the last listed output whose region contains the
pointer's previous integer position, is rectangular, the function returns a
point whose integer `x` lies in `[prev.x, prev.x + prev.width)` and whose
integer `y` is at least `prev.y`; the integer `y` is below
`prev.y + prev.height` if the mode height `current->height` is at most
`prev.height`, and in any case either it is below `prev.y + prev.height` or the
`y` coordinate was left as it was, between `prev.y + prev.height` and
`prev.y + current->height`. -/
theorem clip_pointer_motion_clamps (seat : weston_seat) (fx fy : Int) :
    ((∃ o ∈ seat.outputs,
        pixman_region32_contains_point o.region (wl_fixed_to_int fx) (wl_fixed_to_int fy)
          = true) →
      clip_pointer_motion seat fx fy = some (fx, fy)) ∧
    ∀ prev : weston_output,
      (∀ o ∈ seat.outputs,
        pixman_region32_contains_point o.region (wl_fixed_to_int fx) (wl_fixed_to_int fy)
          = false) →
      last_output_containing seat.outputs (wl_fixed_to_int seat.pointer.x)
        (wl_fixed_to_int seat.pointer.y) = some prev →
      output_rectangular prev →
      ∃ cx cy, clip_pointer_motion seat fx fy = some (cx, cy) ∧
        prev.x ≤ wl_fixed_to_int cx ∧ wl_fixed_to_int cx < prev.x + prev.width ∧
        prev.y ≤ wl_fixed_to_int cy ∧
        (prev.current_height ≤ prev.height → output_contains prev (wl_fixed_to_int cx)
          (wl_fixed_to_int cy)) ∧
        (¬ wl_fixed_to_int cy < prev.y + prev.height →
          cy = fy ∧ prev.y + prev.height ≤ wl_fixed_to_int fy ∧
          wl_fixed_to_int fy < prev.y + prev.current_height) := by
  refine ⟨clip_pointer_motion_inside seat fx fy, fun prev hout hprev hrect => ?_⟩
  obtain ⟨hmem, hold⟩ := last_output_containing_mem _ _ _ _ hprev
  have hold' := (output_rectangular_contains prev _ _ hrect).mp hold
  have hnew : ¬ output_contains prev (wl_fixed_to_int fx) (wl_fixed_to_int fy) := by
    intro hc
    have := (output_rectangular_contains prev _ _ hrect).mpr hc
    rw [hout prev hmem] at this
    cases this
  have hany : (seat.outputs.any (fun o => pixman_region32_contains_point o.region
      (wl_fixed_to_int fx) (wl_fixed_to_int fy))) = false := by
    rw [List.any_eq_false]
    intro o ho
    rw [hout o ho]
    simp
  unfold output_contains at hold' hnew ⊢
  unfold clip_pointer_motion
  simp only [clip_pointer_motion_scan_eq, hany, hprev, Bool.or_false]
  refine ⟨_, _, rfl, ?_⟩
  by_cases hx1 : wl_fixed_to_int fx < prev.x <;>
  by_cases hx2 : wl_fixed_to_int fx ≥ prev.x + prev.width <;>
  by_cases hy1 : wl_fixed_to_int fy < prev.y <;>
  by_cases hy2 : wl_fixed_to_int fy ≥ prev.y + prev.current_height <;>
  simp only [hx1, hx2, hy1, hy2, if_true, if_false, wl_fixed_to_int_from_int] <;>
  refine ⟨by omega, by omega, by omega, fun hh => ⟨by omega, by omega, by omega, by omega⟩,
    fun hn => ?_⟩ <;>
  first
  | omega
  | exact ⟨trivial, by omega, by omega⟩
end Weston
